import Mathlib

/-!
# TestGyms replication graph: routing, class policies, frequency limiter, nearest actors

A shallow embedding of `TestGymsReplicationGraph.h` / `TestGymsReplicationGraph.cpp`
and the properties of its relevancy graph.

Conventions of the embedding:

* object pointers (`AActor*`, `UNetConnection*`) are identifiers (`Nat`);
* a `UClass*` is the class object together with its chain of super classes;
* a `TMap` is a finite partial function, an `FActorRepListRefView` / `TArray` is a `List`;
* an operation that can hit a fatal `check` returns an `Option` (`none` = the check failed);
* a `float` position is a fixed-point number (see `FVector`).
-/

namespace TestGyms

/-! ## Routing policies and classes -/

/-- The enum `EClassRepNodeMapping`, in declaration order. -/
inductive EClassRepNodeMapping where
  | NotRouted
  | RelevantAllConnections
  | AlwaysReplicate
  | Spatialize_Static
  | Spatialize_Dynamic
  | Spatialize_Dormancy
  | NearestPlayers
  | NearestPlayerStates
  deriving DecidableEq, Repr

/-- The fields of an actor class default object (`AActor` CDO) that the graph reads. -/
structure AActorCDO where
  /-- The value of `GetIsReplicated()`. -/
  bReplicates : Bool
  bAlwaysRelevant : Bool
  bOnlyRelevantToOwner : Bool
  bNetUseOwnerRelevancy : Bool
  deriving DecidableEq, Repr

/-- A `UClass`. `Object` is the root class (`UObject`), which has no super class and
whose default object is not an actor. Every other class records its name, whether it
carries `SPATIALCLASS_SpatialType`, its default object when that is an `AActor`
(`Cast<AActor>(Class->GetDefaultObject())`), and its super class. -/
inductive UClass where
  | Object : UClass
  | derived (Name : String) (bSpatialType : Bool) (ActorCDO : Option AActorCDO)
      (Super : UClass) : UClass
  deriving DecidableEq, Repr

namespace UClass

/-- The engine accessor `UClass::GetSuperClass` (null for the root). -/
def GetSuperClass : UClass → Option UClass
  | Object => none
  | derived _ _ _ s => some s

/-- The actor default object of a class, `Cast<AActor>(Class->GetDefaultObject())`. -/
def GetActorCDO : UClass → Option AActorCDO
  | Object => none
  | derived _ _ cdo _ => cdo

/-- The engine accessor `UClass::GetName`. -/
def GetName : UClass → String
  | Object => "Object"
  | derived n _ _ _ => n

/-- The engine test `HasAnySpatialClassFlags(SPATIALCLASS_SpatialType)`. -/
def HasSpatialType : UClass → Bool
  | Object => false
  | derived _ b _ _ => b

/-- The ancestor chain of a class: the class itself first, the root last. -/
def chain : UClass → List UClass
  | Object => [Object]
  | derived n b cdo s => derived n b cdo s :: chain s

/-- The engine test `UClass::IsChildOf`: the class is `Other` or derives from it. -/
def IsChildOf (c Other : UClass) : Bool := decide (Other ∈ chain c)

end UClass

/-! ## `TClassMap` -/

/-- Modelled from the spec: the engine template `TClassMap<ValueType>` (not part of the
repository sources). Its storage is a `TMap<FObjectKey, ValueType>`; a lookup that misses
walks up the super classes until an entry is found ("explicit parent-pointer lookup ...
walking up until an entry is found, with a terminal default"). -/
abbrev TClassMap (V : Type) := UClass → Option V

namespace TClassMap

variable {V : Type}

/-- The empty map. -/
def empty : TClassMap V := fun _ => none

/-- Modelled from the spec: `TClassMap::Set`, the explicit entry of a class (insert or
overwrite). -/
def Set (m : TClassMap V) (c : UClass) (v : V) : TClassMap V :=
  fun k => if k = c then some v else m k

/-- Modelled from the spec: `TClassMap::Contains(Class, bIncludeSuperClasses)`. -/
def Contains (m : TClassMap V) (c : UClass) (bIncludeSuperClasses : Bool) : Bool :=
  if bIncludeSuperClasses then (UClass.chain c).any (fun k => (m k).isSome)
  else (m c).isSome

/-- Modelled from the spec: the engine helper `GetClassInfoForNewClass_r`: walk up from
`c`, and when a super class has an entry, store a copy of it for the class `orig` that was
asked for and return it; null when the root is reached. -/
def GetClassInfoForNewClass_r (m : TClassMap V) (orig : UClass) :
    UClass → Option V × TClassMap V
  | UClass.Object => (none, m)
  | UClass.derived _ _ _ s =>
    match m s with
    | some v => (some v, m.Set orig v)
    | none => GetClassInfoForNewClass_r m orig s

/-- Modelled from the spec: `TClassMap::Get`, returning the entry found (null when the
class and all its ancestors have none) and the map after the call. -/
def Get (m : TClassMap V) (c : UClass) : Option V × TClassMap V :=
  match m c with
  | some v => (some v, m)
  | none => GetClassInfoForNewClass_r m c c

/-- Modelled from the spec: `TClassMap::GetChecked`; `none` when the fatal check fails
because no entry is found. -/
def GetChecked (m : TClassMap V) (c : UClass) : Option (V × TClassMap V) :=
  match m.Get c with
  | (some v, m') => some (v, m')
  | (none, _) => none

/-- The entry of the nearest class on the ancestor chain of `c` (`c` itself first) that
has an entry. -/
def nearestEntry (m : TClassMap V) (c : UClass) : Option V :=
  (UClass.chain c).findSome? m

end TClassMap

/-- The member `UTestGymsReplicationGraph::GetMappingPolicy`, on the policy table: the
policy returned and the table after the lookup. -/
def GetMappingPolicy (ClassRepNodePolicies : TClassMap EClassRepNodeMapping) (Class : UClass) :
    EClassRepNodeMapping × TClassMap EClassRepNodeMapping :=
  let r := ClassRepNodePolicies.Get Class
  let Policy := match r.1 with
    | some p => p
    | none => EClassRepNodeMapping.NotRouted
  (Policy, r.2)

/-! ## `InitGlobalActorClassSettings`: the pass over all classes -/

/-- The engine function `FString::StartsWith`, which ignores case by default. -/
def StartsWith (Name Start : String) : Bool :=
  (Start.toList.map Char.toLower).isPrefixOf (Name.toList.map Char.toLower)

/-- The lambda `ShouldSpatialize` of `InitGlobalActorClassSettings`. -/
def ShouldSpatialize (CDO : AActorCDO) : Bool :=
  CDO.bReplicates &&
    !(CDO.bAlwaysRelevant || CDO.bOnlyRelevantToOwner || CDO.bNetUseOwnerRelevancy)

/-- What the loop over all classes in `InitGlobalActorClassSettings` reads and writes. -/
structure FClassSettingsPass where
  ClassRepNodePolicies : TClassMap EClassRepNodeMapping
  AllReplicatedClasses : List UClass
  NonSpatializedChildClasses : List UClass

/-- The comparison of a class default object with that of its super class: all of
`GetIsReplicated()`, `bAlwaysRelevant`, `bOnlyRelevantToOwner`, `bNetUseOwnerRelevancy`
agree. -/
def SameAsSuper (SuperCDO ActorCDO : AActorCDO) : Bool :=
  SuperCDO.bReplicates == ActorCDO.bReplicates
    && SuperCDO.bAlwaysRelevant == ActorCDO.bAlwaysRelevant
    && SuperCDO.bOnlyRelevantToOwner == ActorCDO.bOnlyRelevantToOwner
    && SuperCDO.bNetUseOwnerRelevancy == ActorCDO.bNetUseOwnerRelevancy

/-- The last step of the loop body (the chain of `if` / `else if` that calls `AddInfo`). -/
def DeriveClassPolicy (bUsingSpatial : Bool) (st : FClassSettingsPass) (Class : UClass)
    (ActorCDO : AActorCDO) : FClassSettingsPass :=
  if ShouldSpatialize ActorCDO then
    { st with ClassRepNodePolicies :=
        st.ClassRepNodePolicies.Set Class EClassRepNodeMapping.Spatialize_Dynamic }
  else if ActorCDO.bAlwaysRelevant && (!ActorCDO.bOnlyRelevantToOwner || bUsingSpatial) then
    { st with ClassRepNodePolicies :=
        st.ClassRepNodePolicies.Set Class EClassRepNodeMapping.RelevantAllConnections }
  else if bUsingSpatial && ActorCDO.bReplicates then
    { st with ClassRepNodePolicies :=
        st.ClassRepNodePolicies.Set Class EClassRepNodeMapping.AlwaysReplicate }
  else st

/-- The body of the loop `for (TObjectIterator<UClass> It; It; ++It)` of
`InitGlobalActorClassSettings`; every `continue` returns the state reached so far. The super
class of a class with an actor default object is never null. -/
def ClassLoopBody (bUsingSpatial : Bool) (st : FClassSettingsPass) (Class : UClass) :
    FClassSettingsPass :=
  match Class.GetActorCDO with
  | none => st
  | some ActorCDO =>
    if !ActorCDO.bReplicates then st
    else if StartsWith Class.GetName "SKEL_" || StartsWith Class.GetName "REINST_" then st
    else if bUsingSpatial && !Class.HasSpatialType then st
    else
      let st := { st with AllReplicatedClasses := st.AllReplicatedClasses ++ [Class] }
      if st.ClassRepNodePolicies.Contains Class false then st
      else
        match Class.GetSuperClass.bind UClass.GetActorCDO with
        | some SuperCDO =>
          if SameAsSuper SuperCDO ActorCDO then st
          else if ShouldSpatialize ActorCDO == false && ShouldSpatialize SuperCDO == true then
            DeriveClassPolicy bUsingSpatial
              { st with NonSpatializedChildClasses := st.NonSpatializedChildClasses ++ [Class] }
              Class ActorCDO
          else DeriveClassPolicy bUsingSpatial st Class ActorCDO
        | none => DeriveClassPolicy bUsingSpatial st Class ActorCDO

/-- The whole loop over the classes that `TObjectIterator<UClass>` enumerates. -/
def ClassLoop (bUsingSpatial : Bool) (AllClasses : List UClass) (st : FClassSettingsPass) :
    FClassSettingsPass :=
  AllClasses.foldl (ClassLoopBody bUsingSpatial) st

/-- A class reaches the derivation step of the loop body: it is a replicated actor class
that passes the name and spatial-type filters, has no entry of its own in the table (it was
not seeded explicitly), and is not skipped as equal to its super class. -/
def ReachesDerivationStep (bUsingSpatial : Bool) (Policies : TClassMap EClassRepNodeMapping)
    (Class : UClass) : Bool :=
  match Class.GetActorCDO with
  | none => false
  | some ActorCDO =>
    ActorCDO.bReplicates
      && !(StartsWith Class.GetName "SKEL_" || StartsWith Class.GetName "REINST_")
      && !(bUsingSpatial && !Class.HasSpatialType)
      && !(Policies.Contains Class false)
      && (match Class.GetSuperClass.bind UClass.GetActorCDO with
          | some SuperCDO => !(SameAsSuper SuperCDO ActorCDO)
          | none => true)

/-! ## Actor lists -/

/-- An actor pointer (`AActor*` / `FActorRepListType`), by identity. -/
abbrev AActor := Nat

/-- An `FName`. -/
abbrev FName := String

/-- The engine constant `NAME_None`. -/
def NAME_None : FName := "None"

/-- Modelled from the spec: the engine list type `FActorRepListRefView` (not part of the
repository sources), an array of actor pointers. -/
abbrev FActorRepListRefView := List AActor

namespace FActorRepListRefView

/-- Modelled from the spec: `Add`, append at the end, no duplicate check. -/
def Add (l : FActorRepListRefView) (a : AActor) : FActorRepListRefView := l ++ [a]

/-- Modelled from the spec: `ConditionalAdd`, append unless already contained. -/
def ConditionalAdd (l : FActorRepListRefView) (a : AActor) : FActorRepListRefView :=
  if a ∈ l then l else l ++ [a]

/-- Modelled from the spec: `TArray::RemoveAtSwap(Index, 1)`: the last element takes the
place of the removed one and the array shrinks by one. -/
def RemoveAtSwap (l : FActorRepListRefView) (Index : Nat) : FActorRepListRefView :=
  match l.getLast? with
  | none => l
  | some x => (l.set Index x).dropLast

/-- Modelled from the spec: `RemoveFast`, find the first occurrence and remove it by
swapping with the last element; the flag tells whether something was removed. -/
def RemoveFast (l : FActorRepListRefView) (a : AActor) : Bool × FActorRepListRefView :=
  if a ∈ l then (true, RemoveAtSwap l (l.indexOf a)) else (false, l)

/-- Modelled from the spec: `RemoveSlow`, remove the first occurrence keeping the order of
the rest; the flag tells whether something was removed. -/
def RemoveSlow (l : FActorRepListRefView) (a : AActor) : Bool × FActorRepListRefView :=
  (decide (a ∈ l), l.erase a)

end FActorRepListRefView

/-- The fields of `FNewReplicatedActorInfo` used by the routing. -/
structure FNewReplicatedActorInfo where
  Actor : AActor
  Class : UClass
  StreamingLevelName : FName
  deriving DecidableEq

/-- The number of fixed-point steps in one world unit. A `float` coordinate is held as a
whole number of steps of `1 / FloatUnit`; float arithmetic on coordinates is exact in this
representation (rounding is not represented). -/
def FloatUnit : Nat := 256

/-- The number of steps in one unit of a product of two coordinates, such as a squared
distance. -/
def FloatUnitSq : Nat := FloatUnit * FloatUnit

/-- An `FVector`, with fixed-point coordinates (`FloatUnit` steps per world unit). -/
structure FVector where
  X : Int
  Y : Int
  Z : Int
  deriving DecidableEq, Repr

namespace FVector

/-- The vector difference `operator-`. -/
def sub (a b : FVector) : FVector := ⟨a.X - b.X, a.Y - b.Y, a.Z - b.Z⟩

/-- The engine function `FVector::SizeSquared`, in steps of `1 / FloatUnitSq`. -/
def SizeSquared (v : FVector) : Nat := (v.X * v.X + v.Y * v.Y + v.Z * v.Z).toNat

end FVector

/-- The fields of `FGlobalActorReplicationInfo` used by the graph. -/
structure FGlobalActorReplicationInfo where
  bWantsToBeDormant : Bool
  WorldLocation : FVector
  deriving DecidableEq

/-- The fields of `FNetViewer` used by the graph. -/
structure FNetViewer where
  Connection : Nat
  InViewer : AActor
  ViewTarget : AActor
  ViewLocation : FVector
  deriving DecidableEq

/-! ## Engine nodes the dispatcher forwards to -/

/-- Modelled from the spec: the engine node `UReplicationGraphNode_ActorList` (not part of
the repository sources): a flat list for actors without a streaming level and one list per
streaming level name (`FStreamingLevelActorListCollection`). -/
structure UReplicationGraphNode_ActorList where
  ReplicationActorList : FActorRepListRefView
  StreamingLevelCollection : List (FName × FActorRepListRefView)
  deriving DecidableEq

namespace UReplicationGraphNode_ActorList

/-- Modelled from the spec: `FStreamingLevelActorListCollection::AddActor`: append to the
list of the level, creating that list when the level has none. -/
def CollectionAddActor (c : List (FName × FActorRepListRefView)) (n : FName) (a : AActor) :
    List (FName × FActorRepListRefView) :=
  match c with
  | [] => [(n, [a])]
  | (k, l) :: rest =>
    if k = n then (k, l.Add a) :: rest else (k, l) :: CollectionAddActor rest n a

/-- Modelled from the spec: `FStreamingLevelActorListCollection::RemoveActor`: `RemoveSlow`
on the first list of that level, if any. -/
def CollectionRemoveActor (c : List (FName × FActorRepListRefView)) (n : FName) (a : AActor) :
    Bool × List (FName × FActorRepListRefView) :=
  match c with
  | [] => (false, [])
  | (k, l) :: rest =>
    if k = n then ((l.RemoveSlow a).1, (k, (l.RemoveSlow a).2) :: rest)
    else ((CollectionRemoveActor rest n a).1, (k, l) :: (CollectionRemoveActor rest n a).2)

/-- The list kept for a streaming level (empty when the level has none). -/
def LevelList (c : List (FName × FActorRepListRefView)) (n : FName) : FActorRepListRefView :=
  match c with
  | [] => []
  | (k, l) :: rest => if k = n then l else LevelList rest n

/-- Modelled from the spec: `UReplicationGraphNode_ActorList::NotifyAddNetworkActor`. -/
def NotifyAddNetworkActor (node : UReplicationGraphNode_ActorList)
    (ActorInfo : FNewReplicatedActorInfo) : UReplicationGraphNode_ActorList :=
  if ActorInfo.StreamingLevelName = NAME_None then
    { node with ReplicationActorList := node.ReplicationActorList.Add ActorInfo.Actor }
  else
    { node with StreamingLevelCollection :=
        (CollectionAddActor node.StreamingLevelCollection ActorInfo.StreamingLevelName
          ActorInfo.Actor) }

/-- Modelled from the spec: `UReplicationGraphNode_ActorList::NotifyRemoveNetworkActor`
(a miss is logged and otherwise ignored). -/
def NotifyRemoveNetworkActor (node : UReplicationGraphNode_ActorList)
    (ActorInfo : FNewReplicatedActorInfo) : Bool × UReplicationGraphNode_ActorList :=
  if ActorInfo.StreamingLevelName = NAME_None then
    ((node.ReplicationActorList.RemoveSlow ActorInfo.Actor).1,
      { node with
        ReplicationActorList := (node.ReplicationActorList.RemoveSlow ActorInfo.Actor).2 })
  else
    ((CollectionRemoveActor node.StreamingLevelCollection ActorInfo.StreamingLevelName
        ActorInfo.Actor).1,
      { node with StreamingLevelCollection :=
          (CollectionRemoveActor node.StreamingLevelCollection ActorInfo.StreamingLevelName
            ActorInfo.Actor).2 })

end UReplicationGraphNode_ActorList

/-- Modelled from the spec: the engine node `UReplicationGraphNode_GridSpatialization2D`
(not part of the repository sources), reduced to its membership: the key sets of its maps
of static and of dynamic occupants ("separate lists for static vs dynamic occupants").
Cell placement is outside the routing and is not represented. -/
structure UReplicationGraphNode_GridSpatialization2D where
  StaticSpatializedActors : List AActor
  DynamicSpatializedActors : List AActor
  deriving DecidableEq

namespace UReplicationGraphNode_GridSpatialization2D

/-- Insert a key into a `TMap` key set. -/
def Emplace (keys : List AActor) (a : AActor) : List AActor :=
  if a ∈ keys then keys else keys ++ [a]

/-- Remove a key from a `TMap` key set. -/
def Remove (keys : List AActor) (a : AActor) : List AActor :=
  keys.filter (fun k => decide (k ≠ a))

/-- Modelled from the spec: `AddActor_Static`. -/
def AddActor_Static (g : UReplicationGraphNode_GridSpatialization2D)
    (ActorInfo : FNewReplicatedActorInfo) (_GlobalInfo : FGlobalActorReplicationInfo) :
    UReplicationGraphNode_GridSpatialization2D :=
  { g with StaticSpatializedActors := Emplace g.StaticSpatializedActors ActorInfo.Actor }

/-- Modelled from the spec: `AddActor_Dynamic`. -/
def AddActor_Dynamic (g : UReplicationGraphNode_GridSpatialization2D)
    (ActorInfo : FNewReplicatedActorInfo) (_GlobalInfo : FGlobalActorReplicationInfo) :
    UReplicationGraphNode_GridSpatialization2D :=
  { g with DynamicSpatializedActors := Emplace g.DynamicSpatializedActors ActorInfo.Actor }

/-- Modelled from the spec: `AddActor_Dormancy`: "dormant actors are treated as static
while dormant", otherwise they are tracked as dynamic. -/
def AddActor_Dormancy (g : UReplicationGraphNode_GridSpatialization2D)
    (ActorInfo : FNewReplicatedActorInfo) (GlobalInfo : FGlobalActorReplicationInfo) :
    UReplicationGraphNode_GridSpatialization2D :=
  if GlobalInfo.bWantsToBeDormant then AddActor_Static g ActorInfo GlobalInfo
  else AddActor_Dynamic g ActorInfo GlobalInfo

/-- Modelled from the spec: `RemoveActor_Static` (a miss is logged and otherwise ignored). -/
def RemoveActor_Static (g : UReplicationGraphNode_GridSpatialization2D)
    (ActorInfo : FNewReplicatedActorInfo) : UReplicationGraphNode_GridSpatialization2D :=
  { g with StaticSpatializedActors := Remove g.StaticSpatializedActors ActorInfo.Actor }

/-- Modelled from the spec: `RemoveActor_Dynamic` (a miss is logged and otherwise
ignored). -/
def RemoveActor_Dynamic (g : UReplicationGraphNode_GridSpatialization2D)
    (ActorInfo : FNewReplicatedActorInfo) : UReplicationGraphNode_GridSpatialization2D :=
  { g with DynamicSpatializedActors := Remove g.DynamicSpatializedActors ActorInfo.Actor }

/-- Modelled from the spec: `RemoveActor_Dormancy`, which reads the dormancy wish of the
actor from the global actor info. -/
def RemoveActor_Dormancy (g : UReplicationGraphNode_GridSpatialization2D)
    (ActorInfo : FNewReplicatedActorInfo) (GlobalInfo : FGlobalActorReplicationInfo) :
    UReplicationGraphNode_GridSpatialization2D :=
  if GlobalInfo.bWantsToBeDormant then RemoveActor_Static g ActorInfo
  else RemoveActor_Dynamic g ActorInfo

end UReplicationGraphNode_GridSpatialization2D

/-! ## The nearest-actors node: membership -/

/-- The node `UTestGymsReplicationGraphNode_NearestActors`. `MaxNearestActors` is an
`int32` that the program only sets to non-negative values (1024 at node creation, a
non-negative console argument), hence a `Nat`. The members `InterestedActorList` and
`SortedActors` are scratch buffers that every gather resets before use. -/
structure UTestGymsReplicationGraphNode_NearestActors where
  MaxNearestActors : Nat
  ReplicationActorList : FActorRepListRefView
  deriving DecidableEq

namespace UTestGymsReplicationGraphNode_NearestActors

/-- The member `NotifyAddNetworkActor`: `ReplicationActorList.Add(ActorInfo.Actor)`. -/
def NotifyAddNetworkActor (node : UTestGymsReplicationGraphNode_NearestActors)
    (ActorInfo : FNewReplicatedActorInfo) : UTestGymsReplicationGraphNode_NearestActors :=
  { node with ReplicationActorList := node.ReplicationActorList.Add ActorInfo.Actor }

/-- The member `NotifyRemoveNetworkActor`: `RemoveFast`, a miss only logs a warning. -/
def NotifyRemoveNetworkActor (node : UTestGymsReplicationGraphNode_NearestActors)
    (ActorInfo : FNewReplicatedActorInfo) :
    Bool × UTestGymsReplicationGraphNode_NearestActors :=
  let bRemovedSomething := (node.ReplicationActorList.RemoveFast ActorInfo.Actor).1
  (bRemovedSomething,
    { node with ReplicationActorList := (node.ReplicationActorList.RemoveFast ActorInfo.Actor).2 })

end UTestGymsReplicationGraphNode_NearestActors

/-! ## The nearest-actors node: interest gathering -/

/-- The constant `ActorNCD = 15000.f * 15000.f`, in steps of `1 / FloatUnitSq`. -/
def ActorNCD : Nat := 15000 * 15000 * FloatUnitSq

/-- The implicit conversion of a non-negative `float` to `int32` (truncation toward zero)
that takes place when a squared distance is passed to the constructor of
`FDistanceSortedActor`. No value below `ActorNCD` overflows an `int32`. -/
def FloatToInt32 (d : Nat) : Int := ((d / FloatUnitSq : Nat) : Int)

/-- The struct `FDistanceSortedActor`. Its constructor takes the distance as an `int32`, so
the `float` member `DistanceToViewer` always holds a whole number. -/
structure FDistanceSortedActor where
  Actor : AActor
  DistanceToViewer : Int
  deriving DecidableEq, Repr

namespace FDistanceSortedActor

/-- The constructor `FDistanceSortedActor(AActor* InActor, int32 InDistanceToViewer)`. -/
def make (InActor : AActor) (InDistanceToViewer : Int) : FDistanceSortedActor :=
  ⟨InActor, InDistanceToViewer⟩

/-- The comparison `operator<`: `DistanceToViewer < Other.DistanceToViewer`. -/
def less (a Other : FDistanceSortedActor) : Bool :=
  decide (a.DistanceToViewer < Other.DistanceToViewer)

end FDistanceSortedActor

/-- Modelled from the spec: the engine procedure `TArray::Sort()` (not part of the
repository sources), a sort by `operator<` that need not be stable ("full sort by distance"):
any procedure that returns a rearrangement of the array in which no element is smaller, by
`operator<`, than an element before it. -/
structure FSortProcedure where
  SortArray : List FDistanceSortedActor → List FDistanceSortedActor
  perm : ∀ l, (SortArray l).Perm l
  ordered : ∀ l, (SortArray l).Pairwise (fun a b => FDistanceSortedActor.less b a = false)

/-- The order `a ≤ b` by which insertion sort arranges the array: `b < a` does not hold. -/
def FDistanceSortedActor.notAfter (a b : FDistanceSortedActor) : Prop :=
  FDistanceSortedActor.less b a = false

instance : DecidableRel FDistanceSortedActor.notAfter :=
  fun a b => inferInstanceAs (Decidable (FDistanceSortedActor.less b a = false))

instance : IsTotal FDistanceSortedActor FDistanceSortedActor.notAfter :=
  ⟨fun a b => by
    simp only [FDistanceSortedActor.notAfter, FDistanceSortedActor.less, decide_eq_false_iff_not]
    omega⟩

instance : IsTrans FDistanceSortedActor FDistanceSortedActor.notAfter :=
  ⟨fun a b c => by
    simp only [FDistanceSortedActor.notAfter, FDistanceSortedActor.less, decide_eq_false_iff_not]
    omega⟩

/-- A stable instance of `TArray::Sort()`: insertion sort. -/
def StableSort : FSortProcedure where
  SortArray := List.insertionSort FDistanceSortedActor.notAfter
  perm := List.perm_insertionSort FDistanceSortedActor.notAfter
  ordered := List.sorted_insertionSort FDistanceSortedActor.notAfter

namespace UTestGymsReplicationGraphNode_NearestActors

/-- The squared distance `(Viewer.ViewLocation - ActorRepInfo.WorldLocation).SizeSquared()`
of an actor to a viewer, from the location cached in the global map. -/
def DistanceToViewer (GlobalMap : AActor → FGlobalActorReplicationInfo) (Viewer : FNetViewer)
    (Actor : AActor) : Nat :=
  (Viewer.ViewLocation.sub (GlobalMap Actor).WorldLocation).SizeSquared

/-- The loop of `GatherClientInterestedActors` that fills `SortedActors` after its reset:
the members closer than `ActorNCD`, each with its distance converted to `int32`. -/
def CollectSortedActors (GlobalMap : AActor → FGlobalActorReplicationInfo) (Viewer : FNetViewer)
    (ReplicationActorList : FActorRepListRefView) : List FDistanceSortedActor :=
  ReplicationActorList.filterMap (fun Actor =>
    if DistanceToViewer GlobalMap Viewer Actor < ActorNCD then
      some (FDistanceSortedActor.make Actor (FloatToInt32 (DistanceToViewer GlobalMap Viewer Actor)))
    else none)

/-- The member `GatherClientInterestedActors`: the lists added to
`OutGatheredReplicationLists`. The `ensure` on the number of viewers is non-fatal and only
logs; the result is `none` when `Params.Viewers[0]` is taken of an empty array. -/
def GatherClientInterestedActors (S : FSortProcedure)
    (node : UTestGymsReplicationGraphNode_NearestActors)
    (GlobalMap : AActor → FGlobalActorReplicationInfo) (Viewers : List FNetViewer) :
    Option (List FActorRepListRefView) :=
  let ActorCount := node.ReplicationActorList.length
  if ActorCount > node.MaxNearestActors then
    match Viewers[0]? with
    | none => none
    | some Viewer =>
      let SortedActors := CollectSortedActors GlobalMap Viewer node.ReplicationActorList
      let SortedActors :=
        if SortedActors.length > node.MaxNearestActors then
          (S.SortArray SortedActors).take node.MaxNearestActors
        else SortedActors
      if SortedActors.length > 0 then
        some [SortedActors.map (fun Item => Item.Actor)]
      else some []
  else if ActorCount > 0 then some [node.ReplicationActorList]
  else some []

end UTestGymsReplicationGraphNode_NearestActors

/-- The members of a list that lie within the cutoff radius of a viewer. -/
def UTestGymsReplicationGraphNode_NearestActors.WithinCutoff
    (GlobalMap : AActor → FGlobalActorReplicationInfo) (Viewer : FNetViewer)
    (ReplicationActorList : FActorRepListRefView) : List AActor :=
  ReplicationActorList.filter (fun Actor =>
    decide (UTestGymsReplicationGraphNode_NearestActors.DistanceToViewer GlobalMap Viewer Actor
      < ActorNCD))

/-- The array `SortedActors` when `GatherClientInterestedActors` reads it out: sorted and cut
to `MaxNearestActors` when it held more than that. -/
def UTestGymsReplicationGraphNode_NearestActors.KeptSortedActors (S : FSortProcedure)
    (node : UTestGymsReplicationGraphNode_NearestActors)
    (GlobalMap : AActor → FGlobalActorReplicationInfo) (Viewer : FNetViewer) :
    List FDistanceSortedActor :=
  if (UTestGymsReplicationGraphNode_NearestActors.CollectSortedActors GlobalMap Viewer
      node.ReplicationActorList).length > node.MaxNearestActors then
    (S.SortArray (UTestGymsReplicationGraphNode_NearestActors.CollectSortedActors GlobalMap Viewer
      node.ReplicationActorList)).take node.MaxNearestActors
  else
    UTestGymsReplicationGraphNode_NearestActors.CollectSortedActors GlobalMap Viewer
      node.ReplicationActorList

/-- The nearest order fails at an input: the node emits one interest list that holds an
actor whose squared distance to the viewer is larger than that of a population member left
out of the list. -/
def UTestGymsReplicationGraphNode_NearestActors.NearestOrderViolated (S : FSortProcedure)
    (node : UTestGymsReplicationGraphNode_NearestActors)
    (GlobalMap : AActor → FGlobalActorReplicationInfo) (Viewer : FNetViewer) : Prop :=
  ∃ Out : FActorRepListRefView,
    UTestGymsReplicationGraphNode_NearestActors.GatherClientInterestedActors S node GlobalMap
      [Viewer] = some [Out] ∧
    ∃ a ∈ Out, ∃ b ∈ node.ReplicationActorList, b ∉ Out ∧
      UTestGymsReplicationGraphNode_NearestActors.DistanceToViewer GlobalMap Viewer b <
        UTestGymsReplicationGraphNode_NearestActors.DistanceToViewer GlobalMap Viewer a

/-! ## The graph dispatcher -/

/-- A `TMap<FName, FActorRepListRefView>`. -/
abbrev FLevelActorMap := FName → Option FActorRepListRefView

/-- Insert or overwrite the list of a level. -/
def FLevelActorMap.Put (m : FLevelActorMap) (n : FName) (l : FActorRepListRefView) :
    FLevelActorMap :=
  fun k => if k = n then some l else m k

/-- The state of `UTestGymsReplicationGraph` that the routing reads and writes, after
`InitGlobalGraphNodes` has created the nodes. `bUsingSpatial` is the project setting
`UsesSpatialNetworking()`; `GlobalActorReplicationInfoMap` is the engine map of per-actor
global info (the `GlobalInfo` handed to `RouteAddNetworkActorToNodes` is its entry for
the actor). -/
structure UTestGymsReplicationGraph where
  bUsingSpatial : Bool
  ClassRepNodePolicies : TClassMap EClassRepNodeMapping
  GridNode : UReplicationGraphNode_GridSpatialization2D
  NearestPlayerNode : UTestGymsReplicationGraphNode_NearestActors
  NearestPlayerStateNode : UTestGymsReplicationGraphNode_NearestActors
  AlwaysRelevantNode : UReplicationGraphNode_ActorList
  AlwaysRelevantStreamingLevelActors : FLevelActorMap
  GlobalActorReplicationInfoMap : AActor → FGlobalActorReplicationInfo

/-- The member `UTestGymsReplicationGraph::RouteAddNetworkActorToNodes` (the `ensure`s are
non-fatal and only log). -/
def RouteAddNetworkActorToNodes (g : UTestGymsReplicationGraph)
    (ActorInfo : FNewReplicatedActorInfo) (GlobalInfo : FGlobalActorReplicationInfo) :
    UTestGymsReplicationGraph :=
  let bUsingSpatial := g.bUsingSpatial
  let Lookup := GetMappingPolicy g.ClassRepNodePolicies ActorInfo.Class
  let g := { g with ClassRepNodePolicies := Lookup.2 }
  match Lookup.1 with
  | EClassRepNodeMapping.NotRouted => g
  | EClassRepNodeMapping.AlwaysReplicate =>
    { g with AlwaysRelevantNode := g.AlwaysRelevantNode.NotifyAddNetworkActor ActorInfo }
  | EClassRepNodeMapping.RelevantAllConnections =>
    if ActorInfo.StreamingLevelName = NAME_None ∨ bUsingSpatial = true then
      { g with AlwaysRelevantNode := g.AlwaysRelevantNode.NotifyAddNetworkActor ActorInfo }
    else
      -- `FindOrAdd` followed by `ConditionalAdd`
      let RepList : FActorRepListRefView :=
        match g.AlwaysRelevantStreamingLevelActors ActorInfo.StreamingLevelName with
        | some l => l
        | none => []
      { g with AlwaysRelevantStreamingLevelActors :=
          (g.AlwaysRelevantStreamingLevelActors.Put ActorInfo.StreamingLevelName
            (RepList.ConditionalAdd ActorInfo.Actor)) }
  | EClassRepNodeMapping.NearestPlayers =>
    { g with NearestPlayerNode := g.NearestPlayerNode.NotifyAddNetworkActor ActorInfo }
  | EClassRepNodeMapping.NearestPlayerStates =>
    { g with NearestPlayerStateNode := g.NearestPlayerStateNode.NotifyAddNetworkActor ActorInfo }
  | EClassRepNodeMapping.Spatialize_Static =>
    { g with GridNode := g.GridNode.AddActor_Static ActorInfo GlobalInfo }
  | EClassRepNodeMapping.Spatialize_Dynamic =>
    { g with GridNode := g.GridNode.AddActor_Dynamic ActorInfo GlobalInfo }
  | EClassRepNodeMapping.Spatialize_Dormancy =>
    { g with GridNode := g.GridNode.AddActor_Dormancy ActorInfo GlobalInfo }

/-- The member `UTestGymsReplicationGraph::RouteRemoveNetworkActorToNodes` (the branch of
`UE_VERSION_OLDER_THAN(4, 27, 0)` that is compiled for 4.27, `RemoveFast`). The result is
`none` when the fatal check of `FindChecked` fails. -/
def RouteRemoveNetworkActorToNodes (g : UTestGymsReplicationGraph)
    (ActorInfo : FNewReplicatedActorInfo) : Option UTestGymsReplicationGraph :=
  let bUsingSpatial := g.bUsingSpatial
  let Lookup := GetMappingPolicy g.ClassRepNodePolicies ActorInfo.Class
  let g := { g with ClassRepNodePolicies := Lookup.2 }
  match Lookup.1 with
  | EClassRepNodeMapping.NotRouted => some g
  | EClassRepNodeMapping.AlwaysReplicate =>
    some { g with AlwaysRelevantNode := (g.AlwaysRelevantNode.NotifyRemoveNetworkActor ActorInfo).2 }
  | EClassRepNodeMapping.RelevantAllConnections =>
    if ActorInfo.StreamingLevelName = NAME_None ∨ bUsingSpatial = true then
      some { g with
        AlwaysRelevantNode := (g.AlwaysRelevantNode.NotifyRemoveNetworkActor ActorInfo).2 }
    else
      match g.AlwaysRelevantStreamingLevelActors ActorInfo.StreamingLevelName with
      | none => none
      | some RepList =>
        some { g with AlwaysRelevantStreamingLevelActors :=
          (g.AlwaysRelevantStreamingLevelActors.Put ActorInfo.StreamingLevelName
            (RepList.RemoveFast ActorInfo.Actor).2) }
  | EClassRepNodeMapping.NearestPlayers =>
    some { g with NearestPlayerNode := (g.NearestPlayerNode.NotifyRemoveNetworkActor ActorInfo).2 }
  | EClassRepNodeMapping.NearestPlayerStates =>
    some { g with
      NearestPlayerStateNode := (g.NearestPlayerStateNode.NotifyRemoveNetworkActor ActorInfo).2 }
  | EClassRepNodeMapping.Spatialize_Static =>
    some { g with GridNode := g.GridNode.RemoveActor_Static ActorInfo }
  | EClassRepNodeMapping.Spatialize_Dynamic =>
    some { g with GridNode := g.GridNode.RemoveActor_Dynamic ActorInfo }
  | EClassRepNodeMapping.Spatialize_Dormancy =>
    some { g with GridNode :=
      (g.GridNode.RemoveActor_Dormancy ActorInfo
        (g.GlobalActorReplicationInfoMap ActorInfo.Actor)) }

/-! ## Membership lists and destinations -/

/-- The membership lists of the graph. -/
inductive MembershipList where
  /-- The flat list of the always-relevant node. -/
  | AlwaysRelevant
  /-- The list the always-relevant node keeps for a streaming level. -/
  | AlwaysRelevantLevel (Level : FName)
  /-- The entry of `AlwaysRelevantStreamingLevelActors` for a streaming level. -/
  | StreamingLevel (Level : FName)
  | NearestPlayers
  | NearestPlayerStates
  | GridStatic
  | GridDynamic
  deriving DecidableEq, Repr

/-- The destinations of the routing. -/
inductive Destination where
  | AlwaysRelevantNode
  | StreamingLevelList (Level : FName)
  | NearestPlayerNode
  | NearestPlayerStateNode
  | GridNode
  deriving DecidableEq, Repr

/-- The destination that owns a membership list. -/
def MembershipList.owner : MembershipList → Destination
  | AlwaysRelevant => Destination.AlwaysRelevantNode
  | AlwaysRelevantLevel _ => Destination.AlwaysRelevantNode
  | StreamingLevel n => Destination.StreamingLevelList n
  | NearestPlayers => Destination.NearestPlayerNode
  | NearestPlayerStates => Destination.NearestPlayerStateNode
  | GridStatic => Destination.GridNode
  | GridDynamic => Destination.GridNode

/-- The content of a membership list in a graph state (a level without a list has no
members). -/
def UTestGymsReplicationGraph.listOf (g : UTestGymsReplicationGraph) :
    MembershipList → List AActor
  | MembershipList.AlwaysRelevant => g.AlwaysRelevantNode.ReplicationActorList
  | MembershipList.AlwaysRelevantLevel n =>
    UReplicationGraphNode_ActorList.LevelList g.AlwaysRelevantNode.StreamingLevelCollection n
  | MembershipList.StreamingLevel n =>
    match g.AlwaysRelevantStreamingLevelActors n with
    | some l => l
    | none => []
  | MembershipList.NearestPlayers => g.NearestPlayerNode.ReplicationActorList
  | MembershipList.NearestPlayerStates => g.NearestPlayerStateNode.ReplicationActorList
  | MembershipList.GridStatic => g.GridNode.StaticSpatializedActors
  | MembershipList.GridDynamic => g.GridNode.DynamicSpatializedActors

/-- The destination fixed by a policy tag, as the routing contract words it: none for
`NotRouted`; for `RelevantAllConnections` the always-relevant node when the streaming level
is `NAME_None` or spatial networking is on, otherwise the list of that level. -/
def policyDestination (bUsingSpatial : Bool) (StreamingLevelName : FName) :
    EClassRepNodeMapping → Option Destination
  | EClassRepNodeMapping.NotRouted => none
  | EClassRepNodeMapping.AlwaysReplicate => some Destination.AlwaysRelevantNode
  | EClassRepNodeMapping.RelevantAllConnections =>
    if StreamingLevelName = NAME_None ∨ bUsingSpatial = true then
      some Destination.AlwaysRelevantNode
    else some (Destination.StreamingLevelList StreamingLevelName)
  | EClassRepNodeMapping.NearestPlayers => some Destination.NearestPlayerNode
  | EClassRepNodeMapping.NearestPlayerStates => some Destination.NearestPlayerStateNode
  | EClassRepNodeMapping.Spatialize_Static => some Destination.GridNode
  | EClassRepNodeMapping.Spatialize_Dynamic => some Destination.GridNode
  | EClassRepNodeMapping.Spatialize_Dormancy => some Destination.GridNode

/-- The membership list inside the destination that an actor info is filed in: the list of
its streaming level inside the always-relevant node, the static or the dynamic set of the
grid (for `Spatialize_Dormancy` by the dormancy wish of the actor). -/
def policyList (bUsingSpatial : Bool) (StreamingLevelName : FName) (bWantsToBeDormant : Bool) :
    EClassRepNodeMapping → Option MembershipList
  | EClassRepNodeMapping.NotRouted => none
  | EClassRepNodeMapping.AlwaysReplicate =>
    if StreamingLevelName = NAME_None then some MembershipList.AlwaysRelevant
    else some (MembershipList.AlwaysRelevantLevel StreamingLevelName)
  | EClassRepNodeMapping.RelevantAllConnections =>
    if StreamingLevelName = NAME_None then some MembershipList.AlwaysRelevant
    else if bUsingSpatial = true then some (MembershipList.AlwaysRelevantLevel StreamingLevelName)
    else some (MembershipList.StreamingLevel StreamingLevelName)
  | EClassRepNodeMapping.NearestPlayers => some MembershipList.NearestPlayers
  | EClassRepNodeMapping.NearestPlayerStates => some MembershipList.NearestPlayerStates
  | EClassRepNodeMapping.Spatialize_Static => some MembershipList.GridStatic
  | EClassRepNodeMapping.Spatialize_Dynamic => some MembershipList.GridDynamic
  | EClassRepNodeMapping.Spatialize_Dormancy =>
    if bWantsToBeDormant = true then some MembershipList.GridStatic
    else some MembershipList.GridDynamic

/-- What filing an actor does to the content of a membership list. -/
def MembershipList.addActor : MembershipList → List AActor → AActor → List AActor
  | AlwaysRelevant, l, a => FActorRepListRefView.Add l a
  | AlwaysRelevantLevel _, l, a => FActorRepListRefView.Add l a
  | StreamingLevel _, l, a => FActorRepListRefView.ConditionalAdd l a
  | NearestPlayers, l, a => FActorRepListRefView.Add l a
  | NearestPlayerStates, l, a => FActorRepListRefView.Add l a
  | GridStatic, l, a => UReplicationGraphNode_GridSpatialization2D.Emplace l a
  | GridDynamic, l, a => UReplicationGraphNode_GridSpatialization2D.Emplace l a

/-- What removing an actor does to the content of a membership list. -/
def MembershipList.removeActor : MembershipList → List AActor → AActor → List AActor
  | AlwaysRelevant, l, a => (FActorRepListRefView.RemoveSlow l a).2
  | AlwaysRelevantLevel _, l, a => (FActorRepListRefView.RemoveSlow l a).2
  | StreamingLevel _, l, a => (FActorRepListRefView.RemoveFast l a).2
  | NearestPlayers, l, a => (FActorRepListRefView.RemoveFast l a).2
  | NearestPlayerStates, l, a => (FActorRepListRefView.RemoveFast l a).2
  | GridStatic, l, a => UReplicationGraphNode_GridSpatialization2D.Remove l a
  | GridDynamic, l, a => UReplicationGraphNode_GridSpatialization2D.Remove l a

/-! ## The player-state frequency limiter -/

/-- The node `UTestGymsReplicationGraphNode_PlayerStateFrequencyLimiter`.
`TargetActorsPerFrame` is a public `int32` (2 by default, 16 with spatial networking). -/
structure UTestGymsReplicationGraphNode_PlayerStateFrequencyLimiter where
  TargetActorsPerFrame : Int
  ReplicationActorLists : List FActorRepListRefView
  ForceNetUpdateReplicationActorList : FActorRepListRefView
  ClientInterestList : FActorRepListRefView
  deriving DecidableEq

namespace UTestGymsReplicationGraphNode_PlayerStateFrequencyLimiter

/-- The number of actors in the list `CurrentList` points to, which is always the last
list of the array (`CurrentList->Num()`). -/
def CurrentListNum (Lists : List FActorRepListRefView) : Nat :=
  match Lists.getLast? with
  | some l => l.length
  | none => 0

/-- The statement `CurrentList->Add(PS)` on the last list of the array. -/
def CurrentListAdd : List FActorRepListRefView → AActor → List FActorRepListRefView
  | [], _ => []
  | [l], PS => [l.Add PS]
  | l :: l2 :: rest, PS => l :: CurrentListAdd (l2 :: rest) PS

/-- The body of the loop over the player states of the world in `PrepareForReplication`,
on the pair of `ReplicationActorLists` and `ClientInterestList`. -/
def PrepareLoopBody (TargetActorsPerFrame : Int)
    (IsActorValidForReplicationGather : AActor → Bool)
    (st : List FActorRepListRefView × FActorRepListRefView) (PS : AActor) :
    List FActorRepListRefView × FActorRepListRefView :=
  if IsActorValidForReplicationGather PS = false then st
  else
    let Lists :=
      if (CurrentListNum st.1 : Int) ≥ TargetActorsPerFrame then st.1 ++ [[]] else st.1
    (CurrentListAdd Lists PS, st.2.Add PS)

/-- The member `PrepareForReplication`. `WorldPlayerStates` is what
`TActorIterator<APlayerState>` enumerates, `IsActorValidForReplicationGather` the engine
predicate of that name. -/
def PrepareForReplication (node : UTestGymsReplicationGraphNode_PlayerStateFrequencyLimiter)
    (WorldPlayerStates : List AActor) (IsActorValidForReplicationGather : AActor → Bool) :
    UTestGymsReplicationGraphNode_PlayerStateFrequencyLimiter :=
  let Result := WorldPlayerStates.foldl
    (PrepareLoopBody node.TargetActorsPerFrame IsActorValidForReplicationGather) ([[]], [])
  { node with
    ReplicationActorLists := Result.1
    ForceNetUpdateReplicationActorList := []
    ClientInterestList := Result.2 }

/-- The member `GatherActorListsForConnection`: the lists added to
`OutGatheredReplicationLists`. `ReplicationFrameNum` is a `uint32`, a natural number below
`2 ^ 32`. The result is `none` when the array of lists is empty (the remainder by zero and
the indexing are then undefined). -/
def GatherActorListsForConnection
    (node : UTestGymsReplicationGraphNode_PlayerStateFrequencyLimiter)
    (ReplicationFrameNum : Nat) : Option (List FActorRepListRefView) :=
  if node.ReplicationActorLists.length = 0 then none
  else
    let ListIdx := ReplicationFrameNum % node.ReplicationActorLists.length
    match node.ReplicationActorLists[ListIdx]? with
    | none => none
    | some Bucket =>
      if node.ForceNetUpdateReplicationActorList.length > 0 then
        some [Bucket, node.ForceNetUpdateReplicationActorList]
      else some [Bucket]

/-- One replication frame of the tick driver for one connection: `PrepareForReplication`
and then `GatherActorListsForConnection` with the frame number. -/
def Tick (node : UTestGymsReplicationGraphNode_PlayerStateFrequencyLimiter)
    (WorldPlayerStates : List AActor) (IsActorValidForReplicationGather : AActor → Bool)
    (ReplicationFrameNum : Nat) :
    Option (UTestGymsReplicationGraphNode_PlayerStateFrequencyLimiter ×
      List FActorRepListRefView) :=
  match GatherActorListsForConnection
      (PrepareForReplication node WorldPlayerStates IsActorValidForReplicationGather)
      ReplicationFrameNum with
  | none => none
  | some Out =>
    some (PrepareForReplication node WorldPlayerStates IsActorValidForReplicationGather, Out)

/-- The lists emitted over `n` consecutive frames starting at `ReplicationFrameNum`, with an
unchanged world population. The frame number is a `uint32` that advances by one per frame:
the frame after `2 ^ 32 - 1` is frame `0`. -/
def RunTicks (WorldPlayerStates : List AActor) (IsActorValidForReplicationGather : AActor → Bool) :
    Nat → UTestGymsReplicationGraphNode_PlayerStateFrequencyLimiter → Nat →
      Option (List FActorRepListRefView)
  | 0, _, _ => some []
  | n + 1, node, ReplicationFrameNum =>
    match Tick node WorldPlayerStates IsActorValidForReplicationGather ReplicationFrameNum with
    | none => none
    | some (node', Out) =>
      match RunTicks WorldPlayerStates IsActorValidForReplicationGather n node'
          ((ReplicationFrameNum + 1) % 2 ^ 32) with
      | none => none
      | some Outs => some (Out ++ Outs)

end UTestGymsReplicationGraphNode_PlayerStateFrequencyLimiter

/-! ## Sample data -/

/-- A pass state with an empty table. -/
def sampleEmptyPass : FClassSettingsPass := ⟨TClassMap.empty, [], []⟩


/-- A viewer at the origin. -/
def sampleViewer : FNetViewer := ⟨1, 100, 101, ⟨0, 0, 0⟩⟩

/-- A nearest-actors node with `MaxNearestActors = 1` and the two actors 1 and 2. -/
def sampleNearestNode : UTestGymsReplicationGraphNode_NearestActors := ⟨1, [1, 2]⟩

/-- Actor 1 at distance 1.25 (squared distance 1.5625), every other actor at distance 1. -/
def sampleMapFirstFarther : AActor → FGlobalActorReplicationInfo :=
  fun a => ⟨false, if a = 1 then ⟨320, 0, 0⟩ else ⟨256, 0, 0⟩⟩

/-- Actor 2 at distance 1.25 (squared distance 1.5625), every other actor at distance 1. -/
def sampleMapSecondFarther : AActor → FGlobalActorReplicationInfo :=
  fun a => ⟨false, if a = 2 then ⟨320, 0, 0⟩ else ⟨256, 0, 0⟩⟩

/-- Every actor at distance 20000 along one axis, beyond the cutoff radius of 15000. -/
def sampleMapAllFar : AActor → FGlobalActorReplicationInfo :=
  fun _ => ⟨false, ⟨20000 * 256, 0, 0⟩⟩


/-- A limiter with `TargetActorsPerFrame = 2` holding stale lists from an earlier frame. -/
def sampleLimiter : UTestGymsReplicationGraphNode_PlayerStateFrequencyLimiter :=
  ⟨2, [[99], [98]], [5], [99, 98]⟩

/-- Seven player states of the world. -/
def samplePlayerStates : List AActor := [1, 2, 3, 4, 5, 6, 7]

/-- A validity predicate that rejects player state 4. -/
def sampleValid : AActor → Bool := fun a => a != 4


/-- The class `AActor`: replicated, none of the three relevancy flags. -/
def sampleActorClass : UClass :=
  UClass.derived "Actor" true (some ⟨true, false, false, false⟩) UClass.Object

/-- The class `AInfo`: always relevant. -/
def sampleInfoClass : UClass :=
  UClass.derived "Info" true (some ⟨true, true, false, false⟩) sampleActorClass

/-- The class `AGameStateBase`, a subclass of `AInfo` with the same flags. -/
def sampleGameStateClass : UClass :=
  UClass.derived "GameStateBase" true (some ⟨true, true, false, false⟩) sampleInfoClass

/-- A table with the seed entry of `AInfo` and an entry for `AActor`. -/
def samplePolicies : TClassMap EClassRepNodeMapping :=
  (TClassMap.empty.Set sampleInfoClass EClassRepNodeMapping.RelevantAllConnections).Set
    sampleActorClass EClassRepNodeMapping.Spatialize_Dynamic

/-- A graph without spatial networking whose lists are all empty. -/
def sampleGraph : UTestGymsReplicationGraph where
  bUsingSpatial := false
  ClassRepNodePolicies := samplePolicies
  GridNode := ⟨[], []⟩
  NearestPlayerNode := ⟨1024, []⟩
  NearestPlayerStateNode := ⟨1024, []⟩
  AlwaysRelevantNode := ⟨[], []⟩
  AlwaysRelevantStreamingLevelActors := fun _ => none
  GlobalActorReplicationInfoMap := fun _ => ⟨false, ⟨0, 0, 0⟩⟩

/-- A game state actor placed in the streaming level `Level1`. -/
def sampleLevelActorInfo : FNewReplicatedActorInfo :=
  ⟨7, sampleGameStateClass, "Level1"⟩

/-! ## `IsSpatialized` -/

/-- The underlying `uint32` value of an `EClassRepNodeMapping` enumerator (declaration
order, starting at 0). -/
def EClassRepNodeMapping.toUInt32 : EClassRepNodeMapping → Nat
  | NotRouted => 0
  | RelevantAllConnections => 1
  | AlwaysReplicate => 2
  | Spatialize_Static => 3
  | Spatialize_Dynamic => 4
  | Spatialize_Dormancy => 5
  | NearestPlayers => 6
  | NearestPlayerStates => 7

/-- The member `UTestGymsReplicationGraph::IsSpatialized`:
`Mapping >= EClassRepNodeMapping::Spatialize_Static`. -/
def IsSpatialized (Mapping : EClassRepNodeMapping) : Bool :=
  decide (Mapping.toUInt32 ≥ EClassRepNodeMapping.Spatialize_Static.toUInt32)

/-- Fifty player states of the world. -/
def sampleFiftyPlayerStates : List AActor := List.range 50

/-- A limiter with `TargetActorsPerFrame = 10`. -/
def sampleLimiterOfTen : UTestGymsReplicationGraphNode_PlayerStateFrequencyLimiter :=
  ⟨10, [], [], []⟩

/-- The `ensure(Params.Viewers.Num() == 1)` of `GatherClientInterestedActors` is reached and
its condition is false, so that it reports (it is only reached when the population exceeds
`MaxNearestActors`). -/
def UTestGymsReplicationGraphNode_NearestActors.ViewerCountEnsureFails
    (node : UTestGymsReplicationGraphNode_NearestActors) (Viewers : List FNetViewer) : Bool :=
  decide (node.ReplicationActorList.length > node.MaxNearestActors) &&
    decide (Viewers.length ≠ 1)

/-- A second viewer, ten units away from the origin along one axis. -/
def sampleSecondViewer : FNetViewer := ⟨2, 200, 201, ⟨2560, 0, 0⟩⟩

/-- Actor 1 one unit from the origin, every other actor at the place of the second
viewer. -/
def sampleMapTwoSpots : AActor → FGlobalActorReplicationInfo :=
  fun a => ⟨false, if a = 1 then ⟨256, 0, 0⟩ else ⟨2560, 0, 0⟩⟩

/-! ## `InitGlobalActorClassSettings`: the explicit entries and the whole table -/

/-- The classes that `InitGlobalActorClassSettings` names explicitly. A class found through
a class finder or a soft class path is null (`none`) when it cannot be loaded. -/
structure FSeedClasses where
  APlayerState : UClass
  AReplicationGraphDebugActor : UClass
  AInfo : UClass
  ReplicatedBPClass : Option UClass
  PlayerCharacterClass : Option UClass
  ABenchmarkNPCCharacter : UClass
  NonAlwaysRelevantPlayerStateClass : Option UClass
  AGameModeBase : UClass
  ReplicatedTestActorBase_RepGraphAlwaysReplicate : Option UClass
  TestPawnBase_RepGraphAlwaysReplicate : Option UClass

/-- The lambda `AddInfo`: `ClassRepNodePolicies.Set(Class, Mapping)`. -/
def AddInfo (m : TClassMap EClassRepNodeMapping) (Class : UClass)
    (Mapping : EClassRepNodeMapping) : TClassMap EClassRepNodeMapping :=
  m.Set Class Mapping

/-- The lambda `AddInfo` on a class pointer that may be null: the entry of a null key is
never met by the lookup of a class, so it is left out of the table. -/
def AddInfoNullable (m : TClassMap EClassRepNodeMapping) (Class : Option UClass)
    (Mapping : EClassRepNodeMapping) : TClassMap EClassRepNodeMapping :=
  match Class with
  | some c => AddInfo m c Mapping
  | none => m

/-- The explicit entries of `InitGlobalActorClassSettings`, in source order (the branch for
engine versions from 4.27 on). -/
def SeedClassRepNodePolicies (bUsingSpatial bCustomPerformanceScenario : Bool)
    (K : FSeedClasses) : TClassMap EClassRepNodeMapping :=
  let m : TClassMap EClassRepNodeMapping := TClassMap.empty
  let m := AddInfo m K.APlayerState EClassRepNodeMapping.NotRouted
  let m := AddInfo m K.AReplicationGraphDebugActor EClassRepNodeMapping.NotRouted
  let m := AddInfo m K.AInfo EClassRepNodeMapping.RelevantAllConnections
  let m := AddInfoNullable m K.ReplicatedBPClass EClassRepNodeMapping.Spatialize_Dynamic
  let m :=
    if bCustomPerformanceScenario then
      AddInfoNullable
        (AddInfo (AddInfoNullable m K.PlayerCharacterClass EClassRepNodeMapping.NearestPlayers)
          K.ABenchmarkNPCCharacter EClassRepNodeMapping.NearestPlayers)
        K.NonAlwaysRelevantPlayerStateClass EClassRepNodeMapping.NearestPlayerStates
    else m
  if bUsingSpatial then
    AddInfoNullable
      (AddInfoNullable (AddInfo m K.AGameModeBase EClassRepNodeMapping.AlwaysReplicate)
        K.ReplicatedTestActorBase_RepGraphAlwaysReplicate EClassRepNodeMapping.AlwaysReplicate)
      K.TestPawnBase_RepGraphAlwaysReplicate EClassRepNodeMapping.AlwaysReplicate
  else m

/-- The part of `InitGlobalActorClassSettings` that builds `ClassRepNodePolicies`: the
explicit entries, then the loop over all classes. -/
def InitGlobalActorClassSettings (bUsingSpatial bCustomPerformanceScenario : Bool)
    (K : FSeedClasses) (AllClasses : List UClass) : FClassSettingsPass :=
  ClassLoop bUsingSpatial AllClasses
    ⟨SeedClassRepNodePolicies bUsingSpatial bCustomPerformanceScenario K, [], []⟩

/-- The class `AActor` as the engine declares it: not replicated by default. -/
def sampleAActor : UClass :=
  UClass.derived "Actor" true (some ⟨false, false, false, false⟩) UClass.Object

/-- The class `APawn`: replicated, none of the three relevancy flags. -/
def samplePawnClass : UClass :=
  UClass.derived "Pawn" true (some ⟨true, false, false, false⟩) sampleAActor

/-- A pawn class that is only relevant to its owner. -/
def sampleOwnerOnlyPawnClass : UClass :=
  UClass.derived "OwnerOnlyPawn" true (some ⟨true, false, true, false⟩) samplePawnClass

/-- A replicated actor class below `AActor` with the given name and flags
(`bAlwaysRelevant`, `bOnlyRelevantToOwner`, `bNetUseOwnerRelevancy`). -/
def sampleActorSubclass (Name : String) (a o u : Bool) : UClass :=
  UClass.derived Name true (some ⟨true, a, o, u⟩) sampleAActor

/-- The explicitly named classes of a small project without the optional assets. -/
def sampleSeedClasses : FSeedClasses where
  APlayerState := UClass.derived "PlayerState" true (some ⟨true, true, false, false⟩)
    (sampleActorSubclass "Info" true false false)
  AReplicationGraphDebugActor := sampleActorSubclass "ReplicationGraphDebugActor" false true false
  AInfo := sampleActorSubclass "Info" true false false
  ReplicatedBPClass := none
  PlayerCharacterClass := none
  ABenchmarkNPCCharacter := UClass.derived "BenchmarkNPCCharacter" true
    (some ⟨true, false, false, false⟩) samplePawnClass
  NonAlwaysRelevantPlayerStateClass := none
  AGameModeBase := UClass.derived "GameModeBase" true (some ⟨false, false, false, false⟩)
    (sampleActorSubclass "Info" true false false)
  ReplicatedTestActorBase_RepGraphAlwaysReplicate := none
  TestPawnBase_RepGraphAlwaysReplicate := none

/-- The classes the class iterator enumerates in the small project. -/
def sampleAllClasses : List UClass :=
  [UClass.Object, sampleAActor, samplePawnClass, sampleOwnerOnlyPawnClass,
    sampleSeedClasses.AInfo, sampleSeedClasses.APlayerState]

/-! ## The per-connection always-relevant node -/

/-- Modelled from the spec: the engine struct `FAlwaysRelevantActorInfo` (not part of the
repository sources): "for each connection, the previously-seen pawn/view-target pair". The
connection pointer is null (`none`) once the connection is destroyed. -/
structure FAlwaysRelevantActorInfo where
  Connection : Option Nat
  LastViewer : Option AActor
  LastViewTarget : Option AActor
  deriving DecidableEq, Repr

/-- The fields of the engine struct `FConnectionReplicationActorInfo` that the node reads
and writes. -/
structure FConnectionReplicationActorInfo where
  CullDistanceSquared : Nat
  ReplicationPeriodFrame : Nat
  bDormantOnConnection : Bool
  deriving DecidableEq, Repr

/-- The engine map `FPerConnectionActorInfoMap` (`Params.ConnectionManager.ActorInfoMap`). -/
abbrev FPerConnectionActorInfoMap := AActor → Option FConnectionReplicationActorInfo

namespace FPerConnectionActorInfoMap

/-- Insert or overwrite the entry of an actor. -/
def Put (m : FPerConnectionActorInfoMap) (a : AActor) (i : FConnectionReplicationActorInfo) :
    FPerConnectionActorInfoMap :=
  fun k => if k = a then some i else m k

/-- Modelled from the spec: `FPerConnectionActorInfoMap::FindOrAdd`: the entry of the actor,
created when missing from the settings the engine keeps for the actor (`NewInfo`); a new
entry is not dormant. Returns the entry and the map after the call. -/
def FindOrAdd (m : FPerConnectionActorInfoMap) (NewInfo : AActor → FConnectionReplicationActorInfo)
    (a : AActor) : FConnectionReplicationActorInfo × FPerConnectionActorInfoMap :=
  match m a with
  | some i => (i, m)
  | none =>
    ({ NewInfo a with bDormantOnConnection := false },
      m.Put a { NewInfo a with bDormantOnConnection := false })

end FPerConnectionActorInfoMap

/-- What the node reads of a player controller: its player state and its pawn (either may
be null). -/
structure APlayerController where
  PlayerState : Option AActor
  Pawn : Option AActor
  deriving DecidableEq, Repr

/-- The dynamic types of the actors of the world, as the casts of the node see them:
`Cast<APlayerController>` and `Cast<ACharacter>`. -/
structure FActorTypes where
  AsPlayerController : AActor → Option APlayerController
  IsCharacter : AActor → Bool

/-- The members of `UTestGymsReplicationGraphNode_AlwaysRelevant_ForConnection` that its
functions read and write. -/
structure UTestGymsReplicationGraphNode_AlwaysRelevant_ForConnection where
  AlwaysRelevantStreamingLevelsNeedingReplication : List FName
  ReplicationActorList : FActorRepListRefView
  PastRelevantActors : List FAlwaysRelevantActorInfo
  bInitializedPlayerState : Bool
  deriving DecidableEq, Repr

/-- The fields of `FConnectionGatherActorListParameters` that the node reads;
`ConnectionOrderNum` is `Params.ConnectionManager.ConnectionOrderNum` (the branch for engine
versions from 4.26 on). The actor info map of the connection manager and the gathered
lists are passed and returned separately. -/
structure FConnectionGatherActorListParameters where
  Viewers : List FNetViewer
  ConnectionOrderNum : Nat
  ReplicationFrameNum : Nat

/-- Modelled from the spec: `TArray::RemoveAtSwap(Index, 1, false)` on any array: the last
element takes the place of the removed one and the array shrinks by one. -/
def TArrayRemoveAtSwap {α : Type} (l : List α) (Index : Nat) : List α :=
  match l.getLast? with
  | none => l
  | some x => (l.set Index x).dropLast

namespace UTestGymsReplicationGraphNode_AlwaysRelevant_ForConnection

/-- What the loop over the viewers of `GatherActorListsForConnection` reads and writes: the
members of the node, the actor info map of the connection, and the trace of the actors
whose cull distance was set to zero (one entry per line "Setting pawn cull distance to 0"
of the log). -/
structure FViewerLoopState where
  ReplicationActorList : FActorRepListRefView
  PastRelevantActors : List FAlwaysRelevantActorInfo
  bInitializedPlayerState : Bool
  ActorInfoMap : FPerConnectionActorInfoMap
  CullDistanceResets : List AActor

/-- The element `LastData` points to: `PastRelevantActors.FindByKey(Connection)`, the first
element of that connection. -/
def FindLastData (Past : List FAlwaysRelevantActorInfo) (Connection : Nat) :
    Option FAlwaysRelevantActorInfo :=
  Past.find? (fun d => decide (d.Connection = some Connection))

/-- A write through the pointer `LastData`: the first element of that connection is
replaced. -/
def WriteLastData (f : FAlwaysRelevantActorInfo → FAlwaysRelevantActorInfo) (Connection : Nat) :
    List FAlwaysRelevantActorInfo → List FAlwaysRelevantActorInfo
  | [] => []
  | d :: rest =>
    if d.Connection = some Connection then f d :: rest
    else d :: WriteLastData f Connection rest

/-- The two statements at the head of the loop body: the viewer and its view target are
added to the list. -/
def AddViewerAndTarget (st : FViewerLoopState) (CurViewer : FNetViewer) : FViewerLoopState :=
  { st with ReplicationActorList :=
      ((st.ReplicationActorList.ConditionalAdd CurViewer.InViewer).ConditionalAdd
        CurViewer.ViewTarget) }

/-- The block "50% throttling of PlayerStates": on the frames whose number has the parity of
the connection order number, the player state of the controller (when it has one) gets a
replication period of one frame the first time and is added to the list. -/
def PlayerStateStep (NewInfo : AActor → FConnectionReplicationActorInfo)
    (Params : FConnectionGatherActorListParameters) (PC : APlayerController)
    (st : FViewerLoopState) : FViewerLoopState :=
  let bReplicatePS := decide (Params.ConnectionOrderNum % 2 = Params.ReplicationFrameNum % 2)
  if bReplicatePS then
    match PC.PlayerState with
    | some PS =>
      let st :=
        if !st.bInitializedPlayerState then
          { st with
            bInitializedPlayerState := true
            ActorInfoMap :=
              ((st.ActorInfoMap.FindOrAdd NewInfo PS).2.Put PS
                { (st.ActorInfoMap.FindOrAdd NewInfo PS).1 with ReplicationPeriodFrame := 1 }) }
        else st
      { st with ReplicationActorList := st.ReplicationActorList.ConditionalAdd PS }
    | none => st
  else st

/-- The lookup of `LastData` and the block "We've not seen this actor before": a new
element for the connection of the viewer is appended when none is found. -/
def EnsureLastData (st : FViewerLoopState) (CurViewer : FNetViewer) : FViewerLoopState :=
  match FindLastData st.PastRelevantActors CurViewer.Connection with
  | some _ => st
  | none =>
    { st with PastRelevantActors :=
        st.PastRelevantActors ++ [⟨some CurViewer.Connection, none, none⟩] }

/-- The lambda `ResetActorCullDistance` applied to `LastData->LastViewer`. -/
def ResetActorCullDistance_LastViewer (NewInfo : AActor → FConnectionReplicationActorInfo)
    (st : FViewerLoopState) (Connection : Nat) (ActorToSet : AActor) : FViewerLoopState :=
  if (FindLastData st.PastRelevantActors Connection).bind (fun d => d.LastViewer) ≠
      some ActorToSet then
    { st with
      PastRelevantActors :=
        WriteLastData (fun d => { d with LastViewer := some ActorToSet }) Connection
          st.PastRelevantActors
      ActorInfoMap :=
        ((st.ActorInfoMap.FindOrAdd NewInfo ActorToSet).2.Put ActorToSet
          { (st.ActorInfoMap.FindOrAdd NewInfo ActorToSet).1 with CullDistanceSquared := 0 })
      CullDistanceResets := st.CullDistanceResets ++ [ActorToSet] }
  else st

/-- The lambda `ResetActorCullDistance` applied to `LastData->LastViewTarget`. -/
def ResetActorCullDistance_LastViewTarget (NewInfo : AActor → FConnectionReplicationActorInfo)
    (st : FViewerLoopState) (Connection : Nat) (ActorToSet : AActor) : FViewerLoopState :=
  if (FindLastData st.PastRelevantActors Connection).bind (fun d => d.LastViewTarget) ≠
      some ActorToSet then
    { st with
      PastRelevantActors :=
        WriteLastData (fun d => { d with LastViewTarget := some ActorToSet }) Connection
          st.PastRelevantActors
      ActorInfoMap :=
        ((st.ActorInfoMap.FindOrAdd NewInfo ActorToSet).2.Put ActorToSet
          { (st.ActorInfoMap.FindOrAdd NewInfo ActorToSet).1 with CullDistanceSquared := 0 })
      CullDistanceResets := st.CullDistanceResets ++ [ActorToSet] }
  else st

/-- The block on `Cast<ACharacter>(PC->GetPawn())`: the cull distance of a character pawn is
reset when it differs from `LastViewer`, and the pawn is added to the list when it is not
the view target. -/
def PawnStep (W : FActorTypes) (NewInfo : AActor → FConnectionReplicationActorInfo)
    (PC : APlayerController) (st : FViewerLoopState) (CurViewer : FNetViewer) :
    FViewerLoopState :=
  match PC.Pawn with
  | some Pawn =>
    if W.IsCharacter Pawn then
      let st := ResetActorCullDistance_LastViewer NewInfo st CurViewer.Connection Pawn
      if Pawn ≠ CurViewer.ViewTarget then
        { st with ReplicationActorList := st.ReplicationActorList.ConditionalAdd Pawn }
      else st
    else st
  | none => st

/-- The block on `Cast<ACharacter>(CurViewer.ViewTarget)`. -/
def ViewTargetStep (W : FActorTypes) (NewInfo : AActor → FConnectionReplicationActorInfo)
    (st : FViewerLoopState) (CurViewer : FNetViewer) : FViewerLoopState :=
  if W.IsCharacter CurViewer.ViewTarget then
    ResetActorCullDistance_LastViewTarget NewInfo st CurViewer.Connection CurViewer.ViewTarget
  else st

/-- The body of the loop `for (const FNetViewer& CurViewer : Params.Viewers)` of
`GatherActorListsForConnection`. -/
def ViewerLoopBody (W : FActorTypes) (NewInfo : AActor → FConnectionReplicationActorInfo)
    (Params : FConnectionGatherActorListParameters) (st : FViewerLoopState)
    (CurViewer : FNetViewer) : FViewerLoopState :=
  let st := AddViewerAndTarget st CurViewer
  match W.AsPlayerController CurViewer.InViewer with
  | some PC =>
    let st := PlayerStateStep NewInfo Params PC st
    let st := EnsureLastData st CurViewer
    let st := PawnStep W NewInfo PC st CurViewer
    ViewTargetStep W NewInfo st CurViewer
  | none => st

/-- What the loop over the streaming levels of `GatherActorListsForConnection` reads and
writes: the array of levels needing replication, the actor info map, the lists handed to
`AddReplicationActorList`, and the trace of the levels read at
`AlwaysRelevantStreamingLevelsNeedingReplication[Idx]`. -/
structure FLevelLoopState where
  Levels : List FName
  ActorInfoMap : FPerConnectionActorInfoMap
  Out : List FActorRepListRefView
  Examined : List FName

/-- The loop `for (FActorRepListType Actor : RepList)` that computes `bAllDormant`, leaving
at the first actor that is not dormant on the connection. -/
def AllDormantScan (NewInfo : AActor → FConnectionReplicationActorInfo) :
    List AActor → FPerConnectionActorInfoMap → Bool × FPerConnectionActorInfoMap
  | [], m => (true, m)
  | Actor :: rest, m =>
    if (m.FindOrAdd NewInfo Actor).1.bDormantOnConnection = false then
      (false, (m.FindOrAdd NewInfo Actor).2)
    else AllDormantScan NewInfo rest (m.FindOrAdd NewInfo Actor).2

/-- The body of the loop over the streaming levels, at index `Idx`. The index is always in
range (the array holds more than `Idx` elements whenever the body runs). -/
def LevelLoopBody (LevelActors : FLevelActorMap)
    (NewInfo : AActor → FConnectionReplicationActorInfo) (Idx : Nat) (st : FLevelLoopState) :
    FLevelLoopState :=
  match st.Levels[Idx]? with
  | none => st
  | some StreamingLevel =>
    let st := { st with Examined := st.Examined ++ [StreamingLevel] }
    match LevelActors StreamingLevel with
    | none => { st with Levels := TArrayRemoveAtSwap st.Levels Idx }
    | some RepList =>
      if RepList.length > 0 then
        if (AllDormantScan NewInfo RepList st.ActorInfoMap).1 then
          { st with
            Levels := TArrayRemoveAtSwap st.Levels Idx
            ActorInfoMap := (AllDormantScan NewInfo RepList st.ActorInfoMap).2 }
        else
          { st with
            Out := st.Out ++ [RepList]
            ActorInfoMap := (AllDormantScan NewInfo RepList st.ActorInfoMap).2 }
      else st

/-- The loop `for (int32 Idx = Num() - 1; Idx >= 0; --Idx)`: `LevelLoop n` runs the body
for the indices `n - 1` down to `0`. -/
def LevelLoop (LevelActors : FLevelActorMap)
    (NewInfo : AActor → FConnectionReplicationActorInfo) :
    Nat → FLevelLoopState → FLevelLoopState
  | 0, st => st
  | n + 1, st => LevelLoop LevelActors NewInfo n (LevelLoopBody LevelActors NewInfo n st)

/-- What `GatherActorListsForConnection` leaves behind: the node, the actor info map of the
connection, the lists handed to `AddReplicationActorList` in order, and the two traces. -/
structure FGatherResult where
  node : UTestGymsReplicationGraphNode_AlwaysRelevant_ForConnection
  ActorInfoMap : FPerConnectionActorInfoMap
  Out : List FActorRepListRefView
  CullDistanceResets : List AActor
  ExaminedLevels : List FName

/-- The state of the viewer loop after the last viewer. -/
def ViewerLoop (W : FActorTypes) (NewInfo : AActor → FConnectionReplicationActorInfo)
    (node : UTestGymsReplicationGraphNode_AlwaysRelevant_ForConnection)
    (Params : FConnectionGatherActorListParameters) (ActorInfoMap : FPerConnectionActorInfoMap) :
    FViewerLoopState :=
  Params.Viewers.foldl (ViewerLoopBody W NewInfo Params)
    ⟨[], node.PastRelevantActors, node.bInitializedPlayerState, ActorInfoMap, []⟩

/-- The member `GatherActorListsForConnection`. `LevelActors` is
`TestGymsGraph->AlwaysRelevantStreamingLevelActors`. -/
def GatherActorListsForConnection (W : FActorTypes)
    (NewInfo : AActor → FConnectionReplicationActorInfo) (LevelActors : FLevelActorMap)
    (node : UTestGymsReplicationGraphNode_AlwaysRelevant_ForConnection)
    (Params : FConnectionGatherActorListParameters) (ActorInfoMap : FPerConnectionActorInfoMap) :
    FGatherResult :=
  let st := ViewerLoop W NewInfo node Params ActorInfoMap
  let Past := st.PastRelevantActors.filter (fun d => !decide (d.Connection = none))
  let lv := LevelLoop LevelActors NewInfo
    node.AlwaysRelevantStreamingLevelsNeedingReplication.length
    ⟨node.AlwaysRelevantStreamingLevelsNeedingReplication, st.ActorInfoMap,
      [st.ReplicationActorList], []⟩
  { node :=
      { AlwaysRelevantStreamingLevelsNeedingReplication := lv.Levels
        ReplicationActorList := st.ReplicationActorList
        PastRelevantActors := Past
        bInitializedPlayerState := st.bInitializedPlayerState }
    ActorInfoMap := lv.ActorInfoMap
    Out := lv.Out
    CullDistanceResets := st.CullDistanceResets
    ExaminedLevels := lv.Examined }

end UTestGymsReplicationGraphNode_AlwaysRelevant_ForConnection

/-- Actor 100 is a player controller with player state 300 and pawn 102; the actors 101 and
102 are characters. -/
def sampleActorTypes : FActorTypes where
  AsPlayerController := fun a => if a = 100 then some ⟨some 300, some 102⟩ else none
  IsCharacter := fun a => a == 101 || a == 102

/-- The settings a new per-connection entry starts from. -/
def sampleNewInfo : AActor → FConnectionReplicationActorInfo := fun _ => ⟨1000, 2, false⟩

/-- The viewer of connection 1: controller 100 now viewing character 102. -/
def sampleControllerViewer : FNetViewer := ⟨1, 100, 102, ⟨0, 0, 0⟩⟩

/-- A node that last saw connection 1 with pawn and view target 101. -/
def sampleConnectionNode : UTestGymsReplicationGraphNode_AlwaysRelevant_ForConnection :=
  ⟨[], [], [⟨some 1, some 101, some 101⟩], false⟩

/-- A gather of the single viewer on frame 1 by the connection of order number 0. -/
def sampleOddFrameParams : FConnectionGatherActorListParameters := ⟨[sampleControllerViewer], 0, 1⟩

/-- A gather of the single viewer on frame 2 by the connection of order number 0. -/
def sampleEvenFrameParams : FConnectionGatherActorListParameters :=
  ⟨[sampleControllerViewer], 0, 2⟩

/-- The per-connection entry of an actor exists and its cull distance squared is zero. -/
def FPerConnectionActorInfoMap.CullZero (m : FPerConnectionActorInfoMap) (a : AActor) : Prop :=
  ∃ i, m a = some i ∧ i.CullDistanceSquared = 0

/-- The transition record of the connection of a viewer is up to date: when the viewer is a
player controller, the record of its connection exists, holds its pawn as `LastViewer` when
that pawn is a character, and holds its view target as `LastViewTarget` when that is a
character. -/
def UTestGymsReplicationGraphNode_AlwaysRelevant_ForConnection.Settled (W : FActorTypes)
    (Past : List FAlwaysRelevantActorInfo) (V : FNetViewer) : Prop :=
  ∀ PC, W.AsPlayerController V.InViewer = some PC →
    ∃ d, UTestGymsReplicationGraphNode_AlwaysRelevant_ForConnection.FindLastData Past
        V.Connection = some d ∧
      (∀ p, PC.Pawn = some p → W.IsCharacter p = true → d.LastViewer = some p) ∧
      (W.IsCharacter V.ViewTarget = true → d.LastViewTarget = some V.ViewTarget)

/-- A per-connection actor info map that holds an entry for character 101 only, with cull
distance squared 1000. -/
def sampleActorInfoMap : FPerConnectionActorInfoMap :=
  fun a => if a = 101 then some ⟨1000, 2, false⟩ else none

/-- The actor has an entry in the map and that entry is dormant on the connection. -/
def FPerConnectionActorInfoMap.DormantOn (m : FPerConnectionActorInfoMap) (a : AActor) : Bool :=
  match m a with
  | some i => i.bDormantOnConnection
  | none => false

/-- The level has a list of always relevant actors, and that list is empty or holds an
actor that is not dormant on the connection (`Dormant` tells which actors are). -/
def KeepsLevel (LevelActors : FLevelActorMap) (Dormant : AActor → Bool) (lvl : FName) : Bool :=
  match LevelActors lvl with
  | none => false
  | some RepList => !(decide (RepList.length > 0) && RepList.all Dormant)

/-- The level has a list of always relevant actors that is not empty and holds an actor
that is not dormant on the connection (`Dormant` tells which actors are). -/
def HandsOutList (LevelActors : FLevelActorMap) (Dormant : AActor → Bool) (lvl : FName) :
    Bool :=
  match LevelActors lvl with
  | none => false
  | some RepList => decide (RepList.length > 0) && !RepList.all Dormant

/-- Four levels needing replication: "A" and "B" have lists, "X" and "Y" have none. -/
def sampleLevelsNeedingReplication : List FName := ["X", "A", "Y", "B"]

/-- The lists of the levels "A" (one actor) and "B" (empty). -/
def sampleLevelActors : FLevelActorMap :=
  fun k => if k = "A" then some [1] else if k = "B" then some [] else none

/-- Every entry of the first map is still in the second, with the cull distance squared it
had. -/
def FPerConnectionActorInfoMap.CullKept (m m2 : FPerConnectionActorInfoMap) : Prop :=
  ∀ a i, m a = some i → ∃ i2, m2 a = some i2 ∧ i2.CullDistanceSquared = i.CullDistanceSquared

/-- A nearest-actors node with `MaxNearestActors = 2` and the two actors 1 and 2. -/
def sampleRoomyNearestNode : UTestGymsReplicationGraphNode_NearestActors := ⟨2, [1, 2]⟩

/-- A notification to a nearest-actors node. -/
inductive FNearestActorsNotify where
  | Add (ActorInfo : FNewReplicatedActorInfo)
  | Remove (ActorInfo : FNewReplicatedActorInfo)

namespace UTestGymsReplicationGraphNode_NearestActors

/-- The node after a notification, with the value `NotifyRemoveNetworkActor` returned
(`false` for an add, which returns nothing). -/
def Notify (node : UTestGymsReplicationGraphNode_NearestActors) :
    FNearestActorsNotify → Bool × UTestGymsReplicationGraphNode_NearestActors
  | FNearestActorsNotify.Add ActorInfo => (false, NotifyAddNetworkActor node ActorInfo)
  | FNearestActorsNotify.Remove ActorInfo => NotifyRemoveNetworkActor node ActorInfo

/-- The node after a sequence of notifications. -/
def NotifyAll (node : UTestGymsReplicationGraphNode_NearestActors) :
    List FNearestActorsNotify → UTestGymsReplicationGraphNode_NearestActors
  | [] => node
  | e :: rest => NotifyAll (Notify node e).2 rest

/-- The number of `NotifyAddNetworkActor` calls for an actor in a sequence. -/
def AddsOf (a : AActor) : List FNearestActorsNotify → Nat
  | [] => 0
  | FNearestActorsNotify.Add ActorInfo :: rest =>
    (if ActorInfo.Actor = a then 1 else 0) + AddsOf a rest
  | FNearestActorsNotify.Remove _ :: rest => AddsOf a rest

/-- The number of `NotifyRemoveNetworkActor` calls for an actor that returned `true` when
the sequence is run from the node. -/
def SuccessfulRemovesOf (a : AActor) :
    UTestGymsReplicationGraphNode_NearestActors → List FNearestActorsNotify → Nat
  | _, [] => 0
  | node, e :: rest =>
    (match e with
      | FNearestActorsNotify.Remove ActorInfo =>
        if ActorInfo.Actor = a ∧ (Notify node e).1 = true then 1 else 0
      | FNearestActorsNotify.Add _ => 0) + SuccessfulRemovesOf a (Notify node e).2 rest

end UTestGymsReplicationGraphNode_NearestActors

/-- A per-connection actor info map in which actor 1 is dormant on the connection. -/
def sampleDormantActorInfoMap : FPerConnectionActorInfoMap :=
  fun a => if a = 1 then some ⟨1000, 2, true⟩ else none

/-! ## Resetting the world and level visibility -/

namespace UTestGymsReplicationGraphNode_AlwaysRelevant_ForConnection

/-- The member `ResetGameWorldState` of the node:
`AlwaysRelevantStreamingLevelsNeedingReplication.Empty()`. -/
def ResetGameWorldState (node : UTestGymsReplicationGraphNode_AlwaysRelevant_ForConnection) :
    UTestGymsReplicationGraphNode_AlwaysRelevant_ForConnection :=
  { node with AlwaysRelevantStreamingLevelsNeedingReplication := [] }

/-- The override `NotifyResetAllNetworkActors() override { }` of the node. -/
def NotifyResetAllNetworkActors
    (node : UTestGymsReplicationGraphNode_AlwaysRelevant_ForConnection) :
    UTestGymsReplicationGraphNode_AlwaysRelevant_ForConnection :=
  node

/-- The member `OnClientLevelVisibilityAdd`:
`AlwaysRelevantStreamingLevelsNeedingReplication.Add(LevelName)`, an append without a
duplicate check. -/
def OnClientLevelVisibilityAdd
    (node : UTestGymsReplicationGraphNode_AlwaysRelevant_ForConnection) (LevelName : FName) :
    UTestGymsReplicationGraphNode_AlwaysRelevant_ForConnection :=
  { node with AlwaysRelevantStreamingLevelsNeedingReplication :=
      node.AlwaysRelevantStreamingLevelsNeedingReplication ++ [LevelName] }

/-- The member `OnClientLevelVisibilityRemove`:
`AlwaysRelevantStreamingLevelsNeedingReplication.Remove(LevelName)`. Modelled from the spec:
`TArray::Remove` deletes every element equal to the item and keeps the order of the
rest. -/
def OnClientLevelVisibilityRemove
    (node : UTestGymsReplicationGraphNode_AlwaysRelevant_ForConnection) (LevelName : FName) :
    UTestGymsReplicationGraphNode_AlwaysRelevant_ForConnection :=
  { node with AlwaysRelevantStreamingLevelsNeedingReplication :=
      (node.AlwaysRelevantStreamingLevelsNeedingReplication.filter
        (fun k => decide (k ≠ LevelName))) }

end UTestGymsReplicationGraphNode_AlwaysRelevant_ForConnection

/-- A notification of the connection about the visibility of a streaming level on the
client (the delegates `OnClientVisibleLevelNameAdd` and `OnClientVisibleLevelNameRemove`). -/
inductive FLevelVisibilityNotify where
  | Add (LevelName : FName)
  | Remove (LevelName : FName)
  deriving DecidableEq, Repr

namespace UTestGymsReplicationGraphNode_AlwaysRelevant_ForConnection

/-- The node after a visibility notification. -/
def OnClientLevelVisibility (node : UTestGymsReplicationGraphNode_AlwaysRelevant_ForConnection) :
    FLevelVisibilityNotify → UTestGymsReplicationGraphNode_AlwaysRelevant_ForConnection
  | FLevelVisibilityNotify.Add LevelName => OnClientLevelVisibilityAdd node LevelName
  | FLevelVisibilityNotify.Remove LevelName => OnClientLevelVisibilityRemove node LevelName

/-- The node after a sequence of visibility notifications. -/
def OnClientLevelVisibilityAll
    (node : UTestGymsReplicationGraphNode_AlwaysRelevant_ForConnection)
    (events : List FLevelVisibilityNotify) :
    UTestGymsReplicationGraphNode_AlwaysRelevant_ForConnection :=
  events.foldl OnClientLevelVisibility node

end UTestGymsReplicationGraphNode_AlwaysRelevant_ForConnection

/-- How often a level was added since it was last removed, over a sequence of visibility
notifications, counting from `n` occurrences before the sequence. -/
def AddsSinceLastRemove (LevelName : FName) (n : Nat) (events : List FLevelVisibilityNotify) :
    Nat :=
  events.foldl (fun c e =>
    match e with
    | FLevelVisibilityNotify.Add k => if k = LevelName then c + 1 else c
    | FLevelVisibilityNotify.Remove k => if k = LevelName then 0 else c) n

/-- No level is added while it is in the array: the sequence of visibility notifications,
run from an array with the given levels, never adds a level that is visible. -/
def NoAddWhileVisible : List FName → List FLevelVisibilityNotify → Bool
  | _, [] => true
  | Levels, FLevelVisibilityNotify.Add k :: rest =>
    !decide (k ∈ Levels) && NoAddWhileVisible (Levels ++ [k]) rest
  | Levels, FLevelVisibilityNotify.Remove k :: rest =>
    NoAddWhileVisible (Levels.filter (fun x => decide (x ≠ k))) rest

/-- A node among the connection graph nodes of a connection manager: the per-connection
always relevant node of this project, or a node of another class (for which the
`Cast<UTestGymsReplicationGraphNode_AlwaysRelevant_ForConnection>` is null). -/
inductive UReplicationGraphNode where
  | AlwaysRelevant_ForConnection
      (node : UTestGymsReplicationGraphNode_AlwaysRelevant_ForConnection)
  | OtherNode (Name : String)
  deriving DecidableEq, Repr

/-- The connection graph nodes of a `UNetReplicationGraphConnection`
(`GetConnectionGraphNodes()`). -/
structure UNetReplicationGraphConnection where
  ConnectionGraphNodes : List UReplicationGraphNode
  deriving DecidableEq, Repr

/-- The members of the graph that `ResetGameWorldState` reads and writes and that bear on
the per-connection nodes. -/
structure FGraphWorldState where
  AlwaysRelevantStreamingLevelActors : FLevelActorMap
  Connections : List UNetReplicationGraphConnection
  PendingConnections : List UNetReplicationGraphConnection

namespace UReplicationGraphNode

/-- The virtual call `NotifyResetAllNetworkActors` on a connection graph node. The state of
a node of another class is not represented. -/
def NotifyResetAllNetworkActors : UReplicationGraphNode → UReplicationGraphNode
  | AlwaysRelevant_ForConnection node =>
    AlwaysRelevant_ForConnection
      (UTestGymsReplicationGraphNode_AlwaysRelevant_ForConnection.NotifyResetAllNetworkActors
        node)
  | OtherNode Name => OtherNode Name

/-- The body of the loops of `UTestGymsReplicationGraph::ResetGameWorldState` over the
connection graph nodes: the cast and the call of the node's `ResetGameWorldState`. -/
def ResetIfAlwaysRelevant : UReplicationGraphNode → UReplicationGraphNode
  | AlwaysRelevant_ForConnection node =>
    AlwaysRelevant_ForConnection
      (UTestGymsReplicationGraphNode_AlwaysRelevant_ForConnection.ResetGameWorldState node)
  | OtherNode Name => OtherNode Name

end UReplicationGraphNode

/-- Modelled from the spec: the engine function `UReplicationGraph::ResetGameWorldState`
(not part of the repository sources) as far as the connection graph nodes go: it calls
`NotifyResetAllNetworkActors` on the nodes of the active and of the pending connections. -/
def SuperResetGameWorldState (g : FGraphWorldState) : FGraphWorldState :=
  { g with
    Connections := (g.Connections.map (fun ConnManager =>
      ⟨ConnManager.ConnectionGraphNodes.map UReplicationGraphNode.NotifyResetAllNetworkActors⟩))
    PendingConnections := (g.PendingConnections.map (fun ConnManager =>
      ⟨ConnManager.ConnectionGraphNodes.map UReplicationGraphNode.NotifyResetAllNetworkActors⟩)) }

/-- The member `UTestGymsReplicationGraph::ResetGameWorldState`. -/
def ResetGameWorldState (g : FGraphWorldState) : FGraphWorldState :=
  let g := SuperResetGameWorldState g
  { AlwaysRelevantStreamingLevelActors := fun _ => none
    Connections := (g.Connections.map (fun ConnManager =>
      ⟨ConnManager.ConnectionGraphNodes.map UReplicationGraphNode.ResetIfAlwaysRelevant⟩))
    PendingConnections := (g.PendingConnections.map (fun ConnManager =>
      ⟨ConnManager.ConnectionGraphNodes.map UReplicationGraphNode.ResetIfAlwaysRelevant⟩)) }

/-- The per-connection always relevant nodes of the active and of the pending
connections. -/
def FGraphWorldState.AlwaysRelevantConnectionNodes (g : FGraphWorldState) :
    List UTestGymsReplicationGraphNode_AlwaysRelevant_ForConnection :=
  ((g.Connections ++ g.PendingConnections).map (fun ConnManager =>
    ConnManager.ConnectionGraphNodes.filterMap (fun n =>
      match n with
      | UReplicationGraphNode.AlwaysRelevant_ForConnection node => some node
      | UReplicationGraphNode.OtherNode _ => none))).flatten

/-- The node of a connection after a gather on an even frame: it has seen the player state
of its controller and keeps a transition record. -/
def sampleUsedConnectionNode : UTestGymsReplicationGraphNode_AlwaysRelevant_ForConnection :=
  (UTestGymsReplicationGraphNode_AlwaysRelevant_ForConnection.GatherActorListsForConnection
    sampleActorTypes sampleNewInfo sampleLevelActors
    ⟨sampleLevelsNeedingReplication, [], [], false⟩ sampleEvenFrameParams
    sampleActorInfoMap).node

/-- A graph with one active connection, whose nodes are an engine node and the used
per-connection node, and one pending connection with a fresh per-connection node that has
two visible levels. -/
def sampleWorldState : FGraphWorldState where
  AlwaysRelevantStreamingLevelActors := sampleLevelActors
  Connections :=
    [⟨[UReplicationGraphNode.OtherNode "TearOff",
      UReplicationGraphNode.AlwaysRelevant_ForConnection sampleUsedConnectionNode]⟩]
  PendingConnections :=
    [⟨[UReplicationGraphNode.AlwaysRelevant_ForConnection ⟨["A", "B"], [], [], false⟩]⟩]

/-! ## `InitGlobalActorClassSettings`: the class info pass -/

/-- The loop "Set FClassReplicationInfo based on legacy settings from all replicated
classes" of `InitGlobalActorClassSettings`, as far as the policy table goes: a class that is
a child of an explicitly set class is skipped; for every other class
`ClassRepNodePolicies.GetChecked` is called and `IsSpatialized` of the policy found is the
`bSpatialize` argument of `InitClassReplicationInfo`. The result is `none` when the fatal
check of `GetChecked` fails; otherwise the classes whose info is set, each with its
`bClassIsSpatialized`, and the table after the lookups. -/
def ClassInfoLoop (ExplicitlySetClasses : List UClass) :
    List UClass → TClassMap EClassRepNodeMapping →
      Option (List (UClass × Bool) × TClassMap EClassRepNodeMapping)
  | [], m => some ([], m)
  | ReplicatedClass :: rest, m =>
    if ExplicitlySetClasses.any (fun SetClass => ReplicatedClass.IsChildOf SetClass) then
      ClassInfoLoop ExplicitlySetClasses rest m
    else
      match m.GetChecked ReplicatedClass with
      | none => none
      | some (Policy, m2) =>
        match ClassInfoLoop ExplicitlySetClasses rest m2 with
        | none => none
        | some (Infos, m3) => some ((ReplicatedClass, IsSpatialized Policy) :: Infos, m3)

/-- The explicit entries, the loop over all classes and the class info pass of
`InitGlobalActorClassSettings`; `ExplicitlySetClasses` holds `APlayerState` only (the one
call of the lambda `SetClassInfo`). -/
def InitGlobalActorClassSettings_ClassInfo (bUsingSpatial bCustomPerformanceScenario : Bool)
    (K : FSeedClasses) (AllClasses : List UClass) :
    Option (List (UClass × Bool) × TClassMap EClassRepNodeMapping) :=
  let Pass := InitGlobalActorClassSettings bUsingSpatial bCustomPerformanceScenario K AllClasses
  ClassInfoLoop [K.APlayerState] Pass.AllReplicatedClasses Pass.ClassRepNodePolicies

/-- A replicated actor class directly below `AActor` that is only relevant to its owner. -/
def sampleOwnerOnlyActorClass : UClass := sampleActorSubclass "OwnerOnlyActor" false true false

/-- A subclass of `AInfo` that is not replicated and otherwise has the flags of `AInfo`. -/
def sampleStaticInfoClass : UClass :=
  UClass.derived "StaticInfo" true (some ⟨false, true, false, false⟩) sampleSeedClasses.AInfo

/-- A replicated subclass of the class above, again with the flags of `AInfo`. -/
def sampleReplicatedInfoClass : UClass :=
  UClass.derived "ReplicatedInfo" true (some ⟨true, true, false, false⟩) sampleStaticInfoClass

/-- The nearest strict ancestor of a class that has an entry of its own in the table. -/
def NearestAncestorWithEntry (m : TClassMap EClassRepNodeMapping) (Class : UClass) :
    Option UClass :=
  (UClass.chain Class).tail.find? (fun k => (m k).isSome)

/-- The three booleans `bAlwaysRelevant`, `bOnlyRelevantToOwner` and
`bNetUseOwnerRelevancy` of two default objects agree. -/
def SameThreeBooleans (a b : AActorCDO) : Bool :=
  a.bAlwaysRelevant == b.bAlwaysRelevant
    && a.bOnlyRelevantToOwner == b.bOnlyRelevantToOwner
    && a.bNetUseOwnerRelevancy == b.bNetUseOwnerRelevancy

/-! ## Sequences of routing calls -/

/-- A step of the life of the graph between two gathers: a call of
`RouteAddNetworkActorToNodes`, a call of `RouteRemoveNetworkActorToNodes`, or a change of
the global actor info map by the engine (such as the dormancy wish of an actor). -/
inductive FRouteCall where
  | Add (ActorInfo : FNewReplicatedActorInfo) (GlobalInfo : FGlobalActorReplicationInfo)
  | Remove (ActorInfo : FNewReplicatedActorInfo)
  | UpdateGlobalInfo (GlobalMap : AActor → FGlobalActorReplicationInfo)

/-- The graph after a sequence of routing calls; `none` when a remove fails the check of
`FindChecked`. -/
def RouteCalls : UTestGymsReplicationGraph → List FRouteCall → Option UTestGymsReplicationGraph
  | g, [] => some g
  | g, FRouteCall.Add ActorInfo GlobalInfo :: rest =>
    RouteCalls (RouteAddNetworkActorToNodes g ActorInfo GlobalInfo) rest
  | g, FRouteCall.Remove ActorInfo :: rest =>
    match RouteRemoveNetworkActorToNodes g ActorInfo with
    | none => none
    | some g2 => RouteCalls g2 rest
  | g, FRouteCall.UpdateGlobalInfo GlobalMap :: rest =>
    RouteCalls { g with GlobalActorReplicationInfoMap := GlobalMap } rest

/-- Every call of the sequence names its actor with the class and the streaming level that
the actor has throughout. -/
def ActorsKeepClassAndLevel (ClassOf : AActor → UClass) (LevelOf : AActor → FName) :
    List FRouteCall → Prop
  | [] => True
  | FRouteCall.Add ActorInfo _ :: rest =>
    (ActorInfo.Class = ClassOf ActorInfo.Actor ∧
      ActorInfo.StreamingLevelName = LevelOf ActorInfo.Actor) ∧
    ActorsKeepClassAndLevel ClassOf LevelOf rest
  | FRouteCall.Remove ActorInfo :: rest =>
    (ActorInfo.Class = ClassOf ActorInfo.Actor ∧
      ActorInfo.StreamingLevelName = LevelOf ActorInfo.Actor) ∧
    ActorsKeepClassAndLevel ClassOf LevelOf rest
  | FRouteCall.UpdateGlobalInfo _ :: rest => ActorsKeepClassAndLevel ClassOf LevelOf rest

/-- Every member of a membership list is in the destination that the policy of its class
fixes for it. -/
def UTestGymsReplicationGraph.FiledByPolicy (g : UTestGymsReplicationGraph)
    (ClassOf : AActor → UClass) (LevelOf : AActor → FName) : Prop :=
  ∀ (a : AActor) (L : MembershipList), a ∈ g.listOf L →
    policyDestination g.bUsingSpatial (LevelOf a)
      (GetMappingPolicy g.ClassRepNodePolicies (ClassOf a)).1 = some L.owner

/-- The classes of the sample actors: actor 7 is a game state, every other actor an
`AActor`. -/
def sampleClassOf : AActor → UClass :=
  fun a => if a = 7 then sampleGameStateClass else sampleActorClass

/-- The streaming levels of the sample actors: actor 7 is in `Level1`, every other actor in
the persistent level. -/
def sampleLevelOf : AActor → FName := fun a => if a = 7 then "Level1" else NAME_None

/-- A sequence of routing calls on the sample actors. -/
def sampleRouteCalls : List FRouteCall :=
  [FRouteCall.Add ⟨3, sampleActorClass, NAME_None⟩ ⟨false, ⟨0, 0, 0⟩⟩,
    FRouteCall.Add sampleLevelActorInfo ⟨false, ⟨0, 0, 0⟩⟩,
    FRouteCall.Add ⟨3, sampleActorClass, NAME_None⟩ ⟨true, ⟨0, 0, 0⟩⟩,
    FRouteCall.Remove sampleLevelActorInfo,
    FRouteCall.Add sampleLevelActorInfo ⟨false, ⟨0, 0, 0⟩⟩]

/-! ## The benchmark game mode: actor counts reported by the workers -/

/-- The value an `int32` holds after an addition whose exact result is `x`: the result
wrapped into the range from `-2 ^ 31` to `2 ^ 31 - 1`. -/
def WrapInt32 (x : Int) : Int := (x + 2 ^ 31) % 2 ^ 32 - 2 ^ 31

/-- Modelled from the spec: the engine container `TMap` (not part of the repository
sources), as the list of its pairs in insertion order, one pair per key. -/
abbrev TMap (K V : Type) := List (K × V)

namespace TMap

variable {K V : Type} [DecidableEq K]

/-- Modelled from the spec: `TMap::Find`, the value of a key, null when the key is
absent. -/
def Find : TMap K V → K → Option V
  | [], _ => none
  | (k2, v2) :: rest, k => if k2 = k then some v2 else Find rest k

/-- Modelled from the spec: the assignment `FindOrAdd(k) = v`: the value of the key is
replaced, or a new pair is added at the end. -/
def Assign : TMap K V → K → V → TMap K V
  | [], k, v => [(k, v)]
  | (k2, v2) :: rest, k, v =>
    if k2 = k then (k2, v) :: rest else (k2, v2) :: Assign rest k v

/-- The keys of the map, in insertion order. -/
def Keys (m : TMap K V) : List K := m.map Prod.fst

end TMap

/-- The struct `FActorCount` of a report: a class and the number of its actors the worker
has authority over. -/
structure FActorCount where
  ActorClass : UClass
  Count : Int
  deriving DecidableEq, Repr

/-- The struct `FExpectedActorCountConfig`. -/
structure FExpectedActorCountConfig where
  MinCount : Int
  MaxCount : Int
  deriving DecidableEq, Repr

/-- The members of `ABenchmarkGymGameModeBase` that the actor count reports read and write.
`ActorCountTotalsLogged` counts the lines "--- Actor Count Totals ---" of the log, one per
run of `UpdateAndCheckTotalActorCounts`. -/
structure ABenchmarkGymGameModeBase where
  NumWorkers : Int
  WorkerActorCounts : TMap String (TMap UClass Int)
  ActorCountReportedIdxs : TMap String Int
  TotalActorCounts : TMap UClass Int
  ExpectedActorCounts : TMap UClass FExpectedActorCountConfig
  bActorCountFailureState : Bool
  bHasActorCountFailed : Bool
  ActorCountTotalsLogged : Nat
  deriving DecidableEq, Repr

namespace ABenchmarkGymGameModeBase

/-- The statement `TempTotalActorCounts.FindOrAdd(ActorClass) += ActorCount`; a new entry
starts at zero. -/
def AddToTotal (Temp : TMap UClass Int) (ActorCountPair : UClass × Int) : TMap UClass Int :=
  Temp.Assign ActorCountPair.1
    (WrapInt32 ((Temp.Find ActorCountPair.1).getD 0 + ActorCountPair.2))

/-- The two nested loops of `UpdateAndCheckTotalActorCounts` that fill
`TempTotalActorCounts` from `WorkerActorCounts`. -/
def TempTotalActorCounts (WorkerActorCounts : TMap String (TMap UClass Int)) :
    TMap UClass Int :=
  WorkerActorCounts.foldl (fun Temp WorkerPair => WorkerPair.2.foldl AddToTotal Temp) []

/-- The loop of `UpdateAndCheckTotalActorCounts` over `TempTotalActorCounts`: the total of
the class is stored, and when the actor count is ready to be considered it is compared with
the expected counts. `ExpectedActorCounts[ActorClass]` is a checked lookup: the result is
`none` when the class has no expected count. -/
def StoreAndCheckTotals (bIsReadyToConsiderActorCount : Bool) :
    List (UClass × Int) → ABenchmarkGymGameModeBase → Option ABenchmarkGymGameModeBase
  | [], st => some st
  | (ActorClass, TotalActorCount) :: rest, st =>
    let st := { st with
      TotalActorCounts := st.TotalActorCounts.Assign ActorClass TotalActorCount }
    if bIsReadyToConsiderActorCount then
      match st.ExpectedActorCounts.Find ActorClass with
      | none => none
      | some ExpectedActorCount =>
        if TotalActorCount < ExpectedActorCount.MinCount ∨
            TotalActorCount > ExpectedActorCount.MaxCount then
          StoreAndCheckTotals bIsReadyToConsiderActorCount rest
            { st with bActorCountFailureState := true, bHasActorCountFailed := true }
        else StoreAndCheckTotals bIsReadyToConsiderActorCount rest st
    else StoreAndCheckTotals bIsReadyToConsiderActorCount rest st

/-- The member `UpdateAndCheckTotalActorCounts`. The two arguments are
`Constants->ActorCheckDelay.HasTimerGoneOff()` and `TestLifetimeTimer.HasTimerGoneOff()`;
the constants object is taken to exist, and the timer handle and the metrics are not
represented. -/
def UpdateAndCheckTotalActorCounts (st : ABenchmarkGymGameModeBase)
    (bActorCheckDelayGoneOff bTestLifetimeGoneOff : Bool) : Option ABenchmarkGymGameModeBase :=
  let Temp := TempTotalActorCounts st.WorkerActorCounts
  let st := { st with
    ActorCountTotalsLogged := st.ActorCountTotalsLogged + 1
    bActorCountFailureState := false }
  StoreAndCheckTotals (bActorCheckDelayGoneOff && !bTestLifetimeGoneOff) Temp st

/-- The first loop of `ReportAuthoritativeActorCount_Implementation`, on the map of the
reporting worker. -/
def RecordActorCounts (ActorCountMap : TMap UClass Int) (ActorCounts : List FActorCount) :
    TMap UClass Int :=
  ActorCounts.foldl (fun m ActorCount => m.Assign ActorCount.ActorClass ActorCount.Count)
    ActorCountMap

/-- The loop of `ReportAuthoritativeActorCount_Implementation` that computes
`bAllWorkersInSync`, leaving at the first index that differs. -/
def AllWorkersInSync (WorkerActorCountReportIdx : Int) : List (String × Int) → Bool
  | [] => true
  | Pair :: rest =>
    if Pair.2 ≠ WorkerActorCountReportIdx then false
    else AllWorkersInSync WorkerActorCountReportIdx rest

/-- The state after the report is recorded: the statements of
`ReportAuthoritativeActorCount_Implementation` before its `if`. -/
def RecordReport (st : ABenchmarkGymGameModeBase) (WorkerActorCountReportIdx : Int)
    (WorkerID : String) (ActorCounts : List FActorCount) : ABenchmarkGymGameModeBase :=
  { st with
    WorkerActorCounts :=
      (st.WorkerActorCounts.Assign WorkerID
        (RecordActorCounts ((st.WorkerActorCounts.Find WorkerID).getD []) ActorCounts))
    ActorCountReportedIdxs :=
      (st.ActorCountReportedIdxs.Assign WorkerID WorkerActorCountReportIdx) }

/-- The member `ReportAuthoritativeActorCount_Implementation`; `none` when the checked
lookup of an expected count fails. -/
def ReportAuthoritativeActorCount_Implementation (st : ABenchmarkGymGameModeBase)
    (WorkerActorCountReportIdx : Int) (WorkerID : String) (ActorCounts : List FActorCount)
    (bActorCheckDelayGoneOff bTestLifetimeGoneOff : Bool) : Option ABenchmarkGymGameModeBase :=
  let st := RecordReport st WorkerActorCountReportIdx WorkerID ActorCounts
  if (st.ActorCountReportedIdxs.length : Int) = st.NumWorkers then
    if AllWorkersInSync WorkerActorCountReportIdx st.ActorCountReportedIdxs then
      UpdateAndCheckTotalActorCounts st bActorCheckDelayGoneOff bTestLifetimeGoneOff
    else some st
  else some st

/-- The maps of the game mode hold one pair per key. -/
def WellFormed (st : ABenchmarkGymGameModeBase) : Prop :=
  st.WorkerActorCounts.Keys.Nodup ∧
  (∀ WorkerPair ∈ st.WorkerActorCounts, WorkerPair.2.Keys.Nodup) ∧
  st.ActorCountReportedIdxs.Keys.Nodup

/-- Some worker has a count for the class. -/
def IsReportedClass (WorkerActorCounts : TMap String (TMap UClass Int)) (c : UClass) : Bool :=
  WorkerActorCounts.any (fun WorkerPair => decide (c ∈ WorkerPair.2.Keys))

/-- The sum over the workers of the latest count each has for the class (zero for a worker
that has none). -/
def SumOfLatestCounts (WorkerActorCounts : TMap String (TMap UClass Int)) (c : UClass) : Int :=
  (WorkerActorCounts.map (fun WorkerPair => (WorkerPair.2.Find c).getD 0)).sum

/-- The count the report holds for a class: that of the last element of the array for the
class, if any. -/
def ReportedCount (ActorCounts : List FActorCount) (c : UClass) : Option Int :=
  (ActorCounts.reverse.find? (fun ActorCount => decide (ActorCount.ActorClass = c))).map
    (fun ActorCount => ActorCount.Count)

end ABenchmarkGymGameModeBase

/-- A game mode of two workers in which worker "W1" has reported four pawns at index 7. -/
def sampleGameMode : ABenchmarkGymGameModeBase where
  NumWorkers := 2
  WorkerActorCounts := [("W1", [(samplePawnClass, 4)])]
  ActorCountReportedIdxs := [("W1", 7)]
  TotalActorCounts := []
  ExpectedActorCounts := [(samplePawnClass, ⟨5, 12⟩)]
  bActorCountFailureState := false
  bHasActorCountFailed := false
  ActorCountTotalsLogged := 0

/-! ## Lookup lemmas -/

namespace TClassMap

variable {V : Type}

theorem GetClassInfoForNewClass_r_fst (m : TClassMap V) (orig : UClass) (c : UClass) :
    (GetClassInfoForNewClass_r m orig c).1 = (UClass.chain c).tail.findSome? m := by
  induction c with
  | Object => simp [GetClassInfoForNewClass_r, UClass.chain]
  | derived n b cdo s ih =>
    cases s with
    | Object =>
      cases h : m UClass.Object <;>
        simp [GetClassInfoForNewClass_r, UClass.chain, h]
    | derived n2 b2 cdo2 s2 =>
      cases h : m (UClass.derived n2 b2 cdo2 s2) with
      | none =>
        have := ih
        simp only [GetClassInfoForNewClass_r, h, UClass.chain, List.tail_cons,
          List.findSome?_cons] at this ⊢
        rw [this]
      | some v =>
        simp [GetClassInfoForNewClass_r, UClass.chain, h]

theorem Get_fst (m : TClassMap V) (c : UClass) : (m.Get c).1 = m.nearestEntry c := by
  unfold Get nearestEntry
  cases h : m c with
  | some v => cases c <;> simp [UClass.chain, h]
  | none =>
    simp only [GetClassInfoForNewClass_r_fst]
    cases c <;> simp [UClass.chain, h]

end TClassMap

namespace TClassMap

variable {V : Type}

theorem Set_apply (m : TClassMap V) (c : UClass) (v : V) (k : UClass) :
    (m.Set c v) k = if k = c then some v else m k := rfl

theorem nearestEntry_Set_of_nearest (m : TClassMap V) (T : UClass) (v : V)
    (hT : m.nearestEntry T = some v) (c : UClass) :
    (m.Set T v).nearestEntry c = m.nearestEntry c := by
  induction c with
  | Object =>
    by_cases h : UClass.Object = T
    · subst h
      simp only [nearestEntry, UClass.chain, List.findSome?_cons, List.findSome?_nil] at hT ⊢
      simp only [Set, if_true]
      cases h2 : m UClass.Object with
      | none => simp [h2] at hT
      | some w => simp [h2] at hT; simp [hT]
    · simp [nearestEntry, UClass.chain, List.findSome?_cons, Set_apply, h]
  | derived n b cdo s ih =>
    by_cases h : UClass.derived n b cdo s = T
    · subst h
      rw [hT]
      simp [nearestEntry, UClass.chain, List.findSome?_cons, Set_apply]
    · unfold nearestEntry at ih ⊢
      simp only [UClass.chain, List.findSome?_cons, Set_apply, h, if_false]
      rw [ih]

theorem Get_snd (m : TClassMap V) (c : UClass) :
    (m.Get c).2 = m ∨ ∃ v, m.nearestEntry c = some v ∧ (m.Get c).2 = m.Set c v := by
  have key : ∀ (orig k : UClass),
      (GetClassInfoForNewClass_r m orig k).2 = m ∨
        ∃ v, (GetClassInfoForNewClass_r m orig k).1 = some v ∧
          (GetClassInfoForNewClass_r m orig k).2 = m.Set orig v := by
    intro orig k
    induction k with
    | Object => left; rfl
    | derived n b cdo s ih =>
      cases h : m s with
      | none => simpa [GetClassInfoForNewClass_r, h] using ih
      | some v => right; exact ⟨v, by simp [GetClassInfoForNewClass_r, h]⟩
  cases h : m c with
  | some v => left; simp [Get, h]
  | none =>
    have hfst := Get_fst m c
    simp only [Get, h] at hfst ⊢
    rcases key c c with h1 | ⟨v, h1, h2⟩
    · left; exact h1
    · right; exact ⟨v, by rw [← hfst, h1], h2⟩

theorem nearestEntry_Get_snd (m : TClassMap V) (T c : UClass) :
    (m.Get T).2.nearestEntry c = m.nearestEntry c := by
  rcases Get_snd m T with h | ⟨v, h1, h2⟩
  · rw [h]
  · rw [h2]; exact nearestEntry_Set_of_nearest m T v h1 c

end TClassMap

theorem GetMappingPolicy_fst (m : TClassMap EClassRepNodeMapping) (T : UClass) :
    (GetMappingPolicy m T).1 =
      match m.nearestEntry T with
      | some p => p
      | none => EClassRepNodeMapping.NotRouted := by
  simp only [GetMappingPolicy, TClassMap.Get_fst]

/-- The table left by a lookup answers every later lookup as the table before did. -/
theorem GetMappingPolicy_cached (m : TClassMap EClassRepNodeMapping) (T c : UClass) :
    (GetMappingPolicy (GetMappingPolicy m T).2 c).1 = (GetMappingPolicy m c).1 := by
  rw [GetMappingPolicy_fst, GetMappingPolicy_fst]
  have : (GetMappingPolicy m T).2 = (m.Get T).2 := rfl
  rw [this, TClassMap.nearestEntry_Get_snd]

/-! ## List lemmas -/

namespace FActorRepListRefView

theorem RemoveAtSwap_append_last (l : List AActor) (a : AActor) :
    RemoveAtSwap (l ++ [a]) l.length = l := by
  unfold RemoveAtSwap
  simp

theorem RemoveFast_Add_of_not_mem (l : List AActor) (a : AActor) (h : a ∉ l) :
    RemoveFast (Add l a) a = (true, l) := by
  unfold RemoveFast Add
  have hidx : List.indexOf a (l ++ [a]) = l.length := by
    rw [List.indexOf_append_of_not_mem h]
    simp
  simp [hidx, RemoveAtSwap_append_last]

theorem ConditionalAdd_of_not_mem (l : List AActor) (a : AActor) (h : a ∉ l) :
    ConditionalAdd l a = Add l a := by
  simp [ConditionalAdd, Add, h]

theorem RemoveSlow_Add_of_not_mem (l : List AActor) (a : AActor) (h : a ∉ l) :
    (RemoveSlow (Add l a) a).2 = l := by
  unfold RemoveSlow Add
  simp [List.erase_append_right _ h]

end FActorRepListRefView

namespace UReplicationGraphNode_GridSpatialization2D

theorem Remove_Emplace_of_not_mem (l : List AActor) (a : AActor) (h : a ∉ l) :
    Remove (Emplace l a) a = l := by
  unfold Remove Emplace
  simp only [h, if_false, List.filter_append]
  simp only [List.filter_cons, List.filter_nil, ne_eq, not_true_eq_false, decide_False,
    Bool.false_eq_true, if_false, List.append_nil]
  rw [List.filter_eq_self]
  intro x hx
  simp only [decide_eq_true_eq]
  rintro rfl
  exact h hx

end UReplicationGraphNode_GridSpatialization2D

namespace UReplicationGraphNode_ActorList

theorem LevelList_CollectionAddActor (c : List (FName × FActorRepListRefView)) (n : FName)
    (a : AActor) (k : FName) :
    LevelList (CollectionAddActor c n a) k =
      if k = n then FActorRepListRefView.Add (LevelList c n) a else LevelList c k := by
  induction c with
  | nil =>
    by_cases h : k = n
    · subst h; simp [CollectionAddActor, LevelList, FActorRepListRefView.Add]
    · have h2 : ¬ n = k := fun e => h e.symm
      simp [CollectionAddActor, LevelList, h, h2]
  | cons x xs ih =>
    obtain ⟨x1, x2⟩ := x
    by_cases hx : x1 = n
    · subst hx
      by_cases h : k = x1
      · subst h; simp [CollectionAddActor, LevelList]
      · have h2 : ¬ x1 = k := fun e => h e.symm
        simp [CollectionAddActor, LevelList, h, h2]
    · by_cases h : k = n
      · subst h
        simp only [CollectionAddActor, hx, if_false, LevelList]
        simpa using ih
      · simp only [CollectionAddActor, hx, if_false, LevelList, h] at ih ⊢
        rw [ih]

theorem LevelList_CollectionRemoveActor (c : List (FName × FActorRepListRefView)) (n : FName)
    (a : AActor) (k : FName) :
    LevelList (CollectionRemoveActor c n a).2 k =
      if k = n then (FActorRepListRefView.RemoveSlow (LevelList c n) a).2 else LevelList c k := by
  induction c with
  | nil => simp [CollectionRemoveActor, LevelList, FActorRepListRefView.RemoveSlow]
  | cons x xs ih =>
    obtain ⟨x1, x2⟩ := x
    by_cases hx : x1 = n
    · subst hx
      by_cases h : k = x1
      · subst h; simp [CollectionRemoveActor, LevelList]
      · have h2 : ¬ x1 = k := fun e => h e.symm
        simp [CollectionRemoveActor, LevelList, h, h2]
    · by_cases h : k = n
      · subst h
        simp only [CollectionRemoveActor, hx, if_false, LevelList]
        simpa using ih
      · simp only [CollectionRemoveActor, hx, if_false, LevelList, h] at ih ⊢
        rw [ih]

end UReplicationGraphNode_ActorList

/-! ## What the routing does to each membership list -/

theorem FLevelActorMap.Put_apply (m : FLevelActorMap) (n : FName) (l : FActorRepListRefView)
    (k : FName) : (m.Put n l) k = if n = k then some l else m k := by
  by_cases h : n = k
  · subst h; simp [FLevelActorMap.Put]
  · have h2 : ¬ k = n := fun e => h e.symm
    simp [FLevelActorMap.Put, h, h2]

theorem LevelList_add (c : List (FName × FActorRepListRefView)) (n : FName)
    (a : AActor) (k : FName) :
    UReplicationGraphNode_ActorList.LevelList
        (UReplicationGraphNode_ActorList.CollectionAddActor c n a) k =
      if n = k then FActorRepListRefView.Add (UReplicationGraphNode_ActorList.LevelList c n) a
      else UReplicationGraphNode_ActorList.LevelList c k := by
  rw [UReplicationGraphNode_ActorList.LevelList_CollectionAddActor]
  by_cases h : n = k
  · subst h; simp
  · have h2 : ¬ k = n := fun e => h e.symm
    simp [h, h2]

theorem LevelList_remove (c : List (FName × FActorRepListRefView)) (n : FName)
    (a : AActor) (k : FName) :
    UReplicationGraphNode_ActorList.LevelList
        (UReplicationGraphNode_ActorList.CollectionRemoveActor c n a).2 k =
      if n = k then
        (FActorRepListRefView.RemoveSlow (UReplicationGraphNode_ActorList.LevelList c n) a).2
      else UReplicationGraphNode_ActorList.LevelList c k := by
  rw [UReplicationGraphNode_ActorList.LevelList_CollectionRemoveActor]
  by_cases h : n = k
  · subst h; simp
  · have h2 : ¬ k = n := fun e => h e.symm
    simp [h, h2]

theorem RouteAdd_bUsingSpatial (g : UTestGymsReplicationGraph) (i : FNewReplicatedActorInfo)
    (G : FGlobalActorReplicationInfo) :
    (RouteAddNetworkActorToNodes g i G).bUsingSpatial = g.bUsingSpatial := by
  unfold RouteAddNetworkActorToNodes
  simp only
  split <;> try rfl
  split <;> rfl

theorem RouteAdd_GlobalMap (g : UTestGymsReplicationGraph) (i : FNewReplicatedActorInfo)
    (G : FGlobalActorReplicationInfo) :
    (RouteAddNetworkActorToNodes g i G).GlobalActorReplicationInfoMap =
      g.GlobalActorReplicationInfoMap := by
  unfold RouteAddNetworkActorToNodes
  simp only
  split <;> try rfl
  split <;> rfl

theorem RouteAdd_ClassRepNodePolicies (g : UTestGymsReplicationGraph)
    (i : FNewReplicatedActorInfo) (G : FGlobalActorReplicationInfo) :
    (RouteAddNetworkActorToNodes g i G).ClassRepNodePolicies =
      (GetMappingPolicy g.ClassRepNodePolicies i.Class).2 := by
  unfold RouteAddNetworkActorToNodes
  simp only
  split <;> try rfl
  split <;> rfl

theorem listOf_RouteAdd (g : UTestGymsReplicationGraph) (i : FNewReplicatedActorInfo)
    (G : FGlobalActorReplicationInfo) (L : MembershipList) :
    (RouteAddNetworkActorToNodes g i G).listOf L =
      if policyList g.bUsingSpatial i.StreamingLevelName G.bWantsToBeDormant
          (GetMappingPolicy g.ClassRepNodePolicies i.Class).1 = some L
      then L.addActor (g.listOf L) i.Actor else g.listOf L := by
  cases hP : (GetMappingPolicy g.ClassRepNodePolicies i.Class).1 <;>
  cases L <;>
  simp only [RouteAddNetworkActorToNodes, hP, UTestGymsReplicationGraph.listOf, policyList,
    MembershipList.addActor, UReplicationGraphNode_ActorList.NotifyAddNetworkActor,
    UTestGymsReplicationGraphNode_NearestActors.NotifyAddNetworkActor,
    UReplicationGraphNode_GridSpatialization2D.AddActor_Static,
    UReplicationGraphNode_GridSpatialization2D.AddActor_Dynamic,
    UReplicationGraphNode_GridSpatialization2D.AddActor_Dormancy,
    LevelList_add, FLevelActorMap.Put_apply] <;>
  (try split_ifs) <;> (try rfl) <;>
  simp_all [LevelList_add, FLevelActorMap.Put_apply]

theorem listOf_RouteRemove (g g' : UTestGymsReplicationGraph) (i : FNewReplicatedActorInfo)
    (h : RouteRemoveNetworkActorToNodes g i = some g') (L : MembershipList) :
    g'.listOf L =
      if policyList g.bUsingSpatial i.StreamingLevelName
          (g.GlobalActorReplicationInfoMap i.Actor).bWantsToBeDormant
          (GetMappingPolicy g.ClassRepNodePolicies i.Class).1 = some L
      then L.removeActor (g.listOf L) i.Actor else g.listOf L := by
  unfold RouteRemoveNetworkActorToNodes at h
  cases hP : (GetMappingPolicy g.ClassRepNodePolicies i.Class).1 <;>
  simp only [hP] at h <;>
  (try split_ifs at h) <;>
  (try split at h) <;>
  (try (injection h with h)) <;>
  (try subst h) <;>
  cases L <;>
  simp only [UTestGymsReplicationGraph.listOf, policyList,
    MembershipList.removeActor, UReplicationGraphNode_ActorList.NotifyRemoveNetworkActor,
    UTestGymsReplicationGraphNode_NearestActors.NotifyRemoveNetworkActor,
    UReplicationGraphNode_GridSpatialization2D.RemoveActor_Static,
    UReplicationGraphNode_GridSpatialization2D.RemoveActor_Dynamic,
    UReplicationGraphNode_GridSpatialization2D.RemoveActor_Dormancy,
    LevelList_remove, FLevelActorMap.Put_apply] <;>
  (try split_ifs) <;> (try rfl) <;>
  simp_all [LevelList_remove, FLevelActorMap.Put_apply]

theorem RouteRemove_eq_none_iff (g : UTestGymsReplicationGraph) (i : FNewReplicatedActorInfo) :
    RouteRemoveNetworkActorToNodes g i = none ↔
      policyDestination g.bUsingSpatial i.StreamingLevelName
          (GetMappingPolicy g.ClassRepNodePolicies i.Class).1 =
        some (Destination.StreamingLevelList i.StreamingLevelName) ∧
      g.AlwaysRelevantStreamingLevelActors i.StreamingLevelName = none := by
  unfold RouteRemoveNetworkActorToNodes
  cases hP : (GetMappingPolicy g.ClassRepNodePolicies i.Class).1 <;>
  simp only [hP, policyDestination] <;>
  (try split_ifs) <;> (try split) <;> simp_all

theorem RouteRemove_fields (g g' : UTestGymsReplicationGraph) (i : FNewReplicatedActorInfo)
    (h : RouteRemoveNetworkActorToNodes g i = some g') :
    g'.bUsingSpatial = g.bUsingSpatial ∧
    g'.GlobalActorReplicationInfoMap = g.GlobalActorReplicationInfoMap ∧
    g'.ClassRepNodePolicies = (GetMappingPolicy g.ClassRepNodePolicies i.Class).2 := by
  unfold RouteRemoveNetworkActorToNodes at h
  cases hP : (GetMappingPolicy g.ClassRepNodePolicies i.Class).1 <;>
  simp only [hP] at h <;>
  (try split_ifs at h) <;>
  (try split at h) <;>
  (try (injection h with h)) <;>
  (try subst h) <;>
  simp_all

theorem policyList_owner (bUsingSpatial : Bool) (n : FName) (d : Bool)
    (P : EClassRepNodeMapping) :
    (policyList bUsingSpatial n d P).map MembershipList.owner =
      policyDestination bUsingSpatial n P := by
  cases P <;> simp only [policyList, policyDestination] <;>
  (try split_ifs) <;> simp_all [MembershipList.owner]

theorem RouteAdd_level_entry (g : UTestGymsReplicationGraph) (i : FNewReplicatedActorInfo)
    (G : FGlobalActorReplicationInfo)
    (h : policyDestination g.bUsingSpatial i.StreamingLevelName
        (GetMappingPolicy g.ClassRepNodePolicies i.Class).1 =
      some (Destination.StreamingLevelList i.StreamingLevelName)) :
    (RouteAddNetworkActorToNodes g i G).AlwaysRelevantStreamingLevelActors
      i.StreamingLevelName ≠ none := by
  unfold RouteAddNetworkActorToNodes
  cases hP : (GetMappingPolicy g.ClassRepNodePolicies i.Class).1 <;>
  simp only [hP, policyDestination] at h ⊢ <;>
  (try split_ifs at h) <;> simp_all [FLevelActorMap.Put_apply]

theorem MembershipList.mem_addActor (L : MembershipList) (l : List AActor) (a : AActor) :
    a ∈ L.addActor l a := by
  cases L <;>
  simp only [MembershipList.addActor, FActorRepListRefView.Add,
    FActorRepListRefView.ConditionalAdd, UReplicationGraphNode_GridSpatialization2D.Emplace] <;>
  (try split_ifs) <;> simp_all

theorem MembershipList.removeActor_addActor (L : MembershipList) (l : List AActor) (a : AActor)
    (h : a ∉ l) : L.removeActor (L.addActor l a) a = l := by
  cases L <;> simp only [MembershipList.addActor, MembershipList.removeActor]
  · exact FActorRepListRefView.RemoveSlow_Add_of_not_mem l a h
  · exact FActorRepListRefView.RemoveSlow_Add_of_not_mem l a h
  · rw [FActorRepListRefView.ConditionalAdd_of_not_mem l a h,
      FActorRepListRefView.RemoveFast_Add_of_not_mem l a h]
  · rw [FActorRepListRefView.RemoveFast_Add_of_not_mem l a h]
  · rw [FActorRepListRefView.RemoveFast_Add_of_not_mem l a h]
  · exact UReplicationGraphNode_GridSpatialization2D.Remove_Emplace_of_not_mem l a h
  · exact UReplicationGraphNode_GridSpatialization2D.Remove_Emplace_of_not_mem l a h

/-! ## C1: add followed by remove -/

/-- C1. For a policy that has a destination and an actor that is in no membership list,
`RouteAddNetworkActorToNodes` followed at once by `RouteRemoveNetworkActorToNodes` for the
same actor info (the global info handed to the add being the entry of the actor in the
global map) completes, the actor is in the list it was filed in after the add and not in it
after the remove, and every membership list holds exactly what it held before the add. -/
theorem C1_route_add_then_remove_restores (g : UTestGymsReplicationGraph)
    (ActorInfo : FNewReplicatedActorInfo)
    (hdest : policyDestination g.bUsingSpatial ActorInfo.StreamingLevelName
      (GetMappingPolicy g.ClassRepNodePolicies ActorInfo.Class).1 ≠ none)
    (hfresh : ∀ L : MembershipList, ActorInfo.Actor ∉ g.listOf L) :
    ∃ g2 : UTestGymsReplicationGraph,
      RouteRemoveNetworkActorToNodes
          (RouteAddNetworkActorToNodes g ActorInfo
            (g.GlobalActorReplicationInfoMap ActorInfo.Actor)) ActorInfo = some g2 ∧
      (∃ T : MembershipList,
        policyList g.bUsingSpatial ActorInfo.StreamingLevelName
            (g.GlobalActorReplicationInfoMap ActorInfo.Actor).bWantsToBeDormant
            (GetMappingPolicy g.ClassRepNodePolicies ActorInfo.Class).1 = some T ∧
        ActorInfo.Actor ∈ (RouteAddNetworkActorToNodes g ActorInfo
            (g.GlobalActorReplicationInfoMap ActorInfo.Actor)).listOf T ∧
        ActorInfo.Actor ∉ g2.listOf T) ∧
      (∀ L : MembershipList, g2.listOf L = g.listOf L) := by
  have hspatial := RouteAdd_bUsingSpatial g ActorInfo
    (g.GlobalActorReplicationInfoMap ActorInfo.Actor)
  have hmap := RouteAdd_GlobalMap g ActorInfo (g.GlobalActorReplicationInfoMap ActorInfo.Actor)
  have hpol : (GetMappingPolicy (RouteAddNetworkActorToNodes g ActorInfo
      (g.GlobalActorReplicationInfoMap ActorInfo.Actor)).ClassRepNodePolicies
        ActorInfo.Class).1 = (GetMappingPolicy g.ClassRepNodePolicies ActorInfo.Class).1 := by
    rw [RouteAdd_ClassRepNodePolicies, GetMappingPolicy_cached]
  have hsome : RouteRemoveNetworkActorToNodes
      (RouteAddNetworkActorToNodes g ActorInfo
        (g.GlobalActorReplicationInfoMap ActorInfo.Actor)) ActorInfo ≠ none := by
    intro hnone
    rw [RouteRemove_eq_none_iff, hspatial, hpol] at hnone
    exact RouteAdd_level_entry g ActorInfo _ hnone.1 hnone.2
  obtain ⟨g2, hg2⟩ := Option.ne_none_iff_exists'.mp hsome
  have hall : ∀ L : MembershipList, g2.listOf L = g.listOf L := by
    intro L
    rw [listOf_RouteRemove _ _ _ hg2 L, hspatial, hmap, hpol, listOf_RouteAdd]
    split_ifs with hL
    · exact MembershipList.removeActor_addActor L _ _ (hfresh L)
    · rfl
  refine ⟨g2, hg2, ?_, hall⟩
  have hown := policyList_owner g.bUsingSpatial ActorInfo.StreamingLevelName
    (g.GlobalActorReplicationInfoMap ActorInfo.Actor).bWantsToBeDormant
    (GetMappingPolicy g.ClassRepNodePolicies ActorInfo.Class).1
  cases hT : policyList g.bUsingSpatial ActorInfo.StreamingLevelName
      (g.GlobalActorReplicationInfoMap ActorInfo.Actor).bWantsToBeDormant
      (GetMappingPolicy g.ClassRepNodePolicies ActorInfo.Class).1 with
  | none =>
    rw [hT] at hown
    exact absurd hown.symm hdest
  | some T =>
    refine ⟨T, rfl, ?_, ?_⟩
    · rw [listOf_RouteAdd, hT, if_pos rfl]
      exact MembershipList.mem_addActor T _ _
    · rw [hall T]
      exact hfresh T

theorem sampleGraph_fresh (a : AActor) : ∀ L : MembershipList, a ∉ sampleGraph.listOf L := by
  intro L
  cases L <;> simp [sampleGraph, UTestGymsReplicationGraph.listOf,
    UReplicationGraphNode_ActorList.LevelList]

/-- C1 at a game state actor of streaming level `Level1` in an empty graph without spatial
networking: its class inherits `RelevantAllConnections` from `AInfo`. -/
theorem C1_route_add_then_remove_restores_witness :
    ∃ g2 : UTestGymsReplicationGraph,
      RouteRemoveNetworkActorToNodes
          (RouteAddNetworkActorToNodes sampleGraph sampleLevelActorInfo
            (sampleGraph.GlobalActorReplicationInfoMap sampleLevelActorInfo.Actor))
          sampleLevelActorInfo = some g2 ∧
      (∃ T : MembershipList,
        policyList sampleGraph.bUsingSpatial sampleLevelActorInfo.StreamingLevelName
            (sampleGraph.GlobalActorReplicationInfoMap
              sampleLevelActorInfo.Actor).bWantsToBeDormant
            (GetMappingPolicy sampleGraph.ClassRepNodePolicies
              sampleLevelActorInfo.Class).1 = some T ∧
        sampleLevelActorInfo.Actor ∈ (RouteAddNetworkActorToNodes sampleGraph
            sampleLevelActorInfo
            (sampleGraph.GlobalActorReplicationInfoMap sampleLevelActorInfo.Actor)).listOf T ∧
        sampleLevelActorInfo.Actor ∉ g2.listOf T) ∧
      (∀ L : MembershipList, g2.listOf L = sampleGraph.listOf L) :=
  C1_route_add_then_remove_restores sampleGraph sampleLevelActorInfo (by decide)
    (sampleGraph_fresh _)

/-! ## C2: classification by the nearest ancestor with an entry -/

/-- C2. For every class `T`, `GetMappingPolicy` returns one policy: the entry of the nearest
class on the ancestor chain of `T` (`T` itself first) that has an entry in
`ClassRepNodePolicies`, and `NotRouted` when no class of the chain has one. In particular,
when `T` has no entry of its own and `A` is the nearest class of its chain that has one,
`T` is classified as `A` is, namely by the entry of `A`. -/
theorem C2_GetMappingPolicy_nearest_ancestor (ClassRepNodePolicies : TClassMap EClassRepNodeMapping)
    (T : UClass) :
    (GetMappingPolicy ClassRepNodePolicies T).1 =
        (match (UClass.chain T).findSome? ClassRepNodePolicies with
          | some p => p
          | none => EClassRepNodeMapping.NotRouted) ∧
    ((∀ c ∈ UClass.chain T, ClassRepNodePolicies c = none) →
        (GetMappingPolicy ClassRepNodePolicies T).1 = EClassRepNodeMapping.NotRouted) ∧
    (∀ A : UClass, ClassRepNodePolicies T = none →
        (UClass.chain T).find? (fun c => (ClassRepNodePolicies c).isSome) = some A →
        ClassRepNodePolicies A = some (GetMappingPolicy ClassRepNodePolicies T).1 ∧
        (GetMappingPolicy ClassRepNodePolicies T).1 =
          (GetMappingPolicy ClassRepNodePolicies A).1) := by
  have h1 := GetMappingPolicy_fst ClassRepNodePolicies T
  unfold TClassMap.nearestEntry at h1
  refine ⟨h1, ?_, ?_⟩
  · intro hall
    rw [h1]
    have : (UClass.chain T).findSome? ClassRepNodePolicies = none := by
      rw [List.findSome?_eq_none_iff]
      exact hall
    rw [this]
  · intro A _ hA
    have hpre : ∀ (l : List UClass),
        l.find? (fun c => (ClassRepNodePolicies c).isSome) = some A →
        l.findSome? ClassRepNodePolicies = ClassRepNodePolicies A ∧
          (ClassRepNodePolicies A).isSome = true := by
      intro l
      induction l with
      | nil => simp
      | cons x xs ih =>
        intro hx
        cases hm : ClassRepNodePolicies x with
        | none =>
          simp only [List.find?_cons, hm, Option.isSome_none] at hx
          simpa [List.findSome?_cons, hm] using ih hx
        | some p =>
          simp only [List.find?_cons, hm, Option.isSome_some, Option.some.injEq] at hx
          subst hx
          simp [List.findSome?_cons, hm]
    obtain ⟨hfs, hsome⟩ := hpre _ hA
    obtain ⟨p, hp⟩ := Option.isSome_iff_exists.mp hsome
    rw [hfs, hp] at h1
    refine ⟨by rw [h1, hp], ?_⟩
    rw [h1]
    simp [GetMappingPolicy, TClassMap.Get, hp]

/-- C2 at the sample table: `AGameStateBase` has no entry and is classified by the entry of
`AInfo`; in the empty table `AActor` is `NotRouted`. -/
theorem C2_GetMappingPolicy_nearest_ancestor_witness :
    (samplePolicies sampleInfoClass =
        some (GetMappingPolicy samplePolicies sampleGameStateClass).1 ∧
      (GetMappingPolicy samplePolicies sampleGameStateClass).1 =
        (GetMappingPolicy samplePolicies sampleInfoClass).1) ∧
    (GetMappingPolicy TClassMap.empty sampleActorClass).1 = EClassRepNodeMapping.NotRouted :=
  ⟨(C2_GetMappingPolicy_nearest_ancestor samplePolicies sampleGameStateClass).2.2
      sampleInfoClass (by decide) (by decide),
    (C2_GetMappingPolicy_nearest_ancestor TClassMap.empty sampleActorClass).2.1
      (fun _ _ => rfl)⟩

/-! ## C3: one destination per routing call -/

/-- C3. `RouteAddNetworkActorToNodes` and `RouteRemoveNetworkActorToNodes` each leave every
membership list unchanged except at most one list, which belongs to the destination fixed
by the policy tag (`policyDestination`: for `RelevantAllConnections` the always-relevant
node when the streaming level is `NAME_None` or spatial networking is on, otherwise the
list of that level). Both use the same destination for the same actor info, nothing changes
for `NotRouted`, the add always completes, and the remove completes unless its destination
is the list of a streaming level that has no list. -/
theorem C3_route_touches_one_destination (g : UTestGymsReplicationGraph)
    (ActorInfo : FNewReplicatedActorInfo) (GlobalInfo : FGlobalActorReplicationInfo) :
    (∀ L : MembershipList,
      policyDestination g.bUsingSpatial ActorInfo.StreamingLevelName
          (GetMappingPolicy g.ClassRepNodePolicies ActorInfo.Class).1 ≠ some L.owner →
      (RouteAddNetworkActorToNodes g ActorInfo GlobalInfo).listOf L = g.listOf L) ∧
    (∃ T : Option MembershipList,
      T.map MembershipList.owner =
        policyDestination g.bUsingSpatial ActorInfo.StreamingLevelName
          (GetMappingPolicy g.ClassRepNodePolicies ActorInfo.Class).1 ∧
      ∀ L : MembershipList, T ≠ some L →
        (RouteAddNetworkActorToNodes g ActorInfo GlobalInfo).listOf L = g.listOf L) ∧
    (∀ g' : UTestGymsReplicationGraph, RouteRemoveNetworkActorToNodes g ActorInfo = some g' →
      (∀ L : MembershipList,
        policyDestination g.bUsingSpatial ActorInfo.StreamingLevelName
            (GetMappingPolicy g.ClassRepNodePolicies ActorInfo.Class).1 ≠ some L.owner →
        g'.listOf L = g.listOf L) ∧
      (∃ T : Option MembershipList,
        T.map MembershipList.owner =
          policyDestination g.bUsingSpatial ActorInfo.StreamingLevelName
            (GetMappingPolicy g.ClassRepNodePolicies ActorInfo.Class).1 ∧
        ∀ L : MembershipList, T ≠ some L → g'.listOf L = g.listOf L)) ∧
    (RouteRemoveNetworkActorToNodes g ActorInfo = none ↔
      policyDestination g.bUsingSpatial ActorInfo.StreamingLevelName
          (GetMappingPolicy g.ClassRepNodePolicies ActorInfo.Class).1 =
        some (Destination.StreamingLevelList ActorInfo.StreamingLevelName) ∧
      g.AlwaysRelevantStreamingLevelActors ActorInfo.StreamingLevelName = none) ∧
    ((GetMappingPolicy g.ClassRepNodePolicies ActorInfo.Class).1 =
        EClassRepNodeMapping.NotRouted →
      (∀ L : MembershipList,
        (RouteAddNetworkActorToNodes g ActorInfo GlobalInfo).listOf L = g.listOf L) ∧
      ∃ g' : UTestGymsReplicationGraph,
        RouteRemoveNetworkActorToNodes g ActorInfo = some g' ∧
        ∀ L : MembershipList, g'.listOf L = g.listOf L) := by
  have hadd : ∀ (d : Bool) (L : MembershipList),
      policyDestination g.bUsingSpatial ActorInfo.StreamingLevelName
          (GetMappingPolicy g.ClassRepNodePolicies ActorInfo.Class).1 ≠ some L.owner →
      policyList g.bUsingSpatial ActorInfo.StreamingLevelName d
          (GetMappingPolicy g.ClassRepNodePolicies ActorInfo.Class).1 ≠ some L := by
    intro d L hne hL
    apply hne
    rw [← policyList_owner g.bUsingSpatial ActorInfo.StreamingLevelName d, hL]
    rfl
  refine ⟨?_, ?_, ?_, RouteRemove_eq_none_iff g ActorInfo, ?_⟩
  · intro L hne
    rw [listOf_RouteAdd, if_neg (hadd _ L hne)]
  · exact ⟨_, policyList_owner g.bUsingSpatial ActorInfo.StreamingLevelName
      GlobalInfo.bWantsToBeDormant _, fun L hne => by rw [listOf_RouteAdd, if_neg hne]⟩
  · intro g' hg'
    refine ⟨?_, ?_⟩
    · intro L hne
      rw [listOf_RouteRemove g g' ActorInfo hg' L, if_neg (hadd _ L hne)]
    · exact ⟨_, policyList_owner g.bUsingSpatial ActorInfo.StreamingLevelName
        (g.GlobalActorReplicationInfoMap ActorInfo.Actor).bWantsToBeDormant _,
        fun L hne => by rw [listOf_RouteRemove g g' ActorInfo hg' L, if_neg hne]⟩
  · intro hP
    refine ⟨?_, ?_⟩
    · intro L
      rw [listOf_RouteAdd, hP]
      simp [policyList]
    · have hsome : RouteRemoveNetworkActorToNodes g ActorInfo ≠ none := by
        rw [Ne, RouteRemove_eq_none_iff, hP]
        simp [policyDestination]
      obtain ⟨g', hg'⟩ := Option.ne_none_iff_exists'.mp hsome
      refine ⟨g', hg', fun L => ?_⟩
      rw [listOf_RouteRemove g g' ActorInfo hg' L, hP]
      simp [policyList]

/-- C3 at the sample graph: filing a game state actor of `Level1` leaves the static grid set
as it was, and an actor of a class without any entry changes no list. -/
theorem C3_route_touches_one_destination_witness :
    (RouteAddNetworkActorToNodes sampleGraph sampleLevelActorInfo ⟨false, ⟨0, 0, 0⟩⟩).listOf
        MembershipList.GridStatic = sampleGraph.listOf MembershipList.GridStatic ∧
    ((∀ L : MembershipList,
        (RouteAddNetworkActorToNodes sampleGraph ⟨3, UClass.Object, NAME_None⟩
          ⟨false, ⟨0, 0, 0⟩⟩).listOf L =
          sampleGraph.listOf L) ∧
      ∃ g' : UTestGymsReplicationGraph,
        RouteRemoveNetworkActorToNodes sampleGraph ⟨3, UClass.Object, NAME_None⟩ = some g' ∧
        ∀ L : MembershipList, g'.listOf L = sampleGraph.listOf L) :=
  ⟨(C3_route_touches_one_destination sampleGraph sampleLevelActorInfo ⟨false, ⟨0, 0, 0⟩⟩).1
      MembershipList.GridStatic (by decide),
    (C3_route_touches_one_destination sampleGraph ⟨3, UClass.Object, NAME_None⟩
      ⟨false, ⟨0, 0, 0⟩⟩).2.2.2.2 (by decide)⟩

/-! ## The frequency limiter: bucket lemmas -/

namespace UTestGymsReplicationGraphNode_PlayerStateFrequencyLimiter

theorem CurrentListAdd_ne_nil (Lists : List FActorRepListRefView) (PS : AActor)
    (h : Lists ≠ []) : CurrentListAdd Lists PS ≠ [] := by
  match Lists, h with
  | [l], _ => simp [CurrentListAdd]
  | l :: l2 :: rest, _ => simp [CurrentListAdd]

theorem CurrentListAdd_flatten (Lists : List FActorRepListRefView) (PS : AActor)
    (h : Lists ≠ []) : (CurrentListAdd Lists PS).flatten = Lists.flatten ++ [PS] := by
  induction Lists with
  | nil => exact absurd rfl h
  | cons l rest ih =>
    cases rest with
    | nil => simp [CurrentListAdd, FActorRepListRefView.Add]
    | cons l2 rest2 =>
      have := ih (by simp)
      simp only [CurrentListAdd, List.flatten_cons] at this ⊢
      rw [this]
      simp

theorem PrepareLoopBody_spec (T : Int) (valid : AActor → Bool)
    (st : List FActorRepListRefView × FActorRepListRefView) (PS : AActor) (h : st.1 ≠ []) :
    (PrepareLoopBody T valid st PS).1 ≠ [] ∧
    (PrepareLoopBody T valid st PS).1.flatten = st.1.flatten ++ [PS].filter valid := by
  unfold PrepareLoopBody
  by_cases hv : valid PS = false
  · simp [hv, h]
  · have hv2 : valid PS = true := by simpa using hv
    rw [if_neg hv]
    simp only
    split_ifs
    · refine ⟨CurrentListAdd_ne_nil _ _ (by simp), ?_⟩
      rw [CurrentListAdd_flatten _ _ (by simp)]
      simp [hv2]
    · refine ⟨CurrentListAdd_ne_nil _ _ h, ?_⟩
      rw [CurrentListAdd_flatten _ _ h]
      simp [hv2]

theorem PrepareLoop_spec (T : Int) (valid : AActor → Bool) (World : List AActor) :
    ∀ st : List FActorRepListRefView × FActorRepListRefView, st.1 ≠ [] →
      (World.foldl (PrepareLoopBody T valid) st).1 ≠ [] ∧
      (World.foldl (PrepareLoopBody T valid) st).1.flatten =
        st.1.flatten ++ World.filter valid := by
  induction World with
  | nil => intro st h; simp [h]
  | cons PS rest ih =>
    intro st h
    obtain ⟨h1, h2⟩ := PrepareLoopBody_spec T valid st PS h
    obtain ⟨h3, h4⟩ := ih _ h1
    refine ⟨by simpa using h3, ?_⟩
    simp only [List.foldl_cons]
    rw [h4, h2]
    by_cases hv : valid PS = true <;> simp [List.filter_cons, hv]

theorem PrepareForReplication_flatten
    (node : UTestGymsReplicationGraphNode_PlayerStateFrequencyLimiter)
    (World : List AActor) (valid : AActor → Bool) :
    (PrepareForReplication node World valid).ReplicationActorLists.flatten =
      World.filter valid := by
  have := (PrepareLoop_spec node.TargetActorsPerFrame valid World ([[]], []) (by simp)).2
  simpa [PrepareForReplication] using this

theorem PrepareForReplication_length_pos
    (node : UTestGymsReplicationGraphNode_PlayerStateFrequencyLimiter)
    (World : List AActor) (valid : AActor → Bool) :
    0 < (PrepareForReplication node World valid).ReplicationActorLists.length := by
  have := (PrepareLoop_spec node.TargetActorsPerFrame valid World ([[]], []) (by simp)).1
  exact List.length_pos.mpr (by simpa [PrepareForReplication] using this)

theorem PrepareForReplication_idem
    (node : UTestGymsReplicationGraphNode_PlayerStateFrequencyLimiter)
    (World : List AActor) (valid : AActor → Bool) :
    PrepareForReplication (PrepareForReplication node World valid) World valid =
      PrepareForReplication node World valid := rfl

theorem Tick_eq (node : UTestGymsReplicationGraphNode_PlayerStateFrequencyLimiter)
    (World : List AActor) (valid : AActor → Bool) (f : Nat) :
    Tick node World valid f =
      some (PrepareForReplication node World valid,
        [(PrepareForReplication node World valid).ReplicationActorLists.getD
          (f % (PrepareForReplication node World valid).ReplicationActorLists.length) []]) := by
  have hpos := PrepareForReplication_length_pos node World valid
  have hlt : f % (PrepareForReplication node World valid).ReplicationActorLists.length <
      (PrepareForReplication node World valid).ReplicationActorLists.length :=
    Nat.mod_lt _ hpos
  have hforce : (PrepareForReplication node World valid).ForceNetUpdateReplicationActorList
      = [] := rfl
  unfold Tick GatherActorListsForConnection
  rw [if_neg (Nat.pos_iff_ne_zero.mp hpos)]
  simp only [hforce, List.length_nil, gt_iff_lt, lt_self_iff_false, if_false]
  rw [List.getElem?_eq_getElem hlt, List.getD_eq_getElem _ _ hlt]

theorem RunTicks_eq (World : List AActor) (valid : AActor → Bool) (n : Nat) :
    ∀ (node : UTestGymsReplicationGraphNode_PlayerStateFrequencyLimiter) (f : Nat),
      f < 2 ^ 32 →
      RunTicks World valid n node f =
        some ((List.range n).map (fun i =>
          (PrepareForReplication node World valid).ReplicationActorLists.getD
            ((f + i) % 2 ^ 32 %
              (PrepareForReplication node World valid).ReplicationActorLists.length) [])) := by
  induction n with
  | zero => intro node f _; simp [RunTicks]
  | succ n ih =>
    intro node f hf
    have hnext : (f + 1) % 2 ^ 32 < 2 ^ 32 := Nat.mod_lt _ (by norm_num)
    simp only [RunTicks, Tick_eq, ih _ _ hnext, PrepareForReplication_idem]
    rw [List.range_succ_eq_map]
    simp only [List.map_cons, List.map_map, Nat.add_zero, List.singleton_append]
    rw [Nat.mod_eq_of_lt hf]
    congr 2
    apply List.map_congr_left
    intro i _
    simp only [Function.comp]
    congr 2
    omega

theorem range_map_getD_eq_rotate (l : List FActorRepListRefView) (f : Nat) :
    (List.range l.length).map (fun i => l.getD ((f + i) % l.length) []) = l.rotate f := by
  apply List.ext_getElem
  · simp
  · intro k h1 h2
    have hk : k < l.length := by simpa using h1
    have hpos : 0 < l.length := by omega
    have hlt : (f + k) % l.length < l.length := Nat.mod_lt _ hpos
    rw [List.getElem_rotate]
    simp only [List.getElem_map, List.getElem_range]
    rw [List.getD_eq_getElem _ _ hlt]
    congr 1
    rw [Nat.add_comm]

theorem RunTicks_eq_rotate (World : List AActor) (valid : AActor → Bool)
    (node : UTestGymsReplicationGraphNode_PlayerStateFrequencyLimiter) (f : Nat)
    (hf : f < 2 ^ 32)
    (hwindow :
      f + (PrepareForReplication node World valid).ReplicationActorLists.length ≤ 2 ^ 32 ∨
      (PrepareForReplication node World valid).ReplicationActorLists.length ∣ 2 ^ 32) :
    RunTicks World valid (PrepareForReplication node World valid).ReplicationActorLists.length
        node f =
      some ((PrepareForReplication node World valid).ReplicationActorLists.rotate f) := by
  rw [RunTicks_eq World valid _ node f hf, ← range_map_getD_eq_rotate]
  congr 1
  apply List.map_congr_left
  intro i hi
  have hi2 := List.mem_range.mp hi
  have hidx : (f + i) % 2 ^ 32 %
        (PrepareForReplication node World valid).ReplicationActorLists.length =
      (f + i) % (PrepareForReplication node World valid).ReplicationActorLists.length := by
    rcases hwindow with h | h
    · have hlt : f + i < 2 ^ 32 := by omega
      rw [Nat.mod_eq_of_lt hlt]
    · exact Nat.mod_mod_of_dvd _ h
  simp only [hidx]

end UTestGymsReplicationGraphNode_PlayerStateFrequencyLimiter

/-! ## C5: the buckets hold the valid player states -/

/-- C5. After `PrepareForReplication`, whatever the node held before, the concatenation of
the buckets in order is the list of world player states, in iteration order, that pass
`IsActorValidForReplicationGather`. Hence (the world iterator yielding each player state
once) every valid player state is in exactly one bucket exactly once, and every bucket
member is a valid player state of the world. -/
theorem C5_prepare_buckets_hold_valid_population
    (node : UTestGymsReplicationGraphNode_PlayerStateFrequencyLimiter)
    (WorldPlayerStates : List AActor) (IsActorValidForReplicationGather : AActor → Bool) :
    (UTestGymsReplicationGraphNode_PlayerStateFrequencyLimiter.PrepareForReplication node
        WorldPlayerStates IsActorValidForReplicationGather).ReplicationActorLists.flatten =
      WorldPlayerStates.filter IsActorValidForReplicationGather ∧
    (WorldPlayerStates.Nodup → ∀ PS ∈ WorldPlayerStates,
      IsActorValidForReplicationGather PS = true →
      (((UTestGymsReplicationGraphNode_PlayerStateFrequencyLimiter.PrepareForReplication node
        WorldPlayerStates IsActorValidForReplicationGather).ReplicationActorLists).map
          (List.count PS)).sum = 1) ∧
    (∀ Bucket ∈ (UTestGymsReplicationGraphNode_PlayerStateFrequencyLimiter.PrepareForReplication
        node WorldPlayerStates IsActorValidForReplicationGather).ReplicationActorLists,
      ∀ PS ∈ Bucket, IsActorValidForReplicationGather PS = true ∧ PS ∈ WorldPlayerStates) := by
  have hflat := UTestGymsReplicationGraphNode_PlayerStateFrequencyLimiter.PrepareForReplication_flatten
    node WorldPlayerStates IsActorValidForReplicationGather
  refine ⟨hflat, ?_, ?_⟩
  · intro hnd PS hmem hvalid
    rw [← List.count_flatten, hflat]
    exact List.count_eq_one_of_mem (hnd.filter _) (List.mem_filter.mpr ⟨hmem, hvalid⟩)
  · intro Bucket hB PS hPS
    have : PS ∈ WorldPlayerStates.filter IsActorValidForReplicationGather := by
      rw [← hflat]
      exact List.mem_flatten.mpr ⟨Bucket, hB, hPS⟩
    exact ⟨(List.mem_filter.mp this).2, (List.mem_filter.mp this).1⟩

/-- C5 at seven player states of which one is invalid, on a node holding stale lists. -/
theorem C5_prepare_buckets_hold_valid_population_witness :
    (((UTestGymsReplicationGraphNode_PlayerStateFrequencyLimiter.PrepareForReplication
        sampleLimiter samplePlayerStates sampleValid).ReplicationActorLists).map
          (List.count 5)).sum = 1 :=
  (C5_prepare_buckets_hold_valid_population sampleLimiter samplePlayerStates sampleValid).2.1
    (by decide) 5 (by decide) (by decide)

/-! ## C4: one full rotation emits the valid population once -/

/-- C4, counterexample. Seven player states of which one is invalid, two per bucket: the
buckets are `[1, 2]`, `[3, 5]`, `[6, 7]`. The three consecutive frames `2 ^ 32 - 1`, `0`, `1`
select the buckets `0`, `0`, `1`: the emitted lists are `[1, 2]`, `[1, 2]`, `[3, 5]`. The
valid player state `1` is emitted twice and the valid player state `6` is not emitted. -/
theorem C4_counterexample :
    (2 ^ 32 - 1 : Nat) < 2 ^ 32 ∧
    (UTestGymsReplicationGraphNode_PlayerStateFrequencyLimiter.PrepareForReplication
        sampleLimiter samplePlayerStates sampleValid).ReplicationActorLists =
      [[1, 2], [3, 5], [6, 7]] ∧
    UTestGymsReplicationGraphNode_PlayerStateFrequencyLimiter.RunTicks samplePlayerStates
        sampleValid 3 sampleLimiter (2 ^ 32 - 1) = some [[1, 2], [1, 2], [3, 5]] ∧
    (1 ∈ samplePlayerStates ∧ sampleValid 1 = true ∧
      ([[1, 2], [1, 2], [3, 5]] : List FActorRepListRefView).flatten.count 1 = 2) ∧
    (6 ∈ samplePlayerStates ∧ sampleValid 6 = true ∧
      ([[1, 2], [1, 2], [3, 5]] : List FActorRepListRefView).flatten.count 6 = 0) := by
  decide

/-- C4, amended. With an unchanged world population and `PrepareForReplication` run before
the gather of every frame, let `N` be the bucket count and let the `N` consecutive frames
start at a frame number below `2 ^ 32`. If the frame number does not pass from `2 ^ 32 - 1`
to `0` inside the window (the start plus `N` is at most `2 ^ 32`; frames `0` to `N - 1` are
such a window), or if `N` divides `2 ^ 32`, then the `N` gathers all complete, and the lists
they emit contain together exactly the valid player states: the emitted actors are a
rearrangement of the valid population, every valid player state is emitted exactly once (the
world iterator yielding each player state once), and nothing else is emitted. -/
theorem C4_full_rotation_without_wrap_emits_valid_population_once
    (node : UTestGymsReplicationGraphNode_PlayerStateFrequencyLimiter)
    (WorldPlayerStates : List AActor) (IsActorValidForReplicationGather : AActor → Bool)
    (ReplicationFrameNum : Nat) (hFrame : ReplicationFrameNum < 2 ^ 32)
    (hWindow :
      ReplicationFrameNum +
        (UTestGymsReplicationGraphNode_PlayerStateFrequencyLimiter.PrepareForReplication node
          WorldPlayerStates IsActorValidForReplicationGather).ReplicationActorLists.length ≤
        2 ^ 32 ∨
      (UTestGymsReplicationGraphNode_PlayerStateFrequencyLimiter.PrepareForReplication node
        WorldPlayerStates IsActorValidForReplicationGather).ReplicationActorLists.length ∣
        2 ^ 32) :
    ∃ Outs : List FActorRepListRefView,
      UTestGymsReplicationGraphNode_PlayerStateFrequencyLimiter.RunTicks WorldPlayerStates
          IsActorValidForReplicationGather
          (UTestGymsReplicationGraphNode_PlayerStateFrequencyLimiter.PrepareForReplication node
            WorldPlayerStates IsActorValidForReplicationGather).ReplicationActorLists.length
          node ReplicationFrameNum = some Outs ∧
      Outs.flatten.Perm (WorldPlayerStates.filter IsActorValidForReplicationGather) ∧
      (WorldPlayerStates.Nodup → ∀ PS ∈ WorldPlayerStates,
        IsActorValidForReplicationGather PS = true → Outs.flatten.count PS = 1) ∧
      (∀ PS ∈ Outs.flatten,
        PS ∈ WorldPlayerStates ∧ IsActorValidForReplicationGather PS = true) := by
  have hflat := UTestGymsReplicationGraphNode_PlayerStateFrequencyLimiter.PrepareForReplication_flatten
    node WorldPlayerStates IsActorValidForReplicationGather
  have hperm : ((UTestGymsReplicationGraphNode_PlayerStateFrequencyLimiter.PrepareForReplication
      node WorldPlayerStates IsActorValidForReplicationGather).ReplicationActorLists.rotate
        ReplicationFrameNum).flatten.Perm
      (WorldPlayerStates.filter IsActorValidForReplicationGather) := by
    rw [← hflat]
    exact (List.rotate_perm _ _).flatten
  refine ⟨_, ?_, hperm, ?_, ?_⟩
  · exact UTestGymsReplicationGraphNode_PlayerStateFrequencyLimiter.RunTicks_eq_rotate
      WorldPlayerStates IsActorValidForReplicationGather node ReplicationFrameNum hFrame hWindow
  · intro hnd PS hmem hvalid
    rw [hperm.count_eq]
    exact List.count_eq_one_of_mem (hnd.filter _) (List.mem_filter.mpr ⟨hmem, hvalid⟩)
  · intro PS hPS
    exact List.mem_filter.mp (hperm.subset hPS)

/-- C4, amended, at two windows. Seven player states of which one is invalid, three buckets,
frames 7, 8, 9: the window does not reach `2 ^ 32`. Four valid player states, two buckets,
frames `2 ^ 32 - 1` and `0`: the bucket count divides `2 ^ 32`. -/
theorem C4_full_rotation_without_wrap_emits_valid_population_once_witness :
    (∃ Outs : List FActorRepListRefView,
      UTestGymsReplicationGraphNode_PlayerStateFrequencyLimiter.RunTicks samplePlayerStates
          sampleValid 3 sampleLimiter 7 = some Outs ∧
      Outs.flatten.count 6 = 1) ∧
    (∃ Outs : List FActorRepListRefView,
      UTestGymsReplicationGraphNode_PlayerStateFrequencyLimiter.RunTicks [1, 2, 3, 4]
          (fun _ => true) 2 sampleLimiter (2 ^ 32 - 1) = some Outs ∧
      Outs.flatten.count 3 = 1) := by
  constructor
  · obtain ⟨Outs, h1, _, h3, _⟩ :=
      C4_full_rotation_without_wrap_emits_valid_population_once sampleLimiter
        samplePlayerStates sampleValid 7 (by decide) (Or.inl (by decide))
    exact ⟨Outs, h1, h3 (by decide) 6 (by decide) (by decide)⟩
  · obtain ⟨Outs, h1, _, h3, _⟩ :=
      C4_full_rotation_without_wrap_emits_valid_population_once sampleLimiter
        [1, 2, 3, 4] (fun _ => true) (2 ^ 32 - 1) (by decide) (Or.inr (by decide))
    exact ⟨Outs, h1, h3 (by decide) 3 (by decide) (by decide)⟩

/-! ## The nearest-actors node: gather lemmas -/

namespace UTestGymsReplicationGraphNode_NearestActors

theorem mem_CollectSortedActors (GlobalMap : AActor → FGlobalActorReplicationInfo)
    (Viewer : FNetViewer) (l : FActorRepListRefView) (x : FDistanceSortedActor) :
    x ∈ CollectSortedActors GlobalMap Viewer l ↔
      x.Actor ∈ l ∧ DistanceToViewer GlobalMap Viewer x.Actor < ActorNCD ∧
        x.DistanceToViewer = FloatToInt32 (DistanceToViewer GlobalMap Viewer x.Actor) := by
  unfold CollectSortedActors
  rw [List.mem_filterMap]
  constructor
  · rintro ⟨a, ha, hx⟩
    split_ifs at hx with hd
    · simp only [Option.some.injEq] at hx
      subst hx
      exact ⟨ha, hd, rfl⟩
  · rintro ⟨ha, hd, hx⟩
    refine ⟨x.Actor, ha, ?_⟩
    rw [if_pos hd, ← hx]
    rfl

theorem CollectSortedActors_map_Actor (GlobalMap : AActor → FGlobalActorReplicationInfo)
    (Viewer : FNetViewer) (l : FActorRepListRefView) :
    (CollectSortedActors GlobalMap Viewer l).map (fun Item => Item.Actor) =
      WithinCutoff GlobalMap Viewer l := by
  unfold CollectSortedActors WithinCutoff
  induction l with
  | nil => rfl
  | cons a rest ih =>
    by_cases hd : DistanceToViewer GlobalMap Viewer a < ActorNCD
    · simp only [List.filterMap_cons, hd, if_true, List.map_cons, List.filter_cons,
        decide_True, FDistanceSortedActor.make]
      exact congrArg (List.cons a) ih
    · simp only [List.filterMap_cons, hd, if_false, List.filter_cons, decide_False,
        Bool.false_eq_true]
      exact ih

theorem CollectSortedActors_length (GlobalMap : AActor → FGlobalActorReplicationInfo)
    (Viewer : FNetViewer) (l : FActorRepListRefView) :
    (CollectSortedActors GlobalMap Viewer l).length = (WithinCutoff GlobalMap Viewer l).length := by
  rw [← CollectSortedActors_map_Actor, List.length_map]

theorem Gather_many (S : FSortProcedure) (node : UTestGymsReplicationGraphNode_NearestActors)
    (GlobalMap : AActor → FGlobalActorReplicationInfo) (Viewer : FNetViewer)
    (Others : List FNetViewer)
    (hP : node.ReplicationActorList.length > node.MaxNearestActors) :
    ∃ Out : List FActorRepListRefView,
      GatherClientInterestedActors S node GlobalMap (Viewer :: Others) = some Out ∧
      Out.flatten = (KeptSortedActors S node GlobalMap Viewer).map (fun Item => Item.Actor) ∧
      (Out = [] ∨
        Out = [(KeptSortedActors S node GlobalMap Viewer).map (fun Item => Item.Actor)]) := by
  unfold GatherClientInterestedActors KeptSortedActors
  simp only [hP, if_true, List.getElem?_cons_zero]
  split_ifs with h1 h2 h2
  · exact ⟨_, rfl, by simp, Or.inr rfl⟩
  · refine ⟨_, rfl, ?_, Or.inl rfl⟩
    have : ((S.SortArray (CollectSortedActors GlobalMap Viewer
        node.ReplicationActorList)).take node.MaxNearestActors) = [] :=
      List.length_eq_zero.mp (by omega)
    simp [this]
  · exact ⟨_, rfl, by simp, Or.inr rfl⟩
  · refine ⟨_, rfl, ?_, Or.inl rfl⟩
    have : CollectSortedActors GlobalMap Viewer node.ReplicationActorList = [] :=
      List.length_eq_zero.mp (by omega)
    simp [this]

theorem Gather_few (S : FSortProcedure) (node : UTestGymsReplicationGraphNode_NearestActors)
    (GlobalMap : AActor → FGlobalActorReplicationInfo) (Viewers : List FNetViewer)
    (hP : ¬ node.ReplicationActorList.length > node.MaxNearestActors) :
    ∃ Out : List FActorRepListRefView,
      GatherClientInterestedActors S node GlobalMap Viewers = some Out ∧
      Out.flatten = node.ReplicationActorList := by
  unfold GatherClientInterestedActors
  simp only [hP, if_false]
  split_ifs with h
  · exact ⟨_, rfl, by simp⟩
  · refine ⟨_, rfl, ?_⟩
    have : node.ReplicationActorList = [] := List.length_eq_zero.mp (by omega)
    simp [this]

theorem KeptSortedActors_subset (S : FSortProcedure)
    (node : UTestGymsReplicationGraphNode_NearestActors)
    (GlobalMap : AActor → FGlobalActorReplicationInfo) (Viewer : FNetViewer)
    (x : FDistanceSortedActor) (hx : x ∈ KeptSortedActors S node GlobalMap Viewer) :
    x ∈ CollectSortedActors GlobalMap Viewer node.ReplicationActorList := by
  unfold KeptSortedActors at hx
  split_ifs at hx
  · exact (S.perm _).subset (List.mem_of_mem_take hx)
  · exact hx

theorem KeptSortedActors_length (S : FSortProcedure)
    (node : UTestGymsReplicationGraphNode_NearestActors)
    (GlobalMap : AActor → FGlobalActorReplicationInfo) (Viewer : FNetViewer) :
    (KeptSortedActors S node GlobalMap Viewer).length =
      min node.MaxNearestActors
        (WithinCutoff GlobalMap Viewer node.ReplicationActorList).length := by
  rw [← CollectSortedActors_length]
  unfold KeptSortedActors
  split_ifs with h
  · rw [List.length_take, (S.perm _).length_eq]
  · omega

end UTestGymsReplicationGraphNode_NearestActors

/-! ## C6: the nearest order and the `int32` distance -/

/-- C6 (what the code does at the failing input). Population `[1, 2]`, `MaxNearestActors = 1`,
a single viewer at the origin, one actor at distance 1.25 and the other at distance 1. Both
squared distances (1.5625 and 1) become 1 when passed to the `int32` parameter of the
constructor of `FDistanceSortedActor`, so the sort sees two equal keys: whatever the sort
procedure, for one of the two assignments of the two locations the node emits the farther
actor and leaves out the nearer one. -/
theorem C6_int32_distance_breaks_nearest_order (S : FSortProcedure) :
    UTestGymsReplicationGraphNode_NearestActors.NearestOrderViolated S sampleNearestNode
        sampleMapFirstFarther sampleViewer ∨
      UTestGymsReplicationGraphNode_NearestActors.NearestOrderViolated S sampleNearestNode
        sampleMapSecondFarther sampleViewer := by
  have hA : UTestGymsReplicationGraphNode_NearestActors.CollectSortedActors
      sampleMapFirstFarther sampleViewer [1, 2] = [⟨1, 1⟩, ⟨2, 1⟩] := by decide
  have hB : UTestGymsReplicationGraphNode_NearestActors.CollectSortedActors
      sampleMapSecondFarther sampleViewer [1, 2] = [⟨1, 1⟩, ⟨2, 1⟩] := by decide
  have hperm := S.perm [⟨1, 1⟩, ⟨2, 1⟩]
  have hlen : (S.SortArray [⟨1, 1⟩, ⟨2, 1⟩]).length = 2 := hperm.length_eq
  have hK : sampleNearestNode.MaxNearestActors = 1 := rfl
  have hL : sampleNearestNode.ReplicationActorList = [1, 2] := rfl
  have hgA : UTestGymsReplicationGraphNode_NearestActors.GatherClientInterestedActors S
      sampleNearestNode sampleMapFirstFarther [sampleViewer] =
        some [((S.SortArray [⟨1, 1⟩, ⟨2, 1⟩]).take 1).map (fun Item => Item.Actor)] := by
    unfold UTestGymsReplicationGraphNode_NearestActors.GatherClientInterestedActors
    simp [hA, hK, hL, hlen]
  have hgB : UTestGymsReplicationGraphNode_NearestActors.GatherClientInterestedActors S
      sampleNearestNode sampleMapSecondFarther [sampleViewer] =
        some [((S.SortArray [⟨1, 1⟩, ⟨2, 1⟩]).take 1).map (fun Item => Item.Actor)] := by
    unfold UTestGymsReplicationGraphNode_NearestActors.GatherClientInterestedActors
    simp [hB, hK, hL, hlen]
  match hS : S.SortArray [⟨1, 1⟩, ⟨2, 1⟩], hlen with
  | [p, q], _ =>
    have hp : p ∈ ([⟨1, 1⟩, ⟨2, 1⟩] : List FDistanceSortedActor) := by
      apply hperm.subset
      rw [hS]
      simp
    simp only [List.mem_cons, List.mem_singleton, List.not_mem_nil, or_false] at hp
    rcases hp with hp | hp
    · left
      refine ⟨[1], ?_, 1, by simp, 2, by simp [hL], by simp, by decide⟩
      rw [hgA, hS, hp]
      rfl
    · right
      refine ⟨[2], ?_, 2, by simp, 1, by simp [hL], by simp, by decide⟩
      rw [hgB, hS, hp]
      rfl

/-! ## C7: the number of actors in the interest list -/

/-- C9. For every population, every viewer (the first of the viewers handed in) and every
`MaxNearestActors = K`, the gather completes, the interest list it emits has at most `K`
actors, and every actor in it is a member of the population list of the node. -/
theorem C9_interest_list_bounded_and_from_population (S : FSortProcedure)
    (node : UTestGymsReplicationGraphNode_NearestActors)
    (GlobalMap : AActor → FGlobalActorReplicationInfo) (Viewer : FNetViewer)
    (Others : List FNetViewer) :
    ∃ Out : List FActorRepListRefView,
      UTestGymsReplicationGraphNode_NearestActors.GatherClientInterestedActors S node GlobalMap
        (Viewer :: Others) = some Out ∧
      Out.length ≤ 1 ∧
      Out.flatten.length ≤ node.MaxNearestActors ∧
      ∀ a ∈ Out.flatten, a ∈ node.ReplicationActorList := by
  by_cases hP : node.ReplicationActorList.length > node.MaxNearestActors
  · obtain ⟨Out, h1, h2, h3⟩ :=
      UTestGymsReplicationGraphNode_NearestActors.Gather_many S node GlobalMap Viewer Others hP
    refine ⟨Out, h1, ?_, ?_, ?_⟩
    · rcases h3 with h3 | h3 <;> simp [h3]
    · rw [h2, List.length_map,
        UTestGymsReplicationGraphNode_NearestActors.KeptSortedActors_length]
      exact Nat.min_le_left _ _
    · intro a ha
      rw [h2, List.mem_map] at ha
      obtain ⟨x, hx, rfl⟩ := ha
      have := UTestGymsReplicationGraphNode_NearestActors.KeptSortedActors_subset S node
        GlobalMap Viewer x hx
      exact ((UTestGymsReplicationGraphNode_NearestActors.mem_CollectSortedActors GlobalMap
        Viewer _ x).mp this).1
  · have hfew := UTestGymsReplicationGraphNode_NearestActors.Gather_few S node GlobalMap
      (Viewer :: Others) hP
    obtain ⟨Out, h1, h2⟩ := hfew
    refine ⟨Out, h1, ?_, ?_, ?_⟩
    · unfold UTestGymsReplicationGraphNode_NearestActors.GatherClientInterestedActors at h1
      simp only [hP, if_false] at h1
      split_ifs at h1 <;> cases h1 <;> simp
    · rw [h2]; omega
    · intro a ha
      rw [h2] at ha
      exact ha

/-! ## C10: the policy derived for a class -/

theorem DeriveClassPolicy_policies (bUsingSpatial : Bool) (st : FClassSettingsPass)
    (Class : UClass) (ActorCDO : AActorCDO) (hrep : ActorCDO.bReplicates = true) :
    (DeriveClassPolicy bUsingSpatial st Class ActorCDO).ClassRepNodePolicies =
      (if ActorCDO.bAlwaysRelevant = false ∧ ActorCDO.bOnlyRelevantToOwner = false ∧
          ActorCDO.bNetUseOwnerRelevancy = false then
        st.ClassRepNodePolicies.Set Class EClassRepNodeMapping.Spatialize_Dynamic
      else if ActorCDO.bAlwaysRelevant = true ∧
          (ActorCDO.bOnlyRelevantToOwner = false ∨ bUsingSpatial = true) then
        st.ClassRepNodePolicies.Set Class EClassRepNodeMapping.RelevantAllConnections
      else if bUsingSpatial = true then
        st.ClassRepNodePolicies.Set Class EClassRepNodeMapping.AlwaysReplicate
      else st.ClassRepNodePolicies) := by
  obtain ⟨r, a, o, u⟩ := ActorCDO
  simp only at hrep
  subst hrep
  cases a <;> cases o <;> cases u <;> cases bUsingSpatial <;>
    simp [DeriveClassPolicy, ShouldSpatialize]

theorem DeriveClassPolicy_cases (bUsingSpatial : Bool) (st : FClassSettingsPass)
    (Class : UClass) (ActorCDO : AActorCDO) :
    (DeriveClassPolicy bUsingSpatial st Class ActorCDO).ClassRepNodePolicies =
        st.ClassRepNodePolicies ∨
      ∃ p, (p = EClassRepNodeMapping.Spatialize_Dynamic ∨
          p = EClassRepNodeMapping.RelevantAllConnections ∨
          p = EClassRepNodeMapping.AlwaysReplicate) ∧
        (DeriveClassPolicy bUsingSpatial st Class ActorCDO).ClassRepNodePolicies =
          st.ClassRepNodePolicies.Set Class p := by
  unfold DeriveClassPolicy
  split_ifs
  · exact Or.inr ⟨_, Or.inl rfl, rfl⟩
  · exact Or.inr ⟨_, Or.inr (Or.inl rfl), rfl⟩
  · exact Or.inr ⟨_, Or.inr (Or.inr rfl), rfl⟩
  · exact Or.inl rfl

theorem ClassLoopBody_cases (bUsingSpatial : Bool) (st : FClassSettingsPass) (Class : UClass) :
    (ClassLoopBody bUsingSpatial st Class).ClassRepNodePolicies = st.ClassRepNodePolicies ∨
      ∃ p, (p = EClassRepNodeMapping.Spatialize_Dynamic ∨
          p = EClassRepNodeMapping.RelevantAllConnections ∨
          p = EClassRepNodeMapping.AlwaysReplicate) ∧
        (ClassLoopBody bUsingSpatial st Class).ClassRepNodePolicies =
          st.ClassRepNodePolicies.Set Class p := by
  unfold ClassLoopBody
  split
  · exact Or.inl rfl
  · rename_i ActorCDO _
    simp only []
    split_ifs
    all_goals first
      | exact Or.inl rfl
      | (split
         all_goals first
          | exact DeriveClassPolicy_cases bUsingSpatial _ Class ActorCDO
          | (split_ifs
             all_goals first
              | exact Or.inl rfl
              | exact DeriveClassPolicy_cases bUsingSpatial _ Class ActorCDO))

theorem ClassLoop_cases (bUsingSpatial : Bool) (AllClasses : List UClass) :
    ∀ (st : FClassSettingsPass) (c : UClass),
      (ClassLoop bUsingSpatial AllClasses st).ClassRepNodePolicies c = st.ClassRepNodePolicies c ∨
        ∃ p, (p = EClassRepNodeMapping.Spatialize_Dynamic ∨
            p = EClassRepNodeMapping.RelevantAllConnections ∨
            p = EClassRepNodeMapping.AlwaysReplicate) ∧
          (ClassLoop bUsingSpatial AllClasses st).ClassRepNodePolicies c = some p := by
  induction AllClasses using List.reverseRecOn with
  | nil => intro st c; exact Or.inl rfl
  | append_singleton rest Class ih =>
    intro st c
    have hstep : ClassLoop bUsingSpatial (rest ++ [Class]) st =
        ClassLoopBody bUsingSpatial (ClassLoop bUsingSpatial rest st) Class := by
      simp [ClassLoop, List.foldl_append]
    rw [hstep]
    rcases ClassLoopBody_cases bUsingSpatial (ClassLoop bUsingSpatial rest st) Class with
      h | ⟨p, hp, h⟩
    · rw [h]; exact ih st c
    · rw [h, TClassMap.Set_apply]
      split_ifs
      · exact Or.inr ⟨p, hp, rfl⟩
      · exact ih st c

theorem DeriveClassPolicy_policies_congr (bUsingSpatial : Bool) (st st' : FClassSettingsPass)
    (Class : UClass) (ActorCDO : AActorCDO)
    (h : st'.ClassRepNodePolicies = st.ClassRepNodePolicies) :
    (DeriveClassPolicy bUsingSpatial st' Class ActorCDO).ClassRepNodePolicies =
      (DeriveClassPolicy bUsingSpatial st Class ActorCDO).ClassRepNodePolicies := by
  unfold DeriveClassPolicy
  split_ifs <;> simp [h]

theorem ReachesDerivationStep_replicated (bUsingSpatial : Bool)
    (Policies : TClassMap EClassRepNodeMapping) (Class : UClass) (ActorCDO : AActorCDO)
    (hCDO : Class.GetActorCDO = some ActorCDO)
    (hreach : ReachesDerivationStep bUsingSpatial Policies Class = true) :
    ActorCDO.bReplicates = true := by
  unfold ReachesDerivationStep at hreach
  rw [hCDO] at hreach
  simp only [Bool.and_eq_true] at hreach
  exact hreach.1.1.1.1

theorem ClassLoopBody_of_reach (bUsingSpatial : Bool) (st : FClassSettingsPass)
    (Class : UClass) (ActorCDO : AActorCDO)
    (hCDO : Class.GetActorCDO = some ActorCDO)
    (hreach : ReachesDerivationStep bUsingSpatial st.ClassRepNodePolicies Class = true) :
    (ClassLoopBody bUsingSpatial st Class).ClassRepNodePolicies =
      (DeriveClassPolicy bUsingSpatial st Class ActorCDO).ClassRepNodePolicies := by
  unfold ReachesDerivationStep at hreach
  rw [hCDO] at hreach
  simp only [Bool.and_eq_true, Bool.not_eq_true', Bool.or_eq_false_iff] at hreach
  obtain ⟨⟨⟨⟨hrep, hskel, hreinst⟩, hspatial⟩, hcontains⟩, hsuper⟩ := hreach
  unfold ClassLoopBody
  rw [hCDO]
  simp only [hrep, hskel, hreinst, hspatial, hcontains, Bool.not_true, Bool.or_self,
    Bool.false_eq_true, if_false]
  split at hsuper
  · rename_i SuperCDO hS
    simp only [Bool.not_eq_true'] at hsuper
    simp only [hsuper, Bool.false_eq_true, if_false]
    split_ifs
    · exact DeriveClassPolicy_policies_congr bUsingSpatial st _ Class ActorCDO rfl
    · exact DeriveClassPolicy_policies_congr bUsingSpatial st _ Class ActorCDO rfl
  · exact DeriveClassPolicy_policies_congr bUsingSpatial st _ Class ActorCDO rfl

/-- C10. For a replicated class that reaches the derivation step of the loop of
`InitGlobalActorClassSettings`, the table after the step is the table before it with, for
that class: `Spatialize_Dynamic` when none of `bAlwaysRelevant`, `bOnlyRelevantToOwner`,
`bNetUseOwnerRelevancy` holds; otherwise `RelevantAllConnections` when `bAlwaysRelevant`
holds and (`bOnlyRelevantToOwner` is false or the spatial-networking flag is on); otherwise
`AlwaysReplicate` when the spatial-networking flag is on; otherwise no new entry. And the
pass assigns no other policy: each step, for any class, leaves the table alone or sets that
class to one of these three, so after the whole loop every entry is an entry the table had
before or one of these three. -/
theorem C10_derived_policy_of_class (bUsingSpatial : Bool) (st : FClassSettingsPass)
    (Class : UClass) (ActorCDO : AActorCDO)
    (hCDO : Class.GetActorCDO = some ActorCDO)
    (hreach : ReachesDerivationStep bUsingSpatial st.ClassRepNodePolicies Class = true) :
    (ClassLoopBody bUsingSpatial st Class).ClassRepNodePolicies =
      (if ActorCDO.bAlwaysRelevant = false ∧ ActorCDO.bOnlyRelevantToOwner = false ∧
          ActorCDO.bNetUseOwnerRelevancy = false then
        st.ClassRepNodePolicies.Set Class EClassRepNodeMapping.Spatialize_Dynamic
      else if ActorCDO.bAlwaysRelevant = true ∧
          (ActorCDO.bOnlyRelevantToOwner = false ∨ bUsingSpatial = true) then
        st.ClassRepNodePolicies.Set Class EClassRepNodeMapping.RelevantAllConnections
      else if bUsingSpatial = true then
        st.ClassRepNodePolicies.Set Class EClassRepNodeMapping.AlwaysReplicate
      else st.ClassRepNodePolicies) ∧
    (∀ (st' : FClassSettingsPass) (Class' : UClass),
      (ClassLoopBody bUsingSpatial st' Class').ClassRepNodePolicies = st'.ClassRepNodePolicies ∨
        ∃ p, (p = EClassRepNodeMapping.Spatialize_Dynamic ∨
            p = EClassRepNodeMapping.RelevantAllConnections ∨
            p = EClassRepNodeMapping.AlwaysReplicate) ∧
          (ClassLoopBody bUsingSpatial st' Class').ClassRepNodePolicies =
            st'.ClassRepNodePolicies.Set Class' p) ∧
    (∀ (AllClasses : List UClass) (st' : FClassSettingsPass) (c : UClass),
      (ClassLoop bUsingSpatial AllClasses st').ClassRepNodePolicies c =
          st'.ClassRepNodePolicies c ∨
        ∃ p, (p = EClassRepNodeMapping.Spatialize_Dynamic ∨
            p = EClassRepNodeMapping.RelevantAllConnections ∨
            p = EClassRepNodeMapping.AlwaysReplicate) ∧
          (ClassLoop bUsingSpatial AllClasses st').ClassRepNodePolicies c = some p) := by
  refine ⟨?_, ClassLoopBody_cases bUsingSpatial, ClassLoop_cases bUsingSpatial⟩
  rw [ClassLoopBody_of_reach bUsingSpatial st Class ActorCDO hCDO hreach]
  exact DeriveClassPolicy_policies bUsingSpatial st Class ActorCDO
    (ReachesDerivationStep_replicated bUsingSpatial _ Class ActorCDO hCDO hreach)

/-- C10 at the class `AInfo` (always relevant, its super class `AActor` is not) with an
empty table and spatial networking off: the entry added is `RelevantAllConnections`. -/
theorem C10_derived_policy_of_class_witness :
    (ClassLoopBody false sampleEmptyPass sampleInfoClass).ClassRepNodePolicies =
      sampleEmptyPass.ClassRepNodePolicies.Set sampleInfoClass
        EClassRepNodeMapping.RelevantAllConnections :=
  (C10_derived_policy_of_class false sampleEmptyPass sampleInfoClass ⟨true, true, false, false⟩
    rfl (by decide)).1

/-! ## C12: the range check `IsSpatialized` -/

/-- C12 fails as stated: `IsSpatialized` is true for `NearestPlayers` and for
`NearestPlayerStates`, which are declared after the `Spatialize_` enumerators. -/
theorem C12_counterexample :
    IsSpatialized EClassRepNodeMapping.NearestPlayers = true ∧
    IsSpatialized EClassRepNodeMapping.NearestPlayerStates = true := by
  decide

/-- C12 (amended). `IsSpatialized m` is true exactly when `m` is declared at or after
`Spatialize_Static`: for `Spatialize_Static`, `Spatialize_Dynamic`, `Spatialize_Dormancy`,
which are contiguous in the enumeration, and also for `NearestPlayers` and
`NearestPlayerStates`; it is false for `NotRouted`, `RelevantAllConnections` and
`AlwaysReplicate`. The check has a lower bound only. -/
theorem C12_IsSpatialized_lower_bound_only (m : EClassRepNodeMapping) :
    (IsSpatialized m = true ↔
      m = EClassRepNodeMapping.Spatialize_Static ∨ m = EClassRepNodeMapping.Spatialize_Dynamic ∨
      m = EClassRepNodeMapping.Spatialize_Dormancy ∨ m = EClassRepNodeMapping.NearestPlayers ∨
      m = EClassRepNodeMapping.NearestPlayerStates) ∧
    (IsSpatialized m = false ↔
      m = EClassRepNodeMapping.NotRouted ∨ m = EClassRepNodeMapping.RelevantAllConnections ∨
      m = EClassRepNodeMapping.AlwaysReplicate) ∧
    (IsSpatialized m = true ↔ 3 ≤ m.toUInt32) ∧
    EClassRepNodeMapping.Spatialize_Dynamic.toUInt32 =
      EClassRepNodeMapping.Spatialize_Static.toUInt32 + 1 ∧
    EClassRepNodeMapping.Spatialize_Dormancy.toUInt32 =
      EClassRepNodeMapping.Spatialize_Static.toUInt32 + 2 := by
  cases m <;> decide

/-! ## C19: the bucket index is always in range -/

/-- C19. After `PrepareForReplication` the bucket count is at least 1, so for every frame
number the index `ReplicationFrameNum % bucketCount` is in range, and whatever the
force-update list holds at the gather, `GatherActorListsForConnection` completes and emits the
bucket at that index, followed by the force-update list exactly when that list is
non-empty. -/
theorem C19_gather_emits_bucket_at_frame_mod_count
    (node : UTestGymsReplicationGraphNode_PlayerStateFrequencyLimiter)
    (WorldPlayerStates : List AActor) (IsActorValidForReplicationGather : AActor → Bool)
    (ReplicationFrameNum : Nat) (Force : FActorRepListRefView) :
    1 ≤ (UTestGymsReplicationGraphNode_PlayerStateFrequencyLimiter.PrepareForReplication node
        WorldPlayerStates IsActorValidForReplicationGather).ReplicationActorLists.length ∧
    ReplicationFrameNum %
        (UTestGymsReplicationGraphNode_PlayerStateFrequencyLimiter.PrepareForReplication node
          WorldPlayerStates IsActorValidForReplicationGather).ReplicationActorLists.length <
      (UTestGymsReplicationGraphNode_PlayerStateFrequencyLimiter.PrepareForReplication node
        WorldPlayerStates IsActorValidForReplicationGather).ReplicationActorLists.length ∧
    ∃ Bucket : FActorRepListRefView,
      (UTestGymsReplicationGraphNode_PlayerStateFrequencyLimiter.PrepareForReplication node
          WorldPlayerStates IsActorValidForReplicationGather).ReplicationActorLists[
        ReplicationFrameNum %
          (UTestGymsReplicationGraphNode_PlayerStateFrequencyLimiter.PrepareForReplication node
            WorldPlayerStates IsActorValidForReplicationGather).ReplicationActorLists.length]? =
        some Bucket ∧
      UTestGymsReplicationGraphNode_PlayerStateFrequencyLimiter.GatherActorListsForConnection
          { UTestGymsReplicationGraphNode_PlayerStateFrequencyLimiter.PrepareForReplication node
              WorldPlayerStates IsActorValidForReplicationGather with
            ForceNetUpdateReplicationActorList := Force }
          ReplicationFrameNum =
        some (if Force.length > 0 then [Bucket, Force] else [Bucket]) := by
  have hpos := UTestGymsReplicationGraphNode_PlayerStateFrequencyLimiter.PrepareForReplication_length_pos
    node WorldPlayerStates IsActorValidForReplicationGather
  have hlt := Nat.mod_lt ReplicationFrameNum hpos
  refine ⟨hpos, hlt, _, List.getElem?_eq_getElem hlt, ?_⟩
  unfold UTestGymsReplicationGraphNode_PlayerStateFrequencyLimiter.GatherActorListsForConnection
  simp only [if_neg (Nat.pos_iff_ne_zero.mp hpos), List.getElem?_eq_getElem hlt]
  split_ifs <;> rfl

/-! ## C18: the shape of the buckets -/

namespace UTestGymsReplicationGraphNode_PlayerStateFrequencyLimiter

theorem CurrentListNum_append_last (Init : List FActorRepListRefView)
    (Last : FActorRepListRefView) : CurrentListNum (Init ++ [Last]) = Last.length := by
  simp [CurrentListNum]

theorem CurrentListAdd_append_last (Init : List FActorRepListRefView)
    (Last : FActorRepListRefView) (PS : AActor) :
    CurrentListAdd (Init ++ [Last]) PS = Init ++ [Last ++ [PS]] := by
  induction Init with
  | nil => simp [CurrentListAdd, FActorRepListRefView.Add]
  | cons b rest ih =>
    cases rest with
    | nil => simp [CurrentListAdd, FActorRepListRefView.Add]
    | cons b2 rest2 =>
      simp only [List.cons_append, CurrentListAdd] at ih ⊢
      exact congrArg (List.cons b) ih

/-- The shape kept by the loop of `PrepareForReplication`: every list but the last is full,
the last holds at most `T` actors, and at least one when it is not the only list. -/
theorem PrepareLoopBody_shape (T : Nat) (hT : 1 ≤ T) (valid : AActor → Bool)
    (st : List FActorRepListRefView × FActorRepListRefView) (PS : AActor)
    (Init : List FActorRepListRefView) (Last : FActorRepListRefView)
    (hst : st.1 = Init ++ [Last]) (hfull : ∀ b ∈ Init, b.length = T)
    (hlast : Last.length ≤ T) (hne : Init ≠ [] → 1 ≤ Last.length) :
    ∃ (Init' : List FActorRepListRefView) (Last' : FActorRepListRefView),
      (PrepareLoopBody (T : Int) valid st PS).1 = Init' ++ [Last'] ∧
      (∀ b ∈ Init', b.length = T) ∧ Last'.length ≤ T ∧ (Init' ≠ [] → 1 ≤ Last'.length) := by
  unfold PrepareLoopBody
  by_cases hv : valid PS = false
  · rw [if_pos hv]
    exact ⟨Init, Last, hst, hfull, hlast, hne⟩
  · rw [if_neg hv]
    simp only [hst, CurrentListNum_append_last]
    by_cases hge : (Last.length : Int) ≥ (T : Int)
    · rw [if_pos hge]
      have hLT : Last.length = T := by omega
      refine ⟨Init ++ [Last], [PS], ?_, ?_, by simpa using hT, fun _ => by simp⟩
      · have := CurrentListAdd_append_last (Init ++ [Last]) [] PS
        simpa using this
      · intro b hb
        rcases List.mem_append.mp hb with hb | hb
        · exact hfull b hb
        · simp only [List.mem_singleton] at hb
          rw [hb, hLT]
    · rw [if_neg hge]
      refine ⟨Init, Last ++ [PS], CurrentListAdd_append_last Init Last PS, hfull, ?_, ?_⟩
      · simp only [List.length_append, List.length_singleton]
        omega
      · intro _
        simp

theorem PrepareLoop_shape (T : Nat) (hT : 1 ≤ T) (valid : AActor → Bool) (World : List AActor) :
    ∀ (st : List FActorRepListRefView × FActorRepListRefView)
      (Init : List FActorRepListRefView) (Last : FActorRepListRefView),
      st.1 = Init ++ [Last] → (∀ b ∈ Init, b.length = T) → Last.length ≤ T →
      (Init ≠ [] → 1 ≤ Last.length) →
      ∃ (Init' : List FActorRepListRefView) (Last' : FActorRepListRefView),
        (World.foldl (PrepareLoopBody (T : Int) valid) st).1 = Init' ++ [Last'] ∧
        (∀ b ∈ Init', b.length = T) ∧ Last'.length ≤ T ∧ (Init' ≠ [] → 1 ≤ Last'.length) := by
  induction World with
  | nil => intro st Init Last h1 h2 h3 h4; exact ⟨Init, Last, h1, h2, h3, h4⟩
  | cons PS rest ih =>
    intro st Init Last h1 h2 h3 h4
    obtain ⟨Init', Last', g1, g2, g3, g4⟩ :=
      PrepareLoopBody_shape T hT valid st PS Init Last h1 h2 h3 h4
    exact ih _ Init' Last' g1 g2 g3 g4

theorem flatten_length_of_full (T : Nat) (Init : List FActorRepListRefView)
    (hfull : ∀ b ∈ Init, b.length = T) : Init.flatten.length = Init.length * T := by
  induction Init with
  | nil => simp
  | cons b rest ih =>
    have hb := hfull b (by simp)
    have := ih (fun c hc => hfull c (by simp [hc]))
    simp only [List.flatten_cons, List.length_append, List.length_cons, hb, this]
    rw [Nat.succ_mul]
    omega

theorem bucket_count_formula (T m r : Nat) (hT : 1 ≤ T) (hr : r ≤ T) (hm : m ≠ 0 → 1 ≤ r) :
    m + 1 = max 1 ((m * T + r + T - 1) / T) := by
  by_cases h0 : m = 0
  · subst h0
    have : (0 * T + r + T - 1) / T ≤ 1 := by
      rw [Nat.div_le_iff_le_mul_add_pred (by omega)]
      omega
    omega
  · have hr1 := hm h0
    have : (m * T + r + T - 1) / T = m + 1 := by
      apply Nat.div_eq_of_lt_le
      · rw [Nat.succ_mul]; omega
      · rw [Nat.succ_mul, Nat.succ_mul]; omega
    omega

end UTestGymsReplicationGraphNode_PlayerStateFrequencyLimiter

/-- C18. For `n` valid player states and `TargetActorsPerFrame = T` of at least 1,
`PrepareForReplication` yields `max 1 (ceil (n / T))` buckets (the ceiling written
`(n + T - 1) / T`), no bucket holds more than `T` actors, every bucket except the last holds
exactly `T`, and there is a single empty bucket when `n = 0`. -/
theorem C18_bucket_count_and_sizes
    (node : UTestGymsReplicationGraphNode_PlayerStateFrequencyLimiter)
    (WorldPlayerStates : List AActor) (IsActorValidForReplicationGather : AActor → Bool)
    (hT : 1 ≤ node.TargetActorsPerFrame) :
    (UTestGymsReplicationGraphNode_PlayerStateFrequencyLimiter.PrepareForReplication node
        WorldPlayerStates IsActorValidForReplicationGather).ReplicationActorLists.length =
      max 1 (((WorldPlayerStates.filter IsActorValidForReplicationGather).length +
        node.TargetActorsPerFrame.toNat - 1) / node.TargetActorsPerFrame.toNat) ∧
    (∀ Bucket ∈ (UTestGymsReplicationGraphNode_PlayerStateFrequencyLimiter.PrepareForReplication
        node WorldPlayerStates IsActorValidForReplicationGather).ReplicationActorLists,
      Bucket.length ≤ node.TargetActorsPerFrame.toNat) ∧
    (∀ Bucket ∈ (UTestGymsReplicationGraphNode_PlayerStateFrequencyLimiter.PrepareForReplication
        node WorldPlayerStates IsActorValidForReplicationGather).ReplicationActorLists.dropLast,
      Bucket.length = node.TargetActorsPerFrame.toNat) ∧
    ((WorldPlayerStates.filter IsActorValidForReplicationGather).length = 0 →
      (UTestGymsReplicationGraphNode_PlayerStateFrequencyLimiter.PrepareForReplication node
        WorldPlayerStates IsActorValidForReplicationGather).ReplicationActorLists = [[]]) := by
  obtain ⟨T, hTeq⟩ : ∃ T : Nat, node.TargetActorsPerFrame = (T : Int) :=
    ⟨node.TargetActorsPerFrame.toNat, (Int.toNat_of_nonneg (by omega)).symm⟩
  have hT1 : 1 ≤ T := by omega
  have htoNat : node.TargetActorsPerFrame.toNat = T := by omega
  obtain ⟨Init, Last, h1, h2, h3, h4⟩ :=
    UTestGymsReplicationGraphNode_PlayerStateFrequencyLimiter.PrepareLoop_shape T hT1
      IsActorValidForReplicationGather WorldPlayerStates ([[]], []) [] [] rfl (by simp)
      (by simp) (by simp)
  have hlists : (UTestGymsReplicationGraphNode_PlayerStateFrequencyLimiter.PrepareForReplication
      node WorldPlayerStates IsActorValidForReplicationGather).ReplicationActorLists =
        Init ++ [Last] := by
    simp only [UTestGymsReplicationGraphNode_PlayerStateFrequencyLimiter.PrepareForReplication,
      hTeq]
    exact h1
  have hflat := UTestGymsReplicationGraphNode_PlayerStateFrequencyLimiter.PrepareForReplication_flatten
    node WorldPlayerStates IsActorValidForReplicationGather
  have hn : (WorldPlayerStates.filter IsActorValidForReplicationGather).length =
      Init.length * T + Last.length := by
    rw [← hflat, hlists, List.flatten_append, List.length_append,
      UTestGymsReplicationGraphNode_PlayerStateFrequencyLimiter.flatten_length_of_full T Init h2]
    simp
  rw [hlists, htoNat, hn]
  refine ⟨?_, ?_, ?_, ?_⟩
  · rw [List.length_append, List.length_singleton]
    exact UTestGymsReplicationGraphNode_PlayerStateFrequencyLimiter.bucket_count_formula T
      Init.length Last.length hT1 h3 (fun h => h4 (by
        intro hnil
        exact h (by simp [hnil])))
  · intro b hb
    rcases List.mem_append.mp hb with hb | hb
    · exact (h2 b hb).le
    · simp only [List.mem_singleton] at hb
      rw [hb]; exact h3
  · intro b hb
    rw [List.dropLast_concat] at hb
    exact h2 b hb
  · intro h0
    have hI : Init = [] := by
      by_contra hne
      have := h4 hne
      omega
    have hL : Last = [] := List.length_eq_zero.mp (by omega)
    rw [hI, hL]
    rfl

/-- C18 at 50 valid player states and `TargetActorsPerFrame = 10`: five buckets, the first
four of exactly 10 actors and none of more than 10 (so the fifth holds the remaining 10). -/
theorem C18_bucket_count_and_sizes_witness :
    (UTestGymsReplicationGraphNode_PlayerStateFrequencyLimiter.PrepareForReplication
        sampleLimiterOfTen sampleFiftyPlayerStates (fun _ => true)).ReplicationActorLists.length =
      5 ∧
    (∀ Bucket ∈ (UTestGymsReplicationGraphNode_PlayerStateFrequencyLimiter.PrepareForReplication
        sampleLimiterOfTen sampleFiftyPlayerStates (fun _ => true)).ReplicationActorLists,
      Bucket.length ≤ 10) ∧
    (∀ Bucket ∈ (UTestGymsReplicationGraphNode_PlayerStateFrequencyLimiter.PrepareForReplication
        sampleLimiterOfTen sampleFiftyPlayerStates
        (fun _ => true)).ReplicationActorLists.dropLast,
      Bucket.length = 10) :=
  ⟨(C18_bucket_count_and_sizes sampleLimiterOfTen sampleFiftyPlayerStates (fun _ => true)
      (by decide)).1,
    (C18_bucket_count_and_sizes sampleLimiterOfTen sampleFiftyPlayerStates (fun _ => true)
      (by decide)).2.1,
    (C18_bucket_count_and_sizes sampleLimiterOfTen sampleFiftyPlayerStates (fun _ => true)
      (by decide)).2.2.1⟩

/-! ## C13: removing an actor that was never added -/

theorem MembershipList.removeActor_of_not_mem (L : MembershipList) (l : List AActor) (a : AActor)
    (h : a ∉ l) : L.removeActor l a = l := by
  have hfast : (FActorRepListRefView.RemoveFast l a).2 = l := by
    simp [FActorRepListRefView.RemoveFast, h]
  have hslow : (FActorRepListRefView.RemoveSlow l a).2 = l := by
    simp [FActorRepListRefView.RemoveSlow, List.erase_of_not_mem h]
  have hgrid : UReplicationGraphNode_GridSpatialization2D.Remove l a = l := by
    unfold UReplicationGraphNode_GridSpatialization2D.Remove
    rw [List.filter_eq_self]
    intro x hx
    simp only [decide_eq_true_eq]
    rintro rfl
    exact h hx
  cases L <;> simp only [MembershipList.removeActor, hfast, hslow, hgrid]

/-- C13 fails as stated: in a graph without spatial networking and without any streaming
level list, removing a `RelevantAllConnections` actor of level `Level1` (which is in no
list) fails the check of `FindChecked`. -/
theorem C13_counterexample :
    (∀ L : MembershipList, sampleLevelActorInfo.Actor ∉ sampleGraph.listOf L) ∧
    (GetMappingPolicy sampleGraph.ClassRepNodePolicies sampleLevelActorInfo.Class).1 =
      EClassRepNodeMapping.RelevantAllConnections ∧
    sampleGraph.AlwaysRelevantStreamingLevelActors sampleLevelActorInfo.StreamingLevelName =
      none ∧
    RouteRemoveNetworkActorToNodes sampleGraph sampleLevelActorInfo = none :=
  ⟨sampleGraph_fresh _, by decide, rfl, Option.isNone_iff_eq_none.mp (by decide)⟩

/-- C13 (amended). For every policy and every graph state, `RouteRemoveNetworkActorToNodes`
for an actor that is not in its expected destination list completes and leaves every
membership list unchanged, provided that, when the destination is the list of a streaming
level, `AlwaysRelevantStreamingLevelActors` has a list for that level; when it has none,
the check of `FindChecked` fails. -/
theorem C13_remove_of_absent_actor_changes_nothing (g : UTestGymsReplicationGraph)
    (ActorInfo : FNewReplicatedActorInfo)
    (habsent : ∀ T : MembershipList,
      policyList g.bUsingSpatial ActorInfo.StreamingLevelName
          (g.GlobalActorReplicationInfoMap ActorInfo.Actor).bWantsToBeDormant
          (GetMappingPolicy g.ClassRepNodePolicies ActorInfo.Class).1 = some T →
        ActorInfo.Actor ∉ g.listOf T) :
    (g.AlwaysRelevantStreamingLevelActors ActorInfo.StreamingLevelName ≠ none ∨
        policyDestination g.bUsingSpatial ActorInfo.StreamingLevelName
            (GetMappingPolicy g.ClassRepNodePolicies ActorInfo.Class).1 ≠
          some (Destination.StreamingLevelList ActorInfo.StreamingLevelName) →
      ∃ g' : UTestGymsReplicationGraph,
        RouteRemoveNetworkActorToNodes g ActorInfo = some g' ∧
        ∀ L : MembershipList, g'.listOf L = g.listOf L) ∧
    (g.AlwaysRelevantStreamingLevelActors ActorInfo.StreamingLevelName = none ∧
        policyDestination g.bUsingSpatial ActorInfo.StreamingLevelName
            (GetMappingPolicy g.ClassRepNodePolicies ActorInfo.Class).1 =
          some (Destination.StreamingLevelList ActorInfo.StreamingLevelName) →
      RouteRemoveNetworkActorToNodes g ActorInfo = none) := by
  refine ⟨?_, ?_⟩
  · intro hlevel
    have hsome : RouteRemoveNetworkActorToNodes g ActorInfo ≠ none := by
      rw [Ne, RouteRemove_eq_none_iff]
      rintro ⟨h1, h2⟩
      rcases hlevel with h | h
      · exact h h2
      · exact h h1
    obtain ⟨g', hg'⟩ := Option.ne_none_iff_exists'.mp hsome
    refine ⟨g', hg', fun L => ?_⟩
    rw [listOf_RouteRemove g g' ActorInfo hg' L]
    split_ifs with hL
    · exact MembershipList.removeActor_of_not_mem L _ _ (habsent L hL)
    · rfl
  · rintro ⟨h1, h2⟩
    exact (RouteRemove_eq_none_iff g ActorInfo).mpr ⟨h2, h1⟩

/-- C13 (amended) at the sample graph: removing an `AActor` actor (policy
`Spatialize_Dynamic`) that was never added changes no list. -/
theorem C13_remove_of_absent_actor_changes_nothing_witness :
    ∃ g' : UTestGymsReplicationGraph,
      RouteRemoveNetworkActorToNodes sampleGraph ⟨3, sampleActorClass, NAME_None⟩ = some g' ∧
      ∀ L : MembershipList, g'.listOf L = sampleGraph.listOf L :=
  (C13_remove_of_absent_actor_changes_nothing sampleGraph ⟨3, sampleActorClass, NAME_None⟩
    (fun T _ => sampleGraph_fresh 3 T)).1 (Or.inr (by decide))

/-! ## C14: more than one viewer -/

/-- C14 fails as stated: with two actors, `MaxNearestActors = 1` and two viewers, the
`ensure` on the viewer count fails without stopping the gather, and the node emits the
interest list of the first viewer alone (actor 1), not that of the second viewer
(actor 2). -/
theorem C14_counterexample :
    UTestGymsReplicationGraphNode_NearestActors.ViewerCountEnsureFails sampleNearestNode
      [sampleViewer, sampleSecondViewer] = true ∧
    UTestGymsReplicationGraphNode_NearestActors.GatherClientInterestedActors StableSort
      sampleNearestNode sampleMapTwoSpots [sampleViewer, sampleSecondViewer] = some [[1]] ∧
    UTestGymsReplicationGraphNode_NearestActors.GatherClientInterestedActors StableSort
      sampleNearestNode sampleMapTwoSpots [sampleViewer] = some [[1]] ∧
    UTestGymsReplicationGraphNode_NearestActors.GatherClientInterestedActors StableSort
      sampleNearestNode sampleMapTwoSpots [sampleSecondViewer] = some [[2]] := by
  decide

/-- C14 (amended). For a call of `GatherClientInterestedActors` whose viewer count is not
exactly one: when the population exceeds `MaxNearestActors` the `ensure` reports the
violation but does not stop the call, which with two or more viewers emits exactly what it
emits for the first viewer alone and with no viewer fails at `Params.Viewers[0]`; when the
population does not exceed `MaxNearestActors` the `ensure` is not reached and the output
does not depend on the viewers. -/
theorem C14_viewer_count_is_reported_not_guarded (S : FSortProcedure)
    (node : UTestGymsReplicationGraphNode_NearestActors)
    (GlobalMap : AActor → FGlobalActorReplicationInfo) (Viewers : List FNetViewer)
    (hcount : Viewers.length ≠ 1) :
    (node.ReplicationActorList.length > node.MaxNearestActors →
      UTestGymsReplicationGraphNode_NearestActors.ViewerCountEnsureFails node Viewers = true ∧
      (∀ (Viewer : FNetViewer) (Others : List FNetViewer), Viewers = Viewer :: Others →
        UTestGymsReplicationGraphNode_NearestActors.GatherClientInterestedActors S node
            GlobalMap Viewers =
          UTestGymsReplicationGraphNode_NearestActors.GatherClientInterestedActors S node
            GlobalMap [Viewer] ∧
        UTestGymsReplicationGraphNode_NearestActors.GatherClientInterestedActors S node
            GlobalMap Viewers ≠ none) ∧
      (Viewers = [] →
        UTestGymsReplicationGraphNode_NearestActors.GatherClientInterestedActors S node
          GlobalMap Viewers = none)) ∧
    (¬ node.ReplicationActorList.length > node.MaxNearestActors →
      UTestGymsReplicationGraphNode_NearestActors.ViewerCountEnsureFails node Viewers = false ∧
      UTestGymsReplicationGraphNode_NearestActors.GatherClientInterestedActors S node
          GlobalMap Viewers =
        UTestGymsReplicationGraphNode_NearestActors.GatherClientInterestedActors S node
          GlobalMap []) := by
  refine ⟨?_, ?_⟩
  · intro hP
    refine ⟨by simp [UTestGymsReplicationGraphNode_NearestActors.ViewerCountEnsureFails, hP,
      hcount], ?_, ?_⟩
    · intro Viewer Others hV
      subst hV
      obtain ⟨Out, hOut, _⟩ := UTestGymsReplicationGraphNode_NearestActors.Gather_many S node
        GlobalMap Viewer Others hP
      refine ⟨?_, by rw [hOut]; simp⟩
      unfold UTestGymsReplicationGraphNode_NearestActors.GatherClientInterestedActors
      simp only [hP, if_true, List.getElem?_cons_zero]
    · intro hV
      subst hV
      unfold UTestGymsReplicationGraphNode_NearestActors.GatherClientInterestedActors
      simp [hP]
  · intro hP
    refine ⟨by simp [UTestGymsReplicationGraphNode_NearestActors.ViewerCountEnsureFails, hP],
      ?_⟩
    unfold UTestGymsReplicationGraphNode_NearestActors.GatherClientInterestedActors
    simp only [hP, if_false]

/-- C14 (amended) at two actors, `MaxNearestActors = 1` and two viewers: the output is that
of the first viewer alone. -/
theorem C14_viewer_count_is_reported_not_guarded_witness :
    UTestGymsReplicationGraphNode_NearestActors.ViewerCountEnsureFails sampleNearestNode
      [sampleViewer, sampleSecondViewer] = true ∧
    UTestGymsReplicationGraphNode_NearestActors.GatherClientInterestedActors StableSort
        sampleNearestNode sampleMapTwoSpots [sampleViewer, sampleSecondViewer] =
      UTestGymsReplicationGraphNode_NearestActors.GatherClientInterestedActors StableSort
        sampleNearestNode sampleMapTwoSpots [sampleViewer] :=
  ⟨((C14_viewer_count_is_reported_not_guarded StableSort sampleNearestNode sampleMapTwoSpots
      [sampleViewer, sampleSecondViewer] (by decide)).1 (by decide)).1,
    (((C14_viewer_count_is_reported_not_guarded StableSort sampleNearestNode sampleMapTwoSpots
      [sampleViewer, sampleSecondViewer] (by decide)).1 (by decide)).2.1 sampleViewer
      [sampleSecondViewer] rfl).1⟩

/-! ## C11: a class that gets no entry -/

/-- C11 (what the code does at the failing input). Spatial networking off; `APawn` is
replicated with none of the three flags and `OwnerOnlyPawn` derives from it with
`bOnlyRelevantToOwner` set. The loop reaches the derivation step for `OwnerOnlyPawn`, none of
the three policies is selected and no entry is added for it; after
`InitGlobalActorClassSettings` its lookup walks up to the entry of `APawn`, so
`GetMappingPolicy` returns `Spatialize_Dynamic`, not `NotRouted`. -/
theorem C11_class_without_entry_inherits_ancestor_policy :
    sampleOwnerOnlyPawnClass.GetActorCDO = some ⟨true, false, true, false⟩ ∧
    ReachesDerivationStep false
      (ClassLoop false [UClass.Object, sampleAActor, samplePawnClass]
        ⟨SeedClassRepNodePolicies false false sampleSeedClasses, [], []⟩).ClassRepNodePolicies
      sampleOwnerOnlyPawnClass = true ∧
    (InitGlobalActorClassSettings false false sampleSeedClasses
      sampleAllClasses).ClassRepNodePolicies sampleOwnerOnlyPawnClass = none ∧
    (GetMappingPolicy
      (InitGlobalActorClassSettings false false sampleSeedClasses
        sampleAllClasses).ClassRepNodePolicies sampleOwnerOnlyPawnClass).1 =
      EClassRepNodeMapping.Spatialize_Dynamic := by
  decide

/-! ## The per-connection always-relevant node: the candidate list -/

namespace FActorRepListRefView

theorem mem_ConditionalAdd_self (l : FActorRepListRefView) (a : AActor) :
    a ∈ ConditionalAdd l a := by
  unfold ConditionalAdd
  split_ifs with h
  · exact h
  · simp

theorem mem_ConditionalAdd_of_mem (l : FActorRepListRefView) (a x : AActor) (h : x ∈ l) :
    x ∈ ConditionalAdd l a := by
  unfold ConditionalAdd
  split_ifs
  · exact h
  · exact List.mem_append_left _ h

end FActorRepListRefView

namespace UTestGymsReplicationGraphNode_AlwaysRelevant_ForConnection

theorem PlayerStateStep_list (NewInfo : AActor → FConnectionReplicationActorInfo)
    (Params : FConnectionGatherActorListParameters) (PC : APlayerController)
    (st : FViewerLoopState) :
    (PlayerStateStep NewInfo Params PC st).ReplicationActorList =
      if Params.ConnectionOrderNum % 2 = Params.ReplicationFrameNum % 2 then
        match PC.PlayerState with
        | some PS => st.ReplicationActorList.ConditionalAdd PS
        | none => st.ReplicationActorList
      else st.ReplicationActorList := by
  unfold PlayerStateStep
  by_cases hp : Params.ConnectionOrderNum % 2 = Params.ReplicationFrameNum % 2
  · cases hPS : PC.PlayerState <;> cases hi : st.bInitializedPlayerState <;> simp [hp, hi]
  · simp [hp]

theorem PlayerStateStep_list_mono (NewInfo : AActor → FConnectionReplicationActorInfo)
    (Params : FConnectionGatherActorListParameters) (PC : APlayerController)
    (st : FViewerLoopState) (x : AActor) (h : x ∈ st.ReplicationActorList) :
    x ∈ (PlayerStateStep NewInfo Params PC st).ReplicationActorList := by
  rw [PlayerStateStep_list]
  split_ifs
  · split
    · exact FActorRepListRefView.mem_ConditionalAdd_of_mem _ _ _ h
    · exact h
  · exact h

theorem PlayerStateStep_adds (NewInfo : AActor → FConnectionReplicationActorInfo)
    (Params : FConnectionGatherActorListParameters) (PC : APlayerController)
    (st : FViewerLoopState) (PS : AActor) (hPS : PC.PlayerState = some PS)
    (hparity : Params.ConnectionOrderNum % 2 = Params.ReplicationFrameNum % 2) :
    PS ∈ (PlayerStateStep NewInfo Params PC st).ReplicationActorList := by
  rw [PlayerStateStep_list, if_pos hparity, hPS]
  exact FActorRepListRefView.mem_ConditionalAdd_self _ _

theorem EnsureLastData_list (st : FViewerLoopState) (V : FNetViewer) :
    (EnsureLastData st V).ReplicationActorList = st.ReplicationActorList := by
  unfold EnsureLastData
  split <;> rfl

theorem ResetLastViewer_list (NewInfo : AActor → FConnectionReplicationActorInfo)
    (st : FViewerLoopState) (c : Nat) (a : AActor) :
    (ResetActorCullDistance_LastViewer NewInfo st c a).ReplicationActorList =
      st.ReplicationActorList := by
  unfold ResetActorCullDistance_LastViewer
  split_ifs <;> rfl

theorem ResetLastViewTarget_list (NewInfo : AActor → FConnectionReplicationActorInfo)
    (st : FViewerLoopState) (c : Nat) (a : AActor) :
    (ResetActorCullDistance_LastViewTarget NewInfo st c a).ReplicationActorList =
      st.ReplicationActorList := by
  unfold ResetActorCullDistance_LastViewTarget
  split_ifs <;> rfl

theorem PawnStep_list_mono (W : FActorTypes) (NewInfo : AActor → FConnectionReplicationActorInfo)
    (PC : APlayerController) (st : FViewerLoopState) (V : FNetViewer) (x : AActor)
    (h : x ∈ st.ReplicationActorList) :
    x ∈ (PawnStep W NewInfo PC st V).ReplicationActorList := by
  unfold PawnStep
  split
  · split_ifs
    · simp only
      apply FActorRepListRefView.mem_ConditionalAdd_of_mem
      rw [ResetLastViewer_list]
      exact h
    · rw [ResetLastViewer_list]
      exact h
    · exact h
  · exact h

theorem ViewTargetStep_list (W : FActorTypes) (NewInfo : AActor → FConnectionReplicationActorInfo)
    (st : FViewerLoopState) (V : FNetViewer) :
    (ViewTargetStep W NewInfo st V).ReplicationActorList = st.ReplicationActorList := by
  unfold ViewTargetStep
  split_ifs
  · exact ResetLastViewTarget_list NewInfo st _ _
  · rfl

theorem ViewerLoopBody_list_mono (W : FActorTypes)
    (NewInfo : AActor → FConnectionReplicationActorInfo)
    (Params : FConnectionGatherActorListParameters) (st : FViewerLoopState) (V : FNetViewer)
    (x : AActor) (h : x ∈ st.ReplicationActorList) :
    x ∈ (ViewerLoopBody W NewInfo Params st V).ReplicationActorList := by
  have h0 : x ∈ (AddViewerAndTarget st V).ReplicationActorList :=
    FActorRepListRefView.mem_ConditionalAdd_of_mem _ _ _
      (FActorRepListRefView.mem_ConditionalAdd_of_mem _ _ _ h)
  unfold ViewerLoopBody
  simp only
  split
  · rw [ViewTargetStep_list]
    apply PawnStep_list_mono
    rw [EnsureLastData_list]
    exact PlayerStateStep_list_mono _ _ _ _ _ h0
  · exact h0

theorem ViewerLoopBody_adds (W : FActorTypes)
    (NewInfo : AActor → FConnectionReplicationActorInfo)
    (Params : FConnectionGatherActorListParameters) (st : FViewerLoopState) (V : FNetViewer) :
    V.InViewer ∈ (ViewerLoopBody W NewInfo Params st V).ReplicationActorList ∧
    V.ViewTarget ∈ (ViewerLoopBody W NewInfo Params st V).ReplicationActorList ∧
    (∀ PC PS, W.AsPlayerController V.InViewer = some PC → PC.PlayerState = some PS →
      Params.ConnectionOrderNum % 2 = Params.ReplicationFrameNum % 2 →
      PS ∈ (ViewerLoopBody W NewInfo Params st V).ReplicationActorList) := by
  have h1 : V.InViewer ∈ (AddViewerAndTarget st V).ReplicationActorList :=
    FActorRepListRefView.mem_ConditionalAdd_of_mem _ _ _
      (FActorRepListRefView.mem_ConditionalAdd_self _ _)
  have h2 : V.ViewTarget ∈ (AddViewerAndTarget st V).ReplicationActorList :=
    FActorRepListRefView.mem_ConditionalAdd_self _ _
  have hrest : ∀ (PC : APlayerController) (x : AActor),
      x ∈ (PlayerStateStep NewInfo Params PC (AddViewerAndTarget st V)).ReplicationActorList →
      x ∈ (ViewTargetStep W NewInfo (PawnStep W NewInfo PC (EnsureLastData
        (PlayerStateStep NewInfo Params PC (AddViewerAndTarget st V)) V) V)
          V).ReplicationActorList := by
    intro PC x hx
    rw [ViewTargetStep_list]
    apply PawnStep_list_mono
    rw [EnsureLastData_list]
    exact hx
  unfold ViewerLoopBody
  simp only
  cases hPC : W.AsPlayerController V.InViewer with
  | none => exact ⟨h1, h2, fun PC PS h => by cases h⟩
  | some PC =>
    refine ⟨hrest PC _ (PlayerStateStep_list_mono _ _ _ _ _ h1),
      hrest PC _ (PlayerStateStep_list_mono _ _ _ _ _ h2), ?_⟩
    intro PC' PS hPC' hPS hparity
    cases hPC'
    exact hrest PC _ (PlayerStateStep_adds _ _ _ _ PS hPS hparity)

theorem foldl_ViewerLoopBody_list_mono (W : FActorTypes)
    (NewInfo : AActor → FConnectionReplicationActorInfo)
    (Params : FConnectionGatherActorListParameters) (Viewers : List FNetViewer) :
    ∀ (st : FViewerLoopState) (x : AActor), x ∈ st.ReplicationActorList →
      x ∈ (Viewers.foldl (ViewerLoopBody W NewInfo Params) st).ReplicationActorList := by
  induction Viewers with
  | nil => intro st x h; exact h
  | cons V rest ih =>
    intro st x h
    exact ih _ x (ViewerLoopBody_list_mono W NewInfo Params st V x h)

theorem foldl_ViewerLoopBody_adds (W : FActorTypes)
    (NewInfo : AActor → FConnectionReplicationActorInfo)
    (Params : FConnectionGatherActorListParameters) (Viewers : List FNetViewer) :
    ∀ (st : FViewerLoopState) (V : FNetViewer), V ∈ Viewers →
      V.InViewer ∈ (Viewers.foldl (ViewerLoopBody W NewInfo Params) st).ReplicationActorList ∧
      V.ViewTarget ∈ (Viewers.foldl (ViewerLoopBody W NewInfo Params) st).ReplicationActorList ∧
      (∀ PC PS, W.AsPlayerController V.InViewer = some PC → PC.PlayerState = some PS →
        Params.ConnectionOrderNum % 2 = Params.ReplicationFrameNum % 2 →
        PS ∈ (Viewers.foldl (ViewerLoopBody W NewInfo Params) st).ReplicationActorList) := by
  induction Viewers with
  | nil => intro st V h; cases h
  | cons V0 rest ih =>
    intro st V hV
    rcases List.mem_cons.mp hV with rfl | hV
    · obtain ⟨h1, h2, h3⟩ := ViewerLoopBody_adds W NewInfo Params st V
      exact ⟨foldl_ViewerLoopBody_list_mono W NewInfo Params rest _ _ h1,
        foldl_ViewerLoopBody_list_mono W NewInfo Params rest _ _ h2,
        fun PC PS hPC hPS hp =>
          foldl_ViewerLoopBody_list_mono W NewInfo Params rest _ _ (h3 PC PS hPC hPS hp)⟩
    · exact ih _ V hV

theorem LevelLoopBody_Out (LevelActors : FLevelActorMap)
    (NewInfo : AActor → FConnectionReplicationActorInfo) (Idx : Nat) (st : FLevelLoopState) :
    ∃ extra, (LevelLoopBody LevelActors NewInfo Idx st).Out = st.Out ++ extra := by
  unfold LevelLoopBody
  split
  · exact ⟨[], by simp⟩
  · simp only
    split
    · exact ⟨[], by simp⟩
    · split_ifs
      · exact ⟨[], by simp⟩
      · exact ⟨_, rfl⟩
      · exact ⟨[], by simp⟩

theorem LevelLoop_Out (LevelActors : FLevelActorMap)
    (NewInfo : AActor → FConnectionReplicationActorInfo) (n : Nat) :
    ∀ st : FLevelLoopState,
      ∃ extra, (LevelLoop LevelActors NewInfo n st).Out = st.Out ++ extra := by
  induction n with
  | zero => intro st; exact ⟨[], by simp [LevelLoop]⟩
  | succ n ih =>
    intro st
    obtain ⟨e1, h1⟩ := LevelLoopBody_Out LevelActors NewInfo n st
    obtain ⟨e2, h2⟩ := ih (LevelLoopBody LevelActors NewInfo n st)
    exact ⟨e1 ++ e2, by simp only [LevelLoop]; rw [h2, h1, List.append_assoc]⟩

theorem Gather_Out_head (W : FActorTypes) (NewInfo : AActor → FConnectionReplicationActorInfo)
    (LevelActors : FLevelActorMap)
    (node : UTestGymsReplicationGraphNode_AlwaysRelevant_ForConnection)
    (Params : FConnectionGatherActorListParameters) (Map : FPerConnectionActorInfoMap) :
    (GatherActorListsForConnection W NewInfo LevelActors node Params Map).Out.head? =
      some (GatherActorListsForConnection W NewInfo LevelActors node Params
        Map).node.ReplicationActorList := by
  unfold GatherActorListsForConnection
  simp only
  obtain ⟨extra, h⟩ := LevelLoop_Out LevelActors NewInfo
    node.AlwaysRelevantStreamingLevelsNeedingReplication.length
    ⟨node.AlwaysRelevantStreamingLevelsNeedingReplication,
      (ViewerLoop W NewInfo node Params Map).ActorInfoMap,
      [(ViewerLoop W NewInfo node Params Map).ReplicationActorList], []⟩
  rw [h]
  rfl

end UTestGymsReplicationGraphNode_AlwaysRelevant_ForConnection

/-! ## C17: viewer, view target and player state in the candidate list -/

/-- C17 fails as stated: on frame 1 the connection of order number 0 gathers the viewer
(controller 100, which has player state 300) and its view target, but not the player
state. -/
theorem C17_counterexample :
    sampleActorTypes.AsPlayerController sampleControllerViewer.InViewer =
      some ⟨some 300, some 102⟩ ∧
    (UTestGymsReplicationGraphNode_AlwaysRelevant_ForConnection.GatherActorListsForConnection
      sampleActorTypes sampleNewInfo (fun _ => none) sampleConnectionNode sampleOddFrameParams
      (fun _ => none)).Out = [[100, 102]] ∧
    300 ∉ (UTestGymsReplicationGraphNode_AlwaysRelevant_ForConnection.GatherActorListsForConnection
      sampleActorTypes sampleNewInfo (fun _ => none) sampleConnectionNode sampleOddFrameParams
      (fun _ => none)).Out.flatten := by
  decide

/-- C17 (amended). For every replication frame and every viewer whose controller is a player
controller with a player state, the candidate list built by `GatherActorListsForConnection`
(the first list it emits) contains the viewer and its view target, and it contains that
player state on the frames whose number has the same parity as the order number of the
connection (`ConnectionOrderNum % 2 == ReplicationFrameNum % 2`). -/
theorem C17_candidates_hold_viewer_target_and_throttled_player_state (W : FActorTypes)
    (NewInfo : AActor → FConnectionReplicationActorInfo) (LevelActors : FLevelActorMap)
    (node : UTestGymsReplicationGraphNode_AlwaysRelevant_ForConnection)
    (Params : FConnectionGatherActorListParameters) (Map : FPerConnectionActorInfoMap)
    (CurViewer : FNetViewer) (PC : APlayerController) (PS : AActor)
    (hV : CurViewer ∈ Params.Viewers)
    (hPC : W.AsPlayerController CurViewer.InViewer = some PC)
    (hPS : PC.PlayerState = some PS) :
    (UTestGymsReplicationGraphNode_AlwaysRelevant_ForConnection.GatherActorListsForConnection W
        NewInfo LevelActors node Params Map).Out.head? =
      some (UTestGymsReplicationGraphNode_AlwaysRelevant_ForConnection.GatherActorListsForConnection
        W NewInfo LevelActors node Params Map).node.ReplicationActorList ∧
    CurViewer.InViewer ∈
      (UTestGymsReplicationGraphNode_AlwaysRelevant_ForConnection.GatherActorListsForConnection W
        NewInfo LevelActors node Params Map).node.ReplicationActorList ∧
    CurViewer.ViewTarget ∈
      (UTestGymsReplicationGraphNode_AlwaysRelevant_ForConnection.GatherActorListsForConnection W
        NewInfo LevelActors node Params Map).node.ReplicationActorList ∧
    (Params.ConnectionOrderNum % 2 = Params.ReplicationFrameNum % 2 →
      PS ∈ (UTestGymsReplicationGraphNode_AlwaysRelevant_ForConnection.GatherActorListsForConnection
        W NewInfo LevelActors node Params Map).node.ReplicationActorList) := by
  obtain ⟨h1, h2, h3⟩ :=
    UTestGymsReplicationGraphNode_AlwaysRelevant_ForConnection.foldl_ViewerLoopBody_adds W
      NewInfo Params Params.Viewers
      ⟨[], node.PastRelevantActors, node.bInitializedPlayerState, Map, []⟩ CurViewer hV
  exact ⟨UTestGymsReplicationGraphNode_AlwaysRelevant_ForConnection.Gather_Out_head W NewInfo
    LevelActors node Params Map, h1, h2, fun hp => h3 PC PS hPC hPS hp⟩

/-- C17 (amended) at the single viewer of connection 0 on frame 2: the list holds the
controller, its view target and its player state. -/
theorem C17_candidates_hold_viewer_target_and_throttled_player_state_witness :
    100 ∈ (UTestGymsReplicationGraphNode_AlwaysRelevant_ForConnection.GatherActorListsForConnection
      sampleActorTypes sampleNewInfo (fun _ => none) sampleConnectionNode sampleEvenFrameParams
      (fun _ => none)).node.ReplicationActorList ∧
    102 ∈ (UTestGymsReplicationGraphNode_AlwaysRelevant_ForConnection.GatherActorListsForConnection
      sampleActorTypes sampleNewInfo (fun _ => none) sampleConnectionNode sampleEvenFrameParams
      (fun _ => none)).node.ReplicationActorList ∧
    300 ∈ (UTestGymsReplicationGraphNode_AlwaysRelevant_ForConnection.GatherActorListsForConnection
      sampleActorTypes sampleNewInfo (fun _ => none) sampleConnectionNode sampleEvenFrameParams
      (fun _ => none)).node.ReplicationActorList :=
  ⟨(C17_candidates_hold_viewer_target_and_throttled_player_state sampleActorTypes sampleNewInfo
      (fun _ => none) sampleConnectionNode sampleEvenFrameParams (fun _ => none)
      sampleControllerViewer ⟨some 300, some 102⟩ 300 (by decide) (by decide) rfl).2.1,
    (C17_candidates_hold_viewer_target_and_throttled_player_state sampleActorTypes sampleNewInfo
      (fun _ => none) sampleConnectionNode sampleEvenFrameParams (fun _ => none)
      sampleControllerViewer ⟨some 300, some 102⟩ 300 (by decide) (by decide) rfl).2.2.1,
    (C17_candidates_hold_viewer_target_and_throttled_player_state sampleActorTypes sampleNewInfo
      (fun _ => none) sampleConnectionNode sampleEvenFrameParams (fun _ => none)
      sampleControllerViewer ⟨some 300, some 102⟩ 300 (by decide) (by decide) rfl).2.2.2
      (by decide)⟩

/-! ## The per-connection always-relevant node: the transition records -/

namespace UTestGymsReplicationGraphNode_AlwaysRelevant_ForConnection

theorem FindLastData_Write_ne (f : FAlwaysRelevantActorInfo → FAlwaysRelevantActorInfo)
    (hf : ∀ d, (f d).Connection = d.Connection) (c c' : Nat) (hc : c' ≠ c)
    (Past : List FAlwaysRelevantActorInfo) :
    FindLastData (WriteLastData f c Past) c' = FindLastData Past c' := by
  induction Past with
  | nil => rfl
  | cons d rest ih =>
    unfold FindLastData at ih ⊢
    by_cases hd : d.Connection = some c
    · have h0 : ¬ d.Connection = some c' := by
        rw [hd]; intro h; exact hc (Option.some.inj h).symm
      have h1 : decide (d.Connection = some c') = false := decide_eq_false h0
      have h2 : decide ((f d).Connection = some c') = false := by rw [hf]; exact h1
      have hw : WriteLastData f c (d :: rest) = f d :: rest := by
        simp only [WriteLastData, if_pos hd]
      rw [hw]
      simp only [List.find?_cons, h1, h2]
    · have hw : WriteLastData f c (d :: rest) = d :: WriteLastData f c rest := by
        simp only [WriteLastData, if_neg hd]
      rw [hw]
      simp only [List.find?_cons]
      rw [ih]

theorem FindLastData_Write_eq (f : FAlwaysRelevantActorInfo → FAlwaysRelevantActorInfo)
    (hf : ∀ d, (f d).Connection = d.Connection) (c : Nat)
    (Past : List FAlwaysRelevantActorInfo) :
    FindLastData (WriteLastData f c Past) c = (FindLastData Past c).map f := by
  induction Past with
  | nil => rfl
  | cons d rest ih =>
    unfold FindLastData at ih ⊢
    by_cases hd : d.Connection = some c
    · have h1 : decide (d.Connection = some c) = true := decide_eq_true hd
      have h2 : decide ((f d).Connection = some c) = true := by rw [hf]; exact h1
      have hw : WriteLastData f c (d :: rest) = f d :: rest := by
        simp only [WriteLastData, if_pos hd]
      rw [hw]
      simp only [List.find?_cons, h1, h2, Option.map_some']
    · have h1 : decide (d.Connection = some c) = false := decide_eq_false hd
      have hw : WriteLastData f c (d :: rest) = d :: WriteLastData f c rest := by
        simp only [WriteLastData, if_neg hd]
      rw [hw]
      simp only [List.find?_cons, h1]
      exact ih

theorem FindLastData_append (Past : List FAlwaysRelevantActorInfo)
    (d : FAlwaysRelevantActorInfo) (c : Nat) :
    FindLastData (Past ++ [d]) c =
      match FindLastData Past c with
      | some e => some e
      | none => if d.Connection = some c then some d else none := by
  unfold FindLastData
  rw [List.find?_append]
  cases h : List.find? (fun d => decide (d.Connection = some c)) Past with
  | some e => simp
  | none =>
    by_cases hd : d.Connection = some c <;> simp [List.find?_cons, hd]

theorem FindLastData_prune (Past : List FAlwaysRelevantActorInfo) (c : Nat) :
    FindLastData (Past.filter (fun d => !decide (d.Connection = none))) c =
      FindLastData Past c := by
  induction Past with
  | nil => rfl
  | cons d rest ih =>
    unfold FindLastData at ih ⊢
    by_cases hd : d.Connection = some c
    · have hn : ¬ d.Connection = none := by rw [hd]; simp
      simp [List.filter_cons, hn, List.find?_cons, hd]
    · by_cases hn : d.Connection = none
      · simp only [List.filter_cons, hn, decide_True, Bool.not_true, Bool.false_eq_true,
          if_false, List.find?_cons]
        rw [ih]
        simp
      · simp only [List.filter_cons, hn, decide_False, Bool.not_false, if_true,
          List.find?_cons, hd]
        exact ih

/-! ### `EnsureLastData` -/

theorem EnsureLastData_of_some (st : FViewerLoopState) (V : FNetViewer)
    (d : FAlwaysRelevantActorInfo)
    (h : FindLastData st.PastRelevantActors V.Connection = some d) :
    EnsureLastData st V = st := by
  unfold EnsureLastData
  rw [h]

theorem EnsureLastData_Find_ne (st : FViewerLoopState) (V : FNetViewer) (c' : Nat)
    (hc : c' ≠ V.Connection) :
    FindLastData (EnsureLastData st V).PastRelevantActors c' =
      FindLastData st.PastRelevantActors c' := by
  unfold EnsureLastData
  split
  · rfl
  · simp only [FindLastData_append]
    cases FindLastData st.PastRelevantActors c' with
    | some e => rfl
    | none =>
      have : ¬ (some V.Connection = some c') := fun h => hc (Option.some.inj h).symm
      simp [this]

theorem EnsureLastData_Find_eq (st : FViewerLoopState) (V : FNetViewer) :
    FindLastData (EnsureLastData st V).PastRelevantActors V.Connection =
      match FindLastData st.PastRelevantActors V.Connection with
      | some d => some d
      | none => some ⟨some V.Connection, none, none⟩ := by
  unfold EnsureLastData
  cases h : FindLastData st.PastRelevantActors V.Connection with
  | some d => simp [h]
  | none => simp [FindLastData_append, h]

theorem EnsureLastData_fields (st : FViewerLoopState) (V : FNetViewer) :
    (EnsureLastData st V).ActorInfoMap = st.ActorInfoMap ∧
    (EnsureLastData st V).CullDistanceResets = st.CullDistanceResets := by
  unfold EnsureLastData
  split <;> exact ⟨rfl, rfl⟩

end UTestGymsReplicationGraphNode_AlwaysRelevant_ForConnection

namespace FPerConnectionActorInfoMap

theorem ActorInfo_Put_apply (m : FPerConnectionActorInfoMap) (a : AActor)
    (i : FConnectionReplicationActorInfo) (k : AActor) :
    (m.Put a i) k = if k = a then some i else m k := rfl

theorem FindOrAdd_fst_of_some (m : FPerConnectionActorInfoMap)
    (NewInfo : AActor → FConnectionReplicationActorInfo) (a : AActor)
    (i : FConnectionReplicationActorInfo) (h : m a = some i) :
    m.FindOrAdd NewInfo a = (i, m) := by
  unfold FindOrAdd
  rw [h]

theorem CullZero_FindOrAdd (m : FPerConnectionActorInfoMap)
    (NewInfo : AActor → FConnectionReplicationActorInfo) (a b : AActor) (h : m.CullZero a) :
    (m.FindOrAdd NewInfo b).2.CullZero a := by
  obtain ⟨i, hi, h0⟩ := h
  unfold FindOrAdd
  cases hb : m b with
  | some j => exact ⟨i, hi, h0⟩
  | none =>
    have hne : a ≠ b := by rintro rfl; rw [hi] at hb; cases hb
    exact ⟨i, by simp [ActorInfo_Put_apply, hne, hi], h0⟩

theorem CullZero_set_cull (m : FPerConnectionActorInfoMap)
    (NewInfo : AActor → FConnectionReplicationActorInfo) (b : AActor) :
    ((m.FindOrAdd NewInfo b).2.Put b
      { (m.FindOrAdd NewInfo b).1 with CullDistanceSquared := 0 }).CullZero b :=
  ⟨{ (m.FindOrAdd NewInfo b).1 with CullDistanceSquared := 0 }, by simp [ActorInfo_Put_apply], rfl⟩

theorem CullZero_set_cull_other (m : FPerConnectionActorInfoMap)
    (NewInfo : AActor → FConnectionReplicationActorInfo) (a b : AActor) (h : m.CullZero a) :
    ((m.FindOrAdd NewInfo b).2.Put b
      { (m.FindOrAdd NewInfo b).1 with CullDistanceSquared := 0 }).CullZero a := by
  by_cases hab : a = b
  · subst hab; exact CullZero_set_cull m NewInfo a
  · obtain ⟨i, hi, h0⟩ := CullZero_FindOrAdd m NewInfo a b h
    exact ⟨i, by simp [ActorInfo_Put_apply, hab, hi], h0⟩

theorem CullZero_set_period (m : FPerConnectionActorInfoMap)
    (NewInfo : AActor → FConnectionReplicationActorInfo) (a b : AActor) (h : m.CullZero a) :
    ((m.FindOrAdd NewInfo b).2.Put b
      { (m.FindOrAdd NewInfo b).1 with ReplicationPeriodFrame := 1 }).CullZero a := by
  by_cases hab : a = b
  · subst hab
    obtain ⟨i, hi, h0⟩ := h
    rw [FindOrAdd_fst_of_some m NewInfo a i hi]
    exact ⟨{ i with ReplicationPeriodFrame := 1 }, by simp [ActorInfo_Put_apply], h0⟩
  · obtain ⟨i, hi, h0⟩ := CullZero_FindOrAdd m NewInfo a b h
    exact ⟨i, by simp [ActorInfo_Put_apply, hab, hi], h0⟩

end FPerConnectionActorInfoMap

namespace UTestGymsReplicationGraphNode_AlwaysRelevant_ForConnection

/-! ### `ResetActorCullDistance` -/

theorem ResetLastViewer_noop (NewInfo : AActor → FConnectionReplicationActorInfo)
    (st : FViewerLoopState) (c : Nat) (a : AActor)
    (h : (FindLastData st.PastRelevantActors c).bind (fun d => d.LastViewer) = some a) :
    ResetActorCullDistance_LastViewer NewInfo st c a = st := by
  unfold ResetActorCullDistance_LastViewer
  rw [if_neg (by simpa using h)]

theorem ResetLastViewer_Find_ne (NewInfo : AActor → FConnectionReplicationActorInfo)
    (st : FViewerLoopState) (c : Nat) (a : AActor) (c' : Nat) (hc : c' ≠ c) :
    FindLastData (ResetActorCullDistance_LastViewer NewInfo st c a).PastRelevantActors c' =
      FindLastData st.PastRelevantActors c' := by
  unfold ResetActorCullDistance_LastViewer
  split_ifs
  · exact FindLastData_Write_ne (fun d => { d with LastViewer := some a }) (fun _ => rfl) c c' hc
      st.PastRelevantActors
  · rfl

theorem ResetLastViewer_Find_eq (NewInfo : AActor → FConnectionReplicationActorInfo)
    (st : FViewerLoopState) (c : Nat) (a : AActor) :
    FindLastData (ResetActorCullDistance_LastViewer NewInfo st c a).PastRelevantActors c =
      (FindLastData st.PastRelevantActors c).map (fun d => { d with LastViewer := some a }) := by
  unfold ResetActorCullDistance_LastViewer
  split_ifs with h
  · exact FindLastData_Write_eq (fun d => { d with LastViewer := some a }) (fun _ => rfl) c
      st.PastRelevantActors
  · simp only [ne_eq, not_not] at h
    cases hd : FindLastData st.PastRelevantActors c with
    | none => rfl
    | some d =>
      rw [hd] at h
      obtain ⟨dc, dv, dt⟩ := d
      have h' : dv = some a := by simpa using h
      simp [h']

theorem ResetLastViewer_effect (NewInfo : AActor → FConnectionReplicationActorInfo)
    (st : FViewerLoopState) (c : Nat) (a : AActor) :
    (∀ x, x ∈ st.CullDistanceResets →
      x ∈ (ResetActorCullDistance_LastViewer NewInfo st c a).CullDistanceResets) ∧
    (∀ x, st.ActorInfoMap.CullZero x →
      (ResetActorCullDistance_LastViewer NewInfo st c a).ActorInfoMap.CullZero x) ∧
    ((FindLastData st.PastRelevantActors c).bind (fun d => d.LastViewer) ≠ some a →
      a ∈ (ResetActorCullDistance_LastViewer NewInfo st c a).CullDistanceResets ∧
      (ResetActorCullDistance_LastViewer NewInfo st c a).ActorInfoMap.CullZero a) := by
  unfold ResetActorCullDistance_LastViewer
  split_ifs with h
  · exact ⟨fun x hx => List.mem_append_left _ hx,
      fun x hx => FPerConnectionActorInfoMap.CullZero_set_cull_other _ NewInfo x a hx,
      fun _ => ⟨by simp, FPerConnectionActorInfoMap.CullZero_set_cull _ NewInfo a⟩⟩
  · exact ⟨fun x hx => hx, fun x hx => hx, fun h' => absurd h' h⟩

theorem ResetLastViewTarget_noop (NewInfo : AActor → FConnectionReplicationActorInfo)
    (st : FViewerLoopState) (c : Nat) (a : AActor)
    (h : (FindLastData st.PastRelevantActors c).bind (fun d => d.LastViewTarget) = some a) :
    ResetActorCullDistance_LastViewTarget NewInfo st c a = st := by
  unfold ResetActorCullDistance_LastViewTarget
  rw [if_neg (by simpa using h)]

theorem ResetLastViewTarget_Find_ne (NewInfo : AActor → FConnectionReplicationActorInfo)
    (st : FViewerLoopState) (c : Nat) (a : AActor) (c' : Nat) (hc : c' ≠ c) :
    FindLastData (ResetActorCullDistance_LastViewTarget NewInfo st c a).PastRelevantActors c' =
      FindLastData st.PastRelevantActors c' := by
  unfold ResetActorCullDistance_LastViewTarget
  split_ifs
  · exact FindLastData_Write_ne (fun d => { d with LastViewTarget := some a }) (fun _ => rfl) c c' hc
      st.PastRelevantActors
  · rfl

theorem ResetLastViewTarget_Find_eq (NewInfo : AActor → FConnectionReplicationActorInfo)
    (st : FViewerLoopState) (c : Nat) (a : AActor) :
    FindLastData (ResetActorCullDistance_LastViewTarget NewInfo st c a).PastRelevantActors c =
      (FindLastData st.PastRelevantActors c).map
        (fun d => { d with LastViewTarget := some a }) := by
  unfold ResetActorCullDistance_LastViewTarget
  split_ifs with h
  · exact FindLastData_Write_eq (fun d => { d with LastViewTarget := some a }) (fun _ => rfl) c
      st.PastRelevantActors
  · simp only [ne_eq, not_not] at h
    cases hd : FindLastData st.PastRelevantActors c with
    | none => rfl
    | some d =>
      rw [hd] at h
      obtain ⟨dc, dv, dt⟩ := d
      have h' : dt = some a := by simpa using h
      simp [h']

theorem ResetLastViewTarget_effect (NewInfo : AActor → FConnectionReplicationActorInfo)
    (st : FViewerLoopState) (c : Nat) (a : AActor) :
    (∀ x, x ∈ st.CullDistanceResets →
      x ∈ (ResetActorCullDistance_LastViewTarget NewInfo st c a).CullDistanceResets) ∧
    (∀ x, st.ActorInfoMap.CullZero x →
      (ResetActorCullDistance_LastViewTarget NewInfo st c a).ActorInfoMap.CullZero x) ∧
    ((FindLastData st.PastRelevantActors c).bind (fun d => d.LastViewTarget) ≠ some a →
      a ∈ (ResetActorCullDistance_LastViewTarget NewInfo st c a).CullDistanceResets ∧
      (ResetActorCullDistance_LastViewTarget NewInfo st c a).ActorInfoMap.CullZero a) := by
  unfold ResetActorCullDistance_LastViewTarget
  split_ifs with h
  · exact ⟨fun x hx => List.mem_append_left _ hx,
      fun x hx => FPerConnectionActorInfoMap.CullZero_set_cull_other _ NewInfo x a hx,
      fun _ => ⟨by simp, FPerConnectionActorInfoMap.CullZero_set_cull _ NewInfo a⟩⟩
  · exact ⟨fun x hx => hx, fun x hx => hx, fun h' => absurd h' h⟩

end UTestGymsReplicationGraphNode_AlwaysRelevant_ForConnection

namespace UTestGymsReplicationGraphNode_AlwaysRelevant_ForConnection

/-! ### The steps of the viewer loop body and the transition records -/

theorem EnsureLastData_bind (st : FViewerLoopState) (V : FNetViewer) (c : Nat)
    (g : FAlwaysRelevantActorInfo → Option AActor)
    (hg : g ⟨some V.Connection, none, none⟩ = none) :
    (FindLastData (EnsureLastData st V).PastRelevantActors c).bind g =
      (FindLastData st.PastRelevantActors c).bind g := by
  by_cases hc : c = V.Connection
  · subst hc
    rw [EnsureLastData_Find_eq]
    cases h : FindLastData st.PastRelevantActors V.Connection with
    | some d => rfl
    | none => simp [hg]
  · rw [EnsureLastData_Find_ne st V c hc]

theorem EnsureLastData_isSome (st : FViewerLoopState) (V : FNetViewer) :
    (FindLastData (EnsureLastData st V).PastRelevantActors V.Connection).isSome = true := by
  rw [EnsureLastData_Find_eq]
  cases FindLastData st.PastRelevantActors V.Connection <;> rfl

theorem PlayerStateStep_fields (NewInfo : AActor → FConnectionReplicationActorInfo)
    (Params : FConnectionGatherActorListParameters) (PC : APlayerController)
    (st : FViewerLoopState) :
    (PlayerStateStep NewInfo Params PC st).PastRelevantActors = st.PastRelevantActors ∧
    (PlayerStateStep NewInfo Params PC st).CullDistanceResets = st.CullDistanceResets ∧
    (∀ x, st.ActorInfoMap.CullZero x →
      (PlayerStateStep NewInfo Params PC st).ActorInfoMap.CullZero x) := by
  unfold PlayerStateStep
  by_cases hp : Params.ConnectionOrderNum % 2 = Params.ReplicationFrameNum % 2
  · cases hPS : PC.PlayerState with
    | none => simp [hp]
    | some PS =>
      cases hi : st.bInitializedPlayerState with
      | true => simp [hp, hi]
      | false =>
        simp only [hp, decide_True, if_true, hi, Bool.not_false]
        exact ⟨trivial, trivial, fun x hx =>
          FPerConnectionActorInfoMap.CullZero_set_period _ NewInfo x PS hx⟩
  · simp [hp]

/-- The part of `PawnStep` that bears on the records, the map and the trace. -/
theorem PawnStep_core (W : FActorTypes) (NewInfo : AActor → FConnectionReplicationActorInfo)
    (PC : APlayerController) (st : FViewerLoopState) (V : FNetViewer) :
    ∃ st' : FViewerLoopState,
      (st' = st ∧ (∀ p, PC.Pawn = some p → W.IsCharacter p = true → False) ∨
        ∃ p, PC.Pawn = some p ∧ W.IsCharacter p = true ∧
          st' = ResetActorCullDistance_LastViewer NewInfo st V.Connection p) ∧
      (PawnStep W NewInfo PC st V).PastRelevantActors = st'.PastRelevantActors ∧
      (PawnStep W NewInfo PC st V).CullDistanceResets = st'.CullDistanceResets ∧
      (PawnStep W NewInfo PC st V).ActorInfoMap = st'.ActorInfoMap := by
  unfold PawnStep
  cases hp : PC.Pawn with
  | none => exact ⟨st, Or.inl ⟨rfl, fun p h => by cases h⟩, rfl, rfl, rfl⟩
  | some p =>
    by_cases hc : W.IsCharacter p = true
    · refine ⟨ResetActorCullDistance_LastViewer NewInfo st V.Connection p,
        Or.inr ⟨p, rfl, hc, rfl⟩, ?_⟩
      simp only [hc, if_true]
      split_ifs <;> exact ⟨rfl, rfl, rfl⟩
    · refine ⟨st, Or.inl ⟨rfl, fun q h hq => ?_⟩, ?_⟩
      · cases h; exact hc hq
      · simp only [hc, Bool.false_eq_true, if_false]
        exact ⟨trivial, trivial, trivial⟩

theorem PawnStep_Find_ne (W : FActorTypes) (NewInfo : AActor → FConnectionReplicationActorInfo)
    (PC : APlayerController) (st : FViewerLoopState) (V : FNetViewer) (c' : Nat)
    (hc : c' ≠ V.Connection) :
    FindLastData (PawnStep W NewInfo PC st V).PastRelevantActors c' =
      FindLastData st.PastRelevantActors c' := by
  obtain ⟨st', h | ⟨p, _, _, h⟩, hP, _, _⟩ := PawnStep_core W NewInfo PC st V
  · rw [hP, h.1]
  · rw [hP, h]; exact ResetLastViewer_Find_ne NewInfo st _ p c' hc

theorem PawnStep_Find_eq (W : FActorTypes) (NewInfo : AActor → FConnectionReplicationActorInfo)
    (PC : APlayerController) (st : FViewerLoopState) (V : FNetViewer)
    (d : FAlwaysRelevantActorInfo)
    (hd : FindLastData st.PastRelevantActors V.Connection = some d) :
    ∃ d', FindLastData (PawnStep W NewInfo PC st V).PastRelevantActors V.Connection = some d' ∧
      d'.LastViewTarget = d.LastViewTarget ∧
      (∀ p, PC.Pawn = some p → W.IsCharacter p = true → d'.LastViewer = some p) := by
  obtain ⟨st', h | ⟨p, hp, hc, h⟩, hP, _, _⟩ := PawnStep_core W NewInfo PC st V
  · rw [hP, h.1]
    exact ⟨d, hd, rfl, fun p hp hc => (h.2 p hp hc).elim⟩
  · rw [hP, h, ResetLastViewer_Find_eq, hd]
    refine ⟨_, rfl, rfl, fun q hq _ => ?_⟩
    rw [hp] at hq
    cases hq
    rfl

theorem PawnStep_mono (W : FActorTypes) (NewInfo : AActor → FConnectionReplicationActorInfo)
    (PC : APlayerController) (st : FViewerLoopState) (V : FNetViewer) :
    (∀ x, x ∈ st.CullDistanceResets →
      x ∈ (PawnStep W NewInfo PC st V).CullDistanceResets) ∧
    (∀ x, st.ActorInfoMap.CullZero x → (PawnStep W NewInfo PC st V).ActorInfoMap.CullZero x) := by
  obtain ⟨st', h | ⟨p, _, _, h⟩, _, hR, hM⟩ := PawnStep_core W NewInfo PC st V
  · rw [hR, hM, h.1]; exact ⟨fun x hx => hx, fun x hx => hx⟩
  · rw [hR, hM, h]
    exact ⟨(ResetLastViewer_effect NewInfo st _ p).1, (ResetLastViewer_effect NewInfo st _ p).2.1⟩

theorem PawnStep_noop (W : FActorTypes) (NewInfo : AActor → FConnectionReplicationActorInfo)
    (PC : APlayerController) (st : FViewerLoopState) (V : FNetViewer)
    (d : FAlwaysRelevantActorInfo)
    (hd : FindLastData st.PastRelevantActors V.Connection = some d)
    (hset : ∀ p, PC.Pawn = some p → W.IsCharacter p = true → d.LastViewer = some p) :
    (PawnStep W NewInfo PC st V).PastRelevantActors = st.PastRelevantActors ∧
    (PawnStep W NewInfo PC st V).CullDistanceResets = st.CullDistanceResets := by
  obtain ⟨st', h | ⟨p, hp, hc, h⟩, hP, hR, _⟩ := PawnStep_core W NewInfo PC st V
  · rw [hP, hR, h.1]; exact ⟨rfl, rfl⟩
  · have : ResetActorCullDistance_LastViewer NewInfo st V.Connection p = st :=
      ResetLastViewer_noop NewInfo st _ p (by rw [hd]; exact hset p hp hc)
    rw [hP, hR, h, this]; exact ⟨rfl, rfl⟩

theorem ViewTargetStep_Find_ne (W : FActorTypes)
    (NewInfo : AActor → FConnectionReplicationActorInfo) (st : FViewerLoopState)
    (V : FNetViewer) (c' : Nat) (hc : c' ≠ V.Connection) :
    FindLastData (ViewTargetStep W NewInfo st V).PastRelevantActors c' =
      FindLastData st.PastRelevantActors c' := by
  unfold ViewTargetStep
  split_ifs
  · exact ResetLastViewTarget_Find_ne NewInfo st _ _ c' hc
  · rfl

theorem ViewTargetStep_Find_eq (W : FActorTypes)
    (NewInfo : AActor → FConnectionReplicationActorInfo) (st : FViewerLoopState)
    (V : FNetViewer) (d : FAlwaysRelevantActorInfo)
    (hd : FindLastData st.PastRelevantActors V.Connection = some d) :
    ∃ d', FindLastData (ViewTargetStep W NewInfo st V).PastRelevantActors V.Connection =
        some d' ∧
      d'.LastViewer = d.LastViewer ∧
      (W.IsCharacter V.ViewTarget = true → d'.LastViewTarget = some V.ViewTarget) := by
  unfold ViewTargetStep
  split_ifs with hc
  · rw [ResetLastViewTarget_Find_eq, hd]
    exact ⟨_, rfl, rfl, fun _ => rfl⟩
  · exact ⟨d, hd, rfl, fun h => absurd h hc⟩

theorem ViewTargetStep_mono (W : FActorTypes)
    (NewInfo : AActor → FConnectionReplicationActorInfo) (st : FViewerLoopState)
    (V : FNetViewer) :
    (∀ x, x ∈ st.CullDistanceResets →
      x ∈ (ViewTargetStep W NewInfo st V).CullDistanceResets) ∧
    (∀ x, st.ActorInfoMap.CullZero x → (ViewTargetStep W NewInfo st V).ActorInfoMap.CullZero x) := by
  unfold ViewTargetStep
  split_ifs
  · exact ⟨(ResetLastViewTarget_effect NewInfo st _ _).1,
      (ResetLastViewTarget_effect NewInfo st _ _).2.1⟩
  · exact ⟨fun x hx => hx, fun x hx => hx⟩

theorem ViewTargetStep_noop (W : FActorTypes)
    (NewInfo : AActor → FConnectionReplicationActorInfo) (st : FViewerLoopState)
    (V : FNetViewer) (d : FAlwaysRelevantActorInfo)
    (hd : FindLastData st.PastRelevantActors V.Connection = some d)
    (hset : W.IsCharacter V.ViewTarget = true → d.LastViewTarget = some V.ViewTarget) :
    ViewTargetStep W NewInfo st V = st := by
  unfold ViewTargetStep
  split_ifs with hc
  · exact ResetLastViewTarget_noop NewInfo st _ _ (by rw [hd]; exact hset hc)
  · rfl

end UTestGymsReplicationGraphNode_AlwaysRelevant_ForConnection

namespace UTestGymsReplicationGraphNode_AlwaysRelevant_ForConnection

/-! ### The viewer loop body and the viewer loop -/

theorem ViewerLoopBody_Find_ne (W : FActorTypes)
    (NewInfo : AActor → FConnectionReplicationActorInfo)
    (Params : FConnectionGatherActorListParameters) (st : FViewerLoopState) (V : FNetViewer)
    (c' : Nat) (hc : c' ≠ V.Connection) :
    FindLastData (ViewerLoopBody W NewInfo Params st V).PastRelevantActors c' =
      FindLastData st.PastRelevantActors c' := by
  unfold ViewerLoopBody
  simp only
  split
  · rename_i PC _
    rw [ViewTargetStep_Find_ne _ _ _ _ _ hc, PawnStep_Find_ne _ _ _ _ _ _ hc,
      EnsureLastData_Find_ne _ _ _ hc, (PlayerStateStep_fields NewInfo Params PC _).1]
    rfl
  · rfl

theorem ViewerLoopBody_mono (W : FActorTypes)
    (NewInfo : AActor → FConnectionReplicationActorInfo)
    (Params : FConnectionGatherActorListParameters) (st : FViewerLoopState) (V : FNetViewer) :
    (∀ x, x ∈ st.CullDistanceResets →
      x ∈ (ViewerLoopBody W NewInfo Params st V).CullDistanceResets) ∧
    (∀ x, st.ActorInfoMap.CullZero x →
      (ViewerLoopBody W NewInfo Params st V).ActorInfoMap.CullZero x) := by
  unfold ViewerLoopBody
  simp only
  split
  · rename_i PC _
    have hPS := PlayerStateStep_fields NewInfo Params PC (AddViewerAndTarget st V)
    have hE := EnsureLastData_fields (PlayerStateStep NewInfo Params PC (AddViewerAndTarget st V)) V
    have hP := PawnStep_mono W NewInfo PC
      (EnsureLastData (PlayerStateStep NewInfo Params PC (AddViewerAndTarget st V)) V) V
    have hT := ViewTargetStep_mono W NewInfo (PawnStep W NewInfo PC
      (EnsureLastData (PlayerStateStep NewInfo Params PC (AddViewerAndTarget st V)) V) V) V
    refine ⟨fun x hx => hT.1 x (hP.1 x ?_), fun x hx => hT.2 x (hP.2 x ?_)⟩
    · rw [hE.2, hPS.2.1]; exact hx
    · rw [hE.1]; exact hPS.2.2 x hx
  · exact ⟨fun x hx => hx, fun x hx => hx⟩

theorem ViewerLoopBody_Settled (W : FActorTypes)
    (NewInfo : AActor → FConnectionReplicationActorInfo)
    (Params : FConnectionGatherActorListParameters) (st : FViewerLoopState) (V : FNetViewer) :
    Settled W (ViewerLoopBody W NewInfo Params st V).PastRelevantActors V := by
  intro PC hPC
  unfold ViewerLoopBody
  simp only [hPC]
  obtain ⟨d0, hd0⟩ := Option.isSome_iff_exists.mp
    (EnsureLastData_isSome (PlayerStateStep NewInfo Params PC (AddViewerAndTarget st V)) V)
  obtain ⟨d1, hd1, _, hv1⟩ := PawnStep_Find_eq W NewInfo PC _ V d0 hd0
  obtain ⟨d2, hd2, hv2, ht2⟩ := ViewTargetStep_Find_eq W NewInfo _ V d1 hd1
  exact ⟨d2, hd2, fun p hp hc => by rw [hv2]; exact hv1 p hp hc, ht2⟩

theorem ViewerLoopBody_noop (W : FActorTypes)
    (NewInfo : AActor → FConnectionReplicationActorInfo)
    (Params : FConnectionGatherActorListParameters) (st : FViewerLoopState) (V : FNetViewer)
    (hS : Settled W st.PastRelevantActors V) :
    (ViewerLoopBody W NewInfo Params st V).PastRelevantActors = st.PastRelevantActors ∧
    (ViewerLoopBody W NewInfo Params st V).CullDistanceResets = st.CullDistanceResets := by
  unfold ViewerLoopBody
  simp only
  cases hPC : W.AsPlayerController V.InViewer with
  | none => exact ⟨rfl, rfl⟩
  | some PC =>
    simp only
    obtain ⟨d, hd, hv, ht⟩ := hS PC hPC
    have hPS := PlayerStateStep_fields NewInfo Params PC (AddViewerAndTarget st V)
    have hd1 : FindLastData
        (PlayerStateStep NewInfo Params PC (AddViewerAndTarget st V)).PastRelevantActors
        V.Connection = some d := by rw [hPS.1]; exact hd
    have hE := EnsureLastData_of_some _ V d hd1
    rw [hE]
    have hP := PawnStep_noop W NewInfo PC
      (PlayerStateStep NewInfo Params PC (AddViewerAndTarget st V)) V d hd1 hv
    have hd2 : FindLastData (PawnStep W NewInfo PC
        (PlayerStateStep NewInfo Params PC (AddViewerAndTarget st V)) V).PastRelevantActors
        V.Connection = some d := by rw [hP.1]; exact hd1
    rw [ViewTargetStep_noop W NewInfo _ V d hd2 ht, hP.1, hP.2, hPS.1, hPS.2.1]
    exact ⟨rfl, rfl⟩

theorem ViewerLoopBody_resets_target (W : FActorTypes)
    (NewInfo : AActor → FConnectionReplicationActorInfo)
    (Params : FConnectionGatherActorListParameters) (st : FViewerLoopState) (V : FNetViewer)
    (PC : APlayerController) (hPC : W.AsPlayerController V.InViewer = some PC)
    (hchar : W.IsCharacter V.ViewTarget = true)
    (hchg : (FindLastData st.PastRelevantActors V.Connection).bind
      (fun d => d.LastViewTarget) ≠ some V.ViewTarget) :
    V.ViewTarget ∈ (ViewerLoopBody W NewInfo Params st V).CullDistanceResets ∧
    (ViewerLoopBody W NewInfo Params st V).ActorInfoMap.CullZero V.ViewTarget := by
  unfold ViewerLoopBody
  simp only [hPC]
  have hPS := PlayerStateStep_fields NewInfo Params PC (AddViewerAndTarget st V)
  have h1 : (FindLastData (EnsureLastData
      (PlayerStateStep NewInfo Params PC (AddViewerAndTarget st V)) V).PastRelevantActors
      V.Connection).bind (fun d => d.LastViewTarget) ≠ some V.ViewTarget := by
    rw [EnsureLastData_bind _ _ _ _ rfl, hPS.1]
    exact hchg
  obtain ⟨d0, hd0⟩ := Option.isSome_iff_exists.mp
    (EnsureLastData_isSome (PlayerStateStep NewInfo Params PC (AddViewerAndTarget st V)) V)
  obtain ⟨d1, hd1, ht1, _⟩ := PawnStep_Find_eq W NewInfo PC _ V d0 hd0
  have h2 : (FindLastData (PawnStep W NewInfo PC (EnsureLastData
      (PlayerStateStep NewInfo Params PC (AddViewerAndTarget st V)) V) V).PastRelevantActors
      V.Connection).bind (fun d => d.LastViewTarget) ≠ some V.ViewTarget := by
    rw [hd1]
    rw [hd0] at h1
    show d1.LastViewTarget ≠ some V.ViewTarget
    rw [ht1]
    exact h1
  unfold ViewTargetStep
  rw [if_pos hchar]
  exact (ResetLastViewTarget_effect NewInfo _ _ _).2.2 h2

theorem Settled_congr (W : FActorTypes) (Past Past' : List FAlwaysRelevantActorInfo)
    (V : FNetViewer)
    (h : FindLastData Past' V.Connection = FindLastData Past V.Connection)
    (hS : Settled W Past V) : Settled W Past' V := by
  intro PC hPC
  obtain ⟨d, hd, hrest⟩ := hS PC hPC
  exact ⟨d, by rw [h]; exact hd, hrest⟩

theorem foldl_Find_ne (W : FActorTypes) (NewInfo : AActor → FConnectionReplicationActorInfo)
    (Params : FConnectionGatherActorListParameters) (Viewers : List FNetViewer) (c : Nat) :
    ∀ st : FViewerLoopState, (∀ V ∈ Viewers, V.Connection ≠ c) →
      FindLastData (Viewers.foldl (ViewerLoopBody W NewInfo Params) st).PastRelevantActors c =
        FindLastData st.PastRelevantActors c := by
  induction Viewers with
  | nil => intro st _; rfl
  | cons V rest ih =>
    intro st h
    simp only [List.foldl_cons]
    rw [ih _ (fun V' hV' => h V' (List.mem_cons_of_mem _ hV')),
      ViewerLoopBody_Find_ne W NewInfo Params st V c (fun e => h V (List.mem_cons_self _ _) e.symm)]

theorem foldl_mono (W : FActorTypes) (NewInfo : AActor → FConnectionReplicationActorInfo)
    (Params : FConnectionGatherActorListParameters) (Viewers : List FNetViewer) :
    ∀ st : FViewerLoopState,
      (∀ x, x ∈ st.CullDistanceResets →
        x ∈ (Viewers.foldl (ViewerLoopBody W NewInfo Params) st).CullDistanceResets) ∧
      (∀ x, st.ActorInfoMap.CullZero x →
        (Viewers.foldl (ViewerLoopBody W NewInfo Params) st).ActorInfoMap.CullZero x) := by
  induction Viewers with
  | nil => intro st; exact ⟨fun x hx => hx, fun x hx => hx⟩
  | cons V rest ih =>
    intro st
    have h1 := ViewerLoopBody_mono W NewInfo Params st V
    have h2 := ih (ViewerLoopBody W NewInfo Params st V)
    exact ⟨fun x hx => h2.1 x (h1.1 x hx), fun x hx => h2.2 x (h1.2 x hx)⟩

theorem foldl_Settled (W : FActorTypes) (NewInfo : AActor → FConnectionReplicationActorInfo)
    (Params : FConnectionGatherActorListParameters) (Viewers : List FNetViewer)
    (hnd : (Viewers.map (fun V => V.Connection)).Nodup) :
    ∀ (st : FViewerLoopState) (V : FNetViewer), V ∈ Viewers →
      Settled W (Viewers.foldl (ViewerLoopBody W NewInfo Params) st).PastRelevantActors V := by
  induction Viewers with
  | nil => intro st V h; cases h
  | cons V0 rest ih =>
    intro st V hV
    simp only [List.map_cons, List.nodup_cons, List.mem_map, not_exists, not_and] at hnd
    simp only [List.foldl_cons]
    rcases List.mem_cons.mp hV with rfl | hV
    · apply Settled_congr W _ _ V
        (foldl_Find_ne W NewInfo Params rest V.Connection _ (fun V' hV' => hnd.1 V' hV'))
      exact ViewerLoopBody_Settled W NewInfo Params st V
    · exact ih hnd.2 _ V hV

theorem foldl_noop (W : FActorTypes) (NewInfo : AActor → FConnectionReplicationActorInfo)
    (Params : FConnectionGatherActorListParameters) (Viewers : List FNetViewer) :
    ∀ st : FViewerLoopState, (∀ V ∈ Viewers, Settled W st.PastRelevantActors V) →
      (Viewers.foldl (ViewerLoopBody W NewInfo Params) st).PastRelevantActors =
        st.PastRelevantActors ∧
      (Viewers.foldl (ViewerLoopBody W NewInfo Params) st).CullDistanceResets =
        st.CullDistanceResets := by
  induction Viewers with
  | nil => intro st _; exact ⟨rfl, rfl⟩
  | cons V rest ih =>
    intro st h
    have h1 := ViewerLoopBody_noop W NewInfo Params st V (h V (List.mem_cons_self _ _))
    have h2 := ih (ViewerLoopBody W NewInfo Params st V) (fun V' hV' => by
      rw [h1.1]; exact h V' (List.mem_cons_of_mem _ hV'))
    simp only [List.foldl_cons]
    rw [h2.1, h2.2, h1.1, h1.2]
    exact ⟨rfl, rfl⟩

theorem foldl_resets_target (W : FActorTypes)
    (NewInfo : AActor → FConnectionReplicationActorInfo)
    (Params : FConnectionGatherActorListParameters) (Viewers : List FNetViewer)
    (hnd : (Viewers.map (fun V => V.Connection)).Nodup) :
    ∀ (st : FViewerLoopState) (V : FNetViewer) (PC : APlayerController), V ∈ Viewers →
      W.AsPlayerController V.InViewer = some PC → W.IsCharacter V.ViewTarget = true →
      (FindLastData st.PastRelevantActors V.Connection).bind (fun d => d.LastViewTarget) ≠
        some V.ViewTarget →
      V.ViewTarget ∈ (Viewers.foldl (ViewerLoopBody W NewInfo Params) st).CullDistanceResets ∧
      (Viewers.foldl (ViewerLoopBody W NewInfo Params) st).ActorInfoMap.CullZero
        V.ViewTarget := by
  induction Viewers with
  | nil => intro st V PC h; cases h
  | cons V0 rest ih =>
    intro st V PC hV hPC hchar hchg
    simp only [List.map_cons, List.nodup_cons, List.mem_map, not_exists, not_and] at hnd
    simp only [List.foldl_cons]
    rcases List.mem_cons.mp hV with rfl | hV
    · have h1 := ViewerLoopBody_resets_target W NewInfo Params st V PC hPC hchar hchg
      have h2 := foldl_mono W NewInfo Params rest (ViewerLoopBody W NewInfo Params st V)
      exact ⟨h2.1 _ h1.1, h2.2 _ h1.2⟩
    · have hne : V.Connection ≠ V0.Connection := fun e => hnd.1 V hV e
      exact ih hnd.2 _ V PC hV hPC hchar (by
        rw [ViewerLoopBody_Find_ne W NewInfo Params st V0 V.Connection hne]; exact hchg)

/-! ### The level loop keeps the forced cull distances -/

theorem AllDormantScan_CullZero (NewInfo : AActor → FConnectionReplicationActorInfo)
    (RepList : List AActor) :
    ∀ (m : FPerConnectionActorInfoMap) (x : AActor), m.CullZero x →
      (AllDormantScan NewInfo RepList m).2.CullZero x := by
  induction RepList with
  | nil => intro m x h; exact h
  | cons a rest ih =>
    intro m x h
    unfold AllDormantScan
    split_ifs
    · exact FPerConnectionActorInfoMap.CullZero_FindOrAdd m NewInfo x a h
    · exact ih _ x (FPerConnectionActorInfoMap.CullZero_FindOrAdd m NewInfo x a h)

theorem LevelLoopBody_CullZero (LevelActors : FLevelActorMap)
    (NewInfo : AActor → FConnectionReplicationActorInfo) (Idx : Nat) (st : FLevelLoopState)
    (x : AActor) (h : st.ActorInfoMap.CullZero x) :
    (LevelLoopBody LevelActors NewInfo Idx st).ActorInfoMap.CullZero x := by
  unfold LevelLoopBody
  split
  · exact h
  · simp only
    split
    · exact h
    · split_ifs
      · exact AllDormantScan_CullZero NewInfo _ _ x h
      · exact AllDormantScan_CullZero NewInfo _ _ x h
      · exact h

theorem LevelLoop_CullZero (LevelActors : FLevelActorMap)
    (NewInfo : AActor → FConnectionReplicationActorInfo) (n : Nat) :
    ∀ (st : FLevelLoopState) (x : AActor), st.ActorInfoMap.CullZero x →
      (LevelLoop LevelActors NewInfo n st).ActorInfoMap.CullZero x := by
  induction n with
  | zero => intro st x h; exact h
  | succ n ih =>
    intro st x h
    exact ih _ x (LevelLoopBody_CullZero LevelActors NewInfo n st x h)

end UTestGymsReplicationGraphNode_AlwaysRelevant_ForConnection

namespace FActorRepListRefView

theorem mem_ConditionalAdd_cases (l : FActorRepListRefView) (a x : AActor)
    (h : x ∈ ConditionalAdd l a) : x ∈ l ∨ x = a := by
  unfold ConditionalAdd at h
  split_ifs at h
  · exact Or.inl h
  · rcases List.mem_append.mp h with h | h
    · exact Or.inl h
    · exact Or.inr (by simpa using h)

end FActorRepListRefView

namespace UTestGymsReplicationGraphNode_AlwaysRelevant_ForConnection

/-! ### Only current viewers, view targets, player states and pawns are touched -/

/-- The actor is the viewer, the view target, or (for a player controller) the player state
or the pawn of a viewer. -/
theorem ViewerLoopBody_list_cases (W : FActorTypes)
    (NewInfo : AActor → FConnectionReplicationActorInfo)
    (Params : FConnectionGatherActorListParameters) (st : FViewerLoopState) (V : FNetViewer)
    (x : AActor) (h : x ∈ (ViewerLoopBody W NewInfo Params st V).ReplicationActorList) :
    x ∈ st.ReplicationActorList ∨ x = V.InViewer ∨ x = V.ViewTarget ∨
      ∃ PC, W.AsPlayerController V.InViewer = some PC ∧
        (PC.PlayerState = some x ∨ PC.Pawn = some x) := by
  have h0 : ∀ y, y ∈ (AddViewerAndTarget st V).ReplicationActorList →
      y ∈ st.ReplicationActorList ∨ y = V.InViewer ∨ y = V.ViewTarget := by
    intro y hy
    rcases FActorRepListRefView.mem_ConditionalAdd_cases _ _ _ hy with hy | hy
    · rcases FActorRepListRefView.mem_ConditionalAdd_cases _ _ _ hy with hy | hy
      · exact Or.inl hy
      · exact Or.inr (Or.inl hy)
    · exact Or.inr (Or.inr hy)
  unfold ViewerLoopBody at h
  simp only at h
  cases hPC : W.AsPlayerController V.InViewer with
  | none =>
    rw [hPC] at h
    rcases h0 x h with h | h | h
    · exact Or.inl h
    · exact Or.inr (Or.inl h)
    · exact Or.inr (Or.inr (Or.inl h))
  | some PC =>
    rw [hPC] at h
    simp only at h
    rw [ViewTargetStep_list] at h
    have hpawn : x ∈ (EnsureLastData (PlayerStateStep NewInfo Params PC
        (AddViewerAndTarget st V)) V).ReplicationActorList ∨ PC.Pawn = some x := by
      unfold PawnStep at h
      cases hp : PC.Pawn with
      | none => rw [hp] at h; exact Or.inl h
      | some p =>
        rw [hp] at h
        simp only at h
        split_ifs at h
        · simp only at h
          rcases FActorRepListRefView.mem_ConditionalAdd_cases _ _ _ h with h | h
          · rw [ResetLastViewer_list] at h; exact Or.inl h
          · exact Or.inr (by rw [h])
        · rw [ResetLastViewer_list] at h; exact Or.inl h
        · exact Or.inl h
    rcases hpawn with h | h
    · rw [EnsureLastData_list, PlayerStateStep_list] at h
      have hps : x ∈ (AddViewerAndTarget st V).ReplicationActorList ∨ PC.PlayerState = some x := by
        split_ifs at h
        · cases hPS : PC.PlayerState with
          | none => rw [hPS] at h; exact Or.inl h
          | some PS =>
            rw [hPS] at h
            rcases FActorRepListRefView.mem_ConditionalAdd_cases _ _ _ h with h | h
            · exact Or.inl h
            · exact Or.inr (by rw [h])
        · exact Or.inl h
      rcases hps with h | h
      · rcases h0 x h with h | h | h
        · exact Or.inl h
        · exact Or.inr (Or.inl h)
        · exact Or.inr (Or.inr (Or.inl h))
      · exact Or.inr (Or.inr (Or.inr ⟨PC, rfl, Or.inl h⟩))
    · exact Or.inr (Or.inr (Or.inr ⟨PC, rfl, Or.inr h⟩))

theorem ViewerLoopBody_resets_cases (W : FActorTypes)
    (NewInfo : AActor → FConnectionReplicationActorInfo)
    (Params : FConnectionGatherActorListParameters) (st : FViewerLoopState) (V : FNetViewer)
    (x : AActor) (h : x ∈ (ViewerLoopBody W NewInfo Params st V).CullDistanceResets) :
    x ∈ st.CullDistanceResets ∨
      ∃ PC, W.AsPlayerController V.InViewer = some PC ∧
        ((x = V.ViewTarget ∧ W.IsCharacter x = true) ∨
          (PC.Pawn = some x ∧ W.IsCharacter x = true)) := by
  unfold ViewerLoopBody at h
  simp only at h
  cases hPC : W.AsPlayerController V.InViewer with
  | none => rw [hPC] at h; exact Or.inl h
  | some PC =>
    rw [hPC] at h
    simp only at h
    have hvt : x ∈ (PawnStep W NewInfo PC (EnsureLastData (PlayerStateStep NewInfo Params PC
        (AddViewerAndTarget st V)) V) V).CullDistanceResets ∨
        (x = V.ViewTarget ∧ W.IsCharacter x = true) := by
      unfold ViewTargetStep ResetActorCullDistance_LastViewTarget at h
      split_ifs at h with hc hchg
      · simp only [List.mem_append, List.mem_singleton] at h
        rcases h with h | h
        · exact Or.inl h
        · exact Or.inr ⟨h, by rw [h]; exact hc⟩
      · exact Or.inl h
      · exact Or.inl h
    rcases hvt with h | h
    · obtain ⟨st', hst' | ⟨p, hp, hc, hst'⟩, _, hR, _⟩ := PawnStep_core W NewInfo PC
        (EnsureLastData (PlayerStateStep NewInfo Params PC (AddViewerAndTarget st V)) V) V
      · rw [hR, hst'.1, (EnsureLastData_fields _ V).2,
          (PlayerStateStep_fields NewInfo Params PC _).2.1] at h
        exact Or.inl h
      · rw [hR, hst'] at h
        unfold ResetActorCullDistance_LastViewer at h
        split_ifs at h
        · simp only [List.mem_append, List.mem_singleton] at h
          rcases h with h | h
          · rw [(EnsureLastData_fields _ V).2,
              (PlayerStateStep_fields NewInfo Params PC _).2.1] at h
            exact Or.inl h
          · exact Or.inr ⟨PC, rfl, Or.inr ⟨by rw [h]; exact hp, by rw [h]; exact hc⟩⟩
        · rw [(EnsureLastData_fields _ V).2,
            (PlayerStateStep_fields NewInfo Params PC _).2.1] at h
          exact Or.inl h
    · exact Or.inr ⟨PC, rfl, Or.inl h⟩

theorem foldl_list_cases (W : FActorTypes) (NewInfo : AActor → FConnectionReplicationActorInfo)
    (Params : FConnectionGatherActorListParameters) (Viewers : List FNetViewer) :
    ∀ (st : FViewerLoopState) (x : AActor),
      x ∈ (Viewers.foldl (ViewerLoopBody W NewInfo Params) st).ReplicationActorList →
      x ∈ st.ReplicationActorList ∨ ∃ V ∈ Viewers, x = V.InViewer ∨ x = V.ViewTarget ∨
        ∃ PC, W.AsPlayerController V.InViewer = some PC ∧
          (PC.PlayerState = some x ∨ PC.Pawn = some x) := by
  induction Viewers with
  | nil => intro st x h; exact Or.inl h
  | cons V rest ih =>
    intro st x h
    rcases ih _ x h with h | ⟨V', hV', h⟩
    · rcases ViewerLoopBody_list_cases W NewInfo Params st V x h with h | h
      · exact Or.inl h
      · exact Or.inr ⟨V, List.mem_cons_self _ _, h⟩
    · exact Or.inr ⟨V', List.mem_cons_of_mem _ hV', h⟩

theorem foldl_resets_cases (W : FActorTypes) (NewInfo : AActor → FConnectionReplicationActorInfo)
    (Params : FConnectionGatherActorListParameters) (Viewers : List FNetViewer) :
    ∀ (st : FViewerLoopState) (x : AActor),
      x ∈ (Viewers.foldl (ViewerLoopBody W NewInfo Params) st).CullDistanceResets →
      x ∈ st.CullDistanceResets ∨ ∃ V ∈ Viewers,
        ∃ PC, W.AsPlayerController V.InViewer = some PC ∧
          ((x = V.ViewTarget ∧ W.IsCharacter x = true) ∨
            (PC.Pawn = some x ∧ W.IsCharacter x = true)) := by
  induction Viewers with
  | nil => intro st x h; exact Or.inl h
  | cons V rest ih =>
    intro st x h
    rcases ih _ x h with h | ⟨V', hV', h⟩
    · rcases ViewerLoopBody_resets_cases W NewInfo Params st V x h with h | h
      · exact Or.inl h
      · exact Or.inr ⟨V, List.mem_cons_self _ _, h⟩
    · exact Or.inr ⟨V', List.mem_cons_of_mem _ hV', h⟩

end UTestGymsReplicationGraphNode_AlwaysRelevant_ForConnection

/-! ## C15: the gather on which the view target changes -/

/-- C15 fails as stated: connection 1 last viewed character 101 and now views character 102.
The gather puts 102 in the candidate list and forces its cull distance, but the previous
target 101 is not in the candidate list, is not among the forced actors, and its
per-connection cull distance squared stays at 1000. -/
theorem C15_counterexample :
    UTestGymsReplicationGraphNode_AlwaysRelevant_ForConnection.FindLastData
      sampleConnectionNode.PastRelevantActors sampleControllerViewer.Connection =
      some ⟨some 1, some 101, some 101⟩ ∧
    sampleActorTypes.IsCharacter 101 = true ∧
    sampleActorTypes.IsCharacter sampleControllerViewer.ViewTarget = true ∧
    sampleControllerViewer.ViewTarget = 102 ∧
    (UTestGymsReplicationGraphNode_AlwaysRelevant_ForConnection.GatherActorListsForConnection
      sampleActorTypes sampleNewInfo (fun _ => none) sampleConnectionNode sampleOddFrameParams
      sampleActorInfoMap).Out = [[100, 102]] ∧
    101 ∉ (UTestGymsReplicationGraphNode_AlwaysRelevant_ForConnection.GatherActorListsForConnection
      sampleActorTypes sampleNewInfo (fun _ => none) sampleConnectionNode sampleOddFrameParams
      sampleActorInfoMap).CullDistanceResets ∧
    sampleActorInfoMap 101 = some ⟨1000, 2, false⟩ ∧
    (UTestGymsReplicationGraphNode_AlwaysRelevant_ForConnection.GatherActorListsForConnection
      sampleActorTypes sampleNewInfo (fun _ => none) sampleConnectionNode sampleOddFrameParams
      sampleActorInfoMap).ActorInfoMap 101 = some ⟨1000, 2, false⟩ := by
  decide

/-- C15 as amended: on a gather in which the view target of a viewer (a player controller,
each viewer on its own connection) is a character Y that differs from the view target X
recorded for its connection, Y is in the candidate list handed out first, Y is among the
actors whose cull distance the gather forces, and the per-connection cull distance squared
of Y is zero afterwards. The gather adds an actor to the candidate list only if it is a
viewer, a view target, or the player state or pawn of a viewing controller, and forces the
cull distance only of a character that is the view target or the pawn of a viewing
controller: nothing is done for X on account of the change. -/
theorem C15_new_view_target_is_listed_and_forced (W : FActorTypes)
    (NewInfo : AActor → FConnectionReplicationActorInfo) (LevelActors : FLevelActorMap)
    (node : UTestGymsReplicationGraphNode_AlwaysRelevant_ForConnection)
    (Params : FConnectionGatherActorListParameters) (Map : FPerConnectionActorInfoMap)
    (V : FNetViewer) (PC : APlayerController) (d : FAlwaysRelevantActorInfo) (X : AActor)
    (hnd : (Params.Viewers.map (fun V => V.Connection)).Nodup)
    (hV : V ∈ Params.Viewers)
    (hPC : W.AsPlayerController V.InViewer = some PC)
    (hY : W.IsCharacter V.ViewTarget = true)
    (hd : UTestGymsReplicationGraphNode_AlwaysRelevant_ForConnection.FindLastData
      node.PastRelevantActors V.Connection = some d)
    (hX : d.LastViewTarget = some X)
    (hXY : X ≠ V.ViewTarget) :
    (UTestGymsReplicationGraphNode_AlwaysRelevant_ForConnection.GatherActorListsForConnection
      W NewInfo LevelActors node Params Map).Out.head? =
      some (UTestGymsReplicationGraphNode_AlwaysRelevant_ForConnection.GatherActorListsForConnection
        W NewInfo LevelActors node Params Map).node.ReplicationActorList ∧
    V.ViewTarget ∈
      (UTestGymsReplicationGraphNode_AlwaysRelevant_ForConnection.GatherActorListsForConnection
        W NewInfo LevelActors node Params Map).node.ReplicationActorList ∧
    V.ViewTarget ∈
      (UTestGymsReplicationGraphNode_AlwaysRelevant_ForConnection.GatherActorListsForConnection
        W NewInfo LevelActors node Params Map).CullDistanceResets ∧
    (UTestGymsReplicationGraphNode_AlwaysRelevant_ForConnection.GatherActorListsForConnection
      W NewInfo LevelActors node Params Map).ActorInfoMap.CullZero V.ViewTarget ∧
    (∀ x, x ∈
      (UTestGymsReplicationGraphNode_AlwaysRelevant_ForConnection.GatherActorListsForConnection
        W NewInfo LevelActors node Params Map).node.ReplicationActorList →
      ∃ V2 ∈ Params.Viewers, x = V2.InViewer ∨ x = V2.ViewTarget ∨
        ∃ PC2, W.AsPlayerController V2.InViewer = some PC2 ∧
          (PC2.PlayerState = some x ∨ PC2.Pawn = some x)) ∧
    (∀ x, x ∈
      (UTestGymsReplicationGraphNode_AlwaysRelevant_ForConnection.GatherActorListsForConnection
        W NewInfo LevelActors node Params Map).CullDistanceResets →
      ∃ V2 ∈ Params.Viewers, ∃ PC2, W.AsPlayerController V2.InViewer = some PC2 ∧
        ((x = V2.ViewTarget ∧ W.IsCharacter x = true) ∨
          (PC2.Pawn = some x ∧ W.IsCharacter x = true))) := by
  open UTestGymsReplicationGraphNode_AlwaysRelevant_ForConnection in
  have hchg : (FindLastData node.PastRelevantActors V.Connection).bind
      (fun d => d.LastViewTarget) ≠ some V.ViewTarget := by
    rw [hd]
    show d.LastViewTarget ≠ some V.ViewTarget
    rw [hX]
    exact fun e => hXY (Option.some.inj e)
  open UTestGymsReplicationGraphNode_AlwaysRelevant_ForConnection in
  have hres := foldl_resets_target W NewInfo Params Params.Viewers hnd
    ⟨[], node.PastRelevantActors, node.bInitializedPlayerState, Map, []⟩ V PC hV hPC hY hchg
  open UTestGymsReplicationGraphNode_AlwaysRelevant_ForConnection in
  have hadd := foldl_ViewerLoopBody_adds W NewInfo Params Params.Viewers
    ⟨[], node.PastRelevantActors, node.bInitializedPlayerState, Map, []⟩ V hV
  refine ⟨UTestGymsReplicationGraphNode_AlwaysRelevant_ForConnection.Gather_Out_head
    W NewInfo LevelActors node Params Map, hadd.2.1, hres.1, ?_, ?_, ?_⟩
  · exact UTestGymsReplicationGraphNode_AlwaysRelevant_ForConnection.LevelLoop_CullZero
      LevelActors NewInfo _ _ _ hres.2
  · intro x hx
    rcases UTestGymsReplicationGraphNode_AlwaysRelevant_ForConnection.foldl_list_cases
      W NewInfo Params Params.Viewers _ x hx with h | h
    · cases h
    · exact h
  · intro x hx
    rcases UTestGymsReplicationGraphNode_AlwaysRelevant_ForConnection.foldl_resets_cases
      W NewInfo Params Params.Viewers _ x hx with h | h
    · cases h
    · exact h

/-- C15 as amended, at the sample node: connection 1 switches from character 101 to
character 102, and 102 is listed and forced. -/
theorem C15_new_view_target_is_listed_and_forced_witness :
    (102 : AActor) ∈
      (UTestGymsReplicationGraphNode_AlwaysRelevant_ForConnection.GatherActorListsForConnection
        sampleActorTypes sampleNewInfo (fun _ => none) sampleConnectionNode
        sampleOddFrameParams sampleActorInfoMap).CullDistanceResets ∧
    (UTestGymsReplicationGraphNode_AlwaysRelevant_ForConnection.GatherActorListsForConnection
      sampleActorTypes sampleNewInfo (fun _ => none) sampleConnectionNode
      sampleOddFrameParams sampleActorInfoMap).ActorInfoMap.CullZero 102 :=
  have h := C15_new_view_target_is_listed_and_forced sampleActorTypes sampleNewInfo
    (fun _ => none) sampleConnectionNode sampleOddFrameParams sampleActorInfoMap
    sampleControllerViewer ⟨some 300, some 102⟩ ⟨some 1, some 101, some 101⟩ 101
    (by decide) (by decide) (by decide) (by decide) (by decide) rfl (by decide)
  ⟨h.2.2.1, h.2.2.2.1⟩

/-! ## The loop over the streaming levels -/

theorem take_drop_set_self {α : Type} (l : List α) (n : Nat) (a : α) (hlt : n < l.length) :
    List.take n (l.set n a) = List.take n l ∧
    List.drop n (l.set n a) = a :: List.drop (n + 1) l := by
  have hs : l.set n a = List.take n l ++ a :: List.drop (n + 1) l := by
    rw [List.set_eq_take_append_cons_drop]
    simp [hlt]
  have hl : (List.take n l).length = n := by simp; omega
  constructor
  · conv_lhs => rw [hs]
    exact List.take_left' hl
  · conv_lhs => rw [hs]
    exact List.drop_left' hl

theorem TArrayRemoveAtSwap_spec {α : Type} (L : List α) (n : Nat) (h : n < L.length) :
    (TArrayRemoveAtSwap L n).take n = L.take n ∧
    ((TArrayRemoveAtSwap L n).drop n).Perm (L.drop (n + 1)) ∧
    n ≤ (TArrayRemoveAtSwap L n).length := by
  rcases List.eq_nil_or_concat L with rfl | ⟨init, last, hL⟩
  · simp at h
  · rw [List.concat_eq_append] at hL
    subst hL
    have hlen : n ≤ init.length := by
      simp only [List.length_append, List.length_singleton] at h
      omega
    have hsw : TArrayRemoveAtSwap (init ++ [last]) n = ((init ++ [last]).set n last).dropLast := by
      unfold TArrayRemoveAtSwap
      simp
    rw [hsw]
    rcases Nat.lt_or_ge n init.length with hlt | hge
    · have hset : (init ++ [last]).set n last = init.set n last ++ [last] := by
        rw [List.set_append_left _ _ hlt]
      rw [hset, List.dropLast_concat]
      refine ⟨?_, ?_, by simp [hlen]⟩
      · rw [List.take_append_of_le_length hlen]
        exact (take_drop_set_self init n last hlt).1
      · rw [(take_drop_set_self init n last hlt).2,
          List.drop_append_of_le_length (by omega)]
        exact (List.perm_append_singleton last _).symm
    · have hn : n = init.length := by omega
      subst hn
      have hset : (init ++ [last]).set init.length last = init ++ [last] := by
        simp
      rw [hset, List.dropLast_concat]
      simp

namespace FPerConnectionActorInfoMap

theorem DormantOn_FindOrAdd (m : FPerConnectionActorInfoMap)
    (NewInfo : AActor → FConnectionReplicationActorInfo) (b : AActor) :
    (m.FindOrAdd NewInfo b).1.bDormantOnConnection = m.DormantOn b ∧
    (m.FindOrAdd NewInfo b).2.DormantOn = m.DormantOn := by
  unfold FindOrAdd
  cases hb : m b with
  | some i =>
    exact ⟨by simp [DormantOn, hb], rfl⟩
  | none =>
    refine ⟨by simp [DormantOn, hb], ?_⟩
    show (m.Put b { NewInfo b with bDormantOnConnection := false }).DormantOn = m.DormantOn
    funext a
    unfold DormantOn Put
    by_cases ha : a = b
    · subst ha
      simp [hb]
    · simp [ha]

theorem DormantOn_Put (m : FPerConnectionActorInfoMap) (b : AActor)
    (i : FConnectionReplicationActorInfo) (h : i.bDormantOnConnection = m.DormantOn b) :
    (m.Put b i).DormantOn = m.DormantOn := by
  funext a
  unfold DormantOn Put
  by_cases ha : a = b
  · subst ha
    simp only [if_true]
    rw [h]
    rfl
  · simp [ha]

theorem DormantOn_set_cull (m : FPerConnectionActorInfoMap)
    (NewInfo : AActor → FConnectionReplicationActorInfo) (b : AActor) (c : Nat) :
    ((m.FindOrAdd NewInfo b).2.Put b
      { (m.FindOrAdd NewInfo b).1 with CullDistanceSquared := c }).DormantOn = m.DormantOn := by
  rw [DormantOn_Put _ _ _ (by
    show (m.FindOrAdd NewInfo b).1.bDormantOnConnection = _
    rw [(DormantOn_FindOrAdd m NewInfo b).1, (DormantOn_FindOrAdd m NewInfo b).2])]
  exact (DormantOn_FindOrAdd m NewInfo b).2

theorem DormantOn_set_period (m : FPerConnectionActorInfoMap)
    (NewInfo : AActor → FConnectionReplicationActorInfo) (b : AActor) (c : Nat) :
    ((m.FindOrAdd NewInfo b).2.Put b
      { (m.FindOrAdd NewInfo b).1 with ReplicationPeriodFrame := c }).DormantOn =
      m.DormantOn := by
  rw [DormantOn_Put _ _ _ (by
    show (m.FindOrAdd NewInfo b).1.bDormantOnConnection = _
    rw [(DormantOn_FindOrAdd m NewInfo b).1, (DormantOn_FindOrAdd m NewInfo b).2])]
  exact (DormantOn_FindOrAdd m NewInfo b).2

end FPerConnectionActorInfoMap

namespace UTestGymsReplicationGraphNode_AlwaysRelevant_ForConnection

theorem ViewerLoopBody_DormantOn (W : FActorTypes)
    (NewInfo : AActor → FConnectionReplicationActorInfo)
    (Params : FConnectionGatherActorListParameters) (st : FViewerLoopState) (V : FNetViewer) :
    (ViewerLoopBody W NewInfo Params st V).ActorInfoMap.DormantOn = st.ActorInfoMap.DormantOn := by
  have hPS : ∀ (PC : APlayerController) (s : FViewerLoopState),
      (PlayerStateStep NewInfo Params PC s).ActorInfoMap.DormantOn = s.ActorInfoMap.DormantOn := by
    intro PC s
    unfold PlayerStateStep
    simp only
    repeat' split
    all_goals first
      | rfl
      | exact FPerConnectionActorInfoMap.DormantOn_set_period s.ActorInfoMap NewInfo _ 1
  have hE : ∀ s : FViewerLoopState, (EnsureLastData s V).ActorInfoMap = s.ActorInfoMap := by
    intro s
    unfold EnsureLastData
    split <;> rfl
  have hRV : ∀ (s : FViewerLoopState) (c : Nat) (a : AActor),
      (ResetActorCullDistance_LastViewer NewInfo s c a).ActorInfoMap.DormantOn =
        s.ActorInfoMap.DormantOn := by
    intro s c a
    unfold ResetActorCullDistance_LastViewer
    split_ifs
    · exact FPerConnectionActorInfoMap.DormantOn_set_cull s.ActorInfoMap NewInfo a 0
    · rfl
  have hRT : ∀ (s : FViewerLoopState) (c : Nat) (a : AActor),
      (ResetActorCullDistance_LastViewTarget NewInfo s c a).ActorInfoMap.DormantOn =
        s.ActorInfoMap.DormantOn := by
    intro s c a
    unfold ResetActorCullDistance_LastViewTarget
    split_ifs
    · exact FPerConnectionActorInfoMap.DormantOn_set_cull s.ActorInfoMap NewInfo a 0
    · rfl
  have hP : ∀ (PC : APlayerController) (s : FViewerLoopState),
      (PawnStep W NewInfo PC s V).ActorInfoMap.DormantOn = s.ActorInfoMap.DormantOn := by
    intro PC s
    unfold PawnStep
    cases PC.Pawn with
    | none => rfl
    | some p =>
      simp only
      split_ifs
      · exact hRV s V.Connection p
      · exact hRV s V.Connection p
      · rfl
  have hT : ∀ s : FViewerLoopState,
      (ViewTargetStep W NewInfo s V).ActorInfoMap.DormantOn = s.ActorInfoMap.DormantOn := by
    intro s
    unfold ViewTargetStep
    split_ifs
    · exact hRT s V.Connection V.ViewTarget
    · rfl
  unfold ViewerLoopBody
  simp only
  cases W.AsPlayerController V.InViewer with
  | none => rfl
  | some PC =>
    simp only
    rw [hT, hP, hE, hPS]
    rfl

theorem foldl_DormantOn (W : FActorTypes) (NewInfo : AActor → FConnectionReplicationActorInfo)
    (Params : FConnectionGatherActorListParameters) (Viewers : List FNetViewer) :
    ∀ st : FViewerLoopState,
      (Viewers.foldl (ViewerLoopBody W NewInfo Params) st).ActorInfoMap.DormantOn =
        st.ActorInfoMap.DormantOn := by
  induction Viewers with
  | nil => intro st; rfl
  | cons V rest ih =>
    intro st
    simp only [List.foldl_cons]
    rw [ih, ViewerLoopBody_DormantOn]

theorem AllDormantScan_spec (NewInfo : AActor → FConnectionReplicationActorInfo)
    (RepList : List AActor) :
    ∀ m : FPerConnectionActorInfoMap,
      (AllDormantScan NewInfo RepList m).1 = RepList.all m.DormantOn ∧
      (AllDormantScan NewInfo RepList m).2.DormantOn = m.DormantOn := by
  induction RepList with
  | nil => intro m; exact ⟨rfl, rfl⟩
  | cons a rest ih =>
    intro m
    have h1 := (FPerConnectionActorInfoMap.DormantOn_FindOrAdd m NewInfo a).1
    have h2 := (FPerConnectionActorInfoMap.DormantOn_FindOrAdd m NewInfo a).2
    unfold AllDormantScan
    split_ifs with hd
    · rw [h1] at hd
      exact ⟨by simp [hd], h2⟩
    · rw [h1] at hd
      have hd2 : m.DormantOn a = true := by simpa using hd
      obtain ⟨i1, i2⟩ := ih (m.FindOrAdd NewInfo a).2
      rw [i1, i2, h2]
      exact ⟨by simp [hd2], rfl⟩

theorem LevelLoopBody_spec (LevelActors : FLevelActorMap)
    (NewInfo : AActor → FConnectionReplicationActorInfo) (n : Nat) (st : FLevelLoopState)
    (lvl : FName) (hl : st.Levels[n]? = some lvl) :
    (LevelLoopBody LevelActors NewInfo n st).Examined = st.Examined ++ [lvl] ∧
    (LevelLoopBody LevelActors NewInfo n st).Out = st.Out ++
      ([lvl].filter (HandsOutList LevelActors st.ActorInfoMap.DormantOn)).filterMap
        LevelActors ∧
    (LevelLoopBody LevelActors NewInfo n st).Levels.take n = st.Levels.take n ∧
    ((LevelLoopBody LevelActors NewInfo n st).Levels.drop n).Perm
      ([lvl].filter (KeepsLevel LevelActors st.ActorInfoMap.DormantOn) ++
        st.Levels.drop (n + 1)) ∧
    n ≤ (LevelLoopBody LevelActors NewInfo n st).Levels.length ∧
    (LevelLoopBody LevelActors NewInfo n st).ActorInfoMap.DormantOn =
      st.ActorInfoMap.DormantOn := by
  have hlt : n < st.Levels.length := by
    rcases List.getElem?_eq_some_iff.mp hl with ⟨h, _⟩
    exact h
  have hdrop : st.Levels.drop n = lvl :: st.Levels.drop (n + 1) := by
    rw [List.drop_eq_getElem_cons hlt]
    rcases List.getElem?_eq_some_iff.mp hl with ⟨_, h⟩
    rw [h]
  obtain ⟨s1, s2, s3⟩ := TArrayRemoveAtSwap_spec st.Levels n hlt
  cases hLA : LevelActors lvl with
  | none =>
    have hB : LevelLoopBody LevelActors NewInfo n st =
        { st with
          Examined := st.Examined ++ [lvl]
          Levels := TArrayRemoveAtSwap st.Levels n } := by
      unfold LevelLoopBody
      rw [hl]
      simp only [hLA]
    rw [hB]
    refine ⟨rfl, ?_, s1, ?_, s3, rfl⟩
    · simp [List.filter_cons, HandsOutList, hLA]
    · simpa [List.filter_cons, KeepsLevel, hLA] using s2
  | some RepList =>
    obtain ⟨a1, a2⟩ := AllDormantScan_spec NewInfo RepList st.ActorInfoMap
    by_cases hne : RepList.length > 0
    · by_cases hdorm : (AllDormantScan NewInfo RepList st.ActorInfoMap).1 = true
      · have hB : LevelLoopBody LevelActors NewInfo n st =
            { st with
              Examined := st.Examined ++ [lvl]
              Levels := TArrayRemoveAtSwap st.Levels n
              ActorInfoMap := (AllDormantScan NewInfo RepList st.ActorInfoMap).2 } := by
          unfold LevelLoopBody
          rw [hl]
          simp only [hLA, if_pos hne, if_pos hdorm]
        rw [hB]
        rw [a1] at hdorm
        refine ⟨rfl, ?_, s1, ?_, s3, a2⟩
        · simp [List.filter_cons, HandsOutList, hLA, hdorm]
        · simpa [List.filter_cons, KeepsLevel, hLA, hdorm, hne] using s2
      · have hB : LevelLoopBody LevelActors NewInfo n st =
            { st with
              Examined := st.Examined ++ [lvl]
              Out := st.Out ++ [RepList]
              ActorInfoMap := (AllDormantScan NewInfo RepList st.ActorInfoMap).2 } := by
          unfold LevelLoopBody
          rw [hl]
          simp only [hLA, if_pos hne, if_neg hdorm]
        rw [hB]
        rw [a1] at hdorm
        have hdorm2 : RepList.all st.ActorInfoMap.DormantOn = false := by simpa using hdorm
        refine ⟨rfl, ?_, rfl, ?_, Nat.le_of_lt hlt, a2⟩
        · simp [List.filter_cons, HandsOutList, hLA, hdorm2, hne]
        · show (List.drop n st.Levels).Perm _
          rw [hdrop]
          simp [List.filter_cons, KeepsLevel, hLA, hdorm2]
    · have hB : LevelLoopBody LevelActors NewInfo n st =
          { st with Examined := st.Examined ++ [lvl] } := by
        unfold LevelLoopBody
        rw [hl]
        simp only [hLA, if_neg hne]
      rw [hB]
      have h0 : RepList.length = 0 := by omega
      refine ⟨rfl, ?_, rfl, ?_, Nat.le_of_lt hlt, rfl⟩
      · simp [List.filter_cons, HandsOutList, hLA, h0]
      · show (List.drop n st.Levels).Perm _
        rw [hdrop]
        simp [List.filter_cons, KeepsLevel, hLA, h0]

theorem LevelLoop_spec (LevelActors : FLevelActorMap)
    (NewInfo : AActor → FConnectionReplicationActorInfo) (n : Nat) :
    ∀ st : FLevelLoopState, n ≤ st.Levels.length →
      (LevelLoop LevelActors NewInfo n st).Examined =
        st.Examined ++ (st.Levels.take n).reverse ∧
      (LevelLoop LevelActors NewInfo n st).Out = st.Out ++
        ((st.Levels.take n).reverse.filter
          (HandsOutList LevelActors st.ActorInfoMap.DormantOn)).filterMap LevelActors ∧
      (LevelLoop LevelActors NewInfo n st).Levels.Perm
        ((st.Levels.take n).filter (KeepsLevel LevelActors st.ActorInfoMap.DormantOn) ++
          st.Levels.drop n) ∧
      (LevelLoop LevelActors NewInfo n st).ActorInfoMap.DormantOn =
        st.ActorInfoMap.DormantOn := by
  induction n with
  | zero =>
    intro st _
    simp [LevelLoop]
  | succ n ih =>
    intro st hn
    have hlt : n < st.Levels.length := hn
    have hl : st.Levels[n]? = some (st.Levels[n]) := List.getElem?_eq_getElem hlt
    obtain ⟨b1, b2, b3, b4, b5, b6⟩ := LevelLoopBody_spec LevelActors NewInfo n st _ hl
    obtain ⟨i1, i2, i3, i4⟩ := ih (LevelLoopBody LevelActors NewInfo n st) b5
    have htake : st.Levels.take (n + 1) = st.Levels.take n ++ [st.Levels[n]] := by
      rw [List.take_succ, hl]
      rfl
    simp only [LevelLoop]
    rw [i1, i2, i4, b1, b2, b3, b6]
    refine ⟨?_, ?_, ?_, rfl⟩
    · rw [htake, List.reverse_append, List.append_assoc]
      rfl
    · rw [htake, List.reverse_append, List.filter_append, List.filterMap_append,
        List.append_assoc]
      rfl
    · refine i3.trans ?_
      rw [b3, b6, htake, List.filter_append, List.append_assoc]
      exact List.Perm.append_left _ b4

end UTestGymsReplicationGraphNode_AlwaysRelevant_ForConnection

/-! ## C20: levels without a list are pruned, and every level is examined once -/

/-- C20: after `GatherActorListsForConnection`, the reads
`AlwaysRelevantStreamingLevelsNeedingReplication[Idx]` of the level loop are the levels of
the array before the call, each index once, from the last to the first, whatever the
swap-removals do; no level without an entry in `AlwaysRelevantStreamingLevelActors` is left
in the array; the lists handed out after the candidate list are the lists of the examined
levels that have a non-empty list with an actor not dormant on the connection, so a level
without an entry contributes nothing; and the array that is left holds, up to order, the
levels that have an entry whose list is empty or has an actor that is not dormant. -/
theorem C20_levels_without_list_pruned_each_level_examined_once (W : FActorTypes)
    (NewInfo : AActor → FConnectionReplicationActorInfo) (LevelActors : FLevelActorMap)
    (node : UTestGymsReplicationGraphNode_AlwaysRelevant_ForConnection)
    (Params : FConnectionGatherActorListParameters) (Map : FPerConnectionActorInfoMap) :
    (UTestGymsReplicationGraphNode_AlwaysRelevant_ForConnection.GatherActorListsForConnection
      W NewInfo LevelActors node Params Map).ExaminedLevels =
      node.AlwaysRelevantStreamingLevelsNeedingReplication.reverse ∧
    (∀ lvl, LevelActors lvl = none → lvl ∉
      (UTestGymsReplicationGraphNode_AlwaysRelevant_ForConnection.GatherActorListsForConnection
        W NewInfo LevelActors node Params
        Map).node.AlwaysRelevantStreamingLevelsNeedingReplication) ∧
    (UTestGymsReplicationGraphNode_AlwaysRelevant_ForConnection.GatherActorListsForConnection
      W NewInfo LevelActors node Params Map).Out =
      (UTestGymsReplicationGraphNode_AlwaysRelevant_ForConnection.GatherActorListsForConnection
        W NewInfo LevelActors node Params Map).node.ReplicationActorList ::
      (node.AlwaysRelevantStreamingLevelsNeedingReplication.reverse.filter
        (HandsOutList LevelActors Map.DormantOn)).filterMap LevelActors ∧
    (UTestGymsReplicationGraphNode_AlwaysRelevant_ForConnection.GatherActorListsForConnection
      W NewInfo LevelActors node Params
      Map).node.AlwaysRelevantStreamingLevelsNeedingReplication.Perm
      (node.AlwaysRelevantStreamingLevelsNeedingReplication.filter
        (KeepsLevel LevelActors Map.DormantOn)) := by
  have hD : (UTestGymsReplicationGraphNode_AlwaysRelevant_ForConnection.ViewerLoop W NewInfo
      node Params Map).ActorInfoMap.DormantOn = Map.DormantOn :=
    UTestGymsReplicationGraphNode_AlwaysRelevant_ForConnection.foldl_DormantOn W NewInfo Params
      Params.Viewers _
  obtain ⟨h1, h2, h3, _⟩ :=
    UTestGymsReplicationGraphNode_AlwaysRelevant_ForConnection.LevelLoop_spec LevelActors NewInfo
      node.AlwaysRelevantStreamingLevelsNeedingReplication.length
      ⟨node.AlwaysRelevantStreamingLevelsNeedingReplication,
        (UTestGymsReplicationGraphNode_AlwaysRelevant_ForConnection.ViewerLoop W NewInfo node
          Params Map).ActorInfoMap,
        [(UTestGymsReplicationGraphNode_AlwaysRelevant_ForConnection.ViewerLoop W NewInfo node
          Params Map).ReplicationActorList], []⟩ (Nat.le_refl _)
  simp only [List.take_length, List.drop_length, List.append_nil, List.nil_append, hD] at h1 h2 h3
  refine ⟨h1, ?_, h2, h3⟩
  intro lvl hnone hmem
  have hk := (List.mem_filter.mp (h3.subset hmem)).2
  simp [KeepsLevel, hnone] at hk

/-- C20 at a node whose array is "X", "A", "Y", "B", where only "A" and "B" have lists: the
level "X" is gone after the gather, and the four levels were read once each. -/
theorem C20_levels_without_list_pruned_each_level_examined_once_witness :
    sampleLevelActors "X" = none ∧
    "X" ∉
      (UTestGymsReplicationGraphNode_AlwaysRelevant_ForConnection.GatherActorListsForConnection
        sampleActorTypes sampleNewInfo sampleLevelActors
        ⟨sampleLevelsNeedingReplication, [], [], false⟩ sampleOddFrameParams
        sampleActorInfoMap).node.AlwaysRelevantStreamingLevelsNeedingReplication ∧
    (UTestGymsReplicationGraphNode_AlwaysRelevant_ForConnection.GatherActorListsForConnection
      sampleActorTypes sampleNewInfo sampleLevelActors
      ⟨sampleLevelsNeedingReplication, [], [], false⟩ sampleOddFrameParams
      sampleActorInfoMap).ExaminedLevels = ["B", "Y", "A", "X"] :=
  ⟨by decide,
    (C20_levels_without_list_pruned_each_level_examined_once sampleActorTypes sampleNewInfo
      sampleLevelActors ⟨sampleLevelsNeedingReplication, [], [], false⟩ sampleOddFrameParams
      sampleActorInfoMap).2.1 "X" (by decide),
    (C20_levels_without_list_pruned_each_level_examined_once sampleActorTypes sampleNewInfo
      sampleLevelActors ⟨sampleLevelsNeedingReplication, [], [], false⟩ sampleOddFrameParams
      sampleActorInfoMap).1⟩

/-- The sample array after the gather: "B" and "A" are left, and the list of "A" is handed
out after the candidate list. -/
theorem sampleLevels_after_gather :
    (UTestGymsReplicationGraphNode_AlwaysRelevant_ForConnection.GatherActorListsForConnection
      sampleActorTypes sampleNewInfo sampleLevelActors
      ⟨sampleLevelsNeedingReplication, [], [], false⟩ sampleOddFrameParams
      sampleActorInfoMap).node.AlwaysRelevantStreamingLevelsNeedingReplication = ["B", "A"] ∧
    (UTestGymsReplicationGraphNode_AlwaysRelevant_ForConnection.GatherActorListsForConnection
      sampleActorTypes sampleNewInfo sampleLevelActors
      ⟨sampleLevelsNeedingReplication, [], [], false⟩ sampleOddFrameParams
      sampleActorInfoMap).Out = [[100, 102], [1]] := by
  decide

/-! ## The cull distances a gather leaves alone -/

namespace FPerConnectionActorInfoMap

theorem CullKept_refl (m : FPerConnectionActorInfoMap) : m.CullKept m :=
  fun _ i h => ⟨i, h, rfl⟩

theorem CullKept_trans (m1 m2 m3 : FPerConnectionActorInfoMap) (h12 : m1.CullKept m2)
    (h23 : m2.CullKept m3) : m1.CullKept m3 := by
  intro a i h
  obtain ⟨i2, h2, e2⟩ := h12 a i h
  obtain ⟨i3, h3, e3⟩ := h23 a i2 h2
  exact ⟨i3, h3, e3.trans e2⟩

theorem CullKept_FindOrAdd (m : FPerConnectionActorInfoMap)
    (NewInfo : AActor → FConnectionReplicationActorInfo) (b : AActor) :
    m.CullKept (m.FindOrAdd NewInfo b).2 := by
  intro a i h
  unfold FindOrAdd
  cases hb : m b with
  | some j => exact ⟨i, h, rfl⟩
  | none =>
    have hne : a ≠ b := by rintro rfl; rw [h] at hb; cases hb
    exact ⟨i, by simp [Put, hne, h], rfl⟩

theorem CullKept_set_period (m : FPerConnectionActorInfoMap)
    (NewInfo : AActor → FConnectionReplicationActorInfo) (b : AActor) (c : Nat) :
    m.CullKept ((m.FindOrAdd NewInfo b).2.Put b
      { (m.FindOrAdd NewInfo b).1 with ReplicationPeriodFrame := c }) := by
  intro a i h
  by_cases hab : a = b
  · subst hab
    rw [FindOrAdd_fst_of_some m NewInfo a i h]
    exact ⟨{ i with ReplicationPeriodFrame := c }, by simp [Put], rfl⟩
  · obtain ⟨i2, h2, e2⟩ := CullKept_FindOrAdd m NewInfo b a i h
    exact ⟨i2, by simp [Put, hab, h2], e2⟩

end FPerConnectionActorInfoMap

namespace UTestGymsReplicationGraphNode_AlwaysRelevant_ForConnection

theorem PlayerStateStep_CullKept (NewInfo : AActor → FConnectionReplicationActorInfo)
    (Params : FConnectionGatherActorListParameters) (PC : APlayerController)
    (st : FViewerLoopState) :
    st.ActorInfoMap.CullKept (PlayerStateStep NewInfo Params PC st).ActorInfoMap := by
  unfold PlayerStateStep
  simp only
  repeat' split
  all_goals first
    | exact FPerConnectionActorInfoMap.CullKept_refl _
    | exact FPerConnectionActorInfoMap.CullKept_set_period st.ActorInfoMap NewInfo _ 1

theorem ViewerLoopBody_noop_CullKept (W : FActorTypes)
    (NewInfo : AActor → FConnectionReplicationActorInfo)
    (Params : FConnectionGatherActorListParameters) (st : FViewerLoopState) (V : FNetViewer)
    (hS : Settled W st.PastRelevantActors V) :
    st.ActorInfoMap.CullKept (ViewerLoopBody W NewInfo Params st V).ActorInfoMap := by
  unfold ViewerLoopBody
  simp only
  cases hPC : W.AsPlayerController V.InViewer with
  | none => exact FPerConnectionActorInfoMap.CullKept_refl _
  | some PC =>
    simp only
    obtain ⟨d, hd, hv, ht⟩ := hS PC hPC
    have hPS := PlayerStateStep_fields NewInfo Params PC (AddViewerAndTarget st V)
    have hd1 : FindLastData
        (PlayerStateStep NewInfo Params PC (AddViewerAndTarget st V)).PastRelevantActors
        V.Connection = some d := by rw [hPS.1]; exact hd
    have hE := EnsureLastData_of_some _ V d hd1
    rw [hE]
    have hP := PawnStep_noop W NewInfo PC
      (PlayerStateStep NewInfo Params PC (AddViewerAndTarget st V)) V d hd1 hv
    have hd2 : FindLastData (PawnStep W NewInfo PC
        (PlayerStateStep NewInfo Params PC (AddViewerAndTarget st V)) V).PastRelevantActors
        V.Connection = some d := by rw [hP.1]; exact hd1
    rw [ViewTargetStep_noop W NewInfo _ V d hd2 ht]
    have hmap : (PawnStep W NewInfo PC
        (PlayerStateStep NewInfo Params PC (AddViewerAndTarget st V)) V).ActorInfoMap =
        (PlayerStateStep NewInfo Params PC (AddViewerAndTarget st V)).ActorInfoMap := by
      obtain ⟨st', h | ⟨p, hp, hc, h⟩, _, _, hM⟩ := PawnStep_core W NewInfo PC
        (PlayerStateStep NewInfo Params PC (AddViewerAndTarget st V)) V
      · rw [hM, h.1]
      · rw [hM, h, ResetLastViewer_noop NewInfo _ _ p (by rw [hd1]; exact hv p hp hc)]
    rw [hmap]
    exact PlayerStateStep_CullKept NewInfo Params PC (AddViewerAndTarget st V)

theorem foldl_noop_CullKept (W : FActorTypes)
    (NewInfo : AActor → FConnectionReplicationActorInfo)
    (Params : FConnectionGatherActorListParameters) (Viewers : List FNetViewer) :
    ∀ st : FViewerLoopState, (∀ V ∈ Viewers, Settled W st.PastRelevantActors V) →
      st.ActorInfoMap.CullKept
        (Viewers.foldl (ViewerLoopBody W NewInfo Params) st).ActorInfoMap := by
  induction Viewers with
  | nil => intro st _; exact FPerConnectionActorInfoMap.CullKept_refl _
  | cons V rest ih =>
    intro st h
    have h1 := ViewerLoopBody_noop W NewInfo Params st V (h V (List.mem_cons_self _ _))
    have h2 := ih (ViewerLoopBody W NewInfo Params st V) (fun V' hV' => by
      rw [h1.1]; exact h V' (List.mem_cons_of_mem _ hV'))
    exact FPerConnectionActorInfoMap.CullKept_trans _ _ _
      (ViewerLoopBody_noop_CullKept W NewInfo Params st V (h V (List.mem_cons_self _ _))) h2

theorem AllDormantScan_CullKept (NewInfo : AActor → FConnectionReplicationActorInfo)
    (RepList : List AActor) :
    ∀ m : FPerConnectionActorInfoMap, m.CullKept (AllDormantScan NewInfo RepList m).2 := by
  induction RepList with
  | nil => intro m; exact FPerConnectionActorInfoMap.CullKept_refl m
  | cons a rest ih =>
    intro m
    unfold AllDormantScan
    split_ifs
    · exact FPerConnectionActorInfoMap.CullKept_FindOrAdd m NewInfo a
    · exact FPerConnectionActorInfoMap.CullKept_trans _ _ _
        (FPerConnectionActorInfoMap.CullKept_FindOrAdd m NewInfo a) (ih _)

theorem LevelLoopBody_CullKept (LevelActors : FLevelActorMap)
    (NewInfo : AActor → FConnectionReplicationActorInfo) (Idx : Nat) (st : FLevelLoopState) :
    st.ActorInfoMap.CullKept (LevelLoopBody LevelActors NewInfo Idx st).ActorInfoMap := by
  unfold LevelLoopBody
  split
  · exact FPerConnectionActorInfoMap.CullKept_refl _
  · simp only
    split
    · exact FPerConnectionActorInfoMap.CullKept_refl _
    · split_ifs
      · exact AllDormantScan_CullKept NewInfo _ _
      · exact AllDormantScan_CullKept NewInfo _ _
      · exact FPerConnectionActorInfoMap.CullKept_refl _

theorem LevelLoop_CullKept (LevelActors : FLevelActorMap)
    (NewInfo : AActor → FConnectionReplicationActorInfo) (n : Nat) :
    ∀ st : FLevelLoopState,
      st.ActorInfoMap.CullKept (LevelLoop LevelActors NewInfo n st).ActorInfoMap := by
  induction n with
  | zero => intro st; exact FPerConnectionActorInfoMap.CullKept_refl _
  | succ n ih =>
    intro st
    exact FPerConnectionActorInfoMap.CullKept_trans _ _ _
      (LevelLoopBody_CullKept LevelActors NewInfo n st) (ih _)

end UTestGymsReplicationGraphNode_AlwaysRelevant_ForConnection

/-! ## C16: a repeated gather forces no cull distance -/

/-- C16: when `GatherActorListsForConnection` runs twice in a row with the same viewers
(the same controllers, pawns and view targets, each viewer on its own connection), the
second run forces no cull distance: its trace of cull distance resets is empty, the
transition records it leaves are those the first run left, and every entry the actor info
map held after the first run still has its cull distance squared after the second. -/
theorem C16_second_gather_forces_no_cull_distance (W : FActorTypes)
    (NewInfo NewInfo2 : AActor → FConnectionReplicationActorInfo)
    (LevelActors LevelActors2 : FLevelActorMap)
    (node : UTestGymsReplicationGraphNode_AlwaysRelevant_ForConnection)
    (Params Params2 : FConnectionGatherActorListParameters)
    (Map : FPerConnectionActorInfoMap)
    (hnd : (Params.Viewers.map (fun V => V.Connection)).Nodup)
    (hsame : Params2.Viewers = Params.Viewers) :
    (UTestGymsReplicationGraphNode_AlwaysRelevant_ForConnection.GatherActorListsForConnection
      W NewInfo2 LevelActors2
      (UTestGymsReplicationGraphNode_AlwaysRelevant_ForConnection.GatherActorListsForConnection
        W NewInfo LevelActors node Params Map).node Params2
      (UTestGymsReplicationGraphNode_AlwaysRelevant_ForConnection.GatherActorListsForConnection
        W NewInfo LevelActors node Params Map).ActorInfoMap).CullDistanceResets = [] ∧
    (UTestGymsReplicationGraphNode_AlwaysRelevant_ForConnection.GatherActorListsForConnection
      W NewInfo2 LevelActors2
      (UTestGymsReplicationGraphNode_AlwaysRelevant_ForConnection.GatherActorListsForConnection
        W NewInfo LevelActors node Params Map).node Params2
      (UTestGymsReplicationGraphNode_AlwaysRelevant_ForConnection.GatherActorListsForConnection
        W NewInfo LevelActors node Params Map).ActorInfoMap).node.PastRelevantActors =
    (UTestGymsReplicationGraphNode_AlwaysRelevant_ForConnection.GatherActorListsForConnection
      W NewInfo LevelActors node Params Map).node.PastRelevantActors ∧
    (UTestGymsReplicationGraphNode_AlwaysRelevant_ForConnection.GatherActorListsForConnection
      W NewInfo LevelActors node Params Map).ActorInfoMap.CullKept
    (UTestGymsReplicationGraphNode_AlwaysRelevant_ForConnection.GatherActorListsForConnection
      W NewInfo2 LevelActors2
      (UTestGymsReplicationGraphNode_AlwaysRelevant_ForConnection.GatherActorListsForConnection
        W NewInfo LevelActors node Params Map).node Params2
      (UTestGymsReplicationGraphNode_AlwaysRelevant_ForConnection.GatherActorListsForConnection
        W NewInfo LevelActors node Params Map).ActorInfoMap).ActorInfoMap := by
  open UTestGymsReplicationGraphNode_AlwaysRelevant_ForConnection in
  have hS : ∀ V ∈ Params.Viewers, Settled W
      (GatherActorListsForConnection W NewInfo LevelActors node Params
        Map).node.PastRelevantActors V := by
    intro V hV
    exact Settled_congr W _ _ V (FindLastData_prune _ V.Connection)
      (foldl_Settled W NewInfo Params Params.Viewers hnd _ V hV)
  open UTestGymsReplicationGraphNode_AlwaysRelevant_ForConnection in
  have h := foldl_noop W NewInfo2 Params2 Params.Viewers
    ⟨[], (GatherActorListsForConnection W NewInfo LevelActors node Params
        Map).node.PastRelevantActors,
      (GatherActorListsForConnection W NewInfo LevelActors node Params
        Map).node.bInitializedPlayerState,
      (GatherActorListsForConnection W NewInfo LevelActors node Params Map).ActorInfoMap, []⟩
    hS
  open UTestGymsReplicationGraphNode_AlwaysRelevant_ForConnection in
  have hpr : ∀ Past : List FAlwaysRelevantActorInfo,
      (Past.filter (fun d => !decide (d.Connection = none))).filter
        (fun d => !decide (d.Connection = none)) =
      Past.filter (fun d => !decide (d.Connection = none)) := by
    intro Past
    rw [List.filter_filter]
    simp
  open UTestGymsReplicationGraphNode_AlwaysRelevant_ForConnection in
  have hk := foldl_noop_CullKept W NewInfo2 Params2 Params.Viewers
    ⟨[], (GatherActorListsForConnection W NewInfo LevelActors node Params
        Map).node.PastRelevantActors,
      (GatherActorListsForConnection W NewInfo LevelActors node Params
        Map).node.bInitializedPlayerState,
      (GatherActorListsForConnection W NewInfo LevelActors node Params Map).ActorInfoMap, []⟩
    hS
  refine ⟨?_, ?_, ?_⟩
  · show (UTestGymsReplicationGraphNode_AlwaysRelevant_ForConnection.ViewerLoop W NewInfo2 _
      Params2 _).CullDistanceResets = []
    unfold UTestGymsReplicationGraphNode_AlwaysRelevant_ForConnection.ViewerLoop
    rw [hsame]
    exact h.2
  · show List.filter _ (UTestGymsReplicationGraphNode_AlwaysRelevant_ForConnection.ViewerLoop
      W NewInfo2 _ Params2 _).PastRelevantActors = _
    unfold UTestGymsReplicationGraphNode_AlwaysRelevant_ForConnection.ViewerLoop
    rw [hsame, h.1]
    exact hpr _
  · refine FPerConnectionActorInfoMap.CullKept_trans _ _ _ ?_
      (UTestGymsReplicationGraphNode_AlwaysRelevant_ForConnection.LevelLoop_CullKept
        LevelActors2 NewInfo2 _ _)
    show FPerConnectionActorInfoMap.CullKept _
      (UTestGymsReplicationGraphNode_AlwaysRelevant_ForConnection.ViewerLoop W NewInfo2 _
        Params2 _).ActorInfoMap
    unfold UTestGymsReplicationGraphNode_AlwaysRelevant_ForConnection.ViewerLoop
    rw [hsame]
    exact hk

/-- C16 at the sample node: after a first gather of controller 100 viewing character 102, a
second gather with the same viewer forces nothing. -/
theorem C16_second_gather_forces_no_cull_distance_witness :
    (UTestGymsReplicationGraphNode_AlwaysRelevant_ForConnection.GatherActorListsForConnection
      sampleActorTypes sampleNewInfo (fun _ => none) sampleConnectionNode sampleOddFrameParams
      sampleActorInfoMap).CullDistanceResets = [102, 102] ∧
    (UTestGymsReplicationGraphNode_AlwaysRelevant_ForConnection.GatherActorListsForConnection
      sampleActorTypes sampleNewInfo (fun _ => none)
      (UTestGymsReplicationGraphNode_AlwaysRelevant_ForConnection.GatherActorListsForConnection
        sampleActorTypes sampleNewInfo (fun _ => none) sampleConnectionNode
        sampleOddFrameParams sampleActorInfoMap).node sampleEvenFrameParams
      (UTestGymsReplicationGraphNode_AlwaysRelevant_ForConnection.GatherActorListsForConnection
        sampleActorTypes sampleNewInfo (fun _ => none) sampleConnectionNode
        sampleOddFrameParams sampleActorInfoMap).ActorInfoMap).CullDistanceResets = [] :=
  ⟨by decide,
    (C16_second_gather_forces_no_cull_distance sampleActorTypes sampleNewInfo sampleNewInfo
      (fun _ => none) (fun _ => none) sampleConnectionNode sampleOddFrameParams
      sampleEvenFrameParams sampleActorInfoMap (by decide) rfl).1⟩


/-! ## C28: a population that fits is emitted whole -/

/-- C28. When the population is non-empty and holds at most `MaxNearestActors` actors,
`GatherClientInterestedActors` emits exactly one list, the population list itself, for every
sort procedure, every map of locations and every array of viewers (an empty one included):
no distance is computed and no cutoff applied. -/
theorem C28_population_that_fits_is_emitted_whole (S : FSortProcedure)
    (node : UTestGymsReplicationGraphNode_NearestActors)
    (GlobalMap : AActor → FGlobalActorReplicationInfo) (Viewers : List FNetViewer)
    (hne : 0 < node.ReplicationActorList.length)
    (hle : node.ReplicationActorList.length ≤ node.MaxNearestActors) :
    UTestGymsReplicationGraphNode_NearestActors.GatherClientInterestedActors S node GlobalMap
      Viewers = some [node.ReplicationActorList] := by
  unfold UTestGymsReplicationGraphNode_NearestActors.GatherClientInterestedActors
  simp only
  rw [if_neg (by omega), if_pos hne]

/-- C28 at two actors that are both 20000 units from the viewer, beyond the cutoff radius
of 15000, with `MaxNearestActors = 2`: both are emitted. -/
theorem C28_population_that_fits_is_emitted_whole_witness :
    (∀ a ∈ sampleRoomyNearestNode.ReplicationActorList,
      ActorNCD ≤ UTestGymsReplicationGraphNode_NearestActors.DistanceToViewer sampleMapAllFar
        sampleViewer a) ∧
    UTestGymsReplicationGraphNode_NearestActors.GatherClientInterestedActors StableSort
      sampleRoomyNearestNode sampleMapAllFar [sampleViewer] = some [[1, 2]] :=
  ⟨by decide,
    C28_population_that_fits_is_emitted_whole StableSort sampleRoomyNearestNode sampleMapAllFar
      [sampleViewer] (by decide) (by decide)⟩

/-! ## C29: membership of the nearest-actors node -/

namespace FActorRepListRefView

theorem RemoveAtSwap_perm_eraseIdx (l : FActorRepListRefView) (n : Nat) (h : n < l.length) :
    (RemoveAtSwap l n).Perm (l.eraseIdx n) := by
  have hs := TArrayRemoveAtSwap_spec l n h
  have e1 : RemoveAtSwap l n = TArrayRemoveAtSwap l n := by
    unfold RemoveAtSwap TArrayRemoveAtSwap
    cases l.getLast? <;> rfl
  rw [e1, List.eraseIdx_eq_take_drop_succ]
  calc TArrayRemoveAtSwap l n
      = (TArrayRemoveAtSwap l n).take n ++ (TArrayRemoveAtSwap l n).drop n :=
        (List.take_append_drop n _).symm
    _ = l.take n ++ (TArrayRemoveAtSwap l n).drop n := by rw [hs.1]
  exact List.Perm.append_left _ hs.2.1

theorem RemoveFast_spec (l : FActorRepListRefView) (a : AActor) :
    ((RemoveFast l a).1 = true ↔ a ∈ l) ∧
    ((RemoveFast l a).1 = false → (RemoveFast l a).2 = l) ∧
    ((RemoveFast l a).1 = true → (RemoveFast l a).2.Perm (l.erase a)) := by
  unfold RemoveFast
  by_cases h : a ∈ l
  · rw [if_pos h]
    refine ⟨⟨fun _ => h, fun _ => rfl⟩, fun hc => (by cases hc), fun _ => ?_⟩
    rw [← List.eraseIdx_indexOf_eq_erase]
    exact RemoveAtSwap_perm_eraseIdx l _ (List.indexOf_lt_length.mpr h)
  · rw [if_neg h]
    exact ⟨⟨fun hc => (by cases hc), fun hc => absurd hc h⟩, fun _ => rfl,
      fun hc => (by cases hc)⟩

end FActorRepListRefView

namespace UTestGymsReplicationGraphNode_NearestActors

theorem NotifyRemove_count (node : UTestGymsReplicationGraphNode_NearestActors)
    (ActorInfo : FNewReplicatedActorInfo) (x : AActor) :
    (NotifyRemoveNetworkActor node ActorInfo).2.ReplicationActorList.count x +
        (if ActorInfo.Actor = x ∧ (NotifyRemoveNetworkActor node ActorInfo).1 = true
          then 1 else 0) =
      node.ReplicationActorList.count x := by
  obtain ⟨h1, h2, h3⟩ := FActorRepListRefView.RemoveFast_spec node.ReplicationActorList
    ActorInfo.Actor
  show ((node.ReplicationActorList.RemoveFast ActorInfo.Actor).2).count x +
      (if ActorInfo.Actor = x ∧ (node.ReplicationActorList.RemoveFast ActorInfo.Actor).1 = true
        then 1 else 0) = _
  cases hb : (node.ReplicationActorList.RemoveFast ActorInfo.Actor).1 with
  | false => rw [h2 hb]; simp
  | true =>
    have hmem := h1.mp hb
    rw [(h3 hb).count_eq, List.count_erase]
    by_cases hx : ActorInfo.Actor = x
    · subst hx
      have : 0 < List.count ActorInfo.Actor node.ReplicationActorList :=
        List.count_pos_iff.mpr hmem
      simp
      omega
    · have hx2 : ¬ x = ActorInfo.Actor := fun e => hx e.symm
      simp [hx, hx2]

theorem NotifyAdd_count (node : UTestGymsReplicationGraphNode_NearestActors)
    (ActorInfo : FNewReplicatedActorInfo) (x : AActor) :
    (NotifyAddNetworkActor node ActorInfo).ReplicationActorList.count x =
      node.ReplicationActorList.count x + (if ActorInfo.Actor = x then 1 else 0) := by
  show (node.ReplicationActorList ++ [ActorInfo.Actor]).count x = _
  rw [List.count_append]
  by_cases hx : ActorInfo.Actor = x
  · simp [hx]
  · have h0 : List.count x [ActorInfo.Actor] = 0 :=
      List.count_eq_zero.mpr (by simpa using fun e : x = ActorInfo.Actor => hx e.symm)
    simp [hx, h0]

theorem NotifyAll_count (a : AActor) (events : List FNearestActorsNotify) :
    ∀ node : UTestGymsReplicationGraphNode_NearestActors,
      (NotifyAll node events).ReplicationActorList.count a + SuccessfulRemovesOf a node events =
        node.ReplicationActorList.count a + AddsOf a events := by
  induction events with
  | nil => intro node; rfl
  | cons e rest ih =>
    intro node
    cases e with
    | Add ActorInfo =>
      have h := ih (NotifyAddNetworkActor node ActorInfo)
      have hc := NotifyAdd_count node ActorInfo a
      simp only [NotifyAll, SuccessfulRemovesOf, AddsOf, Notify] at h ⊢
      omega
    | Remove ActorInfo =>
      have h := ih (NotifyRemoveNetworkActor node ActorInfo).2
      have hc := NotifyRemove_count node ActorInfo a
      simp only [NotifyAll, SuccessfulRemovesOf, AddsOf, Notify] at h ⊢
      omega

end UTestGymsReplicationGraphNode_NearestActors

/-- C29. `NotifyAddNetworkActor` appends the actor whether or not it is already in the
list. `NotifyRemoveNetworkActor` returns `true` exactly when the actor was in the list;
then the occurrences of that actor go down by one and those of every other actor stay as
they were; when it returns `false` the list is unchanged. Over any sequence of
notifications the occurrences of an actor are those it had, plus its adds, minus its
removes that returned `true`; and an actor added twice and removed once is still in the
list. -/
theorem C29_add_appends_and_remove_drops_one_occurrence
    (node : UTestGymsReplicationGraphNode_NearestActors) (ActorInfo : FNewReplicatedActorInfo)
    (events : List FNearestActorsNotify) (x : AActor) :
    (UTestGymsReplicationGraphNode_NearestActors.NotifyAddNetworkActor node
        ActorInfo).ReplicationActorList = node.ReplicationActorList ++ [ActorInfo.Actor] ∧
    ((UTestGymsReplicationGraphNode_NearestActors.NotifyRemoveNetworkActor node ActorInfo).1 =
        true ↔ ActorInfo.Actor ∈ node.ReplicationActorList) ∧
    ((UTestGymsReplicationGraphNode_NearestActors.NotifyRemoveNetworkActor node ActorInfo).1 =
        true →
      (UTestGymsReplicationGraphNode_NearestActors.NotifyRemoveNetworkActor node
          ActorInfo).2.ReplicationActorList.count ActorInfo.Actor + 1 =
        node.ReplicationActorList.count ActorInfo.Actor ∧
      (x ≠ ActorInfo.Actor →
        (UTestGymsReplicationGraphNode_NearestActors.NotifyRemoveNetworkActor node
            ActorInfo).2.ReplicationActorList.count x =
          node.ReplicationActorList.count x)) ∧
    ((UTestGymsReplicationGraphNode_NearestActors.NotifyRemoveNetworkActor node ActorInfo).1 =
        false →
      (UTestGymsReplicationGraphNode_NearestActors.NotifyRemoveNetworkActor node ActorInfo).2 =
        node) ∧
    (UTestGymsReplicationGraphNode_NearestActors.NotifyAll node events).ReplicationActorList.count
        x +
      UTestGymsReplicationGraphNode_NearestActors.SuccessfulRemovesOf x node events =
      node.ReplicationActorList.count x +
        UTestGymsReplicationGraphNode_NearestActors.AddsOf x events ∧
    ActorInfo.Actor ∈
      (UTestGymsReplicationGraphNode_NearestActors.NotifyAll node
        [FNearestActorsNotify.Add ActorInfo, FNearestActorsNotify.Add ActorInfo,
          FNearestActorsNotify.Remove ActorInfo]).ReplicationActorList := by
  obtain ⟨h1, h2, _⟩ := FActorRepListRefView.RemoveFast_spec node.ReplicationActorList
    ActorInfo.Actor
  refine ⟨rfl, h1, ?_, ?_, ?_, ?_⟩
  · intro hb
    have ha := UTestGymsReplicationGraphNode_NearestActors.NotifyRemove_count node ActorInfo
      ActorInfo.Actor
    have hx := UTestGymsReplicationGraphNode_NearestActors.NotifyRemove_count node ActorInfo x
    refine ⟨by simpa [hb] using ha, fun hne => ?_⟩
    have hne2 : ¬ ActorInfo.Actor = x := fun e => hne e.symm
    simpa [hne2] using hx
  · intro hb
    show ({ node with ReplicationActorList :=
      (node.ReplicationActorList.RemoveFast ActorInfo.Actor).2 } :
        UTestGymsReplicationGraphNode_NearestActors) = node
    rw [h2 hb]
  · exact UTestGymsReplicationGraphNode_NearestActors.NotifyAll_count x events node
  · have h := UTestGymsReplicationGraphNode_NearestActors.NotifyAll_count ActorInfo.Actor
      [FNearestActorsNotify.Add ActorInfo, FNearestActorsNotify.Add ActorInfo,
        FNearestActorsNotify.Remove ActorInfo] node
    have hs : UTestGymsReplicationGraphNode_NearestActors.SuccessfulRemovesOf ActorInfo.Actor
        node [FNearestActorsNotify.Add ActorInfo, FNearestActorsNotify.Add ActorInfo,
          FNearestActorsNotify.Remove ActorInfo] ≤ 1 := by
      simp only [UTestGymsReplicationGraphNode_NearestActors.SuccessfulRemovesOf]
      split_ifs <;> simp
    have hadds : UTestGymsReplicationGraphNode_NearestActors.AddsOf ActorInfo.Actor
        [FNearestActorsNotify.Add ActorInfo, FNearestActorsNotify.Add ActorInfo,
          FNearestActorsNotify.Remove ActorInfo] = 2 := by
      simp [UTestGymsReplicationGraphNode_NearestActors.AddsOf]
    rw [hadds] at h
    exact List.count_pos_iff.mp (by omega)

/-- C29 at the node holding the actors 1 and 2: removing actor 2 returns `true` and leaves
one actor, removing the absent actor 9 returns `false`. -/
theorem C29_add_appends_and_remove_drops_one_occurrence_witness :
    (UTestGymsReplicationGraphNode_NearestActors.NotifyRemoveNetworkActor sampleNearestNode
      ⟨2, sampleActorClass, NAME_None⟩).1 = true ∧
    (UTestGymsReplicationGraphNode_NearestActors.NotifyRemoveNetworkActor sampleNearestNode
      ⟨2, sampleActorClass, NAME_None⟩).2.ReplicationActorList.count 2 + 1 = 1 ∧
    (UTestGymsReplicationGraphNode_NearestActors.NotifyRemoveNetworkActor sampleNearestNode
      ⟨9, sampleActorClass, NAME_None⟩).1 = false :=
  ⟨by decide,
    ((C29_add_appends_and_remove_drops_one_occurrence sampleNearestNode
      ⟨2, sampleActorClass, NAME_None⟩ [] 1).2.2.1 (by decide)).1,
    by decide⟩

/-! ## C27: the nearest order is that of the truncated distances -/

namespace UTestGymsReplicationGraphNode_AlwaysRelevant_ForConnection

/-- What the level loop of `GatherActorListsForConnection` leaves: the lists handed out and
the array of levels, in terms of the array and the dormancy at the call. -/
theorem Gather_levels (W : FActorTypes)
    (NewInfo : AActor → FConnectionReplicationActorInfo) (LevelActors : FLevelActorMap)
    (node : UTestGymsReplicationGraphNode_AlwaysRelevant_ForConnection)
    (Params : FConnectionGatherActorListParameters) (Map : FPerConnectionActorInfoMap) :
    (GatherActorListsForConnection W NewInfo LevelActors node Params Map).Out.tail =
      (node.AlwaysRelevantStreamingLevelsNeedingReplication.reverse.filter
        (HandsOutList LevelActors Map.DormantOn)).filterMap LevelActors ∧
    (GatherActorListsForConnection W NewInfo LevelActors node Params
      Map).node.AlwaysRelevantStreamingLevelsNeedingReplication.Perm
      (node.AlwaysRelevantStreamingLevelsNeedingReplication.filter
        (KeepsLevel LevelActors Map.DormantOn)) := by
  have hD : (ViewerLoop W NewInfo node Params Map).ActorInfoMap.DormantOn = Map.DormantOn :=
    foldl_DormantOn W NewInfo Params Params.Viewers _
  obtain ⟨_, h2, h3, _⟩ := LevelLoop_spec LevelActors NewInfo
    node.AlwaysRelevantStreamingLevelsNeedingReplication.length
    ⟨node.AlwaysRelevantStreamingLevelsNeedingReplication,
      (ViewerLoop W NewInfo node Params Map).ActorInfoMap,
      [(ViewerLoop W NewInfo node Params Map).ReplicationActorList], []⟩ (Nat.le_refl _)
  simp only [List.take_length, List.drop_length, List.append_nil, hD] at h2 h3
  refine ⟨?_, h3⟩
  show (LevelLoop LevelActors NewInfo _ _).Out.tail = _
  rw [h2]
  rfl

end UTestGymsReplicationGraphNode_AlwaysRelevant_ForConnection

/-- C21. For a streaming level of the needing-replication array whose always relevant list
is not empty: when every actor of the list is dormant on the connection (has an entry in
the actor info map that is marked dormant), `GatherActorListsForConnection` leaves no
occurrence of the level in the array and its list is not among the level lists handed out;
otherwise the level is in the array as often as before and its list is handed out. -/
theorem C21_dormant_level_is_dropped_other_level_is_emitted (W : FActorTypes)
    (NewInfo : AActor → FConnectionReplicationActorInfo) (LevelActors : FLevelActorMap)
    (node : UTestGymsReplicationGraphNode_AlwaysRelevant_ForConnection)
    (Params : FConnectionGatherActorListParameters) (Map : FPerConnectionActorInfoMap)
    (StreamingLevel : FName) (RepList : FActorRepListRefView)
    (hmem : StreamingLevel ∈ node.AlwaysRelevantStreamingLevelsNeedingReplication)
    (hLA : LevelActors StreamingLevel = some RepList)
    (hne : RepList.length > 0) :
    (RepList.all Map.DormantOn = true →
      StreamingLevel ∉
        (UTestGymsReplicationGraphNode_AlwaysRelevant_ForConnection.GatherActorListsForConnection
          W NewInfo LevelActors node Params
          Map).node.AlwaysRelevantStreamingLevelsNeedingReplication ∧
      RepList ∉
        (UTestGymsReplicationGraphNode_AlwaysRelevant_ForConnection.GatherActorListsForConnection
          W NewInfo LevelActors node Params Map).Out.tail) ∧
    (RepList.all Map.DormantOn = false →
      (UTestGymsReplicationGraphNode_AlwaysRelevant_ForConnection.GatherActorListsForConnection
        W NewInfo LevelActors node Params
        Map).node.AlwaysRelevantStreamingLevelsNeedingReplication.count StreamingLevel =
        node.AlwaysRelevantStreamingLevelsNeedingReplication.count StreamingLevel ∧
      StreamingLevel ∈
        (UTestGymsReplicationGraphNode_AlwaysRelevant_ForConnection.GatherActorListsForConnection
          W NewInfo LevelActors node Params
          Map).node.AlwaysRelevantStreamingLevelsNeedingReplication ∧
      RepList ∈
        (UTestGymsReplicationGraphNode_AlwaysRelevant_ForConnection.GatherActorListsForConnection
          W NewInfo LevelActors node Params Map).Out.tail) := by
  obtain ⟨hOut, hLev⟩ :=
    UTestGymsReplicationGraphNode_AlwaysRelevant_ForConnection.Gather_levels W NewInfo
      LevelActors node Params Map
  constructor
  · intro hd
    constructor
    · intro hin
      have hk := (List.mem_filter.mp (hLev.subset hin)).2
      simp [KeepsLevel, hLA, hd, hne] at hk
    · intro hin
      rw [hOut] at hin
      obtain ⟨lvl, hl, hla⟩ := List.mem_filterMap.mp hin
      have hh := (List.mem_filter.mp hl).2
      simp only [HandsOutList, hla, Bool.and_eq_true, Bool.not_eq_true'] at hh
      rw [hd] at hh
      exact absurd hh.2 (by simp)
  · intro hd
    have hkeep : KeepsLevel LevelActors Map.DormantOn StreamingLevel = true := by
      simp [KeepsLevel, hLA, hd]
    have hcount : (UTestGymsReplicationGraphNode_AlwaysRelevant_ForConnection.GatherActorListsForConnection
        W NewInfo LevelActors node Params
        Map).node.AlwaysRelevantStreamingLevelsNeedingReplication.count StreamingLevel =
        node.AlwaysRelevantStreamingLevelsNeedingReplication.count StreamingLevel := by
      rw [hLev.count_eq, List.count_filter hkeep]
    refine ⟨hcount, ?_, ?_⟩
    · exact List.count_pos_iff.mp (by rw [hcount]; exact List.count_pos_iff.mpr hmem)
    · rw [hOut]
      refine List.mem_filterMap.mpr ⟨StreamingLevel, List.mem_filter.mpr ⟨?_, ?_⟩, hLA⟩
      · exact List.mem_reverse.mpr hmem
      · simp [HandsOutList, hLA, hd, hne]

/-- C21 at the array "X", "A", "Y", "B", where the list of "A" is the single actor 1: with
actor 1 dormant on the connection the level "A" is dropped and only the candidate list is
handed out; with actor 1 not dormant the level stays and its list is handed out. -/
theorem C21_dormant_level_is_dropped_other_level_is_emitted_witness :
    ("A" ∉
      (UTestGymsReplicationGraphNode_AlwaysRelevant_ForConnection.GatherActorListsForConnection
        sampleActorTypes sampleNewInfo sampleLevelActors
        ⟨sampleLevelsNeedingReplication, [], [], false⟩ sampleOddFrameParams
        sampleDormantActorInfoMap).node.AlwaysRelevantStreamingLevelsNeedingReplication ∧
      [1] ∉
      (UTestGymsReplicationGraphNode_AlwaysRelevant_ForConnection.GatherActorListsForConnection
        sampleActorTypes sampleNewInfo sampleLevelActors
        ⟨sampleLevelsNeedingReplication, [], [], false⟩ sampleOddFrameParams
        sampleDormantActorInfoMap).Out.tail) ∧
    [1] ∈
      (UTestGymsReplicationGraphNode_AlwaysRelevant_ForConnection.GatherActorListsForConnection
        sampleActorTypes sampleNewInfo sampleLevelActors
        ⟨sampleLevelsNeedingReplication, [], [], false⟩ sampleOddFrameParams
        sampleActorInfoMap).Out.tail :=
  ⟨(C21_dormant_level_is_dropped_other_level_is_emitted sampleActorTypes sampleNewInfo
      sampleLevelActors ⟨sampleLevelsNeedingReplication, [], [], false⟩ sampleOddFrameParams
      sampleDormantActorInfoMap "A" [1] (by decide) (by decide) (by decide)).1 (by decide),
    ((C21_dormant_level_is_dropped_other_level_is_emitted sampleActorTypes sampleNewInfo
      sampleLevelActors ⟨sampleLevelsNeedingReplication, [], [], false⟩ sampleOddFrameParams
      sampleActorInfoMap "A" [1] (by decide) (by decide) (by decide)).2 (by decide)).2.2⟩

/-! ## C22: what `ResetGameWorldState` clears -/

theorem ResetGameWorldState_nodes (g : FGraphWorldState) :
    (ResetGameWorldState g).AlwaysRelevantConnectionNodes =
      g.AlwaysRelevantConnectionNodes.map
        UTestGymsReplicationGraphNode_AlwaysRelevant_ForConnection.ResetGameWorldState := by
  have hnodes : ∀ nodes : List UReplicationGraphNode,
      ((nodes.map UReplicationGraphNode.NotifyResetAllNetworkActors).map
          UReplicationGraphNode.ResetIfAlwaysRelevant).filterMap (fun n =>
        match n with
        | UReplicationGraphNode.AlwaysRelevant_ForConnection node => some node
        | UReplicationGraphNode.OtherNode _ => none) =
      (nodes.filterMap (fun n =>
        match n with
        | UReplicationGraphNode.AlwaysRelevant_ForConnection node => some node
        | UReplicationGraphNode.OtherNode _ => none)).map
        UTestGymsReplicationGraphNode_AlwaysRelevant_ForConnection.ResetGameWorldState := by
    intro nodes
    induction nodes with
    | nil => rfl
    | cons n rest ih =>
      cases n with
      | AlwaysRelevant_ForConnection node =>
        simp only [List.map_cons, List.filterMap_cons, UReplicationGraphNode.ResetIfAlwaysRelevant,
          UReplicationGraphNode.NotifyResetAllNetworkActors,
          UTestGymsReplicationGraphNode_AlwaysRelevant_ForConnection.NotifyResetAllNetworkActors,
          ih]
      | OtherNode Name =>
        simp only [List.map_cons, List.filterMap_cons, UReplicationGraphNode.ResetIfAlwaysRelevant,
          UReplicationGraphNode.NotifyResetAllNetworkActors, ih]
  have hconns : ∀ conns : List UNetReplicationGraphConnection,
      ((((conns.map (fun ConnManager => (⟨ConnManager.ConnectionGraphNodes.map
            UReplicationGraphNode.NotifyResetAllNetworkActors⟩ :
              UNetReplicationGraphConnection))).map
          (fun ConnManager => (⟨ConnManager.ConnectionGraphNodes.map
            UReplicationGraphNode.ResetIfAlwaysRelevant⟩ : UNetReplicationGraphConnection))).map
        (fun ConnManager => ConnManager.ConnectionGraphNodes.filterMap (fun n =>
          match n with
          | UReplicationGraphNode.AlwaysRelevant_ForConnection node => some node
          | UReplicationGraphNode.OtherNode _ => none))).flatten) =
      ((conns.map (fun ConnManager => ConnManager.ConnectionGraphNodes.filterMap (fun n =>
          match n with
          | UReplicationGraphNode.AlwaysRelevant_ForConnection node => some node
          | UReplicationGraphNode.OtherNode _ => none))).flatten).map
        UTestGymsReplicationGraphNode_AlwaysRelevant_ForConnection.ResetGameWorldState := by
    intro conns
    induction conns with
    | nil => rfl
    | cons c rest ih =>
      simp only [List.map_cons, List.flatten_cons, List.map_append, ih, hnodes]
  unfold FGraphWorldState.AlwaysRelevantConnectionNodes ResetGameWorldState
    SuperResetGameWorldState
  simp only [List.map_append]
  rw [List.flatten_append, List.flatten_append, List.map_append, hconns, hconns]

/-- C22 fails as stated: the node of the active connection has been through a gather, so
that it holds a transition record and has `bInitializedPlayerState` set; after
`ResetGameWorldState` of the graph its array of levels is empty, but the record and the
flag are still there. -/
theorem C22_counterexample :
    sampleWorldState.AlwaysRelevantConnectionNodes =
      [⟨["B", "A"], [100, 102, 300], [⟨some 1, some 102, some 102⟩], true⟩,
        ⟨["A", "B"], [], [], false⟩] ∧
    (ResetGameWorldState sampleWorldState).AlwaysRelevantConnectionNodes =
      [⟨[], [100, 102, 300], [⟨some 1, some 102, some 102⟩], true⟩,
        ⟨[], [], [], false⟩] := by
  decide

/-- C22 as amended: after `UTestGymsReplicationGraph::ResetGameWorldState` the map
`AlwaysRelevantStreamingLevelActors` is empty, and the per-connection always relevant nodes
of the active and pending connections are the same nodes in the same order, each with an
empty array of streaming levels needing replication and with its transition records, its
`bInitializedPlayerState` flag and its candidate list as they were before the call. -/
theorem C22_reset_clears_the_levels_only (g : FGraphWorldState) :
    (∀ LevelName, (ResetGameWorldState g).AlwaysRelevantStreamingLevelActors LevelName = none) ∧
    List.Forall₂
      (fun node after =>
        after.AlwaysRelevantStreamingLevelsNeedingReplication = [] ∧
        after.PastRelevantActors = node.PastRelevantActors ∧
        after.bInitializedPlayerState = node.bInitializedPlayerState ∧
        after.ReplicationActorList = node.ReplicationActorList)
      g.AlwaysRelevantConnectionNodes (ResetGameWorldState g).AlwaysRelevantConnectionNodes := by
  refine ⟨fun _ => rfl, ?_⟩
  rw [ResetGameWorldState_nodes, List.forall₂_map_right_iff]
  exact List.forall₂_same.mpr (fun node _ => ⟨rfl, rfl, rfl, rfl⟩)

/-! ## C24: the array of visible levels -/

namespace UTestGymsReplicationGraphNode_AlwaysRelevant_ForConnection

theorem OnClientLevelVisibility_count
    (node : UTestGymsReplicationGraphNode_AlwaysRelevant_ForConnection)
    (e : FLevelVisibilityNotify) (LevelName : FName) :
    (OnClientLevelVisibility node e).AlwaysRelevantStreamingLevelsNeedingReplication.count
        LevelName =
      match e with
      | FLevelVisibilityNotify.Add k =>
        if k = LevelName then
          node.AlwaysRelevantStreamingLevelsNeedingReplication.count LevelName + 1
        else node.AlwaysRelevantStreamingLevelsNeedingReplication.count LevelName
      | FLevelVisibilityNotify.Remove k =>
        if k = LevelName then 0
        else node.AlwaysRelevantStreamingLevelsNeedingReplication.count LevelName := by
  cases e with
  | Add k =>
    show (node.AlwaysRelevantStreamingLevelsNeedingReplication ++ [k]).count LevelName = _
    rw [List.count_append]
    by_cases hk : k = LevelName
    · simp [hk]
    · have h0 : List.count LevelName [k] = 0 :=
        List.count_eq_zero.mpr (by simpa using fun e : LevelName = k => hk e.symm)
      simp [hk, h0]
  | Remove k =>
    show (node.AlwaysRelevantStreamingLevelsNeedingReplication.filter
      (fun x => decide (x ≠ k))).count LevelName = _
    by_cases hk : k = LevelName
    · subst hk
      simp only [if_true]
      exact List.count_eq_zero.mpr (fun h => by simpa using (List.mem_filter.mp h).2)
    · simp only [if_neg hk]
      exact List.count_filter (by simpa using fun e : LevelName = k => hk e.symm)

theorem OnClientLevelVisibilityAll_count (LevelName : FName)
    (events : List FLevelVisibilityNotify) :
    ∀ node : UTestGymsReplicationGraphNode_AlwaysRelevant_ForConnection,
      (OnClientLevelVisibilityAll node
          events).AlwaysRelevantStreamingLevelsNeedingReplication.count LevelName =
        AddsSinceLastRemove LevelName
          (node.AlwaysRelevantStreamingLevelsNeedingReplication.count LevelName) events := by
  induction events with
  | nil => intro node; rfl
  | cons e rest ih =>
    intro node
    have h := ih (OnClientLevelVisibility node e)
    rw [OnClientLevelVisibility_count] at h
    unfold OnClientLevelVisibilityAll AddsSinceLastRemove at h ⊢
    simp only [List.foldl_cons]
    rw [h]

theorem OnClientLevelVisibilityAll_nodup (events : List FLevelVisibilityNotify) :
    ∀ node : UTestGymsReplicationGraphNode_AlwaysRelevant_ForConnection,
      node.AlwaysRelevantStreamingLevelsNeedingReplication.Nodup →
      NoAddWhileVisible node.AlwaysRelevantStreamingLevelsNeedingReplication events = true →
      (OnClientLevelVisibilityAll node
        events).AlwaysRelevantStreamingLevelsNeedingReplication.Nodup := by
  induction events with
  | nil => intro node h _; exact h
  | cons e rest ih =>
    intro node hnd hno
    cases e with
    | Add k =>
      simp only [NoAddWhileVisible, Bool.and_eq_true, Bool.not_eq_true',
        decide_eq_false_iff_not] at hno
      refine ih (OnClientLevelVisibilityAdd node k) ?_ hno.2
      show (node.AlwaysRelevantStreamingLevelsNeedingReplication ++ [k]).Nodup
      exact List.Nodup.append hnd (List.nodup_singleton k)
        (by
          intro x hx hx2
          rw [List.mem_singleton] at hx2
          subst hx2
          exact hno.1 hx)
    | Remove k =>
      simp only [NoAddWhileVisible] at hno
      refine ih (OnClientLevelVisibilityRemove node k) ?_ hno
      exact List.Nodup.filter _ hnd

end UTestGymsReplicationGraphNode_AlwaysRelevant_ForConnection

/-- C24 fails as stated: two `OnClientLevelVisibilityAdd` notifications for the level "A"
leave the name twice in the array, and the next gather hands the list of "A" out twice. -/
theorem C24_counterexample :
    (UTestGymsReplicationGraphNode_AlwaysRelevant_ForConnection.OnClientLevelVisibilityAll
      ⟨[], [], [], false⟩
      [FLevelVisibilityNotify.Add "A",
        FLevelVisibilityNotify.Add "A"]).AlwaysRelevantStreamingLevelsNeedingReplication =
      ["A", "A"] ∧
    (UTestGymsReplicationGraphNode_AlwaysRelevant_ForConnection.GatherActorListsForConnection
      sampleActorTypes sampleNewInfo sampleLevelActors
      (UTestGymsReplicationGraphNode_AlwaysRelevant_ForConnection.OnClientLevelVisibilityAll
        ⟨[], [], [], false⟩
        [FLevelVisibilityNotify.Add "A", FLevelVisibilityNotify.Add "A"])
      sampleOddFrameParams sampleActorInfoMap).Out = [[100, 102], [1], [1]] := by
  decide

/-- C24 as amended: after a sequence of visibility notifications the array holds a level
name as many times as the level was added since it was last removed (an add appends without
a duplicate check, a remove deletes every occurrence); the array has no duplicates when it
had none before and no level was added while it was in the array; and a gather hands out
one list per occurrence of a level whose list is not empty and has an actor that is not
dormant on the connection. -/
theorem C24_level_occurs_once_per_add_since_last_remove
    (node : UTestGymsReplicationGraphNode_AlwaysRelevant_ForConnection)
    (events : List FLevelVisibilityNotify) (LevelName : FName) (W : FActorTypes)
    (NewInfo : AActor → FConnectionReplicationActorInfo) (LevelActors : FLevelActorMap)
    (Params : FConnectionGatherActorListParameters) (Map : FPerConnectionActorInfoMap) :
    (UTestGymsReplicationGraphNode_AlwaysRelevant_ForConnection.OnClientLevelVisibilityAll node
        events).AlwaysRelevantStreamingLevelsNeedingReplication.count LevelName =
      AddsSinceLastRemove LevelName
        (node.AlwaysRelevantStreamingLevelsNeedingReplication.count LevelName) events ∧
    (node.AlwaysRelevantStreamingLevelsNeedingReplication.Nodup →
      NoAddWhileVisible node.AlwaysRelevantStreamingLevelsNeedingReplication events = true →
      (UTestGymsReplicationGraphNode_AlwaysRelevant_ForConnection.OnClientLevelVisibilityAll
        node events).AlwaysRelevantStreamingLevelsNeedingReplication.Nodup) ∧
    (UTestGymsReplicationGraphNode_AlwaysRelevant_ForConnection.GatherActorListsForConnection
      W NewInfo LevelActors
      (UTestGymsReplicationGraphNode_AlwaysRelevant_ForConnection.OnClientLevelVisibilityAll
        node events) Params Map).Out.tail =
      ((UTestGymsReplicationGraphNode_AlwaysRelevant_ForConnection.OnClientLevelVisibilityAll
        node events).AlwaysRelevantStreamingLevelsNeedingReplication.reverse.filter
        (HandsOutList LevelActors Map.DormantOn)).filterMap LevelActors :=
  ⟨UTestGymsReplicationGraphNode_AlwaysRelevant_ForConnection.OnClientLevelVisibilityAll_count
      LevelName events node,
    UTestGymsReplicationGraphNode_AlwaysRelevant_ForConnection.OnClientLevelVisibilityAll_nodup
      events node,
    (UTestGymsReplicationGraphNode_AlwaysRelevant_ForConnection.Gather_levels W NewInfo
      LevelActors _ Params Map).1⟩

/-- C24 as amended, at the notifications add "A", remove "A", add "A", add "B" on a fresh
node: no level was added while visible and the array has no duplicates. -/
theorem C24_level_occurs_once_per_add_since_last_remove_witness :
    (UTestGymsReplicationGraphNode_AlwaysRelevant_ForConnection.OnClientLevelVisibilityAll
      ⟨[], [], [], false⟩
      [FLevelVisibilityNotify.Add "A", FLevelVisibilityNotify.Remove "A",
        FLevelVisibilityNotify.Add "A",
        FLevelVisibilityNotify.Add "B"]).AlwaysRelevantStreamingLevelsNeedingReplication.Nodup :=
  (C24_level_occurs_once_per_add_since_last_remove ⟨[], [], [], false⟩
    [FLevelVisibilityNotify.Add "A", FLevelVisibilityNotify.Remove "A",
      FLevelVisibilityNotify.Add "A", FLevelVisibilityNotify.Add "B"] "A" sampleActorTypes
    sampleNewInfo sampleLevelActors sampleOddFrameParams sampleActorInfoMap).2.1
    (by decide) (by decide)

/-! ## C25: which classes get an entry of their own -/

theorem ClassLoopBody_policies_of_not_reach (bUsingSpatial : Bool) (st : FClassSettingsPass)
    (Class : UClass)
    (h : ReachesDerivationStep bUsingSpatial st.ClassRepNodePolicies Class = false) :
    (ClassLoopBody bUsingSpatial st Class).ClassRepNodePolicies = st.ClassRepNodePolicies := by
  unfold ReachesDerivationStep at h
  unfold ClassLoopBody
  cases hCDO : Class.GetActorCDO with
  | none => rfl
  | some ActorCDO =>
    rw [hCDO] at h
    simp only at h ⊢
    by_cases h1 : ActorCDO.bReplicates = true
    · by_cases h2 : (StartsWith Class.GetName "SKEL_" || StartsWith Class.GetName "REINST_") = true
      · simp [h1, h2]
      · by_cases h3 : (bUsingSpatial && !Class.HasSpatialType) = true
        · simp only [h1, h2, h3]
          simp
        · by_cases h4 : st.ClassRepNodePolicies.Contains Class false = true
          · simp only [h1, h2, h3, h4]
            simp
          · cases hS : Class.GetSuperClass.bind UClass.GetActorCDO with
            | none =>
              rw [hS] at h
              simp [h1, h2, h3, h4] at h
            | some SuperCDO =>
              rw [hS] at h
              have h5 : SameAsSuper SuperCDO ActorCDO = true := by
                simpa [h1, h2, h3, h4] using h
              simp only [h1, h2, h3, h4, h5]
              simp
    · simp [h1]

theorem ReachesDerivationStep_flags (bUsingSpatial : Bool)
    (Policies : TClassMap EClassRepNodeMapping) (Class : UClass)
    (h : ReachesDerivationStep bUsingSpatial Policies Class = true) :
    ∃ ActorCDO, Class.GetActorCDO = some ActorCDO ∧ ActorCDO.bReplicates = true ∧
      ∀ SuperCDO, Class.GetSuperClass.bind UClass.GetActorCDO = some SuperCDO →
        SameAsSuper SuperCDO ActorCDO = false := by
  unfold ReachesDerivationStep at h
  cases hCDO : Class.GetActorCDO with
  | none => rw [hCDO] at h; cases h
  | some ActorCDO =>
    rw [hCDO] at h
    simp only [Bool.and_eq_true] at h
    refine ⟨ActorCDO, rfl, h.1.1.1.1, ?_⟩
    intro SuperCDO hS
    rw [hS] at h
    simpa using h.2

theorem ClassLoopBody_entry_changes (bUsingSpatial : Bool) (st : FClassSettingsPass)
    (Class k : UClass)
    (h : (ClassLoopBody bUsingSpatial st Class).ClassRepNodePolicies k ≠
      st.ClassRepNodePolicies k) :
    k = Class ∧ ReachesDerivationStep bUsingSpatial st.ClassRepNodePolicies Class = true := by
  have hreach : ReachesDerivationStep bUsingSpatial st.ClassRepNodePolicies Class = true := by
    by_contra hn
    exact h (by rw [ClassLoopBody_policies_of_not_reach bUsingSpatial st Class (by simpa using hn)])
  refine ⟨?_, hreach⟩
  rcases ClassLoopBody_cases bUsingSpatial st Class with h1 | ⟨p, _, h1⟩
  · exact absurd (by rw [h1]) h
  · rw [h1, TClassMap.Set_apply] at h
    by_contra hk
    exact h (by rw [if_neg hk])

theorem ClassLoop_new_entry (bUsingSpatial : Bool) (AllClasses : List UClass) (k : UClass) :
    ∀ st : FClassSettingsPass, st.ClassRepNodePolicies k = none →
      (ClassLoop bUsingSpatial AllClasses st).ClassRepNodePolicies k ≠ none →
      k ∈ AllClasses ∧
      ∃ ActorCDO, k.GetActorCDO = some ActorCDO ∧ ActorCDO.bReplicates = true ∧
        ∀ SuperCDO, k.GetSuperClass.bind UClass.GetActorCDO = some SuperCDO →
          SameAsSuper SuperCDO ActorCDO = false := by
  induction AllClasses with
  | nil => intro st h0 h1; exact absurd h0 h1
  | cons C rest ih =>
    intro st h0 h1
    by_cases hC : (ClassLoopBody bUsingSpatial st C).ClassRepNodePolicies k = none
    · obtain ⟨hm, hrest⟩ := ih (ClassLoopBody bUsingSpatial st C) hC h1
      exact ⟨List.mem_cons_of_mem _ hm, hrest⟩
    · obtain ⟨hk, hreach⟩ := ClassLoopBody_entry_changes bUsingSpatial st C k
        (by rw [h0]; exact hC)
      subst hk
      exact ⟨List.mem_cons_self _ _,
        ReachesDerivationStep_flags bUsingSpatial st.ClassRepNodePolicies k hreach⟩

/-- C25 fails as stated: `ReplicatedInfo` is a replicated class below the unreplicated
`StaticInfo`, itself below `AInfo`, and all three have the same three booleans. `AInfo` has
an explicit entry and is the nearest ancestor of `ReplicatedInfo` with an entry; the
automatic pass still gives `ReplicatedInfo` an entry of its own, because it differs from
its immediate super class in `GetIsReplicated()`. -/
theorem C25_counterexample :
    SeedClassRepNodePolicies false false sampleSeedClasses sampleReplicatedInfoClass = none ∧
    (InitGlobalActorClassSettings false false sampleSeedClasses
      [UClass.Object, sampleAActor, sampleSeedClasses.AInfo, sampleStaticInfoClass,
        sampleReplicatedInfoClass]).ClassRepNodePolicies sampleReplicatedInfoClass =
      some EClassRepNodeMapping.RelevantAllConnections ∧
    NearestAncestorWithEntry
      (InitGlobalActorClassSettings false false sampleSeedClasses
        [UClass.Object, sampleAActor, sampleSeedClasses.AInfo, sampleStaticInfoClass,
          sampleReplicatedInfoClass]).ClassRepNodePolicies sampleReplicatedInfoClass =
      some sampleSeedClasses.AInfo ∧
    sampleReplicatedInfoClass.GetActorCDO = some ⟨true, true, false, false⟩ ∧
    sampleSeedClasses.AInfo.GetActorCDO = some ⟨true, true, false, false⟩ ∧
    SameThreeBooleans ⟨true, true, false, false⟩ ⟨true, true, false, false⟩ = true := by
  decide

/-- C25 as amended: in the automatic pass of `InitGlobalActorClassSettings` a class that had
no entry gets one only if it is one of the enumerated classes, its default object is a
replicated actor, and either its super class has no actor default object or its default
object differs from that of its immediate super class in at least one of
`GetIsReplicated()`, `bAlwaysRelevant`, `bOnlyRelevantToOwner`, `bNetUseOwnerRelevancy`. -/
theorem C25_own_entry_only_if_differs_from_super (bUsingSpatial : Bool)
    (st : FClassSettingsPass) (AllClasses : List UClass) (Class : UClass)
    (hbefore : st.ClassRepNodePolicies Class = none)
    (hafter : (ClassLoop bUsingSpatial AllClasses st).ClassRepNodePolicies Class ≠ none) :
    Class ∈ AllClasses ∧
    ∃ ActorCDO, Class.GetActorCDO = some ActorCDO ∧ ActorCDO.bReplicates = true ∧
      ∀ SuperCDO, Class.GetSuperClass.bind UClass.GetActorCDO = some SuperCDO →
        (SuperCDO.bReplicates ≠ ActorCDO.bReplicates ∨
          SuperCDO.bAlwaysRelevant ≠ ActorCDO.bAlwaysRelevant ∨
          SuperCDO.bOnlyRelevantToOwner ≠ ActorCDO.bOnlyRelevantToOwner ∨
          SuperCDO.bNetUseOwnerRelevancy ≠ ActorCDO.bNetUseOwnerRelevancy) := by
  obtain ⟨hm, ActorCDO, h1, h2, h3⟩ :=
    ClassLoop_new_entry bUsingSpatial AllClasses Class st hbefore hafter
  refine ⟨hm, ActorCDO, h1, h2, ?_⟩
  intro SuperCDO hS
  have h := h3 SuperCDO hS
  unfold SameAsSuper at h
  by_contra hn
  simp only [not_or, not_not] at hn
  obtain ⟨e1, e2, e3, e4⟩ := hn
  rw [e1, e2, e3, e4] at h
  simp at h

/-- C25 as amended, at the small project: `ReplicatedInfo` gets its entry and differs from
its immediate super class `StaticInfo` in `GetIsReplicated()`. -/
theorem C25_own_entry_only_if_differs_from_super_witness :
    sampleReplicatedInfoClass ∈
      [UClass.Object, sampleAActor, sampleSeedClasses.AInfo, sampleStaticInfoClass,
        sampleReplicatedInfoClass] ∧
    ∃ ActorCDO, sampleReplicatedInfoClass.GetActorCDO = some ActorCDO ∧
      ActorCDO.bReplicates = true :=
  have h := C25_own_entry_only_if_differs_from_super false
    ⟨SeedClassRepNodePolicies false false sampleSeedClasses, [], []⟩
    [UClass.Object, sampleAActor, sampleSeedClasses.AInfo, sampleStaticInfoClass,
      sampleReplicatedInfoClass] sampleReplicatedInfoClass (by decide) (by decide)
  ⟨h.1, h.2.imp (fun _ hc => ⟨hc.1, hc.2.1⟩)⟩

/-! ## C26: the checked lookup of the class info pass -/

/-- C26 (what the code does at the failing input). Spatial networking off; `OwnerOnlyActor`
is a replicated class directly below `AActor` (which is not replicated) with
`bOnlyRelevantToOwner` set. The loop over all classes collects it in `AllReplicatedClasses`
and adds no entry for it; it is not a child of `APlayerState`, the only explicitly set
class; neither it nor an ancestor has an entry, so `GetChecked` fails its check in the class
info pass. -/
theorem C26_checked_lookup_fails_for_class_without_entry :
    sampleOwnerOnlyActorClass ∈
      (InitGlobalActorClassSettings false false sampleSeedClasses
        [UClass.Object, sampleAActor, sampleOwnerOnlyActorClass]).AllReplicatedClasses ∧
    sampleOwnerOnlyActorClass.IsChildOf sampleSeedClasses.APlayerState = false ∧
    (InitGlobalActorClassSettings false false sampleSeedClasses
      [UClass.Object, sampleAActor, sampleOwnerOnlyActorClass]).ClassRepNodePolicies.nearestEntry
      sampleOwnerOnlyActorClass = none ∧
    ((InitGlobalActorClassSettings false false sampleSeedClasses
      [UClass.Object, sampleAActor, sampleOwnerOnlyActorClass]).ClassRepNodePolicies.GetChecked
      sampleOwnerOnlyActorClass).isNone = true ∧
    (InitGlobalActorClassSettings_ClassInfo false false sampleSeedClasses
      [UClass.Object, sampleAActor, sampleOwnerOnlyActorClass]).isNone = true := by
  decide

/-! ## C23: no actor in two destinations -/

theorem MembershipList.mem_addActor_cases (L : MembershipList) (l : List AActor) (a x : AActor)
    (h : x ∈ L.addActor l a) : x ∈ l ∨ x = a := by
  cases L <;>
    simp only [MembershipList.addActor, FActorRepListRefView.Add,
      FActorRepListRefView.ConditionalAdd,
      UReplicationGraphNode_GridSpatialization2D.Emplace] at h <;>
    (try split_ifs at h) <;>
    first
      | exact Or.inl h
      | (rcases List.mem_append.mp h with h | h
         · exact Or.inl h
         · exact Or.inr (by simpa using h))

theorem MembershipList.mem_of_mem_removeActor (L : MembershipList) (l : List AActor)
    (a x : AActor) (h : x ∈ L.removeActor l a) : x ∈ l := by
  have hfast : ∀ l : FActorRepListRefView, x ∈ (FActorRepListRefView.RemoveFast l a).2 →
      x ∈ l := by
    intro l hx
    obtain ⟨_, h2, h3⟩ := FActorRepListRefView.RemoveFast_spec l a
    cases hb : (FActorRepListRefView.RemoveFast l a).1 with
    | false => rw [h2 hb] at hx; exact hx
    | true => exact List.mem_of_mem_erase ((h3 hb).subset hx)
  cases L <;> simp only [MembershipList.removeActor] at h
  · exact List.mem_of_mem_erase h
  · exact List.mem_of_mem_erase h
  · exact hfast l h
  · exact hfast l h
  · exact hfast l h
  · exact (List.mem_filter.mp h).1
  · exact (List.mem_filter.mp h).1

theorem RouteAdd_FiledByPolicy (g : UTestGymsReplicationGraph)
    (ClassOf : AActor → UClass) (LevelOf : AActor → FName)
    (ActorInfo : FNewReplicatedActorInfo) (GlobalInfo : FGlobalActorReplicationInfo)
    (hC : ActorInfo.Class = ClassOf ActorInfo.Actor)
    (hL : ActorInfo.StreamingLevelName = LevelOf ActorInfo.Actor)
    (h : g.FiledByPolicy ClassOf LevelOf) :
    (RouteAddNetworkActorToNodes g ActorInfo GlobalInfo).FiledByPolicy ClassOf LevelOf := by
  intro a L ha
  rw [RouteAdd_bUsingSpatial, RouteAdd_ClassRepNodePolicies, GetMappingPolicy_cached]
  rw [listOf_RouteAdd] at ha
  split_ifs at ha with hp
  · rcases MembershipList.mem_addActor_cases L _ _ _ ha with ha | ha
    · exact h a L ha
    · subst ha
      have ho := policyList_owner g.bUsingSpatial ActorInfo.StreamingLevelName
        GlobalInfo.bWantsToBeDormant (GetMappingPolicy g.ClassRepNodePolicies ActorInfo.Class).1
      rw [hp] at ho
      rw [← hL, ← hC]
      exact ho.symm
  · exact h a L ha

theorem RouteRemove_FiledByPolicy (g g2 : UTestGymsReplicationGraph)
    (ClassOf : AActor → UClass) (LevelOf : AActor → FName)
    (ActorInfo : FNewReplicatedActorInfo)
    (hr : RouteRemoveNetworkActorToNodes g ActorInfo = some g2)
    (h : g.FiledByPolicy ClassOf LevelOf) : g2.FiledByPolicy ClassOf LevelOf := by
  intro a L ha
  obtain ⟨h1, _, h3⟩ := RouteRemove_fields g g2 ActorInfo hr
  rw [h1, h3, GetMappingPolicy_cached]
  rw [listOf_RouteRemove g g2 ActorInfo hr] at ha
  split_ifs at ha
  · exact h a L (MembershipList.mem_of_mem_removeActor L _ _ _ ha)
  · exact h a L ha

theorem RouteCalls_FiledByPolicy (ClassOf : AActor → UClass) (LevelOf : AActor → FName)
    (calls : List FRouteCall) :
    ∀ g g2 : UTestGymsReplicationGraph, ActorsKeepClassAndLevel ClassOf LevelOf calls →
      g.FiledByPolicy ClassOf LevelOf → RouteCalls g calls = some g2 →
      g2.FiledByPolicy ClassOf LevelOf := by
  induction calls with
  | nil =>
    intro g g2 _ h hr
    simp only [RouteCalls, Option.some.injEq] at hr
    subst hr
    exact h
  | cons c rest ih =>
    intro g g2 hk h hr
    cases c with
    | Add ActorInfo GlobalInfo =>
      simp only [ActorsKeepClassAndLevel] at hk
      simp only [RouteCalls] at hr
      exact ih _ g2 hk.2
        (RouteAdd_FiledByPolicy g ClassOf LevelOf ActorInfo GlobalInfo hk.1.1 hk.1.2 h) hr
    | Remove ActorInfo =>
      simp only [ActorsKeepClassAndLevel] at hk
      simp only [RouteCalls] at hr
      cases hrem : RouteRemoveNetworkActorToNodes g ActorInfo with
      | none => rw [hrem] at hr; cases hr
      | some g1 =>
        rw [hrem] at hr
        exact ih g1 g2 hk.2 (RouteRemove_FiledByPolicy g g1 ClassOf LevelOf ActorInfo hrem h) hr
    | UpdateGlobalInfo GlobalMap =>
      simp only [ActorsKeepClassAndLevel] at hk
      simp only [RouteCalls] at hr
      refine ih _ g2 hk ?_ hr
      intro a L ha
      exact h a L (by cases L <;> exact ha)

theorem RouteCalls_table (calls : List FRouteCall) :
    ∀ g g2 : UTestGymsReplicationGraph, RouteCalls g calls = some g2 →
      g2.bUsingSpatial = g.bUsingSpatial ∧
      ∀ c : UClass, (GetMappingPolicy g2.ClassRepNodePolicies c).1 =
        (GetMappingPolicy g.ClassRepNodePolicies c).1 := by
  induction calls with
  | nil =>
    intro g g2 hr
    simp only [RouteCalls, Option.some.injEq] at hr
    subst hr
    exact ⟨rfl, fun _ => rfl⟩
  | cons c rest ih =>
    intro g g2 hr
    cases c with
    | Add ActorInfo GlobalInfo =>
      simp only [RouteCalls] at hr
      obtain ⟨h1, h2⟩ := ih _ g2 hr
      rw [RouteAdd_bUsingSpatial] at h1
      refine ⟨h1, fun c => ?_⟩
      rw [h2 c, RouteAdd_ClassRepNodePolicies, GetMappingPolicy_cached]
    | Remove ActorInfo =>
      simp only [RouteCalls] at hr
      cases hrem : RouteRemoveNetworkActorToNodes g ActorInfo with
      | none => rw [hrem] at hr; cases hr
      | some g1 =>
        rw [hrem] at hr
        obtain ⟨h1, h2⟩ := ih g1 g2 hr
        obtain ⟨f1, _, f3⟩ := RouteRemove_fields g g1 ActorInfo hrem
        refine ⟨h1.trans f1, fun c => ?_⟩
        rw [h2 c, f3, GetMappingPolicy_cached]
    | UpdateGlobalInfo GlobalMap =>
      simp only [RouteCalls] at hr
      exact ih { g with GlobalActorReplicationInfoMap := GlobalMap } g2 hr

/-- C23. Start from a graph in which every member of a list is in the destination of its
own policy (as in the graph with empty lists), and run any sequence of
`RouteAddNetworkActorToNodes` and `RouteRemoveNetworkActorToNodes` calls, with changes of
the global actor info in between, in which every actor keeps its class and its streaming
level. In every state the sequence reaches, the policy of every class is the one it had at
the start (the table changes only by the caching of inherited entries), every member of a
list is in the destination of its own policy, and so two lists that hold the same actor
belong to the same destination: no actor is a member of two different destinations. -/
theorem C23_no_actor_in_two_destinations (g0 g : UTestGymsReplicationGraph)
    (ClassOf : AActor → UClass) (LevelOf : AActor → FName) (calls : List FRouteCall)
    (hkeep : ActorsKeepClassAndLevel ClassOf LevelOf calls)
    (hinit : g0.FiledByPolicy ClassOf LevelOf)
    (hrun : RouteCalls g0 calls = some g) :
    (∀ c : UClass, (GetMappingPolicy g.ClassRepNodePolicies c).1 =
      (GetMappingPolicy g0.ClassRepNodePolicies c).1) ∧
    g.FiledByPolicy ClassOf LevelOf ∧
    ∀ (a : AActor) (L1 L2 : MembershipList), a ∈ g.listOf L1 → a ∈ g.listOf L2 →
      L1.owner = L2.owner := by
  have hf := RouteCalls_FiledByPolicy ClassOf LevelOf calls g0 g hkeep hinit hrun
  refine ⟨(RouteCalls_table calls g0 g hrun).2, hf, ?_⟩
  intro a L1 L2 h1 h2
  have e1 := hf a L1 h1
  have e2 := hf a L2 h2
  rw [e1] at e2
  exact Option.some.inj e2

/-- C23 at the sample graph: after two adds of actor 3, an add, a remove and another add of
the game state 7 of `Level1`, actor 3 is in the dynamic set of the grid only, actor 7 in
the list of its level only, and no actor is in two destinations. -/
theorem C23_no_actor_in_two_destinations_witness :
    (RouteCalls sampleGraph sampleRouteCalls).map (fun g =>
      (g.listOf MembershipList.GridDynamic, g.listOf MembershipList.GridStatic,
        g.listOf (MembershipList.StreamingLevel "Level1"),
        g.listOf MembershipList.AlwaysRelevant)) = some ([3], [], [7], []) ∧
    ∃ g, RouteCalls sampleGraph sampleRouteCalls = some g ∧
      ∀ (a : AActor) (L1 L2 : MembershipList), a ∈ g.listOf L1 → a ∈ g.listOf L2 →
        L1.owner = L2.owner := by
  refine ⟨by decide, ?_⟩
  obtain ⟨g, hg⟩ := Option.isSome_iff_exists.mp
    (show (RouteCalls sampleGraph sampleRouteCalls).isSome = true by decide)
  exact ⟨g, hg, (C23_no_actor_in_two_destinations sampleGraph g sampleClassOf sampleLevelOf
    sampleRouteCalls ⟨⟨rfl, rfl⟩, ⟨rfl, rfl⟩, ⟨rfl, rfl⟩, ⟨rfl, rfl⟩, ⟨rfl, rfl⟩, trivial⟩
    (fun a L h => absurd h (sampleGraph_fresh a L)) hg).2.2⟩

/-! ## C30: the cross-worker totals of the benchmark game mode -/

theorem WrapInt32_add_left (x y : Int) : WrapInt32 (WrapInt32 x + y) = WrapInt32 (x + y) := by
  unfold WrapInt32
  omega

theorem WrapInt32_of_range (x : Int) (h1 : -(2 ^ 31) ≤ x) (h2 : x < 2 ^ 31) :
    WrapInt32 x = x := by
  unfold WrapInt32
  omega

namespace TMap

variable {K V : Type} [DecidableEq K]

theorem Find_Assign (m : TMap K V) (k : K) (v : V) (k2 : K) :
    (m.Assign k v).Find k2 = if k2 = k then some v else m.Find k2 := by
  induction m with
  | nil =>
    simp only [Assign, Find]
    by_cases h : k2 = k
    · simp [h]
    · have h2 : ¬ k = k2 := fun e => h e.symm
      simp [h, h2]
  | cons p rest ih =>
    obtain ⟨k3, v3⟩ := p
    simp only [Assign]
    by_cases h3 : k3 = k
    · subst h3
      simp only [if_true, Find]
      by_cases h : k2 = k3
      · subst h; simp
      · have h2 : ¬ k3 = k2 := fun e => h e.symm
        simp [h, h2]
    · simp only [if_neg h3, Find, ih]
      by_cases h : k3 = k2
      · subst h
        simp [h3]
      · simp [h]

theorem Keys_Assign (m : TMap K V) (k : K) (v : V) :
    (m.Assign k v).Keys = if k ∈ m.Keys then m.Keys else m.Keys ++ [k] := by
  induction m with
  | nil => simp [Assign, Keys]
  | cons p rest ih =>
    obtain ⟨k3, v3⟩ := p
    unfold Keys at ih ⊢
    simp only [Assign]
    by_cases h3 : k3 = k
    · subst h3
      simp
    · have h4 : ¬ k = k3 := fun e => h3 e.symm
      simp only [if_neg h3, List.map_cons, ih, List.mem_cons, h4, false_or]
      split_ifs <;> simp

theorem Keys_Assign_nodup (m : TMap K V) (k : K) (v : V) (h : m.Keys.Nodup) :
    (m.Assign k v).Keys.Nodup := by
  rw [Keys_Assign]
  split_ifs with hk
  · exact h
  · exact List.Nodup.append h (List.nodup_singleton k)
      (by
        intro x hx hx2
        rw [List.mem_singleton] at hx2
        subst hx2
        exact hk hx)

theorem mem_Keys_Assign (m : TMap K V) (k : K) (v : V) (k2 : K) :
    k2 ∈ (m.Assign k v).Keys ↔ k2 = k ∨ k2 ∈ m.Keys := by
  rw [Keys_Assign]
  split_ifs with hk
  · constructor
    · exact fun h => Or.inr h
    · rintro (h | h)
      · rw [h]; exact hk
      · exact h
  · simp only [List.mem_append, List.mem_singleton]
    tauto

theorem Find_eq_none_iff (m : TMap K V) (k : K) : m.Find k = none ↔ k ∉ m.Keys := by
  induction m with
  | nil => simp [Find, Keys]
  | cons p rest ih =>
    obtain ⟨k3, v3⟩ := p
    unfold Keys at ih ⊢
    simp only [Find, List.map_cons, List.mem_cons, not_or]
    by_cases h : k3 = k
    · subst h; simp
    · have h2 : ¬ k = k3 := fun e => h e.symm
      simp [h, h2, ih]

theorem mem_of_Assign (m : TMap K V) (k : K) (v : V) (p : K × V) (h : p ∈ m.Assign k v) :
    p ∈ m ∨ p = (k, v) := by
  induction m with
  | nil =>
    simp only [Assign, List.mem_singleton] at h
    exact Or.inr h
  | cons q rest ih =>
    obtain ⟨k3, v3⟩ := q
    simp only [Assign] at h
    split_ifs at h with h3
    · rcases List.mem_cons.mp h with h | h
      · subst h3; exact Or.inr h
      · exact Or.inl (List.mem_cons_of_mem _ h)
    · rcases List.mem_cons.mp h with h | h
      · exact Or.inl (by rw [h]; exact List.mem_cons_self _ _)
      · rcases ih h with h | h
        · exact Or.inl (List.mem_cons_of_mem _ h)
        · exact Or.inr h

end TMap

namespace ABenchmarkGymGameModeBase

/-- The sum of the counts of the pairs of a class in a list of pairs. -/
theorem Find_AddToTotal (Temp : TMap UClass Int) (P : UClass × Int) (c : UClass) :
    (AddToTotal Temp P).Find c =
      if c = P.1 then some (WrapInt32 ((Temp.Find c).getD 0 + P.2)) else Temp.Find c := by
  unfold AddToTotal
  rw [TMap.Find_Assign]
  by_cases h : c = P.1
  · subst h; simp
  · simp [h]

theorem Find_foldl_AddToTotal (c : UClass) (m : TMap UClass Int) (hm : m.Keys.Nodup) :
    ∀ Temp : TMap UClass Int,
      (m.foldl AddToTotal Temp).Find c =
        if c ∈ m.Keys then some (WrapInt32 ((Temp.Find c).getD 0 + (m.Find c).getD 0))
        else Temp.Find c := by
  induction m with
  | nil => intro Temp; simp [TMap.Keys]
  | cons P rest ih =>
    intro Temp
    obtain ⟨k, n⟩ := P
    have hk : k ∉ TMap.Keys rest := (List.nodup_cons.mp hm).1
    have hrest : (TMap.Keys rest).Nodup := (List.nodup_cons.mp hm).2
    simp only [List.foldl_cons]
    rw [ih hrest, Find_AddToTotal]
    by_cases hc : c = k
    · subst hc
      have hnone : TMap.Find rest c = none := (TMap.Find_eq_none_iff rest c).mpr hk
      simp [TMap.Keys, TMap.Find, hk, hnone]
      intro x hx
      exact absurd (List.mem_map.mpr ⟨(c, x), hx, rfl⟩) hk
    · have hc2 : ¬ k = c := fun e => hc e.symm
      simp only [TMap.Keys, List.map_cons, List.mem_cons, hc, false_or, TMap.Find, if_neg hc2,
        if_false]

theorem Keys_foldl_AddToTotal_nodup (m : TMap UClass Int) :
    ∀ Temp : TMap UClass Int, Temp.Keys.Nodup → (m.foldl AddToTotal Temp).Keys.Nodup := by
  induction m with
  | nil => intro Temp h; exact h
  | cons P rest ih =>
    intro Temp h
    exact ih _ (TMap.Keys_Assign_nodup Temp _ _ h)

theorem TempTotal_spec (c : UClass) (ws : TMap String (TMap UClass Int))
    (hws : ∀ WorkerPair ∈ ws, WorkerPair.2.Keys.Nodup) :
    ∀ Temp : TMap UClass Int, Temp.Keys.Nodup →
      (ws.foldl (fun Temp WorkerPair => WorkerPair.2.foldl AddToTotal Temp) Temp).Keys.Nodup ∧
      (ws.foldl (fun Temp WorkerPair => WorkerPair.2.foldl AddToTotal Temp) Temp).Find c =
        if IsReportedClass ws c = true then
          some (WrapInt32 ((Temp.Find c).getD 0 + SumOfLatestCounts ws c))
        else Temp.Find c := by
  induction ws with
  | nil =>
    intro Temp h
    exact ⟨h, by simp [IsReportedClass]⟩
  | cons w rest ih =>
    intro Temp h
    have hw : w.2.Keys.Nodup := hws w (List.mem_cons_self _ _)
    have hrest : ∀ WorkerPair ∈ rest, WorkerPair.2.Keys.Nodup :=
      fun p hp => hws p (List.mem_cons_of_mem _ hp)
    obtain ⟨i1, i2⟩ := ih hrest (w.2.foldl AddToTotal Temp)
      (Keys_foldl_AddToTotal_nodup w.2 Temp h)
    simp only [List.foldl_cons]
    refine ⟨i1, ?_⟩
    rw [i2, Find_foldl_AddToTotal c w.2 hw Temp]
    have hsum : SumOfLatestCounts (w :: rest) c =
        (w.2.Find c).getD 0 + SumOfLatestCounts rest c := by
      simp [SumOfLatestCounts]
    have hrep : IsReportedClass (w :: rest) c =
        (decide (c ∈ w.2.Keys) || IsReportedClass rest c) := by
      simp [IsReportedClass]
    rw [hsum, hrep]
    by_cases hc : c ∈ w.2.Keys
    · simp only [hc, if_true, decide_True, Bool.true_or, Option.getD_some]
      split_ifs
      · rw [WrapInt32_add_left, Int.add_assoc]
      · have h0 : SumOfLatestCounts rest c = 0 := by
          unfold SumOfLatestCounts
          apply List.sum_eq_zero
          intro x hx
          obtain ⟨p, hp, rfl⟩ := List.mem_map.mp hx
          have : c ∉ p.2.Keys := by
            intro hin
            rename_i hnot
            apply hnot
            unfold IsReportedClass
            exact List.any_eq_true.mpr ⟨p, hp, by simpa using hin⟩
          rw [(TMap.Find_eq_none_iff p.2 c).mpr this]
          rfl
        rw [h0, Int.add_zero]
    · have hnone : w.2.Find c = none := (TMap.Find_eq_none_iff w.2 c).mpr hc
      simp only [hc, if_false, decide_False, Bool.false_or, hnone, Option.getD_none,
        Int.zero_add]

theorem TempTotalActorCounts_spec (ws : TMap String (TMap UClass Int))
    (hws : ∀ WorkerPair ∈ ws, WorkerPair.2.Keys.Nodup) (c : UClass) :
    (TempTotalActorCounts ws).Keys.Nodup ∧
    (TempTotalActorCounts ws).Find c =
      if IsReportedClass ws c = true then some (WrapInt32 (SumOfLatestCounts ws c))
      else none := by
  have h := TempTotal_spec c ws hws [] List.nodup_nil
  unfold TempTotalActorCounts
  refine ⟨h.1, ?_⟩
  rw [h.2]
  simp [TMap.Find]

theorem StoreAndCheckTotals_spec (bReady : Bool) (Temp : List (UClass × Int))
    (hT : (TMap.Keys Temp).Nodup) :
    ∀ st : ABenchmarkGymGameModeBase,
      (bReady = true → ∀ P ∈ Temp, (st.ExpectedActorCounts.Find P.1).isSome = true) →
      ∃ st2, StoreAndCheckTotals bReady Temp st = some st2 ∧
        st2.WorkerActorCounts = st.WorkerActorCounts ∧
        st2.ActorCountReportedIdxs = st.ActorCountReportedIdxs ∧
        st2.NumWorkers = st.NumWorkers ∧
        st2.ActorCountTotalsLogged = st.ActorCountTotalsLogged ∧
        ∀ c, st2.TotalActorCounts.Find c =
          if c ∈ TMap.Keys Temp then TMap.Find Temp c else st.TotalActorCounts.Find c := by
  induction Temp with
  | nil =>
    intro st _
    exact ⟨st, rfl, rfl, rfl, rfl, rfl, fun c => by simp [TMap.Keys]⟩
  | cons P rest ih =>
    intro st hexp
    obtain ⟨k, n⟩ := P
    have hk : k ∉ TMap.Keys rest := (List.nodup_cons.mp hT).1
    have hrest : (TMap.Keys rest).Nodup := (List.nodup_cons.mp hT).2
    have key : ∀ st1 : ABenchmarkGymGameModeBase,
        st1.ExpectedActorCounts = st.ExpectedActorCounts →
        st1.TotalActorCounts = st.TotalActorCounts.Assign k n →
        st1.WorkerActorCounts = st.WorkerActorCounts →
        st1.ActorCountReportedIdxs = st.ActorCountReportedIdxs →
        st1.NumWorkers = st.NumWorkers →
        st1.ActorCountTotalsLogged = st.ActorCountTotalsLogged →
        ∃ st2, StoreAndCheckTotals bReady rest st1 = some st2 ∧
          st2.WorkerActorCounts = st.WorkerActorCounts ∧
          st2.ActorCountReportedIdxs = st.ActorCountReportedIdxs ∧
          st2.NumWorkers = st.NumWorkers ∧
          st2.ActorCountTotalsLogged = st.ActorCountTotalsLogged ∧
          ∀ c, st2.TotalActorCounts.Find c =
            if c ∈ TMap.Keys ((k, n) :: rest) then TMap.Find ((k, n) :: rest) c
            else st.TotalActorCounts.Find c := by
      intro st1 e1 e2 e3 e4 e5 e6
      obtain ⟨st2, h1, h2, h3, h4, h5, h6⟩ := ih hrest st1 (fun hr P hP => by
        rw [e1]; exact hexp hr P (List.mem_cons_of_mem _ hP))
      refine ⟨st2, h1, h2.trans e3, h3.trans e4, h4.trans e5, h5.trans e6, fun c => ?_⟩
      rw [h6 c, e2, TMap.Find_Assign]
      by_cases hc : c = k
      · subst hc
        simp [TMap.Keys, TMap.Find, hk]
        intro x hx
        exact absurd (List.mem_map.mpr ⟨(c, x), hx, rfl⟩) hk
      · have hc2 : ¬ k = c := fun e => hc e.symm
        simp only [TMap.Keys, List.map_cons, List.mem_cons, hc, false_or, TMap.Find,
          if_neg hc2, if_false]
    unfold StoreAndCheckTotals
    simp only
    by_cases hb : bReady = true
    · rw [if_pos hb]
      have hsome := hexp hb (k, n) (List.mem_cons_self _ _)
      obtain ⟨E, hE⟩ := Option.isSome_iff_exists.mp hsome
      simp only at hE
      rw [hE]
      simp only
      split_ifs
      · apply key <;> rfl
      · apply key <;> rfl
    · rw [if_neg hb]
      apply key <;> rfl

theorem AllWorkersInSync_iff (Idx : Int) (Idxs : List (String × Int)) :
    AllWorkersInSync Idx Idxs = true ↔ ∀ Pair ∈ Idxs, Pair.2 = Idx := by
  induction Idxs with
  | nil => simp [AllWorkersInSync]
  | cons P rest ih =>
    unfold AllWorkersInSync
    by_cases h : P.2 = Idx
    · simp [h, ih]
    · simp [h]

theorem Find_RecordActorCounts (ActorCounts : List FActorCount) (c : UClass) :
    ∀ m : TMap UClass Int,
      (RecordActorCounts m ActorCounts).Find c =
        match ReportedCount ActorCounts c with
        | some n => some n
        | none => m.Find c := by
  induction ActorCounts with
  | nil => intro m; rfl
  | cons a rest ih =>
    intro m
    unfold RecordActorCounts at ih ⊢
    simp only [List.foldl_cons]
    rw [ih]
    unfold ReportedCount
    simp only [List.reverse_cons, List.find?_append]
    cases hr : List.find? (fun ActorCount => decide (ActorCount.ActorClass = c)) rest.reverse with
    | some x => simp
    | none =>
      rw [TMap.Find_Assign]
      by_cases hc : a.ActorClass = c
      · simp [hc]
      · have hc2 : ¬ c = a.ActorClass := fun e => hc e.symm
        simp [hc, hc2]

theorem Keys_RecordActorCounts_nodup (ActorCounts : List FActorCount) :
    ∀ m : TMap UClass Int, m.Keys.Nodup → (RecordActorCounts m ActorCounts).Keys.Nodup := by
  induction ActorCounts with
  | nil => intro m h; exact h
  | cons a rest ih =>
    intro m h
    exact ih _ (TMap.Keys_Assign_nodup m _ _ h)

theorem Find_Keys_nodup (ws : TMap String (TMap UClass Int)) (WorkerID : String)
    (h : ∀ WorkerPair ∈ ws, WorkerPair.2.Keys.Nodup) :
    (TMap.Keys ((ws.Find WorkerID).getD [])).Nodup := by
  induction ws with
  | nil => simp [TMap.Find, TMap.Keys]
  | cons p rest ih =>
    obtain ⟨k, m⟩ := p
    simp only [TMap.Find]
    split_ifs
    · exact h (k, m) (List.mem_cons_self _ _)
    · exact ih (fun q hq => h q (List.mem_cons_of_mem _ hq))

theorem RecordReport_WellFormed (st : ABenchmarkGymGameModeBase) (Idx : Int)
    (WorkerID : String) (ActorCounts : List FActorCount) (h : st.WellFormed) :
    (RecordReport st Idx WorkerID ActorCounts).WellFormed := by
  obtain ⟨h1, h2, h3⟩ := h
  refine ⟨TMap.Keys_Assign_nodup _ _ _ h1, ?_, TMap.Keys_Assign_nodup _ _ _ h3⟩
  intro p hp
  rcases TMap.mem_of_Assign _ _ _ p hp with hp | hp
  · exact h2 p hp
  · rw [hp]
    exact Keys_RecordActorCounts_nodup ActorCounts _ (Find_Keys_nodup _ WorkerID h2)

end ABenchmarkGymGameModeBase
/-- C30. `ReportAuthoritativeActorCount_Implementation` records the report (the index of
the worker, and for every class of the report the count, the last one when a class occurs
twice) and then runs `UpdateAndCheckTotalActorCounts` exactly when the number of workers
with a recorded index equals `NumWorkers` and every recorded index equals the incoming one.
The run stores, for every class some worker has a count for, the sum over the workers of the
latest count of each for the class, an `int32` sum that is exact when it lies in the `int32`
range, and leaves the totals of the other classes alone. When the actor count is ready to be
considered, every such class must have an expected count, which the lookup
`ExpectedActorCounts[ActorClass]` checks. -/
theorem C30_totals_are_checked_when_all_workers_report_the_index
    (st : ABenchmarkGymGameModeBase) (WorkerActorCountReportIdx : Int) (WorkerID : String)
    (ActorCounts : List FActorCount) (bActorCheckDelayGoneOff bTestLifetimeGoneOff : Bool)
    (hwf : st.WellFormed)
    (hexp : bActorCheckDelayGoneOff = true → bTestLifetimeGoneOff = false →
      ∀ c, ABenchmarkGymGameModeBase.IsReportedClass
        (ABenchmarkGymGameModeBase.RecordReport st WorkerActorCountReportIdx WorkerID
          ActorCounts).WorkerActorCounts c = true →
        (st.ExpectedActorCounts.Find c).isSome = true) :
    ∃ st2,
      ABenchmarkGymGameModeBase.ReportAuthoritativeActorCount_Implementation st
        WorkerActorCountReportIdx WorkerID ActorCounts bActorCheckDelayGoneOff
        bTestLifetimeGoneOff = some st2 ∧
      st2.WellFormed ∧
      st2.ActorCountReportedIdxs.Find WorkerID = some WorkerActorCountReportIdx ∧
      (∀ w, w ≠ WorkerID →
        st2.ActorCountReportedIdxs.Find w = st.ActorCountReportedIdxs.Find w ∧
        st2.WorkerActorCounts.Find w = st.WorkerActorCounts.Find w) ∧
      (∀ c, ((st2.WorkerActorCounts.Find WorkerID).getD []).Find c =
        match ABenchmarkGymGameModeBase.ReportedCount ActorCounts c with
        | some n => some n
        | none => ((st.WorkerActorCounts.Find WorkerID).getD []).Find c) ∧
      (st2.ActorCountTotalsLogged = st.ActorCountTotalsLogged + 1 ↔
        ((st2.ActorCountReportedIdxs.length : Int) = st.NumWorkers ∧
          ∀ Pair ∈ st2.ActorCountReportedIdxs, Pair.2 = WorkerActorCountReportIdx)) ∧
      (¬ ((st2.ActorCountReportedIdxs.length : Int) = st.NumWorkers ∧
          ∀ Pair ∈ st2.ActorCountReportedIdxs, Pair.2 = WorkerActorCountReportIdx) →
        st2.ActorCountTotalsLogged = st.ActorCountTotalsLogged ∧
        st2.TotalActorCounts = st.TotalActorCounts) ∧
      (((st2.ActorCountReportedIdxs.length : Int) = st.NumWorkers ∧
          ∀ Pair ∈ st2.ActorCountReportedIdxs, Pair.2 = WorkerActorCountReportIdx) →
        ∀ c, st2.TotalActorCounts.Find c =
          if ABenchmarkGymGameModeBase.IsReportedClass st2.WorkerActorCounts c = true then
            some (WrapInt32
              (ABenchmarkGymGameModeBase.SumOfLatestCounts st2.WorkerActorCounts c))
          else st.TotalActorCounts.Find c) ∧
      (∀ c, -(2 ^ 31) ≤ ABenchmarkGymGameModeBase.SumOfLatestCounts st2.WorkerActorCounts c →
        ABenchmarkGymGameModeBase.SumOfLatestCounts st2.WorkerActorCounts c < 2 ^ 31 →
        WrapInt32 (ABenchmarkGymGameModeBase.SumOfLatestCounts st2.WorkerActorCounts c) =
          ABenchmarkGymGameModeBase.SumOfLatestCounts st2.WorkerActorCounts c) := by
  open ABenchmarkGymGameModeBase in
  have hwf1 := RecordReport_WellFormed st WorkerActorCountReportIdx WorkerID ActorCounts hwf
  open ABenchmarkGymGameModeBase in
  have hrec : (RecordReport st WorkerActorCountReportIdx WorkerID
        ActorCounts).ActorCountReportedIdxs.Find WorkerID = some WorkerActorCountReportIdx ∧
      (∀ w, w ≠ WorkerID →
        (RecordReport st WorkerActorCountReportIdx WorkerID
          ActorCounts).ActorCountReportedIdxs.Find w = st.ActorCountReportedIdxs.Find w ∧
        (RecordReport st WorkerActorCountReportIdx WorkerID ActorCounts).WorkerActorCounts.Find w =
          st.WorkerActorCounts.Find w) ∧
      (∀ c, (((RecordReport st WorkerActorCountReportIdx WorkerID
          ActorCounts).WorkerActorCounts.Find WorkerID).getD []).Find c =
        match ReportedCount ActorCounts c with
        | some n => some n
        | none => ((st.WorkerActorCounts.Find WorkerID).getD []).Find c) := by
    refine ⟨?_, ?_, ?_⟩
    · show (st.ActorCountReportedIdxs.Assign WorkerID WorkerActorCountReportIdx).Find WorkerID = _
      rw [TMap.Find_Assign, if_pos rfl]
    · intro w hw
      constructor
      · show (st.ActorCountReportedIdxs.Assign WorkerID WorkerActorCountReportIdx).Find w = _
        rw [TMap.Find_Assign, if_neg hw]
      · show (st.WorkerActorCounts.Assign WorkerID _).Find w = _
        rw [TMap.Find_Assign, if_neg hw]
    · intro c
      show (((st.WorkerActorCounts.Assign WorkerID _).Find WorkerID).getD []).Find c = _
      rw [TMap.Find_Assign, if_pos rfl, Option.getD_some, Find_RecordActorCounts]
  have hwrap : ∀ (s : TMap String (TMap UClass Int)) (c : UClass),
      -(2 ^ 31) ≤ ABenchmarkGymGameModeBase.SumOfLatestCounts s c →
      ABenchmarkGymGameModeBase.SumOfLatestCounts s c < 2 ^ 31 →
      WrapInt32 (ABenchmarkGymGameModeBase.SumOfLatestCounts s c) =
        ABenchmarkGymGameModeBase.SumOfLatestCounts s c :=
    fun s c h1 h2 => WrapInt32_of_range _ h1 h2
  by_cases hcond :
      (((ABenchmarkGymGameModeBase.RecordReport st WorkerActorCountReportIdx WorkerID
        ActorCounts).ActorCountReportedIdxs.length : Int) = st.NumWorkers ∧
      ∀ Pair ∈ (ABenchmarkGymGameModeBase.RecordReport st WorkerActorCountReportIdx WorkerID
        ActorCounts).ActorCountReportedIdxs, Pair.2 = WorkerActorCountReportIdx)
  · have hsync := (ABenchmarkGymGameModeBase.AllWorkersInSync_iff WorkerActorCountReportIdx
      _).mpr hcond.2
    obtain ⟨hTn, _⟩ := ABenchmarkGymGameModeBase.TempTotalActorCounts_spec
      (ABenchmarkGymGameModeBase.RecordReport st WorkerActorCountReportIdx WorkerID
        ActorCounts).WorkerActorCounts hwf1.2.1 UClass.Object
    have hTf := fun c => (ABenchmarkGymGameModeBase.TempTotalActorCounts_spec
      (ABenchmarkGymGameModeBase.RecordReport st WorkerActorCountReportIdx WorkerID
        ActorCounts).WorkerActorCounts hwf1.2.1 c).2
    have hkeys : ∀ c, c ∈ TMap.Keys (ABenchmarkGymGameModeBase.TempTotalActorCounts
        (ABenchmarkGymGameModeBase.RecordReport st WorkerActorCountReportIdx WorkerID
          ActorCounts).WorkerActorCounts) ↔
        ABenchmarkGymGameModeBase.IsReportedClass
          (ABenchmarkGymGameModeBase.RecordReport st WorkerActorCountReportIdx WorkerID
            ActorCounts).WorkerActorCounts c = true := by
      intro c
      constructor
      · intro hin
        by_contra hn
        have := hTf c
        rw [if_neg hn] at this
        exact (TMap.Find_eq_none_iff _ c).mp this hin
      · intro hr
        by_contra hn
        have := hTf c
        rw [if_pos hr, (TMap.Find_eq_none_iff _ c).mpr hn] at this
        cases this
    obtain ⟨st2, h1, h2, h3, h4, h5, h6⟩ :=
      ABenchmarkGymGameModeBase.StoreAndCheckTotals_spec
        (bActorCheckDelayGoneOff && !bTestLifetimeGoneOff)
        (ABenchmarkGymGameModeBase.TempTotalActorCounts
          (ABenchmarkGymGameModeBase.RecordReport st WorkerActorCountReportIdx WorkerID
            ActorCounts).WorkerActorCounts) hTn
        { ABenchmarkGymGameModeBase.RecordReport st WorkerActorCountReportIdx WorkerID
            ActorCounts with
          ActorCountTotalsLogged := st.ActorCountTotalsLogged + 1
          bActorCountFailureState := false }
        (by
          intro hr P hP
          simp only [Bool.and_eq_true, Bool.not_eq_true'] at hr
          exact hexp hr.1 hr.2 P.1 ((hkeys P.1).mp (List.mem_map.mpr ⟨P, hP, rfl⟩)))
    have hrun : ABenchmarkGymGameModeBase.ReportAuthoritativeActorCount_Implementation st
        WorkerActorCountReportIdx WorkerID ActorCounts bActorCheckDelayGoneOff
        bTestLifetimeGoneOff = some st2 := by
      unfold ABenchmarkGymGameModeBase.ReportAuthoritativeActorCount_Implementation
      simp only
      have hnum : ((ABenchmarkGymGameModeBase.RecordReport st WorkerActorCountReportIdx
          WorkerID ActorCounts).ActorCountReportedIdxs.length : Int) =
          (ABenchmarkGymGameModeBase.RecordReport st WorkerActorCountReportIdx WorkerID
            ActorCounts).NumWorkers := hcond.1
      rw [if_pos hnum, if_pos hsync]
      exact h1
    have hcond2 : ((st2.ActorCountReportedIdxs.length : Int) = st.NumWorkers ∧
        ∀ Pair ∈ st2.ActorCountReportedIdxs, Pair.2 = WorkerActorCountReportIdx) := by
      rw [h3]; exact hcond
    refine ⟨st2, hrun, ?_, ?_, ?_, ?_, ?_, ?_, ?_, fun c => hwrap _ c⟩
    · unfold ABenchmarkGymGameModeBase.WellFormed
      rw [h2, h3]
      exact hwf1
    · rw [h3]; exact hrec.1
    · intro w hw
      rw [h2, h3]
      exact hrec.2.1 w hw
    · intro c
      rw [h2]
      exact hrec.2.2 c
    · exact ⟨fun _ => hcond2, fun _ => h5⟩
    · intro hn
      exact absurd hcond2 hn
    · intro _ c
      rw [h6 c, h2]
      by_cases hr : ABenchmarkGymGameModeBase.IsReportedClass
          (ABenchmarkGymGameModeBase.RecordReport st WorkerActorCountReportIdx WorkerID
            ActorCounts).WorkerActorCounts c = true
      · rw [if_pos ((hkeys c).mpr hr), if_pos hr, hTf c, if_pos hr]
      · rw [if_neg (fun hin => hr ((hkeys c).mp hin)), if_neg hr]
        rfl
  · have hrun : ABenchmarkGymGameModeBase.ReportAuthoritativeActorCount_Implementation st
        WorkerActorCountReportIdx WorkerID ActorCounts bActorCheckDelayGoneOff
        bTestLifetimeGoneOff =
        some (ABenchmarkGymGameModeBase.RecordReport st WorkerActorCountReportIdx WorkerID
          ActorCounts) := by
      unfold ABenchmarkGymGameModeBase.ReportAuthoritativeActorCount_Implementation
      simp only
      by_cases hnum : ((ABenchmarkGymGameModeBase.RecordReport st WorkerActorCountReportIdx
          WorkerID ActorCounts).ActorCountReportedIdxs.length : Int) =
          (ABenchmarkGymGameModeBase.RecordReport st WorkerActorCountReportIdx WorkerID
            ActorCounts).NumWorkers
      · rw [if_pos hnum]
        have hns : ¬ ABenchmarkGymGameModeBase.AllWorkersInSync WorkerActorCountReportIdx
            (ABenchmarkGymGameModeBase.RecordReport st WorkerActorCountReportIdx WorkerID
              ActorCounts).ActorCountReportedIdxs = true := by
          intro hs
          exact hcond ⟨hnum,
            (ABenchmarkGymGameModeBase.AllWorkersInSync_iff _ _).mp hs⟩
        rw [if_neg hns]
      · rw [if_neg hnum]
    refine ⟨_, hrun, hwf1, hrec.1, hrec.2.1, hrec.2.2, ?_, ?_, ?_, fun c => hwrap _ c⟩
    · constructor
      · intro h
        have : st.ActorCountTotalsLogged = st.ActorCountTotalsLogged + 1 := h
        omega
      · intro h
        exact absurd h hcond
    · intro _
      exact ⟨rfl, rfl⟩
    · intro h
      exact absurd h hcond

/-- C30 at a game mode of two workers in which "W1" has reported four pawns at index 7:
the report of six pawns by "W2" at index 7 completes the round, and the total of the pawns
becomes ten. -/
theorem C30_totals_are_checked_when_all_workers_report_the_index_witness :
    (ABenchmarkGymGameModeBase.ReportAuthoritativeActorCount_Implementation sampleGameMode 7
      "W2" [⟨samplePawnClass, 6⟩] true false).map (fun st2 =>
        (st2.TotalActorCounts.Find samplePawnClass, st2.ActorCountTotalsLogged)) =
      some (some 10, 1) ∧
    ∃ st2,
      ABenchmarkGymGameModeBase.ReportAuthoritativeActorCount_Implementation sampleGameMode 7
        "W2" [⟨samplePawnClass, 6⟩] true false = some st2 ∧
      st2.ActorCountReportedIdxs.Find "W2" = some 7 := by
  refine ⟨by decide, ?_⟩
  obtain ⟨st2, h1, _, h3, _⟩ := C30_totals_are_checked_when_all_workers_report_the_index
    sampleGameMode 7 "W2" [⟨samplePawnClass, 6⟩] true false
    (by unfold ABenchmarkGymGameModeBase.WellFormed; decide)
    (by
      intro _ _ c hc
      have hc2 : c = samplePawnClass := by
        have hdec : ∀ p ∈ (ABenchmarkGymGameModeBase.RecordReport sampleGameMode 7 "W2"
            [⟨samplePawnClass, 6⟩]).WorkerActorCounts, ∀ k ∈ p.2.Keys, k = samplePawnClass := by
          decide
        unfold ABenchmarkGymGameModeBase.IsReportedClass at hc
        obtain ⟨p, hp, hk⟩ := List.any_eq_true.mp hc
        exact hdec p hp c (by simpa using hk)
      rw [hc2]
      decide)
  exact ⟨st2, h1, h3⟩

end TestGyms
